import Mathlib

/-!
# Yabause GLES2 software renderer: pattern cache, window tests, VDP1 command loop, frame lists

Shallow embedding of

* `src/yabause/src/patternManager.c` (the direct-mapped pattern cache),
* `TestWindow`, `TestSpriteWindow`, `WindowLogic`, `TestBothWindow` of
  `src/yabause/src/vidsoftgles.c`,
* the command loop `VIDSoftGLESDrawCommands` of `src/yabause/src/vidsoftgles.c`,
* the lists of `src/yabause/src/asyncRenderer.c` (`addToList`, `removeFromList`,
  `addOperation`, `addToDisplayList`, `removeFromDisplayList`),
* `is_pre_clipped`, `Vdp2FetchPixel`, `Vdp2PatternAddr` and `Vdp2MapCalcXY` of
  `src/yabause/src/vidsoftgles.c`,
* `DoColorOffset`, `ReadVdp2ColorOffset`, `VIDSoftGLESVdp1ScaledSpriteDraw`, `iterateOverLine`,
  the spans of `drawQuad`, `getpixel`, `putpixel`, `getPatternLocked`, the zoom of
  `Vdp2DrawNBG0` and `Vdp2DrawScroll`, and the dispatch of the layer threads
  (`FrameVdp2DrawScreens`, `screenRenderWait`) of `src/yabause/src/vidsoftgles.c`,
* `initRender_context` and the frame render thread of `src/yabause/src/asyncRenderer.c`,
* `PixelIsSpecialPriority`, `GetAlpha`, the priority and the window skip of `Vdp2DrawScroll`,
  `VIDSoftGLESVdp2SetResolution`, `VIDSoftGLESVdp1DrawStartBody`, `putpixel8`,
  `storeLineCoords` and the two edge walks of `drawQuad` of `src/yabause/src/vidsoftgles.c`.

Conventions.  A C `int` is an `Int`; a bitwise AND of `int`s is taken on the
32-bit two's complement patterns (`cAnd`).  Unsigned machine words are `Nat`
with an explicit `%` at every truncation.  Pointers are addresses in `Nat`, `0`
being `NULL`.  An operation returns `none` where the C code has no defined
behaviour (an access through a pointer that is not live, an array index outside
the array).  Headers that are not among the sources (`patternManager.h`,
`vidshared.h`, `vdp1.h`, `vdp2.h`, `memory.h`, `threads.h`, `asyncRenderer.h`)
are replaced by the declarations the code relies on, each marked as such.
-/

namespace Yabause

/-! ## Definitions: `patternManager.c` -/

/-- Bitwise AND `a & b` of two C `int`s, computed on their 32-bit two's complement patterns; the
result is the 32-bit pattern of `a & b` (for a non-negative `b` that is the value itself). -/
def cAnd (a b : Int) : Nat := (a % 4294967296).toNat &&& (b % 4294967296).toNat

/-- Modelled from the spec: `struct Pattern` is declared in `patternManager.h`, which is not
among the sources.  The fields are the ones `patternManager.c` reads and writes: the three-word
decode key `param[0..2]`, `width`, `height`, the texture handle `tex`, the reference count
`inUse`, the flag `managed`, and the payload `tw`, `th` (floats, kept as their bit patterns) and
`mesh`.  Integer fields are mathematical integers. -/
structure Pattern where
  tex : Nat
  width : Int
  height : Int
  tw : Nat
  th : Nat
  mesh : Int
  managed : Int
  inUse : Int
  param0 : Int
  param1 : Int
  param2 : Int
deriving DecidableEq

/-- Number of elements of `Pattern* patternCache[0xFFFF]`. -/
def PATTERN_CACHE_LEN : Nat := 0xFFFF

/-- Memory seen by the pattern manager.
* `heap p` is the live `Pattern` object at address `p` (`none`: nothing is allocated there);
* `patternCache i` is the pointer held by `patternCache[i]` (`0` is `NULL`); only indices
  below `PATTERN_CACHE_LEN` are elements of the array;
* `freed` records every call of `free`, oldest first: the address and the content of the
  object at the moment it is freed;
* `deletedTex` records the handles passed to `glDeleteTextures`. -/
structure Mem where
  heap : Nat → Option Pattern
  patternCache : Nat → Nat
  freed : List (Nat × Pattern)
  deletedTex : List Nat

/-- Read through a pointer: `none` for `NULL` and for an address that is not live. -/
def Mem.deref (s : Mem) (p : Nat) : Option Pattern :=
  if p = 0 then none else s.heap p

/-- Store `o` into the object at address `p`. -/
def Mem.store (s : Mem) (p : Nat) (o : Pattern) : Mem :=
  { s with heap := fun q => if q = p then some o else s.heap q }

/-- The call `free(p)` on the live object `o`. -/
def Mem.release (s : Mem) (p : Nat) (o : Pattern) : Mem :=
  { s with heap := fun q => if q = p then none else s.heap q
           freed := s.freed ++ [(p, o)] }

/-- Store `p` into `patternCache[i]`. -/
def Mem.setSlot (s : Mem) (i : Nat) (p : Nat) : Mem :=
  { s with patternCache := fun j => if j = i then p else s.patternCache j }

/-- Source: `void deleteCachePattern(Pattern* pat)`. -/
def deleteCachePattern (pat : Nat) (s : Mem) : Option Mem :=
  if pat = 0 then some s
  else
    match s.deref pat with
    | none => none
    | some o =>
      if o.inUse ≠ 0 then some s
      else
        let o1 := { o with managed := 0 }
        let s1 := { s.store pat o1 with deletedTex := s.deletedTex ++ [o1.tex] }
        some (s1.release pat o1)

/-- Source: `static u16 getHash(int param0, int param1)`. -/
def getHash (param0 param1 : Int) : Nat :=
  let c : List Nat :=
    [ cAnd (param0 >>> 0) 0xFF, cAnd (param0 >>> 8) 0xFF,
      cAnd (param0 >>> 16) 0xFF, cAnd (param0 >>> 24) 0xFF,
      cAnd (param1 >>> 0) 0xFF, cAnd (param1 >>> 8) 0xFF,
      cAnd (param1 >>> 16) 0xFF, cAnd (param1 >>> 24) 0xFF ]
  let hash : Nat := 0xAAAA
  let hash := (List.range 7).foldl (fun hash i => (hash ^^^ c.getD i 0) % 65536) hash
  let hash := (List.range' 1 7).foldl (fun hash i => (hash ^^^ (c.getD i 0 <<< 8)) % 65536) hash
  hash

/-- Source: `Pattern* popCachePattern(int param0, int param1, int param2, int w, int h)`:
the new memory and the returned pointer. -/
def popCachePattern (param0 param1 param2 w h : Int) (s : Mem) : Option (Mem × Nat) :=
  let i := getHash param0 param1
  if i < PATTERN_CACHE_LEN then
    let pat := s.patternCache i
    if pat = 0 then some (s, 0)
    else
      match s.deref pat with
      | none => none
      | some o =>
        if o.param0 = param0 ∧ o.param1 = param1 ∧ o.param2 = param2
            ∧ o.width = w ∧ o.height = h then
          some (s.store pat { o with inUse := o.inUse + 1 }, pat)
        else some (s, 0)
  else none

/-- Source: `void pushCachePattern(Pattern *pat)`. -/
def pushCachePattern (pat : Nat) (s : Mem) : Option Mem :=
  if pat = 0 then some s
  else
    match s.deref pat with
    | none => none
    | some o =>
      let o1 := { o with inUse := o.inUse - 1 }
      let s1 := s.store pat o1
      if o1.managed = 0 then deleteCachePattern pat s1 else some s1

/-- Source: `void addCachePattern(Pattern* pat)`. -/
def addCachePattern (pat : Nat) (s : Mem) : Option Mem :=
  match s.deref pat with
  | none => none
  | some o =>
    let i := getHash o.param0 o.param1
    if i < PATTERN_CACHE_LEN then
      let collider := s.patternCache i
      let install (s1 : Mem) : Option Mem :=
        match s1.deref pat with
        | none => none
        | some o1 => some ((s1.store pat { o1 with managed := 1 }).setSlot i pat)
      if collider ≠ 0 then
        match s.deref collider with
        | none => none
        | some c =>
          if c.inUse > 0 then some s
          else
            match deleteCachePattern collider s with
            | none => none
            | some s1 => install s1
      else install s
    else none

/-- Source: `Pattern* createCachePattern(int param0, int param1, int param2, int w, int h, float tw,
float th, int mesh)`.  The result of `malloc(sizeof(Pattern))` is a parameter: the address
`new` of the block and its indeterminate initial content `blk`. -/
def createCachePattern (new : Nat) (blk : Pattern) (param0 param1 param2 w h : Int)
    (tw th : Nat) (mesh : Int) (s : Mem) : Option (Mem × Nat) :=
  if new = 0 then none
  else
    some (s.store new { blk with
            param0 := param0, param1 := param1, param2 := param2,
            width := w, height := h, managed := 0, inUse := 1,
            tw := tw, th := th, mesh := mesh }, new)

/-- One call of the pattern manager's interface. -/
inductive CacheOp where
  | create (new : Nat) (blk : Pattern) (param0 param1 param2 w h : Int)
      (tw th : Nat) (mesh : Int)
  | add (pat : Nat)
  | pop (param0 param1 param2 w h : Int)
  | push (pat : Nat)
  | delete (pat : Nat)

/-- Run one call.  `malloc` hands out only a block that is not live. -/
def runOp (op : CacheOp) (s : Mem) : Option Mem :=
  match op with
  | .create new blk p0 p1 p2 w h tw th mesh =>
    if (s.heap new).isSome then none
    else (createCachePattern new blk p0 p1 p2 w h tw th mesh s).map Prod.fst
  | .add pat => addCachePattern pat s
  | .pop p0 p1 p2 w h => (popCachePattern p0 p1 p2 w h s).map Prod.fst
  | .push pat => pushCachePattern pat s
  | .delete pat => deleteCachePattern pat s

/-- Run a sequence of calls from `s`: the memory after each call, in order, up to the first
call (if any) that has no defined behaviour. -/
def runOps : List CacheOp → Mem → List Mem
  | [], _ => []
  | op :: ops, s =>
    match runOp op s with
    | none => []
    | some s1 => s1 :: runOps ops s1

/-- Memory at program start: nothing allocated, every slot `NULL`. -/
def Mem.init : Mem :=
  { heap := fun _ => none, patternCache := fun _ => 0, freed := [], deletedTex := [] }

/-- What one call that takes the memory `s` to `s1` owes to the reference counts.
* Every Pattern the call frees has `inUse = 0` at the moment of the `free`, and an object
  leaves the heap only through such a `free`.
* A slot of the table whose occupant is live with `inUse > 0` keeps its occupant. -/
def FreesOnlyUnused (s s1 : Mem) : Prop :=
  (∃ l, s1.freed = s.freed ++ l ∧ (∀ e ∈ l, e.2.inUse = 0) ∧
      ∀ p, (s.heap p).isSome → s1.heap p = none → ∃ o, (p, o) ∈ l) ∧
  (∀ i c o, i < PATTERN_CACHE_LEN → s.patternCache i = c → s.deref c = some o →
      0 < o.inUse → s1.patternCache i = c)

/-- An example of a block handed out by `malloc`: all fields zero. -/
def zeroBlock : Pattern :=
  { tex := 0, width := 0, height := 0, tw := 0, th := 0, mesh := 0, managed := 0, inUse := 0,
    param0 := 0, param1 := 0, param2 := 0 }

/-- An example Pattern: 8x8, key `(1, 2, 3)`, installed (`managed = 1`), not in use. -/
def idlePattern : Pattern :=
  { zeroBlock with param0 := 1, param1 := 2, param2 := 3, width := 8, height := 8,
                   managed := 1, inUse := 0 }

/-- An example Pattern: 8x8, key `(1, 2, 4)` (same slot as `idlePattern`), fresh from
`createCachePattern`. -/
def freshPattern : Pattern :=
  { zeroBlock with param0 := 1, param1 := 2, param2 := 4, width := 8, height := 8,
                   managed := 0, inUse := 1 }

/-- An example memory: `idlePattern` at address `1`, installed in its slot; `freshPattern` at
address `2`, not installed. -/
def exampleMem : Mem :=
  { heap := fun q => if q = 1 then some idlePattern else if q = 2 then some freshPattern else none
    patternCache := fun j => if j = getHash 1 2 then 1 else 0
    freed := []
    deletedTex := [] }

/-! ## Definitions: window tests of `vidsoftgles.c` -/

/-- Modelled from the spec: `clipping_struct` is declared in `vidshared.h`, which is not among
the sources; it holds the four `int` bounds of a rectangular window. -/
structure clipping_struct where
  xstart : Int
  ystart : Int
  xend : Int
  yend : Int
deriving DecidableEq

/-- Source: `static INLINE int TestWindow(int wctl, int enablemask, int inoutmask,
clipping_struct *clip, int x, int y)`; the file-scope `vdp2height` is a parameter. -/
def TestWindow (vdp2height : Int) (wctl enablemask inoutmask : Int) (clip : clipping_struct)
    (x y : Int) : Int :=
  if cAnd wctl enablemask ≠ 0 then
    if cAnd wctl inoutmask ≠ 0 then
      -- Draw inside of window
      if x < clip.xstart ∨ x > clip.xend ∨ y < clip.ystart ∨ y > clip.yend then 0
      else 1
    else
      -- Draw outside of window
      if x ≥ clip.xstart ∧ x ≤ clip.xend ∧ y ≥ clip.ystart ∧ y ≤ clip.yend then 0
      else if clip.yend > vdp2height ∧ (x ≥ clip.xstart ∧ x ≤ clip.xend) then 0
      else 1
  else 3

/-- Source: `static int TestSpriteWindow(int wctl, int x, int y)`; the file-scope `vdp2width` is a
parameter.  In the source `mask` is the constant `0` (the table read is commented out).  The
index `addr` is computed in the integers. -/
def TestSpriteWindow (vdp2width : Int) (wctl x y : Int) : Int :=
  let addr := y * vdp2width + x
  if addr ≥ 704 * 512 then 0
  else
    let mask : Int := 0
    if cAnd wctl 0x20 ≠ 0 then
      if cAnd wctl 0x10 ≠ 0 then
        if mask = 0 then 0 else 1
      else
        if mask ≠ 0 then 0 else 1
    else 3

/-- Source: `static int WindowLogic(int wctl, int w0, int w1)`. -/
def WindowLogic (wctl w0 w1 : Int) : Int :=
  if cAnd wctl 0x80 = 0x80 then
    if w0 ≠ 0 ∨ w1 ≠ 0 then 1 else 0
  else
    if w0 ≠ 0 ∧ w1 ≠ 0 then 1 else 0

/-- Source: `static INLINE int TestBothWindow(int wctl, clipping_struct *clip, int x, int y)`;
`clip 0` and `clip 1` are `clip[0]` and `clip[1]`. -/
def TestBothWindow (vdp2width vdp2height : Int) (wctl : Int) (clip : Nat → clipping_struct)
    (x y : Int) : Int :=
  let w0 := TestWindow vdp2height wctl 0x2 0x1 (clip 0) x y
  let w1 := TestWindow vdp2height wctl 0x8 0x4 (clip 1) x y
  let spr := TestSpriteWindow vdp2width wctl x y
  -- all windows disabled
  if cAnd wctl 0x2a = 0 then
    if cAnd wctl 0x80 = 0x80 then 0 else 1
  -- if only window 0 is enabled
  else if cAnd w1 2 ≠ 0 ∧ cAnd spr 2 ≠ 0 then cAnd w0 1
  -- if only window 1 is enabled
  else if cAnd w0 2 ≠ 0 ∧ cAnd spr 2 ≠ 0 then cAnd w1 1
  -- window 0 and 1, sprite disabled
  else if cAnd spr 2 ≠ 0 then WindowLogic wctl w0 w1
  -- if only sprite window is enabled
  else if cAnd w1 2 ≠ 0 ∧ cAnd w0 2 ≠ 0 then cAnd spr 1
  -- window 0 and sprite enabled
  else if cAnd wctl 0x2a = 0x22 then WindowLogic wctl w0 spr
  -- window 1 and sprite enabled
  else if cAnd wctl 0x2a = 0x28 then WindowLogic wctl w1 spr
  -- all three windows enabled
  else if cAnd wctl 0x2a = 0x2a then
    if cAnd wctl 0x80 = 0x80 then
      (if w0 ≠ 0 ∨ w1 ≠ 0 ∨ spr ≠ 0 then 1 else 0)
    else
      (if w0 ≠ 0 ∧ w1 ≠ 0 ∧ spr ≠ 0 then 1 else 0)
  else 1

/-- An example window pair: both rectangles are `[0, 10] x [0, 10]`. -/
def exampleClip : Nat → clipping_struct :=
  fun _ => { xstart := 0, ystart := 0, xend := 10, yend := 10 }

/-! ## Definitions: `VIDSoftGLESDrawCommands` of `vidsoftgles.c` -/

/-- Modelled from the spec: `Vdp1` is declared in `vdp1.h`, which is not among the sources.
These are the fields of the register block that `VIDSoftGLESDrawCommands` itself writes:
the current command address `addr` (32 bits) and the status registers `EDSR`, `LOPR`, `COPR`
(16 bits). -/
structure Vdp1 where
  addr : Nat
  EDSR : Nat
  LOPR : Nat
  COPR : Nat
deriving DecidableEq

/-- What `VIDSoftGLESDrawCommands` calls.  `T1ReadWord a` is the value of
`T1ReadWord(ram, a)` (declared in `memory.h`, not among the sources; it returns a `u16`, so
every use is followed by `% 65536`) for the VDP1 RAM at hand; no routine below writes that
RAM.  The type
`σ` is all state the drawing routines write: framebuffer, GL state, pattern cache and the
clipping and local-coordinate registers.  Each routine receives `regs->addr`; none of them
writes `addr`, `EDSR`, `LOPR` or `COPR`. -/
structure Vdp1Env (σ : Type) where
  T1ReadWord : Nat → Nat
  NormalSpriteDrawGL : Nat → σ → σ
  ScaledSpriteDrawGL : Nat → σ → σ
  DistortedSpriteDrawGL : Nat → σ → σ
  PolylineDraw : Nat → σ → σ
  LineDraw : Nat → σ → σ
  UserClipping : Nat → σ → σ
  SystemClipping : Nat → σ → σ
  LocalCoordinate : Nat → σ → σ
  Vdp1DrawEnd : σ → σ

/-- State of a run of `VIDSoftGLESDrawCommands`: the registers, the locals `command`,
`commandCounter`, `returnAddr`, the state `world` of the drawing routines, whether the
function has left through the `return` of the `default:` case (`aborted`), and the record
`iterations` of the loop body's executions so far, oldest first: the address and the command
word each one processed. -/
structure DrawState (σ : Type) where
  regs : Vdp1
  command : Nat
  commandCounter : Nat
  returnAddr : Nat
  world : σ
  aborted : Bool
  iterations : List (Nat × Nat)

/-- The `switch (command & 0x000F)` of the loop body: `none` is the `default:` case. -/
def dispatch {σ : Type} (env : Vdp1Env σ) (command addr : Nat) (w : σ) : Option σ :=
  match command &&& 0x000F with
  | 0 => some (env.NormalSpriteDrawGL addr w)
  | 1 => some (env.ScaledSpriteDrawGL addr w)
  | 2 => some (env.DistortedSpriteDrawGL addr w)
  | 3 => some (env.DistortedSpriteDrawGL addr w)
  | 4 => some (env.DistortedSpriteDrawGL addr w)
  | 5 => some (env.PolylineDraw addr w)
  | 7 => some (env.PolylineDraw addr w)
  | 6 => some (env.LineDraw addr w)
  | 8 => some (env.UserClipping addr w)
  | 11 => some (env.UserClipping addr w)
  | 9 => some (env.SystemClipping addr w)
  | 10 => some (env.LocalCoordinate addr w)
  | _ => none

/-- The `switch ((command & 0x3000) >> 12)` of the loop body: the new `regs->addr` and
`returnAddr`. -/
def nextAddr {σ : Type} (env : Vdp1Env σ) (command addr returnAddr : Nat) : Nat × Nat :=
  match (command &&& 0x3000) >>> 12 with
  | 0 => ((addr + 0x20) % 4294967296, returnAddr)
  | 1 => ((env.T1ReadWord ((addr + 2) % 4294967296) % 65536 * 8) % 4294967296, returnAddr)
  | 2 =>
    let returnAddr1 :=
      if returnAddr = 0xFFFFFFFF then (addr + 0x20) % 4294967296 else returnAddr
    ((env.T1ReadWord ((addr + 2) % 4294967296) % 65536 * 8) % 4294967296, returnAddr1)
  | 3 =>
    if returnAddr ≠ 0xFFFFFFFF then (returnAddr, 0xFFFFFFFF)
    else ((addr + 0x20) % 4294967296, returnAddr)
  | _ => (addr, returnAddr)

/-- One execution of the body of the `while` loop. -/
def loopBody {σ : Type} (env : Vdp1Env σ) (st : DrawState σ) : DrawState σ :=
  let st := { st with iterations := st.iterations ++ [(st.regs.addr, st.command)] }
  -- First, process the command
  let drawn : Option σ :=
    if st.command &&& 0x4000 = 0 then dispatch env st.command st.regs.addr st.world
    else some st.world
  match drawn with
  | none =>
    let regs := { st.regs with EDSR := st.regs.EDSR ||| 2 }
    let world := env.Vdp1DrawEnd st.world
    let regs := { regs with LOPR := (regs.addr >>> 3) % 65536 }
    let regs := { regs with COPR := (regs.addr >>> 3) % 65536 }
    { st with regs := regs, world := world, aborted := true }
  | some world =>
    -- Next, determine where to go next
    let next := nextAddr env st.command st.regs.addr st.returnAddr
    let regs := { st.regs with addr := next.1 }
    { st with regs := regs, returnAddr := next.2, world := world,
              command := env.T1ReadWord regs.addr % 65536,
              commandCounter := (st.commandCounter + 1) % 4294967296 }

/-- The `while (!(command & 0x8000) && commandCounter < 2000)` loop, run for at most `fuel`
executions of its body. -/
def drawLoop {σ : Type} (env : Vdp1Env σ) : Nat → DrawState σ → DrawState σ
  | 0, st => st
  | fuel + 1, st =>
    if st.command &&& 0x8000 = 0 ∧ st.commandCounter < 2000 then
      let st1 := loopBody env st
      if st1.aborted then st1 else drawLoop env fuel st1
    else st

/-- State at the entry of the loop of `VIDSoftGLESDrawCommands`. -/
def drawInit {σ : Type} (env : Vdp1Env σ) (regs : Vdp1) (w : σ) : DrawState σ :=
  { regs := regs, command := env.T1ReadWord regs.addr % 65536, commandCounter := 0,
    returnAddr := 0xffffffff, world := w, aborted := false, iterations := [] }

/-- Source: `void VIDSoftGLESDrawCommands(u8 * ram, Vdp1 * regs, u8* back_framebuffer,
render_context *ctx)`: the state when the function returns.  The loop needs at most 2000
executions of its body (`drawLoop_fuel`). -/
def VIDSoftGLESDrawCommands {σ : Type} (env : Vdp1Env σ) (regs : Vdp1) (w : σ) :
    DrawState σ :=
  drawLoop env 2000 (drawInit env regs w)

/-- An example of a cyclic command stream with no end command: the command word at address `0`
is `0x5000` (skip, jump mode ASSIGN) and its link word at address `2` is `0`, so the command
jumps to itself.  The drawing routines do nothing. -/
def cyclicEnv : Vdp1Env Unit :=
  { T1ReadWord := fun a => if a = 0 then 0x5000 else 0
    NormalSpriteDrawGL := fun _ w => w
    ScaledSpriteDrawGL := fun _ w => w
    DistortedSpriteDrawGL := fun _ w => w
    PolylineDraw := fun _ w => w
    LineDraw := fun _ w => w
    UserClipping := fun _ w => w
    SystemClipping := fun _ w => w
    LocalCoordinate := fun _ w => w
    Vdp1DrawEnd := fun w => w }

/-- An example of a nested CALL: the command at address `0` is a CALL (`0x6000`: skip, jump mode
2) to `0x100`, the command at `0x100` is a CALL to `0x200`, the command at `0x200` is a RETURN
(`0x7000`), and every other command word is an end command (`0x8000`). -/
def nestedCallEnv : Vdp1Env Unit :=
  { cyclicEnv with
    T1ReadWord := fun a =>
      if a = 0 then 0x6000 else if a = 2 then 0x20
      else if a = 0x100 then 0x6000 else if a = 0x102 then 0x40
      else if a = 0x200 then 0x7000 else 0x8000 }

/-! ## Definitions: `asyncRenderer.c`

Sequential model: one thread runs each call to its end.  A POSIX semaphore is its count; a
`sem_wait` on a count of `0` never returns.  `calloc` is taken to succeed.  A call returns `none`
when it does not complete (it blocks on a semaphore) or has no defined behaviour (it reads
through `NULL`). -/

/-- The effect of `while (sem_wait(&sem) != 0);` on the count: `none` when the count is `0`. -/
def sem_wait (count : Nat) : Option Nat :=
  if count = 0 then none else some (count - 1)

/-- The effect of `while (sem_post(&sem) != 0);` on the count. -/
def sem_post (count : Nat) : Nat := count + 1

/-- Modelled from the spec: `controledList` is declared in `asyncRenderer.h`, which is not among
the sources.  It holds the head of a singly linked list of nodes (`current`, `next`), given here
as the `current` pointers from the head on, the binary semaphore `lock` and the counting
semaphore `elem`. -/
structure controledList where
  list : List Nat
  lock : Nat
  elem : Nat
deriving DecidableEq

/-- The states a call of `addToList(stack, clist)` goes through, one after each statement that
completes: `sem_wait(lock)`, the insertion of the new node at the head, `sem_post(lock)`,
`sem_post(elem)`. -/
def addToListTrace (stack : Nat) (clist : controledList) : List controledList :=
  match sem_wait clist.lock with
  | none => []
  | some l =>
    let c1 := { clist with lock := l }
    let c2 := { c1 with list := stack :: c1.list }
    let c3 := { c2 with lock := sem_post c2.lock }
    let c4 := { c3 with elem := sem_post c3.elem }
    [c1, c2, c3, c4]

/-- Source: `void addToList(renderingStack* stack, controledList* clist)`. -/
def addToList (stack : Nat) (clist : controledList) : Option controledList :=
  match sem_wait clist.lock with
  | none => none
  | some l =>
    let c1 := { clist with lock := l }
    let c2 := { c1 with list := stack :: c1.list }
    let c3 := { c2 with lock := sem_post c2.lock }
    some { c3 with elem := sem_post c3.elem }

/-- The states a call of `removeFromList(clist)` goes through, one after each statement that
completes: `sem_wait(elem)`, `sem_wait(lock)`, the removal of the head node, `sem_post(lock)`. -/
def removeFromListTrace (clist : controledList) : List controledList :=
  match sem_wait clist.elem with
  | none => []
  | some e =>
    let c1 := { clist with elem := e }
    match sem_wait c1.lock with
    | none => [c1]
    | some l =>
      let c2 := { c1 with lock := l }
      match c2.list with
      | [] => [c1, c2]
      | _ :: next =>
        let c3 := { c2 with list := next }
        [c1, c2, c3, { c3 with lock := sem_post c3.lock }]

/-- Source: `renderingStack* removeFromList(controledList* clist)`: the returned pointer and the
new state. -/
def removeFromList (clist : controledList) : Option (Nat × controledList) :=
  match sem_wait clist.elem with
  | none => none
  | some e =>
    let c1 := { clist with elem := e }
    match sem_wait c1.lock with
    | none => none
    | some l =>
      let c2 := { c1 with lock := l }
      match c2.list with
      | [] => none
      | cur :: next =>
        let c3 := { c2 with list := next }
        some (cur, { c3 with lock := sem_post c3.lock })

/-- A list as `createRenderingStacks` sets it up before it adds the frames: the global is
zero-initialised (`list` is `NULL`), `sem_init(&lock, 0, 1)`, `sem_init(&elem, 0, 0)`. -/
def controledList.init : controledList := { list := [], lock := 1, elem := 0 }

/-- Source: `renderingStack* getFrame()`, on the state of `mFrameList`. -/
def getFrame (mFrameList : controledList) : Option (Nat × controledList) :=
  removeFromList mFrameList

/-- Source: `void releaseRenderingStack(renderingStack* old)`, on the state of `mFrameList`. -/
def releaseRenderingStack (old : Nat) (mFrameList : controledList) : Option controledList :=
  addToList old mFrameList

/-- A call on a list. -/
inductive ListCall where
  | add (stack : Nat)
  | remove
deriving DecidableEq

/-- The result of one call, when it completes. -/
def ListCall.run (c : ListCall) (clist : controledList) : Option controledList :=
  match c with
  | .add stack => addToList stack clist
  | .remove => (removeFromList clist).map Prod.snd

/-- The states one call goes through. -/
def ListCall.trace (c : ListCall) (clist : controledList) : List controledList :=
  match c with
  | .add stack => addToListTrace stack clist
  | .remove => removeFromListTrace clist

/-- Run a sequence of calls, each to its end: `none` when one of them does not complete. -/
def runCalls : List ListCall → controledList → Option controledList
  | [], clist => some clist
  | c :: cs, clist =>
    match c.run clist with
    | none => none
    | some clist1 => runCalls cs clist1

/-- All states a sequence of calls goes through, statement by statement, up to the point where
a call does not complete. -/
def traceCalls : List ListCall → controledList → List controledList
  | [], _ => []
  | c :: cs, clist =>
    c.trace clist ++
      (match c.run clist with
       | none => []
       | some clist1 => traceCalls cs clist1)

/-- Modelled from the spec: `RenderingOperation` is declared in `asyncRenderer.h`, which is not
among the sources; these are the four values the sources use. -/
inductive RenderingOperation where
  | VDP1START
  | VDP2START
  | VDP2SCREENS
  | VDP2END
deriving DecidableEq

/-- The operation list of a frame after `addOperation` has linked a new node holding `op`
behind its last node (or made it the first node of an empty list). -/
def linkLast : List RenderingOperation → RenderingOperation → List RenderingOperation
  | [], op => [op]
  | [last], op => [last, op]
  | first :: lastOp :: rest, op => first :: linkLast (lastOp :: rest) op

/-- The memory `addOperation` works on: for each live `renderingStack`, by address, its
operation list `operation` (the `current` values from the head on), and the global
`mRenderList`. -/
structure RenderMem where
  operation : Nat → Option (List RenderingOperation)
  mRenderList : controledList

/-- Source: `renderingStack* addOperation(renderingStack* stack, RenderingOperation op)`: the
returned pointer and the new memory. -/
def addOperation (stack : Nat) (op : RenderingOperation) (s : RenderMem) :
    Option (Nat × RenderMem) :=
  if stack = 0 then some (0, s)
  else
    match s.operation stack with
    | none => none
    | some l =>
      let s1 : RenderMem :=
        { s with operation := fun q => if q = stack then some (linkLast l op) else s.operation q }
      if op = RenderingOperation.VDP2END then
        match addToList stack s1.mRenderList with
        | none => none
        | some clist => some (0, { s1 with mRenderList := clist })
      else some (stack, s1)

/-- An example memory for `addOperation`: one frame at address `4` whose operation list is
`VDP2START, VDP1START`, and an empty render list with a free lock. -/
def exampleRenderMem : RenderMem :=
  { operation := fun q =>
      if q = 4 then some [RenderingOperation.VDP2START, RenderingOperation.VDP1START] else none
    mRenderList := controledList.init }

/-- Modelled from the spec: `renderFrame` is declared in `asyncRenderer.h`, which is not among
the sources: a node of the doubly linked display list with the pointers `current` (a
`numberedFrame`), `next` and `previous`. -/
structure renderFrame where
  current : Nat
  next : Nat
  previous : Nat
deriving DecidableEq

/-- Modelled from the spec: `controledFbo` is declared in `asyncRenderer.h`, which is not among
the sources: the head pointer `frame` and the semaphores `lock` and `elem`.  The memory the
display list lives in is kept with it: `nodes` gives the live `renderFrame` nodes by address and
`ids` the field `id` of the live `numberedFrame` objects by address. -/
structure controledFbo where
  nodes : Nat → Option renderFrame
  ids : Nat → Option Int
  frame : Nat
  lock : Nat
  elem : Nat

/-- The search loop of `addToDisplayList`,
`while ((insertFrame != NULL) && (insertFrame->current != NULL) &&
(insertFrame->current->id > frame->id)) insertFrame = insertFrame->next;`,
run for at most `fuel` tests of its condition: the final `insertFrame`. -/
def findInsertFrame (clist : controledFbo) (id : Int) : Nat → Nat → Option Nat
  | 0, _ => none
  | fuel + 1, insertFrame =>
    if insertFrame = 0 then some insertFrame
    else
      match clist.nodes insertFrame with
      | none => none
      | some node =>
        if node.current = 0 then some insertFrame
        else
          match clist.ids node.current with
          | none => none
          | some curId =>
            if curId > id then findInsertFrame clist id fuel node.next
            else some insertFrame

/-- Source: `void addToDisplayList(numberedFrame* frame, controledFbo* clist)`.  `new` is the
address of the zeroed node returned by `calloc`; `fuel` bounds the search loop. -/
def addToDisplayList (fuel new frame : Nat) (clist : controledFbo) : Option controledFbo :=
  let insertFrame := clist.frame
  match sem_wait clist.lock with
  | none => none
  | some l =>
    let c1 := { clist with lock := l }
    match c1.ids frame with
    | none => none
    | some id =>
      match findInsertFrame c1 id fuel insertFrame with
      | none => none
      | some insertFrame =>
        let previousFrame : Option Nat :=
          if insertFrame = 0 then some 0
          else (c1.nodes insertFrame).map (fun node => node.previous)
        match previousFrame with
        | none => none
        | some previousFrame =>
          if new = 0 then none
          else
            let curList : renderFrame :=
              { current := frame, next := insertFrame, previous := previousFrame }
            let c2 : controledFbo :=
              { c1 with nodes := fun q => if q = new then some curList else c1.nodes q }
            -- insertFrame->previous = curList;
            match (if insertFrame = 0 then none else c2.nodes insertFrame) with
            | none => none
            | some node =>
              let c3 : controledFbo :=
                { c2 with nodes := fun q =>
                    if q = insertFrame then some { node with previous := new } else c2.nodes q }
              let c4 : controledFbo := if c3.frame = 0 then { c3 with frame := new } else c3
              let c5 : controledFbo := { c4 with lock := sem_post c4.lock }
              some { c5 with elem := sem_post c5.elem }

/-- Source: `numberedFrame* removeFromDisplayList(controledFbo* clist)`: the returned pointer and
the new state. -/
def removeFromDisplayList (clist : controledFbo) : Option (Nat × controledFbo) :=
  match sem_wait clist.elem with
  | none => none
  | some e =>
    let c1 := { clist with elem := e }
    match sem_wait c1.lock with
    | none => none
    | some l =>
      let c2 := { c1 with lock := l }
      match (if c2.frame = 0 then none else c2.nodes c2.frame) with
      | none => none
      | some node =>
        let tbd := c2.frame
        let c3 : controledFbo :=
          { c2 with frame := node.next
                    nodes := fun q => if q = tbd then none else c2.nodes q }
        some (node.current, { c3 with lock := sem_post c3.lock })

/-- The display list at program start: the global `mDisplayList` is zero-initialised (`frame` is
`NULL`); the lock is taken to be free.  Three `numberedFrame` objects exist, at the addresses
`1`, `2`, `3`, with the ids `5`, `3`, `7`. -/
def emptyDisplay : controledFbo :=
  { nodes := fun _ => none
    ids := fun q => if q = 1 then some 5 else if q = 2 then some 3 else if q = 3 then some 7
                    else none
    frame := 0, lock := 1, elem := 0 }

/-- A display list that holds the frame at address `1` (id `5`) in one well-formed node at
address `10`, with `elem = 1`. -/
def oneFrameDisplay : controledFbo :=
  { emptyDisplay with
    nodes := fun q => if q = 10 then some { current := 1, next := 0, previous := 0 } else none
    frame := 10, elem := 1 }

/-! ## Definitions: further parts of `vidsoftgles.c` -/

/-- Bitwise OR `a | b` of two C `int`s, computed on their 32-bit two's complement patterns. -/
def cOr (a b : Int) : Nat := (a % 4294967296).toNat ||| (b % 4294967296).toNat

/-- What `VIDSoftGLESVdp1DrawStartBody` stores in the file-scope `vdp1interlace`:
`if (regs->FBCR & 8) vdp1interlace = 2; else vdp1interlace = 1;`. -/
def vdp1interlaceOf (FBCR : Int) : Int :=
  if cAnd FBCR 8 ≠ 0 then 2 else 1

/-- Source: `static int is_pre_clipped(s16 tl_x, s16 tl_y, s16 bl_x, s16 bl_y, s16 tr_x, s16 tr_y,
s16 br_x, s16 br_y, Vdp1* regs)`; the file-scope `vdp1interlace` and the two fields
`regs->systemclipX2`, `regs->systemclipY2` are parameters. -/
def is_pre_clipped (vdp1interlace : Int) (tl_x tl_y bl_x bl_y tr_x tr_y br_x br_y : Int)
    (systemclipX2 systemclipY2 : Int) : Int :=
  let y_val := systemclipY2
  let y_val := if vdp1interlace ≠ 0 then y_val * 2 else y_val
  -- if all x values are to the left of the screen
  if tl_x < 0 ∧ bl_x < 0 ∧ tr_x < 0 ∧ br_x < 0 then 1
  -- to the right
  else if tl_x > systemclipX2 ∧ bl_x > systemclipX2 ∧ tr_x > systemclipX2 ∧ br_x > systemclipX2
  then 1
  -- above
  else if tl_y < 0 ∧ bl_y < 0 ∧ tr_y < 0 ∧ br_y < 0 then 1
  -- below
  else if tl_y > y_val ∧ bl_y > y_val ∧ tr_y > y_val ∧ br_y > y_val then 1
  else 0

/-- The start of `drawQuad`: `if (is_pre_clipped(...)) return;`.  Everything after that test is
the parameter `rest`, acting on the state `σ` the function draws into. -/
def drawQuad {σ : Type} (rest : σ → σ) (vdp1interlace : Int)
    (tl_x tl_y bl_x bl_y tr_x tr_y br_x br_y : Int) (systemclipX2 systemclipY2 : Int)
    (w : σ) : σ :=
  if is_pre_clipped vdp1interlace tl_x tl_y bl_x bl_y tr_x tr_y br_x br_y
      systemclipX2 systemclipY2 ≠ 0 then w
  else rest w

/-- What `Vdp2FetchPixel` reads and calls.  `T1ReadByte a`, `T1ReadWord a`, `T1ReadLong a` are
the values of `T1ReadByte(ram, a)` etc. (declared in `memory.h`, not among the sources; they
return `u8`, `u16`, `u32`, so every use is followed by the matching `%`).
`Vdp2ColorRamGetColor`, `COLSAT2YAB16` and `COLSAT2YAB32` produce the colour; they have no part
in the value `Vdp2FetchPixel` returns. -/
structure FetchEnv where
  T1ReadByte : Nat → Nat
  T1ReadWord : Nat → Nat
  T1ReadLong : Nat → Nat
  Vdp2ColorRamGetColor : Nat → Nat
  COLSAT2YAB16 : Nat → Nat
  COLSAT2YAB32 : Nat → Nat

/-- Source: `static INLINE int Vdp2FetchPixel(vdp2draw_struct *info, int x, int y, u32 *color,
u32 *dot, u8 * ram, int charaddr, int paladdr, u8* vdp2_color_ram)`.  The fields of `info` the
function reads (`colornumber`, `cellw`, `transparencyenable`, `coloroffset`) are parameters;
the result is the returned value with the final `*color` and `*dot`. -/
def Vdp2FetchPixel (env : FetchEnv) (colornumber cellw transparencyenable coloroffset : Int)
    (x y : Int) (color dot : Nat) (charaddr paladdr : Int) : Int × Nat × Nat :=
  let u32 (a : Int) : Nat := (a % 4294967296).toNat
  match colornumber with
  | 0 => -- 4 BPP
    let dot := env.T1ReadByte (cAnd (charaddr + Int.tdiv ((y * cellw) + x) 2) 0x7FFFF) % 256
    let dot := if cAnd x 0x1 = 0 then dot >>> 4 else dot
    if dot &&& 0xF = 0 ∧ transparencyenable ≠ 0 then (0, color, dot)
    else
      (1, env.Vdp2ColorRamGetColor ((u32 coloroffset + cOr paladdr ((dot &&& 0xF : Nat) : Int)) % 4294967296),
        dot)
  | 1 => -- 8 BPP
    let dot := env.T1ReadByte (cAnd (charaddr + (y * cellw) + x) 0x7FFFF) % 256
    if dot &&& 0xFF = 0 ∧ transparencyenable ≠ 0 then (0, color, dot)
    else
      (1, env.Vdp2ColorRamGetColor ((u32 coloroffset + cOr paladdr ((dot &&& 0xFF : Nat) : Int)) % 4294967296),
        dot)
  | 2 => -- 16 BPP(palette)
    let dot := env.T1ReadWord (cAnd (charaddr + ((y * cellw) + x) * 2) 0x7FFFF) % 65536
    if dot = 0 ∧ transparencyenable ≠ 0 then (0, color, dot)
    else (1, env.Vdp2ColorRamGetColor ((u32 coloroffset + dot) % 4294967296), dot)
  | 3 => -- 16 BPP(RGB)
    let dot := env.T1ReadWord (cAnd (charaddr + ((y * cellw) + x) * 2) 0x7FFFF) % 65536
    if dot &&& 0x8000 = 0 ∧ transparencyenable ≠ 0 then (0, color, dot)
    else (1, env.COLSAT2YAB16 dot, dot)
  | 4 => -- 32 BPP
    let dot := env.T1ReadLong (cAnd (charaddr + ((y * cellw) + x) * 4) 0x7FFFF) % 4294967296
    if dot &&& 0x80000000 = 0 ∧ transparencyenable ≠ 0 then (0, color, dot)
    else (1, env.COLSAT2YAB32 dot, dot)
  | _ => (0, color, dot)

/-- An example of a VDP2 RAM and colour functions: every byte, word and long read is `0`, every
colour is `0`. -/
def zeroFetchEnv : FetchEnv :=
  { T1ReadByte := fun _ => 0, T1ReadWord := fun _ => 0, T1ReadLong := fun _ => 0
    Vdp2ColorRamGetColor := fun _ => 0, COLSAT2YAB16 := fun _ => 0, COLSAT2YAB32 := fun _ => 0 }

/-- The C expression `a << n` on `int`s, in the integers: amounts that are negative or too large
and results that overflow have no defined behaviour in C and are not set apart here. -/
def shl (a n : Int) : Int := a * 2 ^ n.toNat

/-- The C expression `a >> n` on `int`s (arithmetic shift). -/
def shr (a n : Int) : Int := a >>> n.toNat

/-- Modelled from the spec: the element type of `info->pipe[]` is declared in `vidshared.h`, which
is not among the sources; the sources use its fields `paladdr`, `charaddr`, `flipfunction`. -/
structure tile_pipe where
  paladdr : Int
  charaddr : Int
  flipfunction : Int
deriving DecidableEq

/-- Modelled from the spec: `vdp2draw_struct` is declared in `vidshared.h`, which is not among
the sources.  These are the fields that `Vdp2PatternAddr` and `Vdp2MapCalcXY` read or write and
that `Vdp2DrawScroll` selects the tile attributes from; `pipe0` and `pipe1` are `pipe[0]` and
`pipe[1]`.  `addr` is an unsigned 32-bit word, the other fields are `int`s. -/
structure vdp2draw_struct where
  patterndatasize : Int
  supplementdata : Int
  colornumber : Int
  auxmode : Int
  patternwh : Int
  specialprimode : Int
  priority : Int
  specialfunction : Int
  specialcolorfunction : Int
  addr : Nat
  paladdr : Int
  charaddr : Int
  flipfunction : Int
  pagewh_bits : Int
  planew_bits : Int
  patterndatasize_bits : Int
  mapwh : Int
  pipe0 : tile_pipe
  pipe1 : tile_pipe
deriving DecidableEq

/-- The fields of `screeninfo_struct` that `Vdp2MapCalcXY` uses.  `planetbl i` is
`planetbl[i]`; the array has 16 entries, and a read outside them is not set apart here. -/
structure screeninfo_struct where
  pagepixelwh_bits : Int
  pagepixelwh_mask : Int
  planepixelwidth_bits : Int
  planepixelwidth_mask : Int
  planepixelheight_bits : Int
  planepixelheight_mask : Int
  oldcellx : Int
  oldcelly : Int
  oldcellcheck : Int
  planetbl : Int → Nat

/-- Source: `static INLINE void Vdp2PatternAddr(vdp2draw_struct *info, Vdp2* regs, u8* ram)`;
`T1ReadWord a` is `T1ReadWord(ram, a)` and `VRSIZE` is `regs->VRSIZE`. -/
def Vdp2PatternAddr (T1ReadWord : Nat → Nat) (VRSIZE : Int) (info : vdp2draw_struct) :
    vdp2draw_struct :=
  let info : vdp2draw_struct :=
    match info.patterndatasize with
    | 1 =>
      let tmp := T1ReadWord info.addr % 65536
      let info := { info with addr := (info.addr + 2) % 4294967296 }
      let info := { info with specialfunction := cAnd (shr info.supplementdata 9) 0x1 }
      let info := { info with specialcolorfunction := cAnd (shr info.supplementdata 8) 0x1 }
      let info : vdp2draw_struct :=
        match info.colornumber with
        | 0 => -- in 16 colors
          { info with paladdr :=
              (((tmp &&& 0xF000) >>> 8) ||| ((cAnd info.supplementdata 0xE0) <<< 3) : Nat) }
        | _ => -- not in 16 colors
          { info with paladdr := ((tmp &&& 0x7000) >>> 4 : Nat) }
      match info.auxmode with
      | 0 =>
        let info := { info with flipfunction := ((tmp &&& 0xC00) >>> 10 : Nat) }
        match info.patternwh with
        | 1 =>
          { info with charaddr :=
              ((tmp &&& 0x3FF) ||| ((cAnd info.supplementdata 0x1F) <<< 10) : Nat) }
        | 2 =>
          { info with charaddr :=
              (((tmp &&& 0x3FF) <<< 2) ||| (cAnd info.supplementdata 0x3) |||
                ((cAnd info.supplementdata 0x1C) <<< 10) : Nat) }
        | _ => info
      | 1 =>
        let info := { info with flipfunction := 0 }
        match info.patternwh with
        | 1 =>
          { info with charaddr :=
              ((tmp &&& 0xFFF) ||| ((cAnd info.supplementdata 0x1C) <<< 10) : Nat) }
        | 2 =>
          { info with charaddr :=
              (((tmp &&& 0xFFF) <<< 2) ||| (cAnd info.supplementdata 0x3) |||
                ((cAnd info.supplementdata 0x10) <<< 10) : Nat) }
        | _ => info
      | _ => info
    | 2 =>
      let tmp1 := T1ReadWord info.addr % 65536
      let tmp2 := T1ReadWord ((info.addr + 2) % 4294967296) % 65536
      let info := { info with addr := (info.addr + 4) % 4294967296 }
      let info := { info with charaddr := (tmp2 &&& 0x7FFF : Nat) }
      let info := { info with flipfunction := ((tmp1 &&& 0xC000) >>> 14 : Nat) }
      let info : vdp2draw_struct :=
        match info.colornumber with
        | 0 => { info with paladdr := ((tmp1 &&& 0x7F) <<< 4 : Nat) }
        | _ => { info with paladdr := ((tmp1 &&& 0x70) <<< 4 : Nat) }
      let info := { info with specialfunction := ((tmp1 &&& 0x2000) >>> 13 : Nat) }
      { info with specialcolorfunction := ((tmp1 &&& 0x1000) >>> 12 : Nat) }
    | _ => info
  let info : vdp2draw_struct :=
    if cAnd VRSIZE 0x8000 = 0 then { info with charaddr := cAnd info.charaddr 0x3FFF }
    else info
  let info := { info with charaddr := info.charaddr * 0x20 } -- selon Runik
  if info.specialprimode = 1 then
    { info with priority := cOr (cAnd info.priority 0xE) (cAnd info.specialfunction 1) }
  else info

/-- The tile attributes that `info` holds as the result of the last decoding: `info->paladdr`,
`info->charaddr`, `info->flipfunction`. -/
def decoded (info : vdp2draw_struct) : tile_pipe :=
  { paladdr := info.paladdr, charaddr := info.charaddr, flipfunction := info.flipfunction }

/-- The value `check` of `Vdp2MapCalcXY`: `((y[0] >> cellwh) << 16) | (x[0] >> cellwh)` with
`cellwh = 2 + info->patternwh`. -/
def cellCheck (patternwh x y : Int) : Int :=
  Int.lor (shl (shr y (2 + patternwh)) 16) (shr x (2 + patternwh))

/-- What a call of `Vdp2MapCalcXY` leaves: `info`, `sinfo`, the coordinates `x[0]`, `y[0]`, and
the value of its local `flipfunction`. -/
structure MapCalc where
  info : vdp2draw_struct
  sinfo : screeninfo_struct
  x : Int
  y : Int
  flipfunction : Int

/-- The body of `if (check != sinfo->oldcellcheck) { ... }` in `Vdp2MapCalcXY`: the new `info`,
`sinfo`, `x[0]`, `y[0]`. -/
def cellChange (T1ReadWord : Nat → Nat) (VRSIZE : Int) (info : vdp2draw_struct) (x y : Int)
    (sinfo : screeninfo_struct) : vdp2draw_struct × screeninfo_struct × Int × Int :=
  let pagesize_bits := info.pagewh_bits * 2
  let cellwh := 2 + info.patternwh
  let sinfo := { sinfo with oldcellx := shr x cellwh }
  let sinfo := { sinfo with oldcelly := shr y cellwh }
  let sinfo := { sinfo with oldcellcheck := Int.lor (shl sinfo.oldcelly 16) sinfo.oldcellx }
  -- Calculate which plane we're dealing with
  let planenum := (shr y sinfo.planepixelheight_bits) * info.mapwh
    + (shr x sinfo.planepixelwidth_bits)
  let x := Int.land x sinfo.planepixelwidth_mask
  let y := Int.land y sinfo.planepixelheight_mask
  -- Fetch and decode pattern name data
  let info := { info with addr := sinfo.planetbl planenum }
  -- Figure out which page it's on(if plane size is not 1x1)
  let info := { info with addr :=
    (((info.addr : Int) +
      shl (shl (shl (shr y sinfo.pagepixelwh_bits) pagesize_bits) info.planew_bits
            + shl (shr x sinfo.pagepixelwh_bits) pagesize_bits
            + shl (shr (Int.land y sinfo.pagepixelwh_mask) cellwh) info.pagewh_bits
            + shr (Int.land x sinfo.pagepixelwh_mask) cellwh)
          (info.patterndatasize_bits + 1)) % 4294967296).toNat }
  let info := Vdp2PatternAddr T1ReadWord VRSIZE info
  -- pipeline the tiles so that they shift over by 1
  let info := { info with pipe0 := info.pipe1 }
  let info := { info with pipe1 := { info.pipe1 with paladdr := info.paladdr } }
  let info := { info with pipe1 := { info.pipe1 with charaddr := info.charaddr } }
  let info := { info with pipe1 := { info.pipe1 with flipfunction := info.flipfunction } }
  (info, sinfo, x, y)

/-- The last part of `Vdp2MapCalcXY`, "Figure out which pixel in the tile we want": the new
`x[0]`, `y[0]`. -/
def tilePixel (patternwh flipfunction x y : Int) : Int × Int :=
  if patternwh = 1 then
    let x : Int := cAnd x (8 - 1)
    let y : Int := cAnd y (8 - 1)
    match cAnd flipfunction 0x3 with
    | 0 => (x, y)
    | 1 => (8 - 1 - x, y)
    | 2 => (x, 8 - 1 - y)
    | 3 => (8 - 1 - x, 8 - 1 - y)
    | _ => (x, y)
  else
    if flipfunction ≠ 0 then
      let y : Int := cAnd y (16 - 1)
      let y : Int :=
        if cAnd flipfunction 0x2 ≠ 0 then
          (if cAnd y 8 = 0 then 8 - 1 - y + 16 else 16 - 1 - y)
        else if cAnd y 8 ≠ 0 then y + 8
        else y
      if cAnd flipfunction 0x1 ≠ 0 then
        let y : Int := if cAnd x 8 = 0 then y + 8 else y
        let x : Int := cAnd x (8 - 1)
        (8 - 1 - x, y)
      else if cAnd x 8 ≠ 0 then
        (cAnd x (8 - 1), y + 8)
      else (cAnd x (8 - 1), y)
    else
      let y : Int := cAnd y (16 - 1)
      let y : Int := if cAnd y 8 ≠ 0 then y + 8 else y
      let y : Int := if cAnd x 8 ≠ 0 then y + 8 else y
      (cAnd x (8 - 1), y)

/-- Source: `static INLINE void FASTCALL Vdp2MapCalcXY(vdp2draw_struct *info, int *x, int *y,
screeninfo_struct *sinfo, Vdp2* regs, u8 * ram, int bad_cycle)`. -/
def Vdp2MapCalcXY (T1ReadWord : Nat → Nat) (VRSIZE : Int) (info : vdp2draw_struct) (x y : Int)
    (sinfo : screeninfo_struct) (bad_cycle : Int) : MapCalc :=
  let check := cellCheck info.patternwh x y
  let st : vdp2draw_struct × screeninfo_struct × Int × Int :=
    if check ≠ sinfo.oldcellcheck then cellChange T1ReadWord VRSIZE info x y sinfo
    else (info, sinfo, x, y)
  let info := st.1
  let flipfunction := if bad_cycle ≠ 0 then info.pipe0.flipfunction else info.flipfunction
  let xy := tilePixel info.patternwh flipfunction st.2.2.1 st.2.2.2
  { info := info, sinfo := st.2.1, x := xy.1, y := xy.2, flipfunction := flipfunction }

/-- The choice of `charaddr` and `paladdr` in `Vdp2DrawScroll` after its call of
`Vdp2MapCalcXY`: `if (!bad_cycle) { charaddr = info->charaddr; paladdr = info->paladdr; }
else { charaddr = info->pipe[0].charaddr; paladdr = info->pipe[0].paladdr; }`. -/
def scrollTileAttr (info : vdp2draw_struct) (bad_cycle : Int) : Int × Int :=
  if bad_cycle = 0 then (info.charaddr, info.paladdr)
  else (info.pipe0.charaddr, info.pipe0.paladdr)

/-- An example layer: 8x8 cells (`patternwh = 1`), two-word pattern names, 16-colour mode, one
plane per map side, nothing decoded yet. -/
def exampleInfo : vdp2draw_struct :=
  { patterndatasize := 2, supplementdata := 0, colornumber := 0, auxmode := 0, patternwh := 1,
    specialprimode := 0, priority := 0, specialfunction := 0, specialcolorfunction := 0,
    addr := 0, paladdr := 0, charaddr := 0, flipfunction := 0, pagewh_bits := 6,
    planew_bits := 0, patterndatasize_bits := 1, mapwh := 2,
    pipe0 := { paladdr := 0, charaddr := 0, flipfunction := 0 },
    pipe1 := { paladdr := 0, charaddr := 0, flipfunction := 0 } }

/-- An example screen setup as `SetupScreenVars` leaves it for a tile layer with 1x1 planes:
page and plane of 512 pixels, no cell visited yet (`oldcellcheck = -1`), all planes at
address `0`. -/
def exampleSinfo : screeninfo_struct :=
  { pagepixelwh_bits := 9, pagepixelwh_mask := 511, planepixelwidth_bits := 9,
    planepixelwidth_mask := 511, planepixelheight_bits := 9, planepixelheight_mask := 511,
    oldcellx := -1, oldcelly := -1, oldcellcheck := -1, planetbl := fun _ => 0 }

/-! ## Definitions: colour offset, scaled sprites, line walk, pixel fetch and pixel write of
`vidsoftgles.c`; the frame worker of `asyncRenderer.c` -/

/-- Source: `#define COLOR_ADDt(b) (b>0xFF?0xFF:(b<0?0:b))`.  The macro is only expanded with
the sum `(signed) (b1) + (b2)` for `b`; `+` binds stronger than `>`, `<` and `?:`, so the
expansion compares and returns that sum. -/
def COLOR_ADDt (b : Int) : Int :=
  if b > 0xFF then 0xFF else (if b < 0 then 0 else b)

/-- Source: `#define COLOR_ADDb(b1,b2) COLOR_ADDt((signed) (b1) + (b2))`; `b1` is an unsigned
byte value, `b2` an `int`. -/
def COLOR_ADDb (b1 : Nat) (b2 : Int) : Int :=
  COLOR_ADDt ((b1 : Int) + b2)

/-- Source: the `COLOR_ADD(l,r,g,b)` macro of the build without `WORDS_BIGENDIAN`:
`COLOR_ADDb((l & 0xFF), r) | (COLOR_ADDb((l >> 8) & 0xFF, g) << 8) |
(COLOR_ADDb((l >> 16) & 0xFF, b) << 16) | (l & 0xFF000000)`, on the unsigned 32-bit `l`. -/
def COLOR_ADD (l : Nat) (r g b : Int) : Nat :=
  (COLOR_ADDb (l &&& 0xFF) r).toNat |||
    ((COLOR_ADDb ((l >>> 8) &&& 0xFF) g).toNat <<< 8) |||
    ((COLOR_ADDb ((l >>> 16) &&& 0xFF) b).toNat <<< 16) |||
    (l &&& 0xFF000000)

/-- Source: `static INLINE u32 FASTCALL DoNothing(UNUSED void *info, u32 pixel)`. -/
def DoNothing (pixel : Nat) : Nat := pixel

/-- Source: `static INLINE u32 FASTCALL DoColorOffset(void *info, u32 pixel)`; the three fields
`cor`, `cog`, `cob` it reads from `info` are parameters. -/
def DoColorOffset (cor cog cob : Int) (pixel : Nat) : Nat :=
  COLOR_ADD pixel cor cog cob

/-- The two functions `ReadVdp2ColorOffset` stores in `info->PostPixelFetchCalc`. -/
inductive PostPixelFetch where
  | DoNothing
  | DoColorOffset
deriving DecidableEq

/-- The fields of `vdp2draw_struct` that `ReadVdp2ColorOffset` writes. -/
structure color_offset where
  cor : Int
  cog : Int
  cob : Int
  PostPixelFetchCalc : PostPixelFetch
deriving DecidableEq

/-- The call `info->PostPixelFetchCalc(info, pixel)`. -/
def color_offset.apply (info : color_offset) (pixel : Nat) : Nat :=
  match info.PostPixelFetchCalc with
  | PostPixelFetch.DoNothing => DoNothing pixel
  | PostPixelFetch.DoColorOffset => DoColorOffset info.cor info.cog info.cob pixel

/-- Modelled from the spec: the colour offset registers of `Vdp2` (declared in `vdp2.h`, which is
not among the sources), 16-bit words. -/
structure Vdp2ColorOffsetRegs where
  CLOFEN : Nat
  CLOFSL : Nat
  COAR : Nat
  COAG : Nat
  COAB : Nat
  COBR : Nat
  COBG : Nat
  COBB : Nat
deriving DecidableEq

/-- The statements `info->cor = reg & 0xFF; if (reg & 0x100) info->cor |= 0xFFFFFF00;` of
`ReadVdp2ColorOffset`: the `int` stored for the 9-bit register value `reg`.  The OR is taken
on the 32-bit pattern, which is then read back as an `int`. -/
def colorOffsetOf (reg : Nat) : Int :=
  let c : Nat := reg &&& 0xFF
  if reg &&& 0x100 ≠ 0 then ((c ||| 0xFFFFFF00 : Nat) : Int) - 4294967296 else (c : Int)

/-- Source: `static INLINE void ReadVdp2ColorOffset(Vdp2 * regs, vdp2draw_struct *info,
int clofmask, int ccmask)`. -/
def ReadVdp2ColorOffset (regs : Vdp2ColorOffsetRegs) (info : color_offset)
    (clofmask ccmask : Int) : color_offset :=
  if cAnd regs.CLOFEN clofmask ≠ 0 then
    -- color offset enable
    if cAnd regs.CLOFSL clofmask ≠ 0 then
      -- color offset B
      { cor := colorOffsetOf regs.COBR, cog := colorOffsetOf regs.COBG
        cob := colorOffsetOf regs.COBB, PostPixelFetchCalc := PostPixelFetch.DoColorOffset }
    else
      -- color offset A
      { cor := colorOffsetOf regs.COAR, cog := colorOffsetOf regs.COAG
        cob := colorOffsetOf regs.COAB, PostPixelFetchCalc := PostPixelFetch.DoColorOffset }
  else -- color offset disable
    { info with PostPixelFetchCalc := PostPixelFetch.DoNothing }

/-- Modelled from the spec: `vdp1cmd_struct` is declared in `vdp1.h`, which is not among the
sources: the fields of a VDP1 command table, 16-bit unsigned words (`CMDCTRL` to `CMDSIZE`,
`CMDGRDA`) and 16-bit signed coordinates (`CMDXA` to `CMDYD`). -/
structure vdp1cmd_struct where
  CMDCTRL : Nat
  CMDLINK : Nat
  CMDPMOD : Nat
  CMDCOLR : Nat
  CMDSRCA : Nat
  CMDSIZE : Nat
  CMDXA : Int
  CMDYA : Int
  CMDXB : Int
  CMDYB : Int
  CMDXC : Int
  CMDYC : Int
  CMDXD : Int
  CMDYD : Int
  CMDGRDA : Nat
deriving DecidableEq

/-- The conversion of an `int` to `s16` where a value is passed for an `s16` parameter: the value
modulo `2 ^ 16` in `-32768 .. 32767`. -/
def s16 (v : Int) : Int := (v + 32768) % 65536 - 32768

/-- The eight `s16` arguments `tl_x, tl_y, bl_x, bl_y, tr_x, tr_y, br_x, br_y` of a call of
`drawQuad`. -/
structure quad where
  tl_x : Int
  tl_y : Int
  bl_x : Int
  bl_y : Int
  tr_x : Int
  tr_y : Int
  br_x : Int
  br_y : Int
deriving DecidableEq

/-- Source: `void VIDSoftGLESVdp1ScaledSpriteDraw(u8* ram, Vdp1*regs, u8 * back_framebuffer)`, up
to its call of `drawQuad`: the arguments of that call.  `cmd` is what `Vdp1ReadCommand` has
read, `localX` and `localY` are `regs->localX` and `regs->localY`. -/
def VIDSoftGLESVdp1ScaledSpriteDraw (localX localY : Int) (cmd : vdp1cmd_struct) : quad :=
  let x0 : Int := cmd.CMDXA + localX
  let y0 : Int := cmd.CMDYA + localY
  let r : Int × Int × Int × Int :=
    match (cmd.CMDCTRL >>> 8) &&& 0xF with
    | 0x5 => -- Upper-left
      let x1 := cmd.CMDXB + 1
      let y1 := cmd.CMDYB + 1
      (x0, y0, x1, y1)
    | 0x6 => -- Upper-Center
      let x1 := cmd.CMDXB
      let y1 := cmd.CMDYB
      let x0 := x0 - Int.tdiv x1 2
      (x0, y0, x1 + 1, y1 + 1)
    | 0x7 => -- Upper-Right
      let x1 := cmd.CMDXB
      let y1 := cmd.CMDYB
      let x0 := x0 - x1
      (x0, y0, x1 + 1, y1 + 1)
    | 0x9 => -- Center-left
      let x1 := cmd.CMDXB
      let y1 := cmd.CMDYB
      let y0 := y0 - Int.tdiv y1 2
      (x0, y0, x1 + 1, y1 + 1)
    | 0xA => -- Center-center
      let x1 := cmd.CMDXB
      let y1 := cmd.CMDYB
      let x0 := x0 - Int.tdiv x1 2
      let y0 := y0 - Int.tdiv y1 2
      (x0, y0, x1 + 1, y1 + 1)
    | 0xB => -- Center-right
      let x1 := cmd.CMDXB
      let y1 := cmd.CMDYB
      let x0 := x0 - x1
      let y0 := y0 - Int.tdiv y1 2
      (x0, y0, x1 + 1, y1 + 1)
    | 0xD => -- Lower-left
      let x1 := cmd.CMDXB
      let y1 := cmd.CMDYB
      let y0 := y0 - y1
      (x0, y0, x1 + 1, y1 + 1)
    | 0xE => -- Lower-center
      let x1 := cmd.CMDXB
      let y1 := cmd.CMDYB
      let x0 := x0 - Int.tdiv x1 2
      let y0 := y0 - y1
      (x0, y0, x1 + 1, y1 + 1)
    | 0xF => -- Lower-right
      let x1 := cmd.CMDXB
      let y1 := cmd.CMDYB
      let x0 := x0 - x1
      let y0 := y0 - y1
      (x0, y0, x1 + 1, y1 + 1)
    | _ => -- Only two coordinates
      let x1 := cmd.CMDXC - x0 + localX + 1
      let y1 := cmd.CMDYC - y0 + localY + 1
      (x0, y0, x1, y1)
  let x0 := r.1
  let y0 := r.2.1
  let x1 := r.2.2.1
  let y1 := r.2.2.2
  let topLeftx := x0
  let topLefty := y0
  let topRightx := x1 + x0 - 1
  let topRighty := topLefty
  let bottomRightx := x1 + x0 - 1
  let bottomRighty := y1 + y0 - 1
  let bottomLeftx := topLeftx
  let bottomLefty := y1 + y0 - 1
  { tl_x := s16 topLeftx, tl_y := s16 topLefty, bl_x := s16 bottomLeftx, bl_y := s16 bottomLefty
    tr_x := s16 topRightx, tr_y := s16 topRighty, br_x := s16 bottomRightx
    br_y := s16 bottomRighty }

/-- The axis-aligned rectangle with the opposite corners `(xa, ya)` (top left) and `(xb, yb)`
(bottom right), as the four corners of a quad. -/
def rectangle (xa ya xb yb : Int) : quad :=
  { tl_x := xa, tl_y := ya, bl_x := xa, bl_y := yb, tr_x := xb, tr_y := ya, br_x := xb
    br_y := yb }

/-- The corners of a scaled sprite as the specification words them: for a zoom-point code `c`
among `5, 6, 7, 9, 0xA, 0xB, 0xD, 0xE, 0xF` the rectangle `[x0, x0 + CMDXB] x [y0, y0 + CMDYB]`
whose origin lies left, centre or right (`c & 3 = 1, 2, 3`) and upper, centre or lower
(`(c >> 2) & 3 = 1, 2, 3`) of the anchor `(ax, ay)`; for every other code the rectangle from the
anchor to `(cx, cy)`. -/
def scaledSpriteCorners (c : Nat) (ax ay CMDXB CMDYB cx cy : Int) : quad :=
  if c = 5 ∨ c = 6 ∨ c = 7 ∨ c = 9 ∨ c = 0xA ∨ c = 0xB ∨ c = 0xD ∨ c = 0xE ∨ c = 0xF then
    let x0 :=
      if c &&& 3 = 1 then ax else if c &&& 3 = 2 then ax - Int.tdiv CMDXB 2 else ax - CMDXB
    let y0 :=
      if (c >>> 2) &&& 3 = 1 then ay
      else if (c >>> 2) &&& 3 = 2 then ay - Int.tdiv CMDYB 2 else ay - CMDYB
    rectangle x0 y0 (x0 + CMDXB) (y0 + CMDYB)
  else rectangle ax ay cx cy

/-- Every coordinate of the quad is a 16-bit signed value. -/
def quad.fits (q : quad) : Prop :=
  (-32768 ≤ q.tl_x ∧ q.tl_x ≤ 32767) ∧ (-32768 ≤ q.tl_y ∧ q.tl_y ≤ 32767) ∧
  (-32768 ≤ q.br_x ∧ q.br_x ≤ 32767) ∧ (-32768 ≤ q.br_y ∧ q.br_y ≤ 32767) ∧
  (-32768 ≤ q.bl_x ∧ q.bl_x ≤ 32767) ∧ (-32768 ≤ q.bl_y ∧ q.bl_y ≤ 32767) ∧
  (-32768 ≤ q.tr_x ∧ q.tr_x ≤ 32767) ∧ (-32768 ≤ q.tr_y ∧ q.tr_y ≤ 32767)

instance (q : quad) : Decidable q.fits := by
  unfold quad.fits
  infer_instance

/-- An example of a scaled sprite command: zoom point `0xA` (centre, centre), anchor
`(100, 50)`, size `(-41, 21)`. -/
def exampleScaledCmd : vdp1cmd_struct :=
  { CMDCTRL := 0x0A01, CMDLINK := 0, CMDPMOD := 0, CMDCOLR := 0, CMDSRCA := 0, CMDSIZE := 0
    CMDXA := 100, CMDYA := 50, CMDXB := -41, CMDYB := 21, CMDXC := 0, CMDYC := 0, CMDXD := 0
    CMDYD := 0, CMDGRDA := 0 }

/-- The two lines a frame render thread prints: `Error TitanGLInit` (in `initRender_context`) and
`Error during init of frame render thread` (in the thread function). -/
inductive WorkerMessage where
  | ErrorTitanGLInit
  | ErrorDuringInit
deriving DecidableEq

/-- Source: `int initRender_context(render_context *ctx)`.  `TitanGLInit` is the value the call
`TitanGLInit(ctx->tt_context)` returns, `printed` the lines printed so far; the result is the
returned value, the lines printed and the six entries of `ctx->bad_cycle_setting`.
`createPatternProgram` and `createPriorityProgram` return nothing the function looks at. -/
def initRender_context (TitanGLInit : Int) (printed : List WorkerMessage) :
    Int × List WorkerMessage × List Int :=
  let printed :=
    if TitanGLInit ≠ 0 then printed ++ [WorkerMessage.ErrorTitanGLInit] else printed
  (0, printed, List.replicate 6 0)

/-- What a frame render thread has done: the lines printed, the operations passed to
`executeOp`, and whether the thread function has returned. -/
structure WorkerState where
  printed : List WorkerMessage
  executed : List RenderingOperation
  returned : Bool
deriving DecidableEq

/-- Source: one pass of the `for (;;)` body of `DECLARE_FRAME_RENDER_THREAD` for a frame that
`removeFromList` has returned (`frame != NULL`) and whose operation list holds `ops`:
`if (initRender_context(ctx)!= 0) { printf(...); return; }`, then
`while (frame->operation != NULL) { ...; executeOp(ctx, tmp->current); free(tmp); }`. -/
def frameRenderThread (TitanGLInit : Int) (ops : List RenderingOperation) (w : WorkerState) :
    WorkerState :=
  let r := initRender_context TitanGLInit w.printed
  if r.1 ≠ 0 then
    { printed := r.2.1 ++ [WorkerMessage.ErrorDuringInit], executed := w.executed
      returned := true }
  else
    { printed := r.2.1, executed := w.executed ++ ops, returned := false }

/-- The five layer functions `FrameVdp2DrawScreens` dispatches. -/
inductive LayerDraw where
  | Vdp2DrawNBG0
  | Vdp2DrawNBG1
  | Vdp2DrawNBG2
  | Vdp2DrawNBG3
  | Vdp2DrawRBG0
deriving DecidableEq

/-- Source: the file-scope `screen_render_thread_context` of `vidsoftgles.c`, five slots each;
`draw i = none` is `draw[i] == NULL`.  `woken` lists the arguments of the calls of
`YabThreadWake` so far, oldest first. -/
structure screen_render_thread_context where
  need_draw : Nat → Int
  ctx : Nat → Nat
  draw_finished : Nat → Int
  draw : Nat → Option LayerDraw
  woken : List Nat

/-- Source: `void screenRenderThread(void (*pt[5])(...), int which, render_context *ctx)`.
`YAB_THREAD_VIDSOFT_LAYER_NBG3` is the thread identifier of that name (declared in `threads.h`,
which is not among the sources). -/
def screenRenderThread (YAB_THREAD_VIDSOFT_LAYER_NBG3 : Nat) (pt : LayerDraw) (which : Nat)
    (ctx : Nat) (s : screen_render_thread_context) : screen_render_thread_context :=
  { need_draw := fun i => if i = which then 1 else s.need_draw i
    ctx := fun i => if i = which then ctx else s.ctx i
    draw_finished := fun i => if i = which then 0 else s.draw_finished i
    draw := fun i => if i = which then some pt else s.draw i
    woken := s.woken ++ [YAB_THREAD_VIDSOFT_LAYER_NBG3 + which] }

/-- Source: `void FrameVdp2DrawScreens(render_context *ctx)` in the build with `USE_THREAD`
(defined at the top of the file): what it does to `screen_render_thread_context`.  The
resolution, the priority tables and `TitanGLErase` do not touch that structure. -/
def FrameVdp2DrawScreens (YAB_THREAD_VIDSOFT_LAYER_NBG3 : Nat) (ctx : Nat)
    (s : screen_render_thread_context) : screen_render_thread_context :=
  let s := screenRenderThread YAB_THREAD_VIDSOFT_LAYER_NBG3 LayerDraw.Vdp2DrawNBG0 0 ctx s
  let s := screenRenderThread YAB_THREAD_VIDSOFT_LAYER_NBG3 LayerDraw.Vdp2DrawNBG1 1 ctx s
  let s := screenRenderThread YAB_THREAD_VIDSOFT_LAYER_NBG3 LayerDraw.Vdp2DrawNBG2 2 ctx s
  let s := screenRenderThread YAB_THREAD_VIDSOFT_LAYER_NBG3 LayerDraw.Vdp2DrawNBG3 3 ctx s
  screenRenderThread YAB_THREAD_VIDSOFT_LAYER_NBG3 LayerDraw.Vdp2DrawRBG0 4 ctx s

/-- Source: the loop `while (!screen_render_thread_context.draw_finished[which]){}` of
`screenRenderWait`.  The flag is `volatile` and written by the layer thread, so every test reads
it anew: `observe t which` is the value the `t`-th read of the frame thread finds in
`draw_finished[which]`.  The result is the number of reads made when the loop is left, `none`
if it is not left within `fuel` reads. -/
def screenRenderWaitLoop (observe : Nat → Nat → Int) (which : Nat) : Nat → Nat → Option Nat
  | 0, _ => none
  | fuel + 1, t =>
    if observe t which ≠ 0 then some (t + 1)
    else screenRenderWaitLoop observe which fuel (t + 1)

/-- Source: `void screenRenderWait(int which)`: the loop, then `draw[which] = NULL`. -/
def screenRenderWait (observe : Nat → Nat → Int) (which : Nat) (fuel : Nat)
    (st : Nat × screen_render_thread_context) : Option (Nat × screen_render_thread_context) :=
  match screenRenderWaitLoop observe which fuel st.1 with
  | none => none
  | some t => some (t, { st.2 with draw := fun i => if i = which then none else st.2.draw i })

/-- Source: the five calls `screenRenderWait(0); ... screenRenderWait(4);` of
`FrameVdp2DrawEnd` (build with `USE_THREAD`), the barrier before `TitanGLRenderFBO`. -/
def FrameVdp2DrawEnd (observe : Nat → Nat → Int) (fuel : Nat)
    (st : Nat × screen_render_thread_context) : Option (Nat × screen_render_thread_context) :=
  (screenRenderWait observe 0 fuel st).bind fun st =>
  (screenRenderWait observe 1 fuel st).bind fun st =>
  (screenRenderWait observe 2 fuel st).bind fun st =>
  (screenRenderWait observe 3 fuel st).bind fun st =>
  screenRenderWait observe 4 fuel st

/-- The state `VIDSoftGLESInit` leaves in `screen_render_thread_context`: every slot finished,
nothing to draw. -/
def screen_render_thread_context.init : screen_render_thread_context :=
  { need_draw := fun _ => 0, ctx := fun _ => 0, draw_finished := fun _ => 1
    draw := fun _ => none, woken := [] }

/-- An example of what the frame thread reads: the layer thread of slot `which` has set its flag
from the read number `2 * which` on. -/
def staggeredObserve (t which : Nat) : Int :=
  if 2 * which ≤ t then 1 else 0

/-- The conversion of an `int` to `u32`: the 32-bit two's complement pattern. -/
def toU32 (a : Int) : Nat := (a % 4294967296).toNat

/-- Bitwise XOR `a ^ b` of two C `int`s, computed on their 32-bit two's complement patterns. -/
def cXor (a b : Int) : Nat := (a % 4294967296).toNat ^^^ (b % 4294967296).toNat

/-- The reads of VDP1 RAM: `T1ReadByte a` and `T1ReadWord a` are the values of
`T1ReadByte(ram, a)` and `T1ReadWord(ram, a)` (declared in `memory.h`, which is not among the
sources; they return `u8` and `u16`, so every use is followed by the matching `%`). -/
structure Vdp1RamReads where
  T1ReadByte : Nat → Nat
  T1ReadWord : Nat → Nat

/-- Source: `static INLINE u16 Vdp1ReadPattern16( u32 base, u32 offset , u8 * ram)`. -/
def Vdp1ReadPattern16 (base offset : Nat) (ram : Vdp1RamReads) : Nat :=
  let dot := ram.T1ReadByte (((base + (offset >>> 1)) % 4294967296) &&& 0x7FFFF) % 256
  if offset &&& 0x1 = 0 then dot >>> 4 -- Even pixel
  else dot &&& 0xF -- Odd pixel

/-- Source: `static INLINE u16 Vdp1ReadPattern64(u32 base, u32 offset, u8 * ram)`. -/
def Vdp1ReadPattern64 (base offset : Nat) (ram : Vdp1RamReads) : Nat :=
  (ram.T1ReadByte (((base + offset) % 4294967296) &&& 0x7FFFF) % 256) &&& 0x3F

/-- Source: `static INLINE u16 Vdp1ReadPattern128(u32 base, u32 offset, u8 * ram)`. -/
def Vdp1ReadPattern128 (base offset : Nat) (ram : Vdp1RamReads) : Nat :=
  (ram.T1ReadByte (((base + offset) % 4294967296) &&& 0x7FFFF) % 256) &&& 0x7F

/-- Source: `static INLINE u16 Vdp1ReadPattern256(u32 base, u32 offset, u8 * ram)`. -/
def Vdp1ReadPattern256 (base offset : Nat) (ram : Vdp1RamReads) : Nat :=
  (ram.T1ReadByte (((base + offset) % 4294967296) &&& 0x7FFFF) % 256) &&& 0xFF

/-- Source: `static INLINE u16 Vdp1ReadPattern64k(u32 base, u32 offset, u8 * ram)`. -/
def Vdp1ReadPattern64k (base offset : Nat) (ram : Vdp1RamReads) : Nat :=
  ram.T1ReadWord (((base + 2 * offset) % 4294967296) &&& 0x7FFFF) % 65536

/-- Source: `static INLINE u32 alphablend16(u32 d, u32 s, u32 level)`.  The products and sums
with the `u32` `level` are taken modulo `2 ^ 32`. -/
def alphablend16 (d s level : Nat) : Nat :=
  let invlevel : Int := 256 - (level : Int)
  let sr : Int := ((s &&& 0x001f : Nat) : Int)
  let dr : Int := ((d &&& 0x001f : Nat) : Int)
  let r : Nat := toU32 (sr * level + dr * invlevel) >>> 8
  let r := r &&& 0x1f
  let sg : Int := ((s &&& 0x03e0 : Nat) : Int)
  let dg : Int := ((d &&& 0x03e0 : Nat) : Int)
  let g : Nat := toU32 (sg * level + dg * invlevel) >>> 8
  let g := g &&& 0x03e0
  let sb : Int := ((s &&& 0x7c00 : Nat) : Int)
  let db : Int := ((d &&& 0x7c00 : Nat) : Int)
  let b : Nat := toU32 (sb * level + db * invlevel) >>> 8
  let b := b &&& 0x7c00
  r ||| g ||| b

/-- Source: the file-scope variables `currentPixel`, `currentPixelIsVisible`, `characterWidth`,
`characterHeight` of `vidsoftgles.c`, all `int`. -/
structure pixel_globals where
  currentPixel : Int
  currentPixelIsVisible : Int
  characterWidth : Int
  characterHeight : Int
deriving DecidableEq

/-- The texel `getpixel` fetches: the first statement of each case of its
`switch ((cmd->CMDPMOD >> 3) & 0x7)`, with `mode` the switch value, `linenumber` and
`currentlineindex` already flipped.  For the value `7` no case is taken and nothing is read. -/
def getpixelTexel (ram : Vdp1RamReads) (mode : Nat) (characterAddress : Nat)
    (characterWidth linenumber currentlineindex : Int) : Option Nat :=
  match mode with
  | 0x0 => -- 4bpp bank
    some (Vdp1ReadPattern16 (toU32 (characterAddress + (linenumber * (shr characterWidth 1))))
      (toU32 currentlineindex) ram)
  | 0x1 => -- 4bpp lut
    some (Vdp1ReadPattern16 (toU32 (characterAddress + (linenumber * (shr characterWidth 1))))
      (toU32 currentlineindex) ram)
  | 0x2 => -- 8pp bank (64 color)
    some (Vdp1ReadPattern64 (toU32 (characterAddress + (linenumber * characterWidth)))
      (toU32 currentlineindex) ram)
  | 0x3 => -- 128 color
    some (Vdp1ReadPattern128 (toU32 (characterAddress + (linenumber * characterWidth)))
      (toU32 currentlineindex) ram)
  | 0x4 => -- 256 color
    some (Vdp1ReadPattern256 (toU32 (characterAddress + (linenumber * characterWidth)))
      (toU32 currentlineindex) ram)
  | 0x5 => -- 16bpp bank
    some (Vdp1ReadPattern64k (toU32 (characterAddress + (linenumber * characterWidth * 2)))
      (toU32 currentlineindex) ram)
  | 0x6 => -- prohibited, behaves like 0x5
    some (Vdp1ReadPattern64k (toU32 (characterAddress + (linenumber * characterWidth * 2)))
      (toU32 currentlineindex) ram)
  | _ => none

/-- The `switch( flip )` of `getpixel`: the flipped `linenumber` and `currentlineindex`. -/
def getpixelFlip (flip : Nat) (g : pixel_globals) (linenumber currentlineindex : Int) :
    Int × Int :=
  match flip with
  | 1 => -- Horizontal flipping
    (linenumber, g.characterWidth - currentlineindex - 1)
  | 2 => -- Vertical flipping
    (g.characterHeight - linenumber - 1, currentlineindex)
  | 3 => -- Horizontal/Vertical flipping
    (g.characterHeight - linenumber - 1, g.characterWidth - currentlineindex - 1)
  | _ => (linenumber, currentlineindex)

/-- Source: `static int getpixel(int linenumber, int currentlineindex, vdp1cmd_struct *cmd,
u8 * ram)`: the returned value and the file-scope variables afterwards. -/
def getpixel (ram : Vdp1RamReads) (linenumber currentlineindex : Int) (cmd : vdp1cmd_struct)
    (g : pixel_globals) : Int × pixel_globals :=
  let currentShape := cmd.CMDCTRL &&& 0x7
  let characterAddress : Nat := (cmd.CMDSRCA <<< 3) % 4294967296
  let colorbank : Nat := cmd.CMDCOLR % 65536
  let colorlut : Nat := (colorbank <<< 3) % 4294967296
  let SPD : Bool := decide (cmd.CMDPMOD &&& 0x40 ≠ 0)
  let endcodesEnabled : Bool := decide (cmd.CMDPMOD &&& 0x80 = 0)
  let flip := (cmd.CMDCTRL &&& 0x30) >>> 4
  -- 4 polygon, 5 polyline or 6 line
  let isTextured : Bool := !(decide (currentShape = 4 ∨ currentShape = 5 ∨ currentShape = 6))
  let untexturedColor : Int := if isTextured then 0 else ((cmd.CMDCOLR : Nat) : Int)
  let p := getpixelFlip flip g linenumber currentlineindex
  let mode := (cmd.CMDPMOD >>> 3) &&& 0x7
  -- the statements after the `switch`
  let finish (g : pixel_globals) : Int × pixel_globals :=
    (0, if isTextured then g else { g with currentPixel := untexturedColor })
  match getpixelTexel ram mode characterAddress g.characterWidth p.1 p.2 with
  | none => finish g
  | some texel =>
    let currentPixel : Int := (texel : Int)
    match mode with
    | 0x0 => -- 4bpp bank
      if isTextured ∧ endcodesEnabled ∧ currentPixel = 0xf then
        (1, { g with currentPixel := currentPixel })
      else
        let currentPixel : Int :=
          if ¬ (currentPixel = 0 ∧ ¬ SPD) then ((colorbank &&& 0xfff0 ||| texel : Nat) : Int)
          else currentPixel
        finish { g with currentPixel := currentPixel, currentPixelIsVisible := 0xf }
    | 0x1 => -- 4bpp lut
      if isTextured ∧ endcodesEnabled ∧ currentPixel = 0xf then
        (1, { g with currentPixel := currentPixel })
      else
        let currentPixel : Int :=
          if ¬ (currentPixel = 0 ∧ ¬ SPD) then
            ((ram.T1ReadWord (((texel * 2 + colorlut) % 4294967296) &&& 0x7FFFF) % 65536 : Nat)
              : Int)
          else currentPixel
        finish { g with currentPixel := currentPixel, currentPixelIsVisible := 0xffff }
    | 0x2 => -- 8pp bank (64 color)
      let texel : Nat := if isTextured ∧ endcodesEnabled ∧ currentPixel = 63 then 0 else texel
      let currentPixel : Int := (texel : Int)
      let currentPixel : Int :=
        if ¬ (currentPixel = 0 ∧ ¬ SPD) then ((colorbank &&& 0xffc0 ||| texel : Nat) : Int)
        else currentPixel
      finish { g with currentPixel := currentPixel, currentPixelIsVisible := 0x3f }
    | 0x3 => -- 128 color
      if isTextured ∧ endcodesEnabled ∧ currentPixel = 0xff then
        (1, { g with currentPixel := currentPixel })
      else
        let currentPixel : Int :=
          if ¬ (currentPixel = 0 ∧ ¬ SPD) then ((colorbank &&& 0xff80 ||| texel : Nat) : Int)
          else currentPixel
        finish { g with currentPixel := currentPixel, currentPixelIsVisible := 0x7f }
    | 0x4 => -- 256 color
      if isTextured ∧ endcodesEnabled ∧ currentPixel = 0xff then
        (1, { g with currentPixel := currentPixel })
      else
        let currentPixel : Int :=
          if ¬ (currentPixel = 0 ∧ ¬ SPD) then ((colorbank &&& 0xff00 ||| texel : Nat) : Int)
          else currentPixel
        finish { g with currentPixel := currentPixel, currentPixelIsVisible := 0xff }
    | _ => -- 16bpp bank (0x5, and the prohibited 0x6 that behaves like it)
      if isTextured ∧ endcodesEnabled ∧ currentPixel = 0x7fff then
        (1, { g with currentPixel := currentPixel })
      else
        let currentPixel : Int :=
          if texel &&& 0x8000 = 0 ∧ ¬ SPD then 0 else currentPixel
        finish { g with currentPixel := currentPixel, currentPixelIsVisible := 0xffff }

/-- An example VDP1 RAM: every byte is `byte`, every word `word`. -/
def constRam (byte word : Nat) : Vdp1RamReads :=
  { T1ReadByte := fun _ => byte, T1ReadWord := fun _ => word }

/-- An example of a textured command (normal sprite, `CMDCTRL & 7 = 0`) of 8 x 1 texels with
the draw mode word `CMDPMOD`. -/
def spriteCmd (CMDPMOD : Nat) : vdp1cmd_struct :=
  { CMDCTRL := 0, CMDLINK := 0, CMDPMOD := CMDPMOD, CMDCOLR := 0, CMDSRCA := 0
    CMDSIZE := 0x0101, CMDXA := 0, CMDYA := 0, CMDXB := 0, CMDYB := 0, CMDXC := 0, CMDYC := 0
    CMDXD := 0, CMDYD := 0, CMDGRDA := 0 }

/-- The file-scope variables as `drawQuad` sets them for `spriteCmd`, no pixel fetched yet. -/
def spriteGlobals : pixel_globals :=
  { currentPixel := 0, currentPixelIsVisible := 0, characterWidth := 8, characterHeight := 1 }

/-- Modelled from the spec: the fields of `Vdp1` (declared in `vdp1.h`, which is not among the
sources) that `CheckDil`, `IsUserClipped` and `IsSystemClipped` read: the 16-bit word `FBCR`
and the clipping coordinates. -/
structure Vdp1Clip where
  FBCR : Nat
  userclipX1 : Int
  userclipY1 : Int
  userclipX2 : Int
  userclipY2 : Int
  systemclipX2 : Int
  systemclipY2 : Int
deriving DecidableEq

/-- Source: `static int CheckDil(int y, Vdp1 * regs)`; the file-scope `vdp1interlace` is a
parameter. -/
def CheckDil (vdp1interlace : Int) (y : Int) (regs : Vdp1Clip) : Int :=
  let dil := (regs.FBCR >>> 2) &&& 1
  if vdp1interlace = 2 then
    if dil ≠ 0 then
      if cAnd y 1 = 0 then 1 else 0
    else
      if cAnd y 1 ≠ 0 then 1 else 0
  else 0

/-- Source: `static INLINE int IsUserClipped(int x, int y, Vdp1* regs)`. -/
def IsUserClipped (x y : Int) (regs : Vdp1Clip) : Int :=
  if x ≥ regs.userclipX1 ∧ x ≤ regs.userclipX2 ∧ y ≥ regs.userclipY1 ∧ y ≤ regs.userclipY2
  then 0 else 1

/-- Source: `static INLINE int IsSystemClipped(int x, int y, Vdp1* regs)`. -/
def IsSystemClipped (x y : Int) (regs : Vdp1Clip) : Int :=
  if x ≥ 0 ∧ x ≤ regs.systemclipX2 ∧ y ≥ 0 ∧ y ≤ regs.systemclipY2 then 0 else 1

/-- Source: `static int IsClipped(int x, int y, Vdp1* regs, vdp1cmd_struct * cmd)`. -/
def IsClipped (x y : Int) (regs : Vdp1Clip) (cmd : vdp1cmd_struct) : Int :=
  if cmd.CMDPMOD &&& 0x0400 ≠ 0 then -- user clipping enabled
    let is_user_clipped := IsUserClipped x y regs
    let is_user_clipped :=
      if (cmd.CMDPMOD >>> 9) &&& 0x3 = 0x3 then -- outside clipping mode
        (if is_user_clipped ≠ 0 then 0 else 1)
      else is_user_clipped
    if is_user_clipped ≠ 0 ∨ IsSystemClipped x y regs ≠ 0 then 1 else 0
  else IsSystemClipped x y regs

/-- Source: `static int gouraudAdjust( int color, int tableValue )`. -/
def gouraudAdjust (color tableValue : Int) : Int :=
  let color := color + (tableValue - 0x10)
  let color := if color < 0 then 0 else color
  let color := if color > 0x1f then 0x1f else color
  color

/-- Source: `#define COLOR(r,g,b) (((r)&0x1F)|(((g)&0x1F)<<5)|(((b)&0x1F)<<10) |0x8000 )`. -/
def COLOR (r g b : Int) : Nat :=
  cAnd r 0x1F ||| (cAnd g 0x1F <<< 5) ||| (cAnd b 0x1F <<< 10) ||| 0x8000

/-- The file-scope `leftColumnColor` holds three `double`s; `putpixel` uses them only through
the conversions `(int)leftColumnColor.r`, `(int)leftColumnColor.g`, `(int)leftColumnColor.b`
and `(int)(leftColumnColor.r-0x10)`, which are the four fields. -/
structure column_color where
  r : Int
  g : Int
  b : Int
  rLess16 : Int
deriving DecidableEq

/-- The 16-bit frame buffer `(u16 *)back_framebuffer` with the element `idx` replaced by `v`
(truncated to 16 bits). -/
def storePix (fb : Int → Nat) (idx : Int) (v : Nat) : Int → Nat :=
  fun k => if k = idx then v % 65536 else fb k

/-- Source: `static void putpixel(int x, int y, Vdp1* regs, vdp1cmd_struct * cmd,
u8 * back_framebuffer)`, 16-bit frame buffer.  `fb k` is `((u16 *)back_framebuffer)[k]`; the
file-scope `vdp1interlace`, `vdp1width` and the conversions of `leftColumnColor` are
parameters; the result is the file-scope variables and the frame buffer afterwards.  The
element address `iPix` is the index `(y * vdp1width) + x`, and
`iPix >= (u16*)(back_framebuffer + 0x40000)` the test `0x20000 <= index`; an index below `0`
lies before the buffer, the function has no test for it and it is not set apart here. -/
def putpixel (vdp1interlace vdp1width : Int) (leftColumnColor : column_color) (x y : Int)
    (regs : Vdp1Clip) (cmd : vdp1cmd_struct) (g : pixel_globals) (fb : Int → Nat) :
    pixel_globals × (Int → Nat) :=
  let mesh := cmd.CMDPMOD &&& 0x0100
  let SPD : Bool := decide (cmd.CMDPMOD &&& 0x40 ≠ 0)
  let original_y := y
  if CheckDil vdp1interlace y regs ≠ 0 then (g, fb)
  else
    let y := Int.tdiv y vdp1interlace
    let iPix := (y * vdp1width) + x
    if iPix ≥ 0x20000 then (g, fb)
    else if mesh ≠ 0 ∧ cXor x y &&& 1 ≠ 0 then (g, fb)
    else if IsClipped x original_y regs cmd ≠ 0 then (g, fb)
    else if cmd.CMDPMOD &&& 0x8000 ≠ 0 ∧ g.currentPixel ≠ 0 then
      (g, storePix fb iPix (fb iPix ||| 0x8000))
    else if SPD ∨ cAnd g.currentPixel g.currentPixelIsVisible ≠ 0 then
      match cmd.CMDPMOD &&& 0x7 with -- we want bits 0,1,2
      | 0 => -- replace
        if ¬ (g.currentPixel = 0 ∧ ¬ SPD) then (g, storePix fb iPix (toU32 g.currentPixel))
        else (g, fb)
      | 1 => -- shadow
        if fb iPix &&& 0x8000 ≠ 0 then -- only if MSB of framebuffer data is set
          (g, storePix fb iPix (alphablend16 (fb iPix) 0 0x80 ||| 0x8000))
        else (g, fb)
      | 2 => -- half luminance
        (g, storePix fb iPix ((cAnd g.currentPixel (-0x8422) >>> 1) ||| 0x8000))
      | 3 => -- half transparent
        if fb iPix &&& 0x8000 ≠ 0 then -- only if MSB of framebuffer data is set
          (g, storePix fb iPix (alphablend16 (fb iPix) (toU32 g.currentPixel) 0x80 ||| 0x8000))
        else (g, storePix fb iPix (toU32 g.currentPixel))
      | 4 => -- gouraud
        if (cmd.CMDPMOD >>> 3) &&& 0x7 ≠ 5 ∧ (cmd.CMDPMOD >>> 3) &&& 0x7 ≠ 1
            ∧ leftColumnColor.g = 16 ∧ leftColumnColor.b = 16 then
          let c := leftColumnColor.rLess16
          let c := if c < 0 then 0 else c
          let currentPixel := g.currentPixel + c
          ({ g with currentPixel := currentPixel }, storePix fb iPix (toU32 currentPixel))
        else
          (g, storePix fb iPix
            (COLOR (gouraudAdjust ((cAnd g.currentPixel 0x001F : Nat) : Int) leftColumnColor.r)
              (gouraudAdjust ((cAnd g.currentPixel 0x03e0 >>> 5 : Nat) : Int) leftColumnColor.g)
              (gouraudAdjust ((cAnd g.currentPixel 0x7c00 >>> 10 : Nat) : Int)
                leftColumnColor.b)))
      | _ =>
        (g, storePix fb iPix
          (alphablend16 (COLOR leftColumnColor.r leftColumnColor.g leftColumnColor.b)
            (toU32 g.currentPixel) 0x80 ||| 0x8000))
    else (g, fb)

/-- An example of clipping registers: a 320 x 224 screen, no double interlace. -/
def exampleClipRegs : Vdp1Clip :=
  { FBCR := 0, userclipX1 := 0, userclipY1 := 0, userclipX2 := 319, userclipY2 := 223
    systemclipX2 := 319, systemclipY2 := 223 }

/-- An example frame buffer: the word `0xFFFF` at element `0`, the word `0x7FFF` elsewhere. -/
def exampleFb : Int → Nat :=
  fun k => if k = 0 then 0xFFFF else 0x7FFF

/-- Example file-scope variables: the pixel `0x0421` of a 16-bit texture, visible. -/
def exampleDrawGlobals : pixel_globals :=
  { currentPixel := 0x0421, currentPixelIsVisible := 0xffff, characterWidth := 8
    characterHeight := 1 }

/-- Example gouraud conversions, all neutral. -/
def exampleColumn : column_color := { r := 16, g := 16, b := 16, rLess16 := 0 }

/-- A `line_callback` of `iterateOverLine`: from `x`, `y`, `i` and what `data` points to, the
returned `int` and the new content of `data`. -/
abbrev LineCallback (σ : Type) := Int → Int → Int → σ → Int × σ

/-- What `iterateOverLine` works on: what `data` points to, and the calls of the callback made
so far as triples `(x, y, i)`, oldest first. -/
structure LineState (σ : Type) where
  data : σ
  calls : List (Int × Int × Int)

/-- The test `line_callback && line_callback(x, y, i, data, ...) != 0` of `iterateOverLine`:
whether it holds, and the state after it.  A `NULL` callback is `none`. -/
def callLine {σ : Type} (line_callback : Option (LineCallback σ)) (x y i : Int)
    (st : LineState σ) : Bool × LineState σ :=
  match line_callback with
  | none => (false, st)
  | some f =>
    let r := f x y i st.data
    (decide (r.1 ≠ 0), { data := r.2, calls := st.calls ++ [(x, y, i)] })

/-- How a loop of `iterateOverLine` ends: with a `return` inside the loop, or by its condition
with the value of `i`. -/
inductive LoopEnd (σ : Type) where
  | returned (value : Int) (st : LineState σ)
  | left (i : Int) (st : LineState σ)

/-- Source: the loop `for (; x1 != x2; x1 += ax, i++)` of `iterateOverLine` (`abs(dx) >
abs(dy)`), from the values of `x1`, `y1`, `a`, `i`; `none` when `fuel` passes do not reach its
end. -/
def iterateOverLineX {σ : Type} (line_callback : Option (LineCallback σ))
    (greedy ax ay dx dy x2 : Int) : Nat → Int → Int → Int → Int → LineState σ →
    Option (LoopEnd σ)
  | 0, _, _, _, _, _ => none
  | fuel + 1, x1, y1, a, i, st =>
    if x1 = x2 then some (LoopEnd.left i st)
    else
      let c := callLine line_callback x1 y1 i st
      if c.1 then some (LoopEnd.returned (i + 1) c.2)
      else
        let st := c.2
        let a := a + dy
        if |a| ≥ |dx| then
          let a := a - dx
          let y1 := y1 + ay
          -- Make sure we 'fill holes' the same as the Saturn
          if greedy ≠ 0 then
            let i := i + 1
            let c :=
              if ax = ay then callLine line_callback (x1 + ax) (y1 - ay) i st
              else callLine line_callback x1 y1 i st
            if c.1 then some (LoopEnd.returned (i + 1) c.2)
            else iterateOverLineX line_callback greedy ax ay dx dy x2 fuel (x1 + ax) y1 a (i + 1)
              c.2
          else iterateOverLineX line_callback greedy ax ay dx dy x2 fuel (x1 + ax) y1 a (i + 1)
            st
        else iterateOverLineX line_callback greedy ax ay dx dy x2 fuel (x1 + ax) y1 a (i + 1)
          st

/-- Source: the loop `for (; y1 != y2; y1 += ay, i++)` of `iterateOverLine` (the `else`
branch), from the values of `x1`, `y1`, `a`, `i`; `none` when `fuel` passes do not reach its
end. -/
def iterateOverLineY {σ : Type} (line_callback : Option (LineCallback σ))
    (greedy ax ay dx dy y2 : Int) : Nat → Int → Int → Int → Int → LineState σ →
    Option (LoopEnd σ)
  | 0, _, _, _, _, _ => none
  | fuel + 1, x1, y1, a, i, st =>
    if y1 = y2 then some (LoopEnd.left i st)
    else
      let c := callLine line_callback x1 y1 i st
      if c.1 then some (LoopEnd.returned (i + 1) c.2)
      else
        let st := c.2
        let a := a + dx
        if |a| ≥ |dy| then
          let a := a - dy
          let x1 := x1 + ax
          if greedy ≠ 0 then
            let i := i + 1
            let c :=
              if ay = ax then callLine line_callback x1 y1 i st
              else callLine line_callback (x1 - ax) (y1 + ay) i st
            if c.1 then some (LoopEnd.returned (i + 1) c.2)
            else iterateOverLineY line_callback greedy ax ay dx dy y2 fuel x1 (y1 + ay) a (i + 1)
              c.2
          else iterateOverLineY line_callback greedy ax ay dx dy y2 fuel x1 (y1 + ay) a (i + 1)
            st
        else iterateOverLineY line_callback greedy ax ay dx dy y2 fuel x1 (y1 + ay) a (i + 1)
          st

/-- The value of `INT_MAX`. -/
def INT_MAX : Int := 2147483647

/-- Source: `static int iterateOverLine(int x1, int y1, int x2, int y2, int greedy, void *data,
int(*line_callback)(...), Vdp1* regs, vdp1cmd_struct * cmd, u8 * ram, u8* back_framebuffer)`:
the returned value, what `data` points to afterwards and the calls of the callback; `none` when
a loop does not end within `fuel` passes. -/
def iterateOverLine {σ : Type} (fuel : Nat) (x1 y1 x2 y2 greedy : Int) (data : σ)
    (line_callback : Option (LineCallback σ)) : Option (Int × LineState σ) :=
  let st : LineState σ := { data := data, calls := [] }
  let dx := x2 - x1
  let dy := y2 - y1
  let ax : Int := if dx ≥ 0 then 1 else -1
  let ay : Int := if dy ≥ 0 then 1 else -1
  -- burning rangers tries to draw huge shapes
  -- this will at least let it run
  if |dx| > 999 ∨ |dy| > 999 then some (INT_MAX, st)
  else if |dx| > |dy| then
    let dx := if ax ≠ ay then -dx else dx
    match iterateOverLineX line_callback greedy ax ay dx dy x2 fuel x1 y1 0 0 st with
    | none => none
    | some (LoopEnd.returned value st) => some (value, st)
    | some (LoopEnd.left i st) =>
      -- If the line isn't greedy here, we end up with gaps that don't occur on the Saturn
      let st := (callLine line_callback x2 y2 i st).2
      some (i + 1, st)
  else
    let dy := if ax ≠ ay then -dy else dy
    match iterateOverLineY line_callback greedy ax ay dx dy y2 fuel x1 y1 0 0 st with
    | none => none
    | some (LoopEnd.returned value st) => some (value, st)
    | some (LoopEnd.left i st) =>
      let st := (callLine line_callback x2 y2 i st).2
      some (i + 1, st)

/-- A callback that stores nothing and never stops the walk. -/
def idleCallback : LineCallback Unit := fun _ _ _ d => (0, d)

/-- The list `i, i + 1, ..., i + k - 1`. -/
def idxFrom (i : Int) : Nat → List Int
  | 0 => []
  | k + 1 => i :: idxFrom (i + 1) k

/-- The call one test of the callback adds to the calls: none for a `NULL` callback. -/
def called {σ : Type} (line_callback : Option (LineCallback σ)) (x y i : Int) :
    List (Int × Int × Int) :=
  match line_callback with
  | none => []
  | some _ => [(x, y, i)]

/-- The number of passes and extra calls of a loop of `iterateOverLine` that has `n` steps to
go on its major axis, with the error term `r`, the minor extent `E` and the major extent `D`:
one per step, and in greedy mode one more per step on the minor axis. -/
def walkCount (greedy : Int) (n r E D : Nat) : Nat :=
  n + (if greedy ≠ 0 then (r + n * E) / D else 0)

/-- The number of coordinate pairs of a line walk as the specification states it: one per step
on the major axis and one for the end point, and in greedy mode one more per step on the minor
axis. -/
def lineLength (greedy dx dy : Int) : Nat :=
  if greedy ≠ 0 then dx.natAbs + dy.natAbs + 1 else max dx.natAbs dy.natAbs + 1

/-- Source: `static int DrawLine(int x1, int y1, int x2, int y2, int greedy, double linenumber,
double texturestep, ...)`: the call of `iterateOverLine` with `DrawLineCallback` and the
address of the `DrawLineData` it has filled in from its arguments, here `data`. -/
def DrawLine {σ : Type} (fuel : Nat) (DrawLineCallback : LineCallback σ)
    (x1 y1 x2 y2 greedy : Int) (data : σ) : Option (Int × LineState σ) :=
  iterateOverLine fuel x1 y1 x2 y2 greedy data (some DrawLineCallback)

/-- Source: the two walks in one pass of the loop `for(i = 0; i < total; i++)` of `drawQuad`,
between the sample `(xl, yl)` of the left edge (`xleft[(int)(i*leftLineStep)]`, ...) and the
sample `(xr, yr)` of the right edge:
`xlinelength = iterateOverLine(xl, yl, xr, yr, 1, NULL, NULL, ...)`, then
`DrawLine(xl, yl, xr, yr, 1, ...)`.  The texture and colour steps passed to `DrawLine` are
computed from `xlinelength`, so the `DrawLineData` is a function `data` of it.  The result is
`xlinelength`, the value `DrawLine` returns and the state of its walk. -/
def drawQuadSpan {σ : Type} (fuel : Nat) (DrawLineCallback : LineCallback σ)
    (xl yl xr yr : Int) (data : Int → σ) : Option (Int × Int × LineState σ) :=
  match iterateOverLine fuel xl yl xr yr 1 () (none : Option (LineCallback Unit)) with
  | none => none
  | some r =>
    let xlinelength := r.1
    match DrawLine fuel DrawLineCallback xl yl xr yr 1 (data xlinelength) with
    | none => none
    | some d => some (xlinelength, d.1, d.2)

/-- The rounding of a real value to the `float` format (IEEE binary32: 24 significant bits,
ties to even), on the rationals.  The range of the exponent is not limited; the values of the
scroll arithmetic are far from overflow and from the subnormal numbers. -/
def f32 (q : ℚ) : ℚ :=
  if q = 0 then 0
  else
    let e : Int := Int.log 2 |q|
    let u : ℚ := (2 : ℚ) ^ (e - 23)
    let m : ℚ := q / u
    let f : Int := ⌊m⌋
    let r : ℚ := m - f
    let n : Int :=
      if r < 1 / 2 then f else if 1 / 2 < r then f + 1 else if f % 2 = 0 then f else f + 1
    n * u

/-- The conversion of a `float` to `int`: the fraction is discarded. -/
def cTrunc (q : ℚ) : Int := if 0 ≤ q then ⌊q⌋ else ⌈q⌉

/-- Source: the statement `info.x = regs->SCXIN0 & 0x7FF;` of `Vdp2DrawNBG0` (NBG0, tile
mode). -/
def Vdp2DrawNBG0_x (SCXIN0 : Nat) : Int := ((SCXIN0 &&& 0x7FF : Nat) : Int)

/-- Source: the statement `info.coordincx = (regs->ZMXN0.all & 0x7FF00) / (float) 65536;` of
`Vdp2DrawNBG0`: the masked register is converted to `float` and divided in `float`. -/
def Vdp2DrawNBG0_coordincx (ZMXN0 : Nat) : ℚ :=
  f32 (f32 ((ZMXN0 &&& 0x7FF00 : Nat) : ℚ) / f32 65536)

/-- Source: the table `mosaic_table[i][j] = j/m*m` with `m = i+1` of `Vdp2DrawScroll`. -/
def mosaic_table (i j : Nat) : Int := ((j / (i + 1) * (i + 1) : Nat) : Int)

/-- Source: the statements of `Vdp2DrawScroll` that compute the source column of the output
column `i`: `x = info->x + mosaic_x[i]*info->coordincx; x &= sinfo.xmask;
if (linescrollx) { x += linescrollx; x &= 0x3FF; }`, with
`mosaic_x = mosaic_table[info->mosaicxmask-1]`.  The product and the sum are taken in `float`
and the result is converted to `int`; the mask `xmask` is not negative. -/
def Vdp2DrawScroll_x (info_x : Int) (coordincx : ℚ) (mosaicxmask : Nat) (xmask : Int)
    (linescrollx : Int) (i : Nat) : Int :=
  let x : Int :=
    cTrunc (f32 (f32 (info_x : ℚ) + f32 (f32 (mosaic_table (mosaicxmask - 1) i : ℚ) * coordincx)))
  let x : Int := ((cAnd x xmask : Nat) : Int)
  if linescrollx ≠ 0 then ((cAnd (x + linescrollx) 0x3FF : Nat) : Int) else x

/-- What `getPatternLocked` reads besides the command: the VDP1 RAM `ram` it is passed, the
file-scope `Vdp1Ram` (read for the colour lookup table of the 4bpp lut mode), the register
`Vdp2Internal.ColorMode`, and the colour RAM through `T2ReadWord(Vdp2ColorRam, a)` and
`T2ReadLong(Vdp2ColorRam, a)` (declared in `memory.h`, which is not among the sources; they
return `u16` and `u32`). -/
structure PatternEnv where
  ram : Vdp1RamReads
  Vdp1Ram : Vdp1RamReads
  ColorMode : Int
  T2ReadWord : Nat → Nat
  T2ReadLong : Nat → Nat

/-- Source: `static INLINE u32 FASTCALL Vdp2ColorRamGetColor(u32 addr, u8* vdp2_color_ram)`. -/
def Vdp2ColorRamGetColor (env : PatternEnv) (addr : Nat) : Nat :=
  match env.ColorMode with
  | 0 =>
    let addr := (addr <<< 1) % 4294967296
    let tmp := env.T2ReadWord (addr &&& 0xFFF) % 65536
    (((tmp &&& 0x1F) <<< 3) ||| ((tmp &&& 0x03E0) <<< 6) ||| ((tmp &&& 0x7C00) <<< 9))
      ||| ((tmp &&& 0x8000) <<< 16)
  | 1 =>
    let addr := (addr <<< 1) % 4294967296
    let tmp := env.T2ReadWord (addr &&& 0xFFF) % 65536
    (((tmp &&& 0x1F) <<< 3) ||| ((tmp &&& 0x03E0) <<< 6) ||| ((tmp &&& 0x7C00) <<< 9))
      ||| ((tmp &&& 0x8000) <<< 16)
  | 2 =>
    let addr := (addr <<< 2) % 4294967296
    env.T2ReadLong (addr &&& 0xFFF) % 4294967296
  | _ => 0

/-- Source: `COLSAT2YAB16(int priority, u32 temp)` of the build without `WORDS_BIGENDIAN`:
`priority << 24 | (temp & 0x1F) << 3 | (temp & 0x3E0) << 6 | (temp & 0x7C00) << 9`, as a 32-bit
pattern. -/
def COLSAT2YAB16 (priority temp : Nat) : Nat :=
  ((priority <<< 24) ||| ((temp &&& 0x1F) <<< 3) ||| ((temp &&& 0x3E0) <<< 6)
    ||| ((temp &&& 0x7C00) <<< 9)) % 4294967296

/-- What a call of `getPatternLocked` ends with: `return NULL`, the return of the pattern at
address `p` found in the cache, or the upload `glTexImage2D(..., width, height, ..., pix)` of
the `width * height` elements that call reads from `pix`. -/
inductive PatternResult where
  | null
  | cached (p : Nat)
  | uploaded (width height : Nat) (pix : List Nat)
deriving DecidableEq

/-- The array `pix` with the element `index` replaced by `v`. -/
def setPix (pix : Nat → Nat) (index v : Nat) : Nat → Nat :=
  fun k => if k = index then v else pix k

/-- Source: an inner loop `for (j=0; j<characterWidth; j++ ){ ... }` of `getPatternLocked`,
with `n` passes to go from `j`; `body j pix` is one pass, its second component tells whether it
ended with `break`. -/
def pixColumns (body : Nat → (Nat → Nat) → (Nat → Nat) × Bool) :
    Nat → Nat → (Nat → Nat) → (Nat → Nat)
  | 0, _, pix => pix
  | n + 1, j, pix =>
    let r := body j pix
    if r.2 then r.1 else pixColumns body n (j + 1) r.1

/-- Source: an outer loop `for (i=0; i<characterHeight ; i++) { for (j=0; ...) ... }` of
`getPatternLocked`, with `n` passes to go from `i`. -/
def pixRows (body : Nat → Nat → (Nat → Nat) → (Nat → Nat) × Bool) (characterWidth : Nat) :
    Nat → Nat → (Nat → Nat) → (Nat → Nat)
  | 0, _, pix => pix
  | n + 1, i, pix =>
    pixRows body characterWidth n (i + 1) (pixColumns (body i) characterWidth 0 pix)

/-- Source: `Pattern* getPatternLocked(vdp1cmd_struct cmd, u8* ram)`.  `cached` is the pointer
`getCachePattern` returns for the three hash parameters (`0` for an empty cache); `pix` is the
content of the variable-length array `u32 pix[characterHeight*characterWidth]` when it is
declared, which the function does not initialise.  The creation of the cache entry and of the
texture object does not touch `pix` and is left out.  `none` stands for the undefined behaviour
of the gouraud case of an untextured command, whose expression
`(gouraud & 0x3E0) >> 5 - 0x10` shifts by `5 - 0x10`. -/
def getPatternLocked (env : PatternEnv) (cmd : vdp1cmd_struct) (cached : Nat)
    (pix : Nat → Nat) : Option PatternResult :=
  let characterWidth := ((cmd.CMDSIZE >>> 8) &&& 0x3F) * 8
  let characterHeight := cmd.CMDSIZE &&& 0xFF
  let flip := (cmd.CMDCTRL &&& 0x30) >>> 4
  let currentShape := cmd.CMDCTRL &&& 0x7
  let characterAddress := cmd.CMDSRCA <<< 3
  let colorbank := cmd.CMDCOLR % 65536
  let colorlut := (colorbank <<< 3) % 4294967296
  let SPD : Bool := decide (cmd.CMDPMOD &&& 0x40 ≠ 0)
  let color := (cmd.CMDPMOD >>> 3) &&& 0x7
  if characterWidth = 0 ∨ characterHeight = 0 then some PatternResult.null
  else
    let colorCalc := cmd.CMDPMOD &&& 0x7
    let endcodesEnabled : Bool := decide (cmd.CMDPMOD &&& 0x80 = 0)
    let untexturedColor := colorbank
    if cached ≠ 0 then some (PatternResult.cached cached)
    else
      -- 4 polygon, 5 polyline or 6 line
      let isTextured : Bool :=
        !(decide (currentShape = 4 ∨ currentShape = 5 ∨ currentShape = 6))
      if ¬ isTextured then
        let untexturedColor :=
          if untexturedColor &&& 0x8000 ≠ 0 then COLSAT2YAB16 0xFF untexturedColor
          else Vdp2ColorRamGetColor env untexturedColor ||| 0xFF000000
        if colorCalc = 4 ∧ untexturedColor ≠ 0 then none
        else
          let body (i j : Nat) (pix : Nat → Nat) : (Nat → Nat) × Bool :=
            let index := i * 2 + j
            if untexturedColor ≠ 0 ∧ colorCalc = 0 then (setPix pix index untexturedColor, false)
            else (pix, false)
          let pix := pixRows body 2 2 0 pix
          some (PatternResult.uploaded 2 2 ((List.range (2 * 2)).map pix))
      else
        let patternLine (i : Nat) : Nat := if flip &&& 0x2 ≠ 0 then characterHeight - 1 - i else i
        let patternRow (j : Nat) : Nat := if flip &&& 0x1 ≠ 0 then characterWidth - 1 - j else j
        let pix :=
          match color with
          | 0x0 => -- 4bpp bank
            pixRows (fun i j pix =>
              let index := i * characterWidth + j
              let texel := Vdp1ReadPattern16
                ((characterAddress + patternLine i * (characterWidth >>> 1)) % 4294967296)
                (patternRow j) env.ram &&& 0xF
              let pix := setPix pix index texel
              if isTextured ∧ endcodesEnabled ∧ texel = 0xf then (pix, true)
              else if texel ≠ 0 ∨ SPD then
                (setPix pix index
                  (Vdp2ColorRamGetColor env ((colorbank &&& 0xfff0) ||| texel) ||| 0xFF000000),
                  false)
              else (setPix pix index 0, false)) characterWidth characterHeight 0 pix
          | 0x1 => -- 4bpp lut
            pixRows (fun i j pix =>
              let index := i * characterWidth + j
              let texel := Vdp1ReadPattern16
                ((characterAddress + patternLine i * (characterWidth >>> 1)) % 4294967296)
                (patternRow j) env.ram
              let pix := setPix pix index texel
              if endcodesEnabled ∧ texel = 0xf then (pix, true)
              else if texel ≠ 0 ∨ SPD then
                let temp :=
                  env.Vdp1Ram.T1ReadWord
                    ((((texel &&& 0xF) * 2 + colorlut) % 4294967296) &&& 0x7FFFF) % 65536
                if temp &&& 0x8000 ≠ 0 then (setPix pix index (COLSAT2YAB16 0xFF temp), false)
                else (setPix pix index (Vdp2ColorRamGetColor env temp ||| 0xFF000000), false)
              else (setPix pix index 0, false)) characterWidth characterHeight 0 pix
          | 0x2 => -- 8bpp bank
            pixRows (fun i j pix =>
              let index := i * characterWidth + j
              let texel := Vdp1ReadPattern64
                ((characterAddress + patternLine i * characterWidth) % 4294967296)
                (patternRow j) env.ram
              let pix := setPix pix index texel
              if isTextured ∧ endcodesEnabled ∧ texel = 0xff then (pix, true)
              else if texel ≠ 0 ∨ SPD then
                (setPix pix index
                  (Vdp2ColorRamGetColor env ((colorbank &&& 0xffc0) ||| (texel &&& 0xFF))
                    ||| 0xFF000000),
                  false)
              else (setPix pix index 0, false)) characterWidth characterHeight 0 pix
          | 0x4 => -- 256 color
            pixRows (fun i j pix =>
              let index := i * characterWidth + j
              let texel := Vdp1ReadPattern256
                ((characterAddress + patternLine i * characterWidth) % 4294967296)
                (patternRow j) env.ram
              let pix := setPix pix index texel
              if isTextured ∧ endcodesEnabled ∧ texel = 0xff then (pix, true)
              else if texel ≠ 0 ∨ SPD then
                (setPix pix index
                  (Vdp2ColorRamGetColor env ((colorbank &&& 0xff00) ||| (texel &&& 0xFF))
                    ||| 0xFF000000),
                  false)
              else (setPix pix index 0, false)) characterWidth characterHeight 0 pix
          | 0x3 => pix -- no case: the `default:` only prints the colour mode
          | 0x7 => pix
          | _ => -- 16bpp bank (0x5, and the prohibited 0x6 that behaves like it)
            pixRows (fun i j pix =>
              let index := i * characterWidth + j
              let texel := Vdp1ReadPattern64k
                ((characterAddress + patternLine i * (characterWidth * 2)) % 4294967296)
                (patternRow j) env.ram ||| 0xFF000000
              let pix := setPix pix index texel
              if isTextured ∧ endcodesEnabled ∧ texel = 0x7fff then (pix, true)
              else if texel ≠ 0 ∨ SPD then (setPix pix index (COLSAT2YAB16 0xFF texel), false)
              else (setPix pix index 0, false)) characterWidth characterHeight 0 pix
        some (PatternResult.uploaded characterWidth characterHeight
          ((List.range (characterWidth * characterHeight)).map pix))

/-- An example of what `getPatternLocked` reads: a VDP1 RAM of bytes `0xFF`, colour mode `0`,
a colour RAM of zeros. -/
def endcodeEnv : PatternEnv :=
  { ram := constRam 0xFF 0xFFFF, Vdp1Ram := constRam 0xFF 0xFFFF, ColorMode := 0
    T2ReadWord := fun _ => 0, T2ReadLong := fun _ => 0 }

/-! ## Definitions: special priority, resolution, frame buffer range, edge walks, and the
invariant of the pattern cache -/

/-- Source: the test `if (!TestBothWindow(info->wctl, clip, i, j)) { continue; }` at the head of
the pixel loop of `Vdp2DrawScroll`: whether the output pixel `(i, j)` is skipped. -/
def Vdp2DrawScroll_skip (vdp2width vdp2height : Int) (wctl : Int) (clip : Nat → clipping_struct)
    (i j : Int) : Bool :=
  decide (TestBothWindow vdp2width vdp2height wctl clip i j = 0)

/-- Source: `static int PixelIsSpecialPriority(int specialcode, int dot)`.  Each block
`if (specialcode & m) { if (dot == a || dot == b) return 1; }` is one conjunction. -/
def PixelIsSpecialPriority (specialcode dot : Int) : Int :=
  let dot : Int := cAnd dot 0xf
  if cAnd specialcode 0x01 ≠ 0 ∧ (dot = 0 ∨ dot = 1) then 1
  else if cAnd specialcode 0x02 ≠ 0 ∧ (dot = 2 ∨ dot = 3) then 1
  else if cAnd specialcode 0x04 ≠ 0 ∧ (dot = 4 ∨ dot = 5) then 1
  else if cAnd specialcode 0x08 ≠ 0 ∧ (dot = 6 ∨ dot = 7) then 1
  else if cAnd specialcode 0x10 ≠ 0 ∧ (dot = 8 ∨ dot = 9) then 1
  else if cAnd specialcode 0x20 ≠ 0 ∧ (dot = 0xa ∨ dot = 0xb) then 1
  else if cAnd specialcode 0x40 ≠ 0 ∧ (dot = 0xc ∨ dot = 0xd) then 1
  else if cAnd specialcode 0x80 ≠ 0 ∧ (dot = 0xe ∨ dot = 0xf) then 1
  else 0

/-- Source: `static u8 FASTCALL GetAlpha(vdp2draw_struct * info, u32 color, u32 dot)`; the
fields `specialcolormode`, `specialcolorfunction`, `specialcode` and `alpha` of `info` are
parameters, and the result is the `u8` returned. -/
def GetAlpha (specialcolormode specialcolorfunction specialcode alpha : Int)
    (color dot : Nat) : Nat :=
  if (specialcolormode = 1 ∨ specialcolormode = 2) ∧ cAnd specialcolorfunction 1 = 0 then
    -- special color calculation mode 1 and 2 enables color calculation only when special
    -- color function = 1
    0xFF
  else if specialcolormode = 2 then
    -- special color calculation 2 enables color calculation according to lower bits of the
    -- color code
    if cAnd specialcode (shl 1 (((dot &&& 0xF) >>> 1 : Nat) : Int)) = 0 then 0xFF
    else toU32 alpha % 256
  else if specialcolormode = 3 ∧ color &&& 0x80000000 = 0 then
    -- special color calculation mode 3 enables color calculation only for dots with MSB = 1
    0xFF
  else toU32 alpha % 256

/-- Source: the statements of `Vdp2DrawScroll` that compute the `priority` of a pixel from the
fields `priority`, `specialprimode`, `specialfunction`, `specialcode` of `info` and the fetched
`dot` (a `u32`, converted to the `int` parameter of `PixelIsSpecialPriority`). -/
def Vdp2DrawScroll_priority (priority specialprimode specialfunction specialcode : Int)
    (dot : Nat) : Int :=
  -- per-pixel priority is on
  if specialprimode = 2 then
    let priority : Int := cAnd priority 0xE
    if cAnd specialfunction 1 ≠ 0 then
      if PixelIsSpecialPriority specialcode (dot : Int) ≠ 0 then cOr priority 1
      else priority
    else priority
  else priority

/-- The file-scope variables `VIDSoftGLESVdp2SetResolution` writes. -/
structure Resolution where
  vdp2width : Int
  vdp2height : Int
  rbg0width : Int
  rbg0height : Int
  vdp2_x_hires : Int
  vdp2_interlace : Int
deriving DecidableEq

/-- Source: `static void VIDSoftGLESVdp2SetResolution(u16 TVMD, render_context *ctx)`: the
file-scope variables after the call, from the ones before it.  The call
`TitanGLSetResolution(vdp2width, vdp2height, ...)` at the end passes on the two fields. -/
def VIDSoftGLESVdp2SetResolution (TVMD : Nat) (s : Resolution) : Resolution :=
  -- Horizontal Resolution
  let s : Resolution :=
    match TVMD &&& 0x7 with
    | 0 => { s with vdp2width := 320, rbg0width := 320 }
    | 1 => { s with vdp2width := 352, rbg0width := 352 }
    | 2 => { s with vdp2width := 640, rbg0width := 320 }
    | 3 => { s with vdp2width := 704, rbg0width := 352 }
    | 4 => { s with vdp2width := 320, rbg0width := 320 }
    | 5 => { s with vdp2width := 352, rbg0width := 352 }
    | 6 => { s with vdp2width := 640, rbg0width := 320 }
    | 7 => { s with vdp2width := 704, rbg0width := 352 }
    | _ => s
  let s : Resolution :=
    { s with vdp2_x_hires := if s.vdp2width = 704 ∨ s.vdp2width = 640 then 1 else 0 }
  -- Vertical Resolution
  let s : Resolution :=
    match (TVMD >>> 4) &&& 0x3 with
    | 0 => { s with vdp2height := 224, rbg0height := 224 }
    | 1 => { s with vdp2height := 240, rbg0height := 240 }
    | 2 => { s with vdp2height := 256, rbg0height := 256 }
    | _ => s
  -- Check for interlace
  match (TVMD >>> 6) &&& 0x3 with
  | 3 => { s with vdp2height := s.vdp2height * 2, vdp2_interlace := 1 } -- Double-density
  | _ => { s with vdp2_interlace := 0 }

/-- The file-scope variables after `VIDSoftGLESInit` (`rbg0width = vdp2width = 320;
vdp2height = 224;`, the other three still at their initial `0`). -/
def Resolution.init : Resolution :=
  { vdp2width := 320, vdp2height := 224, rbg0width := 320, rbg0height := 0,
    vdp2_x_hires := 0, vdp2_interlace := 0 }

/-- The file-scope variables `VIDSoftGLESVdp1DrawStartBody` sets. -/
structure Vdp1Geometry where
  vdp1interlace : Int
  vdp1width : Int
  vdp1height : Int
  vdp1pixelsize : Int
deriving DecidableEq

/-- Source: `void VIDSoftGLESVdp1DrawStartBody(Vdp1* regs, u8 * back_framebuffer,
render_context *ctx)`: the file-scope variables it sets from the 16-bit registers `regs->FBCR`
and `regs->TVMR`. -/
def VIDSoftGLESVdp1DrawStartBody (FBCR TVMR : Nat) : Vdp1Geometry :=
  let vdp1interlace : Int := if FBCR &&& 8 ≠ 0 then 2 else 1
  if TVMR &&& 0x1 ≠ 0 then
    if TVMR &&& 0x2 ≠ 0 then
      -- Rotation 8-bit
      { vdp1interlace := vdp1interlace, vdp1width := 512, vdp1height := 512,
        vdp1pixelsize := 1 }
    else
      -- Normal 8-bit
      { vdp1interlace := vdp1interlace, vdp1width := 1024, vdp1height := 256,
        vdp1pixelsize := 1 }
  else
    -- Rotation/Normal 16-bit
    { vdp1interlace := vdp1interlace, vdp1width := 512, vdp1height := 256,
      vdp1pixelsize := 2 }

/-- The 8-bit frame buffer `back_framebuffer` with the byte `idx` replaced by `v` (truncated to
8 bits). -/
def storeByte (fb : Int → Nat) (idx : Int) (v : Nat) : Int → Nat :=
  fun k => if k = idx then v % 256 else fb k

/-- Source: `static void putpixel8(int x, int y, Vdp1 * regs, vdp1cmd_struct *cmd,
u8 * back_framebuffer)`, 8-bit frame buffer.  `fb k` is `back_framebuffer[k]`; the file-scope
`vdp1interlace`, `vdp1width` are parameters; the result is the file-scope variables and the
frame buffer afterwards.  The address `iPix` is the index `(y2 * vdp1width) + x`, and
`iPix >= (back_framebuffer + 0x40000)` the test `0x40000 <= index`; an index below `0` lies
before the buffer, the function has no test for it and it is not set apart here.  The `switch`
has the one body `default: case 0:`. -/
def putpixel8 (vdp1interlace vdp1width : Int) (x y : Int) (regs : Vdp1Clip)
    (cmd : vdp1cmd_struct) (g : pixel_globals) (fb : Int → Nat) :
    pixel_globals × (Int → Nat) :=
  let y2 := Int.tdiv y vdp1interlace
  let iPix := (y2 * vdp1width) + x
  let mesh := cmd.CMDPMOD &&& 0x0100
  let SPD : Bool := decide (cmd.CMDPMOD &&& 0x40 ≠ 0)
  if iPix ≥ 0x40000 then (g, fb)
  else if CheckDil vdp1interlace y regs ≠ 0 then (g, fb)
  else
    let g := { g with currentPixel := ((cAnd g.currentPixel 0xFF : Nat) : Int) }
    if mesh ≠ 0 ∧ cXor x y2 &&& 1 ≠ 0 then (g, fb)
    else if IsClipped x y regs cmd ≠ 0 then (g, fb)
    else if SPD ∨ cAnd g.currentPixel g.currentPixelIsVisible ≠ 0 then
      -- replace
      if ¬ (g.currentPixel = 0 ∧ ¬ SPD) then (g, storeByte fb iPix (toU32 g.currentPixel))
      else (g, fb)
    else (g, fb)

/-- A state of a walk in which every call made so far has an index in `0..999` and the data
satisfies `Inv`. -/
def LineState.within {σ : Type} (Inv : σ → Prop) (st : LineState σ) : Prop :=
  Inv st.data ∧ ∀ c ∈ st.calls, 0 ≤ c.2.2 ∧ c.2.2 ≤ 999

/-- The two arrays `intArrays[0]`, `intArrays[1]` handed to `storeLineCoords` (`xleft`, `yleft`
or `xright`, `yright`): 1000 `int`s each, element `k` for `k < 1000`. -/
structure LineArrays where
  xs : Nat → Int
  ys : Nat → Int

/-- Source: `static int storeLineCoords(int x, int y, int i, void *arrays, ...)`.  The data is
the content of the two arrays, and `none` once a store has gone outside their 1000
elements. -/
def storeLineCoords : LineCallback (Option LineArrays) := fun x y i d =>
  match d with
  | none => (0, none)
  | some arrays =>
    if 0 ≤ i ∧ i < 1000 then
      (0, some { xs := fun k => if k = i.toNat then x else arrays.xs k
                 ys := fun k => if k = i.toNat then y else arrays.ys k })
    else (0, none)

/-- Source: the two edge walks of `drawQuad`,
`totalleft = iterateOverLine(tl_x, tl_y, bl_x, bl_y, 0, intarrays, storeLineCoords, ...)` with
the arrays `xleft`, `yleft`, and
`totalright = iterateOverLine(tr_x, tr_y, br_x, br_y, 0, intarrays, storeLineCoords, ...)` with
`xright`, `yright`: the two totals and the content of the arrays afterwards. -/
def drawQuadEdges (fuel : Nat) (tl_x tl_y bl_x bl_y tr_x tr_y br_x br_y : Int)
    (left right : LineArrays) :
    Option ((Int × Option LineArrays) × (Int × Option LineArrays)) :=
  match iterateOverLine fuel tl_x tl_y bl_x bl_y 0 (some left) (some storeLineCoords) with
  | none => none
  | some l =>
    match iterateOverLine fuel tr_x tr_y br_x br_y 0 (some right) (some storeLineCoords) with
    | none => none
    | some r => some ((l.1, l.2.data), (r.1, r.2.data))

/-- Example arrays: all elements zero. -/
def zeroArrays : LineArrays := { xs := fun _ => 0, ys := fun _ => 0 }

/-- An example of clipping registers: the system clip `512 x 256`, no double interlace. -/
def wideClipRegs : Vdp1Clip :=
  { FBCR := 0, userclipX1 := 0, userclipY1 := 0, userclipX2 := 512, userclipY2 := 256
    systemclipX2 := 512, systemclipY2 := 256 }

/-- An example frame buffer: every word is `0xFFFF`. -/
def fullFb : Int → Nat := fun _ => 0xFFFF

/-- An example of a scaled sprite command: zoom point upper-left (`CMDCTRL = 0x0500`), anchor
`(32767, 0)`, size `10 x 10`. -/
def edgeScaledCmd : vdp1cmd_struct :=
  { CMDCTRL := 0x0500, CMDLINK := 0, CMDPMOD := 0, CMDCOLR := 0, CMDSRCA := 0, CMDSIZE := 0
    CMDXA := 32767, CMDYA := 0, CMDXB := 10, CMDYB := 10, CMDXC := 0, CMDYC := 0, CMDXD := 0
    CMDYD := 0, CMDGRDA := 0 }

/-- The property of the table that the pattern manager maintains: every occupied slot `i` of
`patternCache` points to a live Pattern with `managed = 1` whose key hashes to `i`. -/
def CacheInv (s : Mem) : Prop :=
  ∀ i, i < PATTERN_CACHE_LEN → s.patternCache i ≠ 0 →
    ∃ o, s.heap (s.patternCache i) = some o ∧ o.managed = 1 ∧ getHash o.param0 o.param1 = i

/-- Whether a call is one of `deleteCachePattern`. -/
def CacheOp.isDelete : CacheOp → Bool
  | .delete _ => true
  | _ => false

/-- The conditions under which a call of the interface (other than `deleteCachePattern`) is
made as the rasteriser makes it: `malloc` returns a block that is not `NULL` and not live;
`addCachePattern` gets a live Pattern whose key hashes inside the array and that is not the
idle occupant of its own slot; `popCachePattern` gets a key that hashes inside the array;
`pushCachePattern` gets `NULL` or a live Pattern. -/
def CacheOp.admissible (op : CacheOp) (s : Mem) : Bool :=
  match op with
  | .create new _ _ _ _ _ _ _ _ _ => decide (new ≠ 0) && (s.heap new).isNone
  | .add pat =>
    match s.deref pat with
    | none => false
    | some o =>
      decide (getHash o.param0 o.param1 < PATTERN_CACHE_LEN)
        && !(decide (s.patternCache (getHash o.param0 o.param1) = pat) && decide (o.inUse = 0))
  | .pop p0 p1 _ _ _ => decide (getHash p0 p1 < PATTERN_CACHE_LEN)
  | .push pat => decide (pat = 0) || (s.deref pat).isSome
  | .delete _ => false

/-- Every call of a sequence is admissible in the memory in which it is made (as long as the
calls before it have defined behaviour). -/
def callsAdmissible : List CacheOp → Mem → Bool
  | [], _ => true
  | op :: ops, s =>
    op.admissible s &&
      (match runOp op s with
       | none => true
       | some s1 => callsAdmissible ops s1)

/-- An example sequence of calls: a Pattern is created and installed, found again, and
released twice. -/
def exampleCalls : List CacheOp :=
  [.create 1 zeroBlock 1 2 3 8 8 0 0 0, .add 1, .pop 1 2 3 8 8, .push 1, .push 1]

/-- An example sequence of calls: a Pattern is created, installed, released, and handed to
`addCachePattern` a second time. -/
def readdCalls : List CacheOp :=
  [.create 1 zeroBlock 1 2 3 8 8 0 0 0, .add 1, .push 1, .add 1]

/-! ## Theorems: `patternManager.c` -/

theorem getHash_lt (param0 param1 : Int) : getHash param0 param1 < 65536 := by
  simp only [getHash, List.range', List.foldl]
  exact Nat.mod_lt _ (by decide)

theorem deref_eq_some {s : Mem} {p : Nat} {o : Pattern} (h : s.deref p = some o) :
    p ≠ 0 ∧ s.heap p = some o := by
  unfold Mem.deref at h
  split at h
  · exact absurd h (by simp)
  · exact ⟨by assumption, h⟩

theorem deref_of_heap {s : Mem} {p : Nat} (hp : p ≠ 0) : s.deref p = s.heap p := by
  simp [Mem.deref, hp]

/-- What `deleteCachePattern` does when it returns: either nothing (`NULL`, or a Pattern whose
`inUse` is not `0`), or it frees the Pattern, whose `inUse` is `0`. -/
theorem deleteCachePattern_cases {pat : Nat} {s s1 : Mem}
    (h : deleteCachePattern pat s = some s1) :
    s1 = s ∨ ∃ o, s.deref pat = some o ∧ o.inUse = 0 ∧
      s1.freed = s.freed ++ [(pat, { o with managed := 0 })] ∧
      s1.patternCache = s.patternCache ∧
      s1.heap pat = none ∧ ∀ q, q ≠ pat → s1.heap q = s.heap q := by
  unfold deleteCachePattern at h
  split at h
  · left; exact (Option.some.inj h).symm
  · split at h
    · exact absurd h (by simp)
    · rename_i o ho
      split at h
      · left; exact (Option.some.inj h).symm
      · rename_i hz
        right
        have hz0 : o.inUse = 0 := by simpa using hz
        cases h
        refine ⟨o, ho, hz0, rfl, rfl, by simp [Mem.release], ?_⟩
        intro q hq
        simp [Mem.release, Mem.store, hq]

theorem deleteCachePattern_keep {pat : Nat} {s : Mem} {o : Pattern}
    (hd : s.deref pat = some o) (hz : o.inUse ≠ 0) : deleteCachePattern pat s = some s := by
  obtain ⟨hne, _⟩ := deref_eq_some hd
  unfold deleteCachePattern
  rw [if_neg hne, hd]
  exact if_pos hz

theorem deleteCachePattern_free {pat : Nat} {s : Mem} {o : Pattern}
    (hd : s.deref pat = some o) (hz : o.inUse = 0) :
    deleteCachePattern pat s =
      some (Mem.release { s.store pat { o with managed := 0 } with
              deletedTex := s.deletedTex ++ [o.tex] } pat { o with managed := 0 }) := by
  obtain ⟨hne, _⟩ := deref_eq_some hd
  unfold deleteCachePattern
  rw [if_neg hne, hd]
  exact if_neg (by simpa using hz)

theorem deref_store_same (s : Mem) {p : Nat} (o : Pattern) (hp : p ≠ 0) :
    (s.store p o).deref p = some o := by
  simp [Mem.deref, Mem.store, hp]

theorem pushCachePattern_eq {pat : Nat} {s : Mem} {o : Pattern} (hp : s.deref pat = some o) :
    pushCachePattern pat s =
      if o.managed = 0 then deleteCachePattern pat (s.store pat { o with inUse := o.inUse - 1 })
      else some (s.store pat { o with inUse := o.inUse - 1 }) := by
  obtain ⟨hne, _⟩ := deref_eq_some hp
  unfold pushCachePattern
  rw [if_neg hne, hp]

theorem pushCachePattern_effect (s : Mem) (pat : Nat) (o : Pattern)
    (hp : s.deref pat = some o) :
    ∃ s1, pushCachePattern pat s = some s1 ∧
      s1.patternCache = s.patternCache ∧
      (∀ q, q ≠ pat → s1.heap q = s.heap q) ∧
      (s1.heap pat = none ↔ o.managed = 0 ∧ o.inUse - 1 = 0) ∧
      (o.managed = 0 ∧ o.inUse - 1 = 0 →
        s1.freed = s.freed ++ [(pat, { o with inUse := o.inUse - 1, managed := 0 })]) ∧
      (¬ (o.managed = 0 ∧ o.inUse - 1 = 0) →
        s1.heap pat = some { o with inUse := o.inUse - 1 } ∧ s1.freed = s.freed) := by
  obtain ⟨hne, _⟩ := deref_eq_some hp
  rw [pushCachePattern_eq hp]
  have hst := deref_store_same s { o with inUse := o.inUse - 1 } hne
  by_cases hm : o.managed = 0
  · rw [if_pos hm]
    by_cases hz : o.inUse - 1 = 0
    · rw [deleteCachePattern_free hst hz]
      refine ⟨_, rfl, rfl, ?_, ?_, ?_, ?_⟩
      · intro q hq; simp [Mem.release, Mem.store, hq]
      · constructor
        · intro _; exact ⟨hm, hz⟩
        · intro _; simp [Mem.release]
      · intro _; simp [Mem.release, Mem.store]
      · intro hn; exact absurd ⟨hm, hz⟩ hn
    · rw [deleteCachePattern_keep hst hz]
      refine ⟨_, rfl, rfl, ?_, ?_, ?_, ?_⟩
      · intro q hq; simp [Mem.store, hq]
      · constructor
        · intro hn; simp [Mem.store] at hn
        · intro hn; exact absurd hn.2 hz
      · intro hn; exact absurd hn.2 hz
      · intro _; exact ⟨by simp [Mem.store], rfl⟩
  · rw [if_neg hm]
    refine ⟨_, rfl, rfl, ?_, ?_, ?_, ?_⟩
    · intro q hq; simp [Mem.store, hq]
    · constructor
      · intro hn; simp [Mem.store] at hn
      · intro hn; exact absurd hn.1 hm
    · intro hn; exact absurd hn.1 hm
    · intro _; exact ⟨by simp [Mem.store], rfl⟩



/-- The effect of `addCachePattern` when it returns: either it gave up on an occupant that is
in use, or it ran `deleteCachePattern` on the occupant (a no-op for `NULL`) and installed
`pat`. -/
theorem addCachePattern_cases {pat : Nat} {s s1 : Mem} (h : addCachePattern pat s = some s1) :
    ∃ o, s.deref pat = some o ∧ getHash o.param0 o.param1 < PATTERN_CACHE_LEN ∧
      ((s1 = s ∧ ∃ c, s.deref (s.patternCache (getHash o.param0 o.param1)) = some c ∧
          0 < c.inUse) ∨
       (∃ s2 o1, deleteCachePattern (s.patternCache (getHash o.param0 o.param1)) s = some s2 ∧
          (∀ c, s.deref (s.patternCache (getHash o.param0 o.param1)) = some c → c.inUse ≤ 0) ∧
          s2.deref pat = some o1 ∧
          s1 = (s2.store pat { o1 with managed := 1 }).setSlot
                 (getHash o.param0 o.param1) pat)) := by
  unfold addCachePattern at h
  split at h
  · exact absurd h (by simp)
  · rename_i o ho
    refine ⟨o, ho, ?_⟩
    simp only at h
    split at h
    · rename_i hb
      refine ⟨hb, ?_⟩
      split at h
      · rename_i hc0
        split at h
        · exact absurd h (by simp)
        · rename_i c hc
          split at h
          · rename_i hpos
            left
            exact ⟨(Option.some.inj h).symm, c, hc, hpos⟩
          · rename_i hnpos
            right
            split at h
            · exact absurd h (by simp)
            · rename_i s2 hs2
              split at h
              · exact absurd h (by simp)
              · rename_i o1 ho1
                refine ⟨s2, o1, hs2, ?_, ho1, (Option.some.inj h).symm⟩
                intro c1 hc1
                rw [hc] at hc1
                cases hc1
                exact not_lt.mp hnpos
      · rename_i hc0
        right
        have hc0 : s.patternCache (getHash o.param0 o.param1) = 0 := by simpa using hc0
        split at h
        · exact absurd h (by simp)
        · rename_i o1 ho1
          refine ⟨s, o1, ?_, ?_, ho1, (Option.some.inj h).symm⟩
          · rw [hc0]; simp [deleteCachePattern]
          · intro c hc
            rw [hc0] at hc
            simp [Mem.deref] at hc
    · exact absurd h (by simp)

theorem addCachePattern_busy {pat : Nat} {s : Mem} {o c : Pattern}
    (hp : s.deref pat = some o) (hb : getHash o.param0 o.param1 < PATTERN_CACHE_LEN)
    (hc : s.deref (s.patternCache (getHash o.param0 o.param1)) = some c)
    (hpos : 0 < c.inUse) : addCachePattern pat s = some s := by
  obtain ⟨hc0, _⟩ := deref_eq_some hc
  unfold addCachePattern
  rw [hp]
  simp only
  rw [if_pos hb, if_pos hc0, hc]
  exact if_pos hpos

theorem addCachePattern_empty {pat : Nat} {s : Mem} {o : Pattern}
    (hp : s.deref pat = some o) (hb : getHash o.param0 o.param1 < PATTERN_CACHE_LEN)
    (hc : s.patternCache (getHash o.param0 o.param1) = 0) :
    addCachePattern pat s =
      some ((s.store pat { o with managed := 1 }).setSlot (getHash o.param0 o.param1) pat) := by
  unfold addCachePattern
  rw [hp]
  simp only
  rw [if_pos hb, if_neg (by simp [hc]), hp]

theorem addCachePattern_evict {pat : Nat} {s : Mem} {o c : Pattern}
    (hp : s.deref pat = some o) (hb : getHash o.param0 o.param1 < PATTERN_CACHE_LEN)
    (hc : s.deref (s.patternCache (getHash o.param0 o.param1)) = some c)
    (hz : c.inUse = 0) (hne : s.patternCache (getHash o.param0 o.param1) ≠ pat) :
    addCachePattern pat s =
      some (((Mem.release { s.store (s.patternCache (getHash o.param0 o.param1))
                              { c with managed := 0 } with
                            deletedTex := s.deletedTex ++ [c.tex] }
                (s.patternCache (getHash o.param0 o.param1)) { c with managed := 0 }).store pat
              { o with managed := 1 }).setSlot (getHash o.param0 o.param1) pat) := by
  obtain ⟨hc0, _⟩ := deref_eq_some hc
  obtain ⟨hp0, hph⟩ := deref_eq_some hp
  unfold addCachePattern
  rw [hp]
  simp only
  have hnpos : ¬ c.inUse > 0 := by omega
  have hd : (Mem.release { s.store (s.patternCache (getHash o.param0 o.param1))
                              { c with managed := 0 } with
                            deletedTex := s.deletedTex ++ [c.tex] }
                (s.patternCache (getHash o.param0 o.param1)) { c with managed := 0 }).deref pat
      = some o := by
    simp [Mem.deref, Mem.release, Mem.store, hp0, Ne.symm hne, hph]
  rw [if_pos hb, if_pos hc0]
  simp only [hc, if_neg hnpos, deleteCachePattern_free hc hz, hd]

theorem FreesOnlyUnused.refl (s : Mem) : FreesOnlyUnused s s :=
  ⟨⟨[], by simp, by simp, fun p hp hn => by simp [hn] at hp⟩, fun _ _ _ _ h _ _ => h⟩

/-- A call that frees nothing, writes no slot and removes no object keeps the discipline. -/
theorem FreesOnlyUnused.of_keep {s s1 : Mem} (hf : s1.freed = s.freed)
    (hc : s1.patternCache = s.patternCache)
    (hh : ∀ p, (s.heap p).isSome → (s1.heap p).isSome) : FreesOnlyUnused s s1 := by
  refine ⟨⟨[], by simp [hf], by simp, ?_⟩, ?_⟩
  · intro p hp hn
    have := hh p hp
    simp [hn] at this
  · intro i c o _ hi _ _
    rw [hc]; exact hi

theorem deleteCachePattern_step {pat : Nat} {s s1 : Mem}
    (h : deleteCachePattern pat s = some s1) : FreesOnlyUnused s s1 := by
  rcases deleteCachePattern_cases h with rfl | ⟨o, _, hz, hf, hc, _, hq⟩
  · exact FreesOnlyUnused.refl _
  · refine ⟨⟨[(pat, { o with managed := 0 })], hf, ?_, ?_⟩, ?_⟩
    · intro e he
      simp only [List.mem_singleton] at he
      subst he
      exact hz
    · intro p hp hn
      by_cases hpp : p = pat
      · exact ⟨{ o with managed := 0 }, by simp [hpp]⟩
      · rw [hq p hpp] at hn
        simp [hn] at hp
    · intro i c o _ hi _ _
      rw [hc]; exact hi

theorem pushCachePattern_step {pat : Nat} {s s1 : Mem}
    (h : pushCachePattern pat s = some s1) : FreesOnlyUnused s s1 := by
  by_cases hp0 : pat = 0
  · simp only [pushCachePattern, hp0, if_true, Option.some.injEq] at h
    subst h
    exact FreesOnlyUnused.refl _
  · cases hd : s.deref pat with
    | none => simp [pushCachePattern, hp0, hd] at h
    | some o =>
      obtain ⟨s2, hs2, hc, hq, hnone, hfree, hkeep⟩ := pushCachePattern_effect s pat o hd
      rw [h] at hs2
      cases hs2
      by_cases hcond : o.managed = 0 ∧ o.inUse - 1 = 0
      · refine ⟨⟨[(pat, { o with inUse := o.inUse - 1, managed := 0 })], hfree hcond, ?_, ?_⟩, ?_⟩
        · intro e he
          simp only [List.mem_singleton] at he
          subst he
          exact hcond.2
        · intro p hp hn
          by_cases hpp : p = pat
          · exact ⟨{ o with inUse := o.inUse - 1, managed := 0 }, by simp [hpp]⟩
          · rw [hq p hpp] at hn
            simp [hn] at hp
        · intro i c o _ hi _ _
          rw [hc]; exact hi
      · obtain ⟨hlive, hf⟩ := hkeep hcond
        refine FreesOnlyUnused.of_keep hf hc ?_
        intro p hp
        by_cases hpp : p = pat
        · rw [hpp, hlive]; rfl
        · rw [hq p hpp]; exact hp

theorem popCachePattern_step {k0 k1 k2 w h : Int} {s s1 : Mem} {r : Nat}
    (hpop : popCachePattern k0 k1 k2 w h s = some (s1, r)) : FreesOnlyUnused s s1 := by
  unfold popCachePattern at hpop
  simp only at hpop
  split at hpop
  · split at hpop
    · cases hpop; exact FreesOnlyUnused.refl _
    · split at hpop
      · exact absurd hpop (by simp)
      · split at hpop
        · cases hpop
          refine FreesOnlyUnused.of_keep rfl rfl ?_
          intro p hp
          simp only [Mem.store]
          split
          · rfl
          · exact hp
        · cases hpop; exact FreesOnlyUnused.refl _
  · exact absurd hpop (by simp)

theorem createCachePattern_step {new : Nat} {blk : Pattern} {p0 p1 p2 w h : Int}
    {tw th : Nat} {mesh : Int} {s s1 : Mem} {r : Nat}
    (hc : createCachePattern new blk p0 p1 p2 w h tw th mesh s = some (s1, r)) :
    FreesOnlyUnused s s1 := by
  unfold createCachePattern at hc
  split at hc
  · exact absurd hc (by simp)
  · cases hc
    refine FreesOnlyUnused.of_keep rfl rfl ?_
    intro p hp
    simp only [Mem.store]
    split
    · rfl
    · exact hp

theorem addCachePattern_step {pat : Nat} {s s1 : Mem}
    (h : addCachePattern pat s = some s1) : FreesOnlyUnused s s1 := by
  obtain ⟨o, _, _, hcase⟩ := addCachePattern_cases h
  rcases hcase with ⟨rfl, _⟩ | ⟨s2, o1, hdel, hle, _, rfl⟩
  · exact FreesOnlyUnused.refl _
  · obtain ⟨⟨l, hl, hzero, hgone⟩, hslot⟩ := deleteCachePattern_step hdel
    refine ⟨⟨l, hl, hzero, ?_⟩, ?_⟩
    · intro p hp hn
      apply hgone p hp
      simp only [Mem.setSlot, Mem.store] at hn
      split at hn
      · exact absurd hn (by simp)
      · exact hn
    · intro i c oc hi hic hdc hpos
      simp only [Mem.setSlot, Mem.store]
      split
      · rename_i hii
        subst hii
        subst hic
        exact absurd hpos (not_lt.mpr (hle oc hdc))
      · have := hslot i c oc hi hic hdc hpos
        exact this

theorem runOp_step {op : CacheOp} {s s1 : Mem} (h : runOp op s = some s1) :
    FreesOnlyUnused s s1 := by
  cases op with
  | create new blk p0 p1 p2 w h tw th mesh =>
    simp only [runOp] at h
    split at h
    · exact absurd h (by simp)
    · rw [Option.map_eq_some'] at h
      obtain ⟨⟨s2, r⟩, hc, hs⟩ := h
      cases hs
      exact createCachePattern_step hc
  | add pat => exact addCachePattern_step h
  | pop p0 p1 p2 w h =>
    simp only [runOp] at h
    rw [Option.map_eq_some'] at h
    obtain ⟨⟨s2, r⟩, hc, hs⟩ := h
    cases hs
    exact popCachePattern_step hc
  | push pat => exact pushCachePattern_step h
  | delete pat => exact deleteCachePattern_step h

/-! ### Claims on the pattern cache -/

/-- C1: along every sequence of `createCachePattern`, `addCachePattern`, `popCachePattern`,
`pushCachePattern` and `deleteCachePattern` calls, from every memory, each call frees a Pattern
only at a moment when its `inUse` is `0` (and objects leave the heap in no other way), and no
call replaces the occupant of a slot while that occupant is live with `inUse > 0`. -/
theorem runOps_frees_only_unused (ops : List CacheOp) (s : Mem) :
    List.Chain FreesOnlyUnused s (runOps ops s) := by
  induction ops generalizing s with
  | nil => exact List.Chain.nil
  | cons op ops ih =>
    unfold runOps
    cases h : runOp op s with
    | none => exact List.Chain.nil
    | some s1 => exact List.Chain.cons (runOp_step h) (ih s1)

/-- A run that exercises C1: create and install a Pattern, look it up, release it twice, then
install a second Pattern with the same slot; all seven calls are defined, and the only
`free` is that of the first Pattern (address `1`), with `inUse = 0`, in the last call. -/
theorem runOps_example :
    (runOps [.create 1 zeroBlock 1 2 3 8 8 0 0 0, .add 1, .pop 1 2 3 8 8, .push 1, .push 1,
             .create 2 zeroBlock 1 2 4 8 8 0 0 0, .add 2] Mem.init).map
        (fun m => (m.freed.map (fun e => (e.1, e.2.inUse)), (m.heap 1).map (fun o => o.inUse)))
      = [([], some 1), ([], some 1), ([], some 2), ([], some 1), ([], some 0), ([], some 0),
         ([(1, 0)], none)] := by
  decide

/-- C2: for a key whose slot lies inside the array and does not dangle, `popCachePattern`
returns a non-null pointer exactly when the slot `getHash(k0,k1)` is occupied by a Pattern whose
`param[0..2]`, `width` and `height` equal the arguments; the pointer returned on a hit is the
slot's occupant, whose `inUse` is raised by one while every other object, the table and the
records of frees stay as they were; on a miss the result is `NULL` and the memory is unchanged. -/
theorem popCachePattern_spec (s : Mem) (k0 k1 k2 w h : Int)
    (hb : getHash k0 k1 < PATTERN_CACHE_LEN)
    (hlive : s.patternCache (getHash k0 k1) ≠ 0 →
      (s.heap (s.patternCache (getHash k0 k1))).isSome) :
    ∃ s1 r, popCachePattern k0 k1 k2 w h s = some (s1, r) ∧
      (r ≠ 0 ↔ ∃ o, s.deref (s.patternCache (getHash k0 k1)) = some o ∧
          o.param0 = k0 ∧ o.param1 = k1 ∧ o.param2 = k2 ∧ o.width = w ∧ o.height = h) ∧
      (r ≠ 0 → r = s.patternCache (getHash k0 k1) ∧
          ∃ o, s.heap r = some o ∧
            s1.heap r = some { o with inUse := o.inUse + 1 } ∧
            (∀ q, q ≠ r → s1.heap q = s.heap q) ∧
            s1.patternCache = s.patternCache ∧ s1.freed = s.freed ∧
            s1.deletedTex = s.deletedTex) ∧
      (r = 0 → s1 = s) := by
  unfold popCachePattern
  simp only [hb, if_true]
  by_cases h0 : s.patternCache (getHash k0 k1) = 0
  · refine ⟨s, 0, by simp [h0], ?_, by simp, fun _ => rfl⟩
    simp [h0, Mem.deref]
  · have hsome := hlive h0
    rw [Option.isSome_iff_exists] at hsome
    obtain ⟨o, ho⟩ := hsome
    have hd : s.deref (s.patternCache (getHash k0 k1)) = some o := by
      rw [deref_of_heap h0]; exact ho
    simp only [h0, if_false, hd]
    by_cases hm : o.param0 = k0 ∧ o.param1 = k1 ∧ o.param2 = k2 ∧ o.width = w ∧ o.height = h
    · refine ⟨_, _, by rw [if_pos hm], ?_, ?_, fun hr => absurd hr h0⟩
      · simp [h0, hm]
      · intro _
        refine ⟨rfl, o, ho, by simp [Mem.store], ?_, rfl, rfl, rfl⟩
        intro q hq
        simp [Mem.store, hq]
    · refine ⟨s, 0, by rw [if_neg hm], ?_, by simp, fun _ => rfl⟩
      simp only [ne_eq, not_true_eq_false, false_iff]
      rintro ⟨o1, ho1, hk⟩
      cases ho1
      exact hm hk

theorem popCachePattern_spec_witness :
    getHash 1 2 < PATTERN_CACHE_LEN ∧
    (exampleMem.heap (exampleMem.patternCache (getHash 1 2))).isSome ∧
    ∃ s1 r, popCachePattern 1 2 3 8 8 exampleMem = some (s1, r) ∧ r = 1 ∧
      s1.heap 1 = some { idlePattern with inUse := 1 } := by
  refine ⟨by decide, by decide, ?_⟩
  obtain ⟨s1, r, hpop, hiff, hhit, _⟩ :=
    popCachePattern_spec exampleMem 1 2 3 8 8 (by decide) (fun _ => by decide)
  have hr : r ≠ 0 := hiff.mpr ⟨idlePattern, by decide⟩
  obtain ⟨hslot, o, ho, ho1, _⟩ := hhit hr
  have hr1 : r = 1 := by rw [hslot]; decide
  subst hr1
  have hoi : o = idlePattern := by
    have : exampleMem.heap 1 = some idlePattern := by decide
    rw [this] at ho
    exact (Option.some.inj ho).symm
  subst hoi
  exact ⟨s1, 1, hpop, rfl, ho1⟩

/-- C3 (as amended): `addCachePattern(p)` for a live Pattern `p` whose slot lies inside the
array.  If the slot's occupant has `inUse > 0` the memory is unchanged (table as before, occupant not freed,
`p` as it was, so still unmanaged).  If the occupant (a Pattern other than `p`) has
`inUse = 0` it is freed and `p` is installed in the slot with `managed = 1`.  If the slot is
empty `p` is installed with `managed = 1` and nothing is freed.  No other slot and no other
object changes. -/
theorem addCachePattern_spec (s : Mem) (pat : Nat) (o : Pattern)
    (hp : s.deref pat = some o) (hb : getHash o.param0 o.param1 < PATTERN_CACHE_LEN) :
    (∀ c, s.deref (s.patternCache (getHash o.param0 o.param1)) = some c → 0 < c.inUse →
        addCachePattern pat s = some s) ∧
    (∀ c, s.deref (s.patternCache (getHash o.param0 o.param1)) = some c → c.inUse = 0 →
        s.patternCache (getHash o.param0 o.param1) ≠ pat →
        ∃ s1, addCachePattern pat s = some s1 ∧
          s1.heap (s.patternCache (getHash o.param0 o.param1)) = none ∧
          s1.freed = s.freed ++
            [(s.patternCache (getHash o.param0 o.param1), { c with managed := 0 })] ∧
          s1.patternCache (getHash o.param0 o.param1) = pat ∧
          s1.heap pat = some { o with managed := 1 } ∧
          (∀ j, j ≠ getHash o.param0 o.param1 → s1.patternCache j = s.patternCache j) ∧
          (∀ q, q ≠ pat → q ≠ s.patternCache (getHash o.param0 o.param1) →
            s1.heap q = s.heap q)) ∧
    (s.patternCache (getHash o.param0 o.param1) = 0 →
        ∃ s1, addCachePattern pat s = some s1 ∧
          s1.freed = s.freed ∧
          s1.patternCache (getHash o.param0 o.param1) = pat ∧
          s1.heap pat = some { o with managed := 1 } ∧
          (∀ j, j ≠ getHash o.param0 o.param1 → s1.patternCache j = s.patternCache j) ∧
          (∀ q, q ≠ pat → s1.heap q = s.heap q)) := by
  refine ⟨fun c hc hpos => addCachePattern_busy hp hb hc hpos, ?_, ?_⟩
  · intro c hc hz hne
    refine ⟨_, addCachePattern_evict hp hb hc hz hne, ?_, rfl, ?_, ?_, ?_, ?_⟩
    · simp [Mem.setSlot, Mem.store, Mem.release, hne]
    · simp [Mem.setSlot]
    · simp [Mem.setSlot, Mem.store]
    · intro j hj; simp [Mem.setSlot, Mem.store, Mem.release, hj]
    · intro q hq hqc; simp [Mem.setSlot, Mem.store, Mem.release, hq, hqc]
  · intro hc
    refine ⟨_, addCachePattern_empty hp hb hc, rfl, ?_, ?_, ?_, ?_⟩
    · simp [Mem.setSlot]
    · simp [Mem.setSlot, Mem.store]
    · intro j hj; simp [Mem.setSlot, Mem.store, hj]
    · intro q hq; simp [Mem.setSlot, Mem.store, hq]

theorem addCachePattern_spec_witness :
    exampleMem.deref 2 = some freshPattern ∧
    getHash freshPattern.param0 freshPattern.param1 < PATTERN_CACHE_LEN ∧
    ∃ s1, addCachePattern 2 exampleMem = some s1 ∧
      s1.heap 1 = none ∧
      s1.freed = [(1, { idlePattern with managed := 0 })] ∧
      s1.patternCache (getHash 1 2) = 2 ∧
      s1.heap 2 = some { freshPattern with managed := 1 } := by
  refine ⟨by decide, by decide, ?_⟩
  obtain ⟨s1, hadd, hgone, hfreed, hslot, hnew, _⟩ :=
    (addCachePattern_spec exampleMem 2 freshPattern (by decide) (by decide)).2.1
      idlePattern (by decide) (by decide) (by decide)
  exact ⟨s1, hadd, hgone, hfreed, hslot, hnew⟩

/-- C3 as stated fails: when the occupant with `inUse = 0` is `p` itself (`p` is installed and
idle, and is handed to `addCachePattern` again), `deleteCachePattern(collider)` frees `p`,
after which the slot points to the freed Pattern, and the statements `pat->managed = 1` and
`patternCache[...] = pat` that follow use the freed `p`: the call has no defined behaviour and
`p` is not installed. -/
theorem addCachePattern_spec_counterexample :
    exampleMem.deref 1 = some idlePattern
    ∧ getHash idlePattern.param0 idlePattern.param1 < PATTERN_CACHE_LEN
    ∧ exampleMem.patternCache (getHash idlePattern.param0 idlePattern.param1) = 1
    ∧ idlePattern.inUse = 0
    ∧ (deleteCachePattern 1 exampleMem).map
        (fun s => (s.heap 1, s.freed.map Prod.fst, s.patternCache (getHash 1 2)))
      = some (none, [1], 1)
    ∧ (addCachePattern 1 exampleMem).isNone = true := by
  decide

/-- C4: `pushCachePattern` on a live Pattern lowers its `inUse` by exactly one and touches no
other object and no slot; the Pattern is freed exactly when it is unmanaged and the lowered
count is `0` (the record of the free shows the lowered count); a managed Pattern stays live
and stays in whatever slot holds it. -/
theorem pushCachePattern_spec (s : Mem) (pat : Nat) (o : Pattern)
    (hp : s.deref pat = some o) :
    ∃ s1, pushCachePattern pat s = some s1 ∧
      s1.patternCache = s.patternCache ∧
      (∀ q, q ≠ pat → s1.heap q = s.heap q) ∧
      (s1.heap pat = none ↔ o.managed = 0 ∧ o.inUse - 1 = 0) ∧
      (o.managed = 0 ∧ o.inUse - 1 = 0 →
        s1.freed = s.freed ++ [(pat, { o with inUse := o.inUse - 1, managed := 0 })]) ∧
      (¬ (o.managed = 0 ∧ o.inUse - 1 = 0) →
        s1.heap pat = some { o with inUse := o.inUse - 1 } ∧ s1.freed = s.freed) :=
  pushCachePattern_effect s pat o hp

theorem pushCachePattern_spec_witness :
    exampleMem.deref 2 = some freshPattern ∧
    ∃ s1, pushCachePattern 2 exampleMem = some s1 ∧ s1.heap 2 = none ∧
      s1.freed = [(2, { freshPattern with inUse := 0 })] := by
  refine ⟨by decide, ?_⟩
  obtain ⟨s1, hpush, _, _, hnone, hfree, _⟩ :=
    pushCachePattern_spec exampleMem 2 freshPattern (by decide)
  exact ⟨s1, hpush, hnone.mpr (by decide), hfree (by decide)⟩

/-- C5: for every key and size whose slot lies inside the array and is empty:
`createCachePattern` (with `malloc` returning a non-null block) followed by `addCachePattern`
leaves a Pattern with `width = w`, `height = h`, `inUse = 1`, `managed = 1` installed in the
slot, and a following `popCachePattern` with the same key and size returns that same Pattern,
now with `inUse = 2`. -/
theorem create_add_pop (s : Mem) (new : Nat) (blk : Pattern) (p0 p1 p2 w h : Int)
    (tw th : Nat) (mesh : Int) (hnew : new ≠ 0) (hb : getHash p0 p1 < PATTERN_CACHE_LEN)
    (hempty : s.patternCache (getHash p0 p1) = 0) :
    ∃ s1 s2 s3 o, createCachePattern new blk p0 p1 p2 w h tw th mesh s = some (s1, new) ∧
      addCachePattern new s1 = some s2 ∧
      s2.heap new = some o ∧ o.width = w ∧ o.height = h ∧ o.inUse = 1 ∧ o.managed = 1 ∧
      s2.patternCache (getHash p0 p1) = new ∧
      popCachePattern p0 p1 p2 w h s2 = some (s3, new) ∧
      s3.heap new = some { o with inUse := 2 } := by
  have hd := deref_store_same s { blk with
            param0 := p0, param1 := p1, param2 := p2,
            width := w, height := h, managed := 0, inUse := 1,
            tw := tw, th := th, mesh := mesh } hnew
  have hadd := addCachePattern_empty hd hb (by simpa [Mem.store] using hempty)
  have hcreate : createCachePattern new blk p0 p1 p2 w h tw th mesh s
      = some (s.store new { blk with
            param0 := p0, param1 := p1, param2 := p2,
            width := w, height := h, managed := 0, inUse := 1,
            tw := tw, th := th, mesh := mesh }, new) := by
    simp [createCachePattern, hnew]
  have hpop : popCachePattern p0 p1 p2 w h
      (((s.store new { blk with
            param0 := p0, param1 := p1, param2 := p2,
            width := w, height := h, managed := 0, inUse := 1,
            tw := tw, th := th, mesh := mesh }).store new { blk with
            param0 := p0, param1 := p1, param2 := p2,
            width := w, height := h, managed := 1, inUse := 1,
            tw := tw, th := th, mesh := mesh }).setSlot (getHash p0 p1) new)
      = some ((((s.store new { blk with
            param0 := p0, param1 := p1, param2 := p2,
            width := w, height := h, managed := 0, inUse := 1,
            tw := tw, th := th, mesh := mesh }).store new { blk with
            param0 := p0, param1 := p1, param2 := p2,
            width := w, height := h, managed := 1, inUse := 1,
            tw := tw, th := th, mesh := mesh }).setSlot (getHash p0 p1) new).store new
          { blk with
            param0 := p0, param1 := p1, param2 := p2,
            width := w, height := h, managed := 1, inUse := 2,
            tw := tw, th := th, mesh := mesh }, new) := by
    simp [popCachePattern, hb, Mem.setSlot, Mem.store, Mem.deref, hnew]
  exact ⟨_, _, _, { blk with
            param0 := p0, param1 := p1, param2 := p2,
            width := w, height := h, managed := 1, inUse := 1,
            tw := tw, th := th, mesh := mesh }, hcreate, hadd, by simp [Mem.setSlot, Mem.store],
    rfl, rfl, rfl, rfl, by simp [Mem.setSlot], hpop, by simp [Mem.store]⟩

theorem create_add_pop_witness :
    (1 : Nat) ≠ 0 ∧ getHash 1 2 < PATTERN_CACHE_LEN ∧
    Mem.init.patternCache (getHash 1 2) = 0 ∧
    ∃ s1 s2 s3 o, createCachePattern 1 zeroBlock 1 2 3 8 8 0 0 0 Mem.init = some (s1, 1) ∧
      addCachePattern 1 s1 = some s2 ∧
      s2.heap 1 = some o ∧ o.width = 8 ∧ o.height = 8 ∧ o.inUse = 1 ∧ o.managed = 1 ∧
      s2.patternCache (getHash 1 2) = 1 ∧
      popCachePattern 1 2 3 8 8 s2 = some (s3, 1) ∧
      s3.heap 1 = some { o with inUse := 2 } :=
  ⟨by decide, by decide, by decide,
    create_add_pop Mem.init 1 zeroBlock 1 2 3 8 8 0 0 0 (by decide) (by decide) (by decide)⟩

/-- C6: the key `(0x55, 0x55000000)` hashes to `0xFFFF`, which is the length of
`patternCache[0xFFFF]` and so one past its last element: `popCachePattern` and
`addCachePattern` index the array outside its bounds there. -/
theorem getHash_reaches_array_length :
    PATTERN_CACHE_LEN = 0xFFFF ∧ getHash 0x55 0x55000000 = 0xFFFF ∧
    ¬ (getHash 0x55 0x55000000 < PATTERN_CACHE_LEN) ∧
    (popCachePattern 0x55 0x55000000 0 8 8 Mem.init).isNone = true ∧
    ((createCachePattern 1 zeroBlock 0x55 0x55000000 0 8 8 0 0 0 Mem.init).bind
        (fun r => addCachePattern r.2 r.1)).isNone = true := by
  decide

/-! ## Theorems: window tests -/

set_option maxRecDepth 100000 in
theorem and_mod_256 (n k : Nat) (hk : k < 256) : n &&& k = (n % 256) &&& k := by
  have h1 : (255 : Nat) &&& k = k := by
    revert k; decide
  have h2 : n % 256 = n &&& 255 := (Nat.and_pow_two_sub_one_eq_mod n 8).symm
  rw [h2, Nat.and_assoc, h1]

/-- An AND with a mask below 256 sees only the low byte of the `int`. -/
theorem cAnd_low (a : Int) :
    ∃ m, m < 256 ∧ ∀ k : Nat, k < 256 → cAnd a (k : Int) = m &&& k := by
  refine ⟨(a % 4294967296).toNat % 256, Nat.mod_lt _ (by decide), ?_⟩
  intro k hk
  unfold cAnd
  have hkk : ((k : Int) % 4294967296).toNat = k := by omega
  rw [hkk]
  exact and_mod_256 _ _ hk

set_option maxRecDepth 100000 in
theorem bits_2a : ∀ m < 256,
    (m &&& 0x2a = 0 ↔ m &&& 2 = 0 ∧ m &&& 8 = 0 ∧ m &&& 0x20 = 0) ∧
    (m &&& 0x2a = 0x22 ↔ m &&& 2 ≠ 0 ∧ m &&& 8 = 0 ∧ m &&& 0x20 ≠ 0) ∧
    (m &&& 0x2a = 0x28 ↔ m &&& 2 = 0 ∧ m &&& 8 ≠ 0 ∧ m &&& 0x20 ≠ 0) ∧
    (m &&& 0x2a = 0x2a ↔ m &&& 2 ≠ 0 ∧ m &&& 8 ≠ 0 ∧ m &&& 0x20 ≠ 0) ∧
    (m &&& 0x80 = 0x80 ↔ m &&& 0x80 ≠ 0) := by
  decide

/-- How the tests `(wctl & 0x2a) == ...` and `(wctl & 0x80) == 0x80` of `TestBothWindow` read in
terms of the single enable bits and of the logic bit. -/
theorem wctl_bits (wctl : Int) :
    (cAnd wctl 0x2a = 0 ↔ cAnd wctl 0x2 = 0 ∧ cAnd wctl 0x8 = 0 ∧ cAnd wctl 0x20 = 0) ∧
    (cAnd wctl 0x2a = 0x22 ↔ cAnd wctl 0x2 ≠ 0 ∧ cAnd wctl 0x8 = 0 ∧ cAnd wctl 0x20 ≠ 0) ∧
    (cAnd wctl 0x2a = 0x28 ↔ cAnd wctl 0x2 = 0 ∧ cAnd wctl 0x8 ≠ 0 ∧ cAnd wctl 0x20 ≠ 0) ∧
    (cAnd wctl 0x2a = 0x2a ↔ cAnd wctl 0x2 ≠ 0 ∧ cAnd wctl 0x8 ≠ 0 ∧ cAnd wctl 0x20 ≠ 0) ∧
    (cAnd wctl 0x80 = 0x80 ↔ cAnd wctl 0x80 ≠ 0) := by
  obtain ⟨m, hm, hk⟩ := cAnd_low wctl
  have e2a : cAnd wctl 0x2a = m &&& 0x2a := by exact_mod_cast hk 0x2a (by decide)
  have e2 : cAnd wctl 0x2 = m &&& 0x2 := by exact_mod_cast hk 0x2 (by decide)
  have e8 : cAnd wctl 0x8 = m &&& 0x8 := by exact_mod_cast hk 0x8 (by decide)
  have e20 : cAnd wctl 0x20 = m &&& 0x20 := by exact_mod_cast hk 0x20 (by decide)
  have e80 : cAnd wctl 0x80 = m &&& 0x80 := by exact_mod_cast hk 0x80 (by decide)
  rw [e2a, e2, e8, e20, e80]
  exact bits_2a m hm

theorem TestWindow_disabled (vdp2height wctl enablemask inoutmask : Int)
    (clip : clipping_struct) (x y : Int) (h : cAnd wctl enablemask = 0) :
    TestWindow vdp2height wctl enablemask inoutmask clip x y = 3 := by
  simp [TestWindow, h]

theorem TestWindow_enabled (vdp2height wctl enablemask inoutmask : Int)
    (clip : clipping_struct) (x y : Int) (h : cAnd wctl enablemask ≠ 0) :
    TestWindow vdp2height wctl enablemask inoutmask clip x y = 0 ∨
    TestWindow vdp2height wctl enablemask inoutmask clip x y = 1 := by
  unfold TestWindow
  rw [if_pos h]
  split
  · split
    · left; rfl
    · right; rfl
  · split
    · left; rfl
    · split
      · left; rfl
      · right; rfl

theorem TestSpriteWindow_disabled {vdp2width wctl x y : Int} (h : cAnd wctl 0x20 = 0)
    (hr : y * vdp2width + x < 704 * 512) : TestSpriteWindow vdp2width wctl x y = 3 := by
  unfold TestSpriteWindow
  simp only
  rw [if_neg (by omega)]
  simp [h]

theorem TestSpriteWindow_enabled (vdp2width wctl x y : Int) (h : cAnd wctl 0x20 ≠ 0) :
    TestSpriteWindow vdp2width wctl x y = 0 ∨ TestSpriteWindow vdp2width wctl x y = 1 := by
  unfold TestSpriteWindow
  simp only
  split
  · left; rfl
  · simp only [h, ne_eq, not_false_eq_true, if_true]
    split
    · left; simp
    · right; simp

theorem cAnd_values :
    cAnd 3 2 = 2 ∧ cAnd 0 2 = 0 ∧ cAnd 1 2 = 0 ∧ cAnd 3 1 = 1 ∧ cAnd 0 1 = 0 ∧ cAnd 1 1 = 1 := by
  decide

/-- The body of `TestBothWindow` in terms of the results of the three single tests. -/
theorem TestBothWindow_eq (vdp2width vdp2height wctl : Int) (clip : Nat → clipping_struct)
    (x y w0 w1 spr : Int)
    (h0 : TestWindow vdp2height wctl 0x2 0x1 (clip 0) x y = w0)
    (h1 : TestWindow vdp2height wctl 0x8 0x4 (clip 1) x y = w1)
    (hs : TestSpriteWindow vdp2width wctl x y = spr) :
    TestBothWindow vdp2width vdp2height wctl clip x y =
      if cAnd wctl 0x2a = 0 then (if cAnd wctl 0x80 = 0x80 then 0 else 1)
      else if cAnd w1 2 ≠ 0 ∧ cAnd spr 2 ≠ 0 then (cAnd w0 1 : Int)
      else if cAnd w0 2 ≠ 0 ∧ cAnd spr 2 ≠ 0 then (cAnd w1 1 : Int)
      else if cAnd spr 2 ≠ 0 then WindowLogic wctl w0 w1
      else if cAnd w1 2 ≠ 0 ∧ cAnd w0 2 ≠ 0 then (cAnd spr 1 : Int)
      else if cAnd wctl 0x2a = 0x22 then WindowLogic wctl w0 spr
      else if cAnd wctl 0x2a = 0x28 then WindowLogic wctl w1 spr
      else if cAnd wctl 0x2a = 0x2a then
        (if cAnd wctl 0x80 = 0x80 then (if w0 ≠ 0 ∨ w1 ≠ 0 ∨ spr ≠ 0 then 1 else 0)
         else (if w0 ≠ 0 ∧ w1 ≠ 0 ∧ spr ≠ 0 then 1 else 0))
      else 1 := by
  subst h0 h1 hs
  rfl

theorem TestWindow_values (vdp2height wctl enablemask inoutmask : Int)
    (clip : clipping_struct) (x y : Int) :
    (cAnd wctl enablemask = 0 ∧ TestWindow vdp2height wctl enablemask inoutmask clip x y = 3) ∨
    (cAnd wctl enablemask ≠ 0 ∧
      (TestWindow vdp2height wctl enablemask inoutmask clip x y = 0 ∨
       TestWindow vdp2height wctl enablemask inoutmask clip x y = 1)) := by
  by_cases h : cAnd wctl enablemask = 0
  · exact Or.inl ⟨h, TestWindow_disabled _ _ _ _ _ _ _ h⟩
  · exact Or.inr ⟨h, TestWindow_enabled _ _ _ _ _ _ _ h⟩

theorem TestSpriteWindow_values (vdp2width wctl x y : Int)
    (hr : cAnd wctl 0x20 ≠ 0 ∨ y * vdp2width + x < 704 * 512) :
    (cAnd wctl 0x20 = 0 ∧ TestSpriteWindow vdp2width wctl x y = 3) ∨
    (cAnd wctl 0x20 ≠ 0 ∧
      (TestSpriteWindow vdp2width wctl x y = 0 ∨ TestSpriteWindow vdp2width wctl x y = 1)) := by
  by_cases h : cAnd wctl 0x20 = 0
  · rcases hr with hr | hr
    · exact absurd h hr
    · exact Or.inl ⟨h, TestSpriteWindow_disabled h hr⟩
  · exact Or.inr ⟨h, TestSpriteWindow_enabled _ _ _ _ h⟩

/-! ### Claims on the window tests -/

/-- C7 (as amended): let exactly one of the window-enable bits `0x02`, `0x08`, `0x20` of `wctl`
be set, and let the pixel's index `y * vdp2width + x` be below `704 * 512` unless the enabled
window is the sprite window.  Then for all clip rectangles `TestBothWindow` returns bit 0 of the
enabled window's own test (`TestWindow` on `clip[0]` for window 0, on `clip[1]` for window 1,
`TestSpriteWindow` for the sprite window): the other windows' geometry has no part in it. -/
theorem TestBothWindow_single (vdp2width vdp2height wctl : Int) (clip : Nat → clipping_struct)
    (x y : Int) (hr : cAnd wctl 0x20 ≠ 0 ∨ y * vdp2width + x < 704 * 512) :
    (cAnd wctl 0x2 ≠ 0 → cAnd wctl 0x8 = 0 → cAnd wctl 0x20 = 0 →
      TestBothWindow vdp2width vdp2height wctl clip x y
        = cAnd (TestWindow vdp2height wctl 0x2 0x1 (clip 0) x y) 1) ∧
    (cAnd wctl 0x2 = 0 → cAnd wctl 0x8 ≠ 0 → cAnd wctl 0x20 = 0 →
      TestBothWindow vdp2width vdp2height wctl clip x y
        = cAnd (TestWindow vdp2height wctl 0x8 0x4 (clip 1) x y) 1) ∧
    (cAnd wctl 0x2 = 0 → cAnd wctl 0x8 = 0 → cAnd wctl 0x20 ≠ 0 →
      TestBothWindow vdp2width vdp2height wctl clip x y
        = cAnd (TestSpriteWindow vdp2width wctl x y) 1) := by
  obtain ⟨b0, _, _, _, _⟩ := wctl_bits wctl
  obtain ⟨c32, c02, c12, c31, c01, c11⟩ := cAnd_values
  refine ⟨?_, ?_, ?_⟩
  · intro e0 e1 es
    have h1 := TestWindow_disabled vdp2height wctl 0x8 0x4 (clip 1) x y e1
    have hs := TestSpriteWindow_disabled es (hr.resolve_left (by simp [es]))
    rw [TestBothWindow_eq _ _ _ _ _ _ _ _ _ rfl h1 hs]
    simp [b0, e0, c32]
  · intro e0 e1 es
    have h0 := TestWindow_disabled vdp2height wctl 0x2 0x1 (clip 0) x y e0
    have hs := TestSpriteWindow_disabled es (hr.resolve_left (by simp [es]))
    rcases TestWindow_enabled vdp2height wctl 0x8 0x4 (clip 1) x y e1 with h1 | h1
    · rw [TestBothWindow_eq _ _ _ _ _ _ _ _ _ h0 h1 hs, h1]
      simp [b0, e1, c32, c02, c01]
    · rw [TestBothWindow_eq _ _ _ _ _ _ _ _ _ h0 h1 hs, h1]
      simp [b0, e1, c32, c12, c11]
  · intro e0 e1 es
    have h0 := TestWindow_disabled vdp2height wctl 0x2 0x1 (clip 0) x y e0
    have h1 := TestWindow_disabled vdp2height wctl 0x8 0x4 (clip 1) x y e1
    rcases TestSpriteWindow_enabled vdp2width wctl x y es with hs | hs
    · rw [TestBothWindow_eq _ _ _ _ _ _ _ _ _ h0 h1 hs, hs]
      simp [b0, es, c32, c02, c01]
    · rw [TestBothWindow_eq _ _ _ _ _ _ _ _ _ h0 h1 hs, hs]
      simp [b0, es, c32, c12, c11]

theorem TestBothWindow_single_witness :
    (cAnd 0x03 0x20 ≠ 0 ∨ (5 : Int) * 320 + 5 < 704 * 512) ∧
    TestBothWindow 320 224 0x03 exampleClip 5 5
      = cAnd (TestWindow 224 0x03 0x2 0x1 (exampleClip 0) 5 5) 1 :=
  ⟨by decide,
   (TestBothWindow_single 320 224 0x03 exampleClip 5 5 (by decide)).1
     (by decide) (by decide) (by decide)⟩

/-- C7 as stated fails: with only window 0 enabled (`wctl = 0x03`, draw inside), screen width
704 and the pixel `(0, 512)`, whose index is `704 * 512`, window 0's own test fails (bit 0 is
`0`) but `TestBothWindow` returns `1`. -/
theorem TestBothWindow_single_counterexample :
    cAnd 0x03 0x2 ≠ 0 ∧ cAnd 0x03 0x8 = 0 ∧ cAnd 0x03 0x20 = 0 ∧
    cAnd (TestWindow 896 0x03 0x2 0x1 (exampleClip 0) 0 512) 1 = 0 ∧
    TestBothWindow 704 896 0x03 exampleClip 0 512 = 1 := by
  decide

/-- C8 (as amended): let two or three of the window-enable bits `0x02`, `0x08`, `0x20` of
`wctl` be set, and let the pixel's index `y * vdp2width + x` be below `704 * 512` unless the
sprite window is among the enabled ones.  With the logic bit `0x80` set ("AND")
`TestBothWindow` is non-zero exactly when at least one enabled window's own test passes (bit 0
set); with the bit clear ("OR") it is non-zero exactly when every enabled window's own test
passes. -/
theorem TestBothWindow_multi (vdp2width vdp2height wctl : Int) (clip : Nat → clipping_struct)
    (x y : Int) (hr : cAnd wctl 0x20 ≠ 0 ∨ y * vdp2width + x < 704 * 512)
    (h2 : (cAnd wctl 0x2 ≠ 0 ∧ cAnd wctl 0x8 ≠ 0) ∨ (cAnd wctl 0x2 ≠ 0 ∧ cAnd wctl 0x20 ≠ 0) ∨
          (cAnd wctl 0x8 ≠ 0 ∧ cAnd wctl 0x20 ≠ 0)) :
    (cAnd wctl 0x80 ≠ 0 →
      (TestBothWindow vdp2width vdp2height wctl clip x y ≠ 0 ↔
        (cAnd wctl 0x2 ≠ 0 ∧ cAnd (TestWindow vdp2height wctl 0x2 0x1 (clip 0) x y) 1 ≠ 0) ∨
        (cAnd wctl 0x8 ≠ 0 ∧ cAnd (TestWindow vdp2height wctl 0x8 0x4 (clip 1) x y) 1 ≠ 0) ∨
        (cAnd wctl 0x20 ≠ 0 ∧ cAnd (TestSpriteWindow vdp2width wctl x y) 1 ≠ 0))) ∧
    (cAnd wctl 0x80 = 0 →
      (TestBothWindow vdp2width vdp2height wctl clip x y ≠ 0 ↔
        (cAnd wctl 0x2 ≠ 0 → cAnd (TestWindow vdp2height wctl 0x2 0x1 (clip 0) x y) 1 ≠ 0) ∧
        (cAnd wctl 0x8 ≠ 0 → cAnd (TestWindow vdp2height wctl 0x8 0x4 (clip 1) x y) 1 ≠ 0) ∧
        (cAnd wctl 0x20 ≠ 0 → cAnd (TestSpriteWindow vdp2width wctl x y) 1 ≠ 0))) := by
  obtain ⟨b0, b22, b28, b2a, b80⟩ := wctl_bits wctl
  obtain ⟨c32, c02, c12, c31, c01, c11⟩ := cAnd_values
  have v0 := TestWindow_values vdp2height wctl 0x2 0x1 (clip 0) x y
  have v1 := TestWindow_values vdp2height wctl 0x8 0x4 (clip 1) x y
  have vs := TestSpriteWindow_values vdp2width wctl x y hr
  constructor
  · intro hl
    rcases v0 with ⟨e0, h0⟩ | ⟨e0, h0 | h0⟩ <;>
    rcases v1 with ⟨e1, h1⟩ | ⟨e1, h1 | h1⟩ <;>
    rcases vs with ⟨es, hs⟩ | ⟨es, hs | hs⟩ <;>
    first
      | (exfalso; rcases h2 with h | h | h <;> [exact h.1 e0; exact h.1 e0; exact h.1 e1])
      | (exfalso; rcases h2 with h | h | h <;> [exact h.2 e1; exact h.2 es; exact h.2 es])
      | (rw [TestBothWindow_eq _ _ _ _ _ _ _ _ _ h0 h1 hs, h0, h1, hs]
         simp [b0, b22, b28, b2a, b80, e0, e1, es, hl, c32, c02, c12, c31, c01, c11,
           WindowLogic])
  · intro hl
    have hl80 : ¬ cAnd wctl 0x80 = 0x80 := by rw [b80]; simpa using hl
    rcases v0 with ⟨e0, h0⟩ | ⟨e0, h0 | h0⟩ <;>
    rcases v1 with ⟨e1, h1⟩ | ⟨e1, h1 | h1⟩ <;>
    rcases vs with ⟨es, hs⟩ | ⟨es, hs | hs⟩ <;>
    first
      | (exfalso; rcases h2 with h | h | h <;> [exact h.1 e0; exact h.1 e0; exact h.1 e1])
      | (exfalso; rcases h2 with h | h | h <;> [exact h.2 e1; exact h.2 es; exact h.2 es])
      | (rw [TestBothWindow_eq _ _ _ _ _ _ _ _ _ h0 h1 hs, h0, h1, hs]
         simp [b0, b22, b28, b2a, hl80, e0, e1, es, c32, c02, c12, c31, c01, c11,
           WindowLogic])

theorem TestBothWindow_multi_witness :
    (cAnd 0x8F 0x20 ≠ 0 ∨ (5 : Int) * 320 + 20 < 704 * 512) ∧
    ((cAnd 0x8F 0x2 ≠ 0 ∧ cAnd 0x8F 0x8 ≠ 0) ∨ (cAnd 0x8F 0x2 ≠ 0 ∧ cAnd 0x8F 0x20 ≠ 0) ∨
      (cAnd 0x8F 0x8 ≠ 0 ∧ cAnd 0x8F 0x20 ≠ 0)) ∧
    TestBothWindow 320 224 0x8F exampleClip 20 5 = 0 := by
  refine ⟨by decide, by decide, ?_⟩
  have h := (TestBothWindow_multi 320 224 0x8F exampleClip 20 5 (by decide) (by decide)).1
    (by decide)
  by_contra hne
  have := h.mp hne
  revert this
  decide

/-- C8 as stated fails: with windows 0 and 1 enabled and the sprite window disabled
(`wctl = 0x8F`: logic bit set, both windows drawn inside), screen width 704 and the pixel
`(0, 512)`, whose index is `704 * 512`, neither enabled window's own test passes but
`TestBothWindow` returns `1`. -/
theorem TestBothWindow_multi_counterexample :
    cAnd 0x8F 0x2 ≠ 0 ∧ cAnd 0x8F 0x8 ≠ 0 ∧ cAnd 0x8F 0x20 = 0 ∧ cAnd 0x8F 0x80 ≠ 0 ∧
    cAnd (TestWindow 896 0x8F 0x2 0x1 (exampleClip 0) 0 512) 1 = 0 ∧
    cAnd (TestWindow 896 0x8F 0x8 0x4 (exampleClip 1) 0 512) 1 = 0 ∧
    TestBothWindow 704 896 0x8F exampleClip 0 512 = 1 := by
  decide

/-! ## Theorems: `VIDSoftGLESDrawCommands` -/

/-- One execution of the loop body records itself, and either aborts (setting `EDSR` bit 1 and
leaving the counter) or counts one command and leaves `EDSR`, `LOPR`, `COPR` alone. -/
theorem loopBody_cases {σ : Type} (env : Vdp1Env σ) (st : DrawState σ) :
    (loopBody env st).iterations = st.iterations ++ [(st.regs.addr, st.command)] ∧
    (((loopBody env st).aborted = true ∧
        (loopBody env st).regs.EDSR = st.regs.EDSR ||| 2 ∧
        (loopBody env st).commandCounter = st.commandCounter) ∨
     ((loopBody env st).aborted = st.aborted ∧
        (loopBody env st).regs.EDSR = st.regs.EDSR ∧
        (loopBody env st).regs.LOPR = st.regs.LOPR ∧
        (loopBody env st).regs.COPR = st.regs.COPR ∧
        (loopBody env st).commandCounter = (st.commandCounter + 1) % 4294967296)) := by
  unfold loopBody
  simp only
  split
  · exact ⟨rfl, Or.inl ⟨rfl, rfl, rfl⟩⟩
  · exact ⟨rfl, Or.inr ⟨rfl, rfl, rfl, rfl, rfl⟩⟩

/-- The loop does nothing when its condition fails at entry. -/
theorem drawLoop_stop {σ : Type} (env : Vdp1Env σ) (fuel : Nat) (st : DrawState σ)
    (hc : ¬ (st.command &&& 0x8000 = 0 ∧ st.commandCounter < 2000)) :
    drawLoop env fuel st = st := by
  cases fuel with
  | zero => rfl
  | succ fuel => simp only [drawLoop, hc, if_false]

/-- Fuel beyond `2000 - commandCounter` does not change the result of the loop. -/
theorem drawLoop_fuel {σ : Type} (env : Vdp1Env σ) (fuel : Nat) :
    ∀ (st : DrawState σ) (k : Nat), 2000 - st.commandCounter ≤ fuel →
      drawLoop env (fuel + k) st = drawLoop env fuel st := by
  induction fuel with
  | zero =>
    intro st k hf
    cases k with
    | zero => rfl
    | succ k =>
      have hc : ¬ st.commandCounter < 2000 := by omega
      simp [drawLoop, hc]
  | succ fuel ih =>
    intro st k hf
    have hk : fuel + 1 + k = (fuel + k) + 1 := by omega
    rw [hk]
    unfold drawLoop
    split
    · rename_i hcond
      obtain ⟨_, hcase⟩ := loopBody_cases env st
      simp only
      split
      · rfl
      · rename_i hab
        rcases hcase with ⟨hab1, _⟩ | ⟨_, _, _, _, hcnt⟩
        · exact absurd hab1 hab
        · apply ih
          rw [hcnt]
          omega
    · rfl

/-- The invariant of the loop: the body has run once per counted command, plus once if the
run aborted; no processed command word has bit 15 set; the run ends aborted, on an end
command, or at the ceiling; `EDSR` changes only on the abort path. -/
theorem drawLoop_inv {σ : Type} (env : Vdp1Env σ) (fuel : Nat) :
    ∀ st : DrawState σ, st.aborted = false → 2000 - st.commandCounter ≤ fuel →
      st.commandCounter ≤ 2000 →
      st.iterations.length = st.commandCounter →
      (∀ e ∈ st.iterations, e.2 &&& 0x8000 = 0) →
      ((drawLoop env fuel st).iterations.length =
          (drawLoop env fuel st).commandCounter +
            (if (drawLoop env fuel st).aborted then 1 else 0)) ∧
      ((drawLoop env fuel st).aborted = true → (drawLoop env fuel st).commandCounter < 2000) ∧
      (drawLoop env fuel st).commandCounter ≤ 2000 ∧
      (∀ e ∈ (drawLoop env fuel st).iterations, e.2 &&& 0x8000 = 0) ∧
      ((drawLoop env fuel st).aborted = true ∨
        (drawLoop env fuel st).command &&& 0x8000 ≠ 0 ∨
        2000 ≤ (drawLoop env fuel st).commandCounter) ∧
      ((drawLoop env fuel st).aborted = false →
        (drawLoop env fuel st).regs.EDSR = st.regs.EDSR ∧
        (drawLoop env fuel st).regs.LOPR = st.regs.LOPR ∧
        (drawLoop env fuel st).regs.COPR = st.regs.COPR) ∧
      ((drawLoop env fuel st).aborted = true →
        (drawLoop env fuel st).regs.EDSR = st.regs.EDSR ||| 2) := by
  induction fuel with
  | zero =>
    intro st hab hf hc hlen hend
    have h0 : drawLoop env 0 st = st := rfl
    rw [h0]
    refine ⟨by simp [hab, hlen], by simp [hab], hc, hend, ?_, fun _ => ⟨rfl, rfl, rfl⟩,
      by simp [hab]⟩
    right; right; omega
  | succ fuel ih =>
    intro st hab hf hc hlen hend
    by_cases hcond : st.command &&& 0x8000 = 0 ∧ st.commandCounter < 2000
    · obtain ⟨hit, hcase⟩ := loopBody_cases env st
      have hend1 : ∀ e ∈ (loopBody env st).iterations, e.2 &&& 0x8000 = 0 := by
        intro e he
        rw [hit, List.mem_append] at he
        rcases he with he | he
        · exact hend e he
        · simp only [List.mem_singleton] at he
          subst he
          exact hcond.1
      by_cases hab1 : (loopBody env st).aborted = true
      · have h1 : drawLoop env (fuel + 1) st = loopBody env st := by
          simp [drawLoop, hcond, hab1]
        rw [h1]
        rcases hcase with ⟨_, hed, hcnt⟩ | ⟨hab2, _⟩
        · refine ⟨?_, ?_, ?_, hend1, Or.inl hab1, ?_, fun _ => hed⟩
          · rw [hit, hcnt]; simp [hab1, hlen]
          · intro _; rw [hcnt]; exact hcond.2
          · rw [hcnt]; exact hc
          · intro h; rw [hab1] at h; exact absurd h (by simp)
        · rw [hab2, hab] at hab1; exact absurd hab1 (by simp)
      · have h1 : drawLoop env (fuel + 1) st = drawLoop env fuel (loopBody env st) := by
          simp [drawLoop, hcond, hab1]
        rw [h1]
        rcases hcase with ⟨hab2, _⟩ | ⟨_, hed, hlo, hco, hcnt⟩
        · exact absurd hab2 hab1
        · have hcnt1 : (loopBody env st).commandCounter = st.commandCounter + 1 := by
            rw [hcnt]; omega
          have hab0 : (loopBody env st).aborted = false := by simpa using hab1
          obtain ⟨r1, r2, r3, r4, r5, r6, r7⟩ := ih (loopBody env st) hab0 (by omega)
            (by omega) (by rw [hit, hcnt1]; simp [hlen]) hend1
          refine ⟨r1, r2, r3, r4, r5, ?_, ?_⟩
          · intro h
            obtain ⟨a, b, c⟩ := r6 h
            exact ⟨a.trans hed, b.trans hlo, c.trans hco⟩
          · intro h
            rw [r7 h, hed]
    · have h1 : drawLoop env (fuel + 1) st = st := by
        simp only [drawLoop, hcond, if_false]
      rw [h1]
      refine ⟨by simp [hab, hlen], by simp [hab], hc, hend, ?_,
        fun _ => ⟨rfl, rfl, rfl⟩, by simp [hab]⟩
      by_cases hc2 : st.commandCounter < 2000
      · right; left
        intro h0
        exact hcond ⟨h0, hc2⟩
      · right; right; omega

/-- On the cyclic stream `cyclicEnv` the loop body returns to the command at address `0`. -/
theorem cyclicEnv_body (st : DrawState Unit)
    (hregs : st.regs = { addr := 0, EDSR := 0, LOPR := 0, COPR := 0 })
    (hcmd : st.command = 0x5000) :
    (loopBody cyclicEnv st).regs = { addr := 0, EDSR := 0, LOPR := 0, COPR := 0 } ∧
    (loopBody cyclicEnv st).command = 0x5000 ∧
    (loopBody cyclicEnv st).aborted = st.aborted := by
  have h1 : (0x5000 : Nat) &&& 0x4000 ≠ 0 := by decide
  have h2 : ((0x5000 : Nat) &&& 0x3000) >>> 12 = 1 := by decide
  unfold loopBody
  simp only [hcmd, hregs, h1, if_false, nextAddr, h2]
  simp [cyclicEnv]

theorem cyclicEnv_loop (fuel : Nat) :
    ∀ st : DrawState Unit, st.regs = { addr := 0, EDSR := 0, LOPR := 0, COPR := 0 } →
      st.command = 0x5000 → st.aborted = false →
      (drawLoop cyclicEnv fuel st).regs = { addr := 0, EDSR := 0, LOPR := 0, COPR := 0 } ∧
      (drawLoop cyclicEnv fuel st).command = 0x5000 ∧
      (drawLoop cyclicEnv fuel st).aborted = false := by
  induction fuel with
  | zero => intro st hregs hcmd hab; exact ⟨hregs, hcmd, hab⟩
  | succ fuel ih =>
    intro st hregs hcmd hab
    obtain ⟨b1, b2, b3⟩ := cyclicEnv_body st hregs hcmd
    rw [hab] at b3
    by_cases hcond : st.command &&& 0x8000 = 0 ∧ st.commandCounter < 2000
    · have h1 : drawLoop cyclicEnv (fuel + 1) st = drawLoop cyclicEnv fuel (loopBody cyclicEnv st) := by
        simp [drawLoop, hcond, b3]
      rw [h1]
      exact ih _ b1 b2 b3
    · rw [drawLoop_stop cyclicEnv (fuel + 1) st hcond]
      exact ⟨hregs, hcmd, hab⟩

/-- The run on the cyclic stream `cyclicEnv`: 2000 commands counted, no abort, the last fetched
word is again `0x5000`, the registers are as at entry. -/
theorem cyclicEnv_run :
    (VIDSoftGLESDrawCommands cyclicEnv { addr := 0, EDSR := 0, LOPR := 0, COPR := 0 }
      ()).commandCounter = 2000 ∧
    (VIDSoftGLESDrawCommands cyclicEnv { addr := 0, EDSR := 0, LOPR := 0, COPR := 0 }
      ()).aborted = false ∧
    (VIDSoftGLESDrawCommands cyclicEnv { addr := 0, EDSR := 0, LOPR := 0, COPR := 0 }
      ()).command = 0x5000 ∧
    (VIDSoftGLESDrawCommands cyclicEnv { addr := 0, EDSR := 0, LOPR := 0, COPR := 0 }
      ()).regs = { addr := 0, EDSR := 0, LOPR := 0, COPR := 0 } := by
  obtain ⟨a1, a2, a3⟩ := cyclicEnv_loop 2000
    (drawInit cyclicEnv { addr := 0, EDSR := 0, LOPR := 0, COPR := 0 } ()) rfl (by decide) rfl
  obtain ⟨_, _, r3, _, r5, _, _⟩ :=
    drawLoop_inv cyclicEnv 2000
      (drawInit cyclicEnv { addr := 0, EDSR := 0, LOPR := 0, COPR := 0 } ()) rfl
      (by simp [drawInit]) (by simp [drawInit]) rfl (by simp [drawInit])
  unfold VIDSoftGLESDrawCommands
  refine ⟨?_, a3, a2, a1⟩
  rcases r5 with h | h | h
  · rw [a3] at h; exact absurd h (by simp)
  · rw [a2] at h; exact absurd h (by decide)
  · omega

/-! ### Claims on the command loop -/

/-- C9: for every VDP1 RAM content, every drawing routine and every start address, the loop of
`VIDSoftGLESDrawCommands` terminates (more fuel than 2000 gives the same result), its body runs
at most 2000 times, no command word with bit 15 set is ever processed, the loop is left only
after an abort, on a fetched word with bit 15 set, or with the counter at 2000, and when the
first fetched word already has bit 15 set nothing is processed at all. -/
theorem VIDSoftGLESDrawCommands_bounded {σ : Type} (env : Vdp1Env σ) (regs : Vdp1) (w : σ) :
    (∀ fuel, 2000 ≤ fuel →
      drawLoop env fuel (drawInit env regs w) = VIDSoftGLESDrawCommands env regs w) ∧
    (VIDSoftGLESDrawCommands env regs w).iterations.length ≤ 2000 ∧
    (∀ e ∈ (VIDSoftGLESDrawCommands env regs w).iterations, e.2 &&& 0x8000 = 0) ∧
    ((VIDSoftGLESDrawCommands env regs w).aborted = true ∨
      (VIDSoftGLESDrawCommands env regs w).command &&& 0x8000 ≠ 0 ∨
      (VIDSoftGLESDrawCommands env regs w).commandCounter = 2000) ∧
    (env.T1ReadWord regs.addr % 65536 &&& 0x8000 ≠ 0 →
      VIDSoftGLESDrawCommands env regs w = drawInit env regs w) := by
  obtain ⟨r1, r2, r3, r4, r5, _, _⟩ :=
    drawLoop_inv env 2000 (drawInit env regs w) rfl (by simp [drawInit]) (by simp [drawInit])
      rfl (by simp [drawInit])
  refine ⟨?_, ?_, r4, ?_, ?_⟩
  · intro fuel hf
    obtain ⟨k, rfl⟩ := Nat.exists_eq_add_of_le hf
    exact drawLoop_fuel env 2000 (drawInit env regs w) k (by simp [drawInit])
  · unfold VIDSoftGLESDrawCommands
    rw [r1]
    split
    · rename_i hab
      have := r2 hab
      omega
    · omega
  · unfold VIDSoftGLESDrawCommands
    rcases r5 with h | h | h
    · exact Or.inl h
    · exact Or.inr (Or.inl h)
    · exact Or.inr (Or.inr (by omega))
  · intro hend
    unfold VIDSoftGLESDrawCommands
    exact drawLoop_stop env 2000 (drawInit env regs w) (fun h => hend h.1)

/-- C10 (as amended): when `VIDSoftGLESDrawCommands` stops because the ceiling was reached (it
did not abort and its last fetched command word has bit 15 clear), it has processed exactly
2000 commands and returns with `EDSR`, `LOPR` and `COPR` as they were on entry. -/
theorem VIDSoftGLESDrawCommands_ceiling {σ : Type} (env : Vdp1Env σ) (regs : Vdp1) (w : σ)
    (hrun : (VIDSoftGLESDrawCommands env regs w).aborted = false)
    (hnoend : (VIDSoftGLESDrawCommands env regs w).command &&& 0x8000 = 0) :
    (VIDSoftGLESDrawCommands env regs w).commandCounter = 2000 ∧
    (VIDSoftGLESDrawCommands env regs w).iterations.length = 2000 ∧
    (VIDSoftGLESDrawCommands env regs w).regs.EDSR = regs.EDSR ∧
    (VIDSoftGLESDrawCommands env regs w).regs.LOPR = regs.LOPR ∧
    (VIDSoftGLESDrawCommands env regs w).regs.COPR = regs.COPR := by
  obtain ⟨r1, _, r3, _, r5, r6, _⟩ :=
    drawLoop_inv env 2000 (drawInit env regs w) rfl (by simp [drawInit]) (by simp [drawInit])
      rfl (by simp [drawInit])
  unfold VIDSoftGLESDrawCommands at hrun hnoend ⊢
  have hcnt : (drawLoop env 2000 (drawInit env regs w)).commandCounter = 2000 := by
    rcases r5 with h | h | h
    · rw [hrun] at h; exact absurd h (by simp)
    · exact absurd hnoend h
    · omega
  obtain ⟨a, b, c⟩ := r6 hrun
  refine ⟨hcnt, ?_, a, b, c⟩
  rw [r1, hcnt, hrun]
  simp

theorem VIDSoftGLESDrawCommands_ceiling_witness :
    (VIDSoftGLESDrawCommands cyclicEnv { addr := 0, EDSR := 0, LOPR := 0, COPR := 0 } ()).aborted
      = false ∧
    (VIDSoftGLESDrawCommands cyclicEnv { addr := 0, EDSR := 0, LOPR := 0, COPR := 0 } ()).command
      &&& 0x8000 = 0 ∧
    (VIDSoftGLESDrawCommands cyclicEnv { addr := 0, EDSR := 0, LOPR := 0, COPR := 0 }
      ()).iterations.length = 2000 :=
  ⟨cyclicEnv_run.2.1, by rw [cyclicEnv_run.2.2.1]; decide,
   (VIDSoftGLESDrawCommands_ceiling cyclicEnv { addr := 0, EDSR := 0, LOPR := 0, COPR := 0 } ()
      cyclicEnv_run.2.1 (by rw [cyclicEnv_run.2.2.1]; decide)).2.1⟩

/-- C10 as stated fails: on the cyclic stream `cyclicEnv` (a command that jumps to itself, no
end command) the loop runs into the ceiling of 2000 commands and the function returns with
`EDSR` still `0`: no bit of the status register has been set. -/
theorem VIDSoftGLESDrawCommands_ceiling_counterexample :
    (VIDSoftGLESDrawCommands cyclicEnv { addr := 0, EDSR := 0, LOPR := 0, COPR := 0 }
      ()).commandCounter = 2000 ∧
    (VIDSoftGLESDrawCommands cyclicEnv { addr := 0, EDSR := 0, LOPR := 0, COPR := 0 }
      ()).aborted = false ∧
    (VIDSoftGLESDrawCommands cyclicEnv { addr := 0, EDSR := 0, LOPR := 0, COPR := 0 }
      ()).command &&& 0x8000 = 0 ∧
    (VIDSoftGLESDrawCommands cyclicEnv { addr := 0, EDSR := 0, LOPR := 0, COPR := 0 }
      ()).regs.EDSR = 0 := by
  obtain ⟨h1, h2, h3, h4⟩ := cyclicEnv_run
  refine ⟨h1, h2, ?_, ?_⟩
  · rw [h3]; decide
  · rw [h4]

/-! ### Claims on CALL and RETURN -/

theorem nextAddr_call {σ : Type} (env : Vdp1Env σ) (command addr returnAddr : Nat)
    (h : (command &&& 0x3000) >>> 12 = 2) :
    nextAddr env command addr returnAddr =
      ((env.T1ReadWord ((addr + 2) % 4294967296) % 65536 * 8) % 4294967296,
        if returnAddr = 0xFFFFFFFF then (addr + 0x20) % 4294967296 else returnAddr) := by
  simp only [nextAddr, h]

theorem nextAddr_return {σ : Type} (env : Vdp1Env σ) (command addr returnAddr : Nat)
    (h : (command &&& 0x3000) >>> 12 = 3) :
    nextAddr env command addr returnAddr =
      if returnAddr ≠ 0xFFFFFFFF then (returnAddr, 0xFFFFFFFF)
      else ((addr + 0x20) % 4294967296, returnAddr) := by
  simp only [nextAddr, h]

theorem nextAddr_next {σ : Type} (env : Vdp1Env σ) (command addr returnAddr : Nat)
    (h : (command &&& 0x3000) >>> 12 = 0) :
    nextAddr env command addr returnAddr = ((addr + 0x20) % 4294967296, returnAddr) := by
  simp only [nextAddr, h]

/-- The loop body takes the next address and the pending return address from `nextAddr`
whenever the command is skipped or its opcode is one of the twelve known ones. -/
theorem loopBody_next {σ : Type} (env : Vdp1Env σ) (st : DrawState σ)
    (h : st.command &&& 0x4000 ≠ 0 ∨
      (dispatch env st.command st.regs.addr st.world).isSome = true) :
    (loopBody env st).regs.addr = (nextAddr env st.command st.regs.addr st.returnAddr).1 ∧
    (loopBody env st).returnAddr = (nextAddr env st.command st.regs.addr st.returnAddr).2 := by
  unfold loopBody
  simp only
  rcases h with h | h
  · simp [h]
  · split
    · rename_i hd
      split at hd
      · rw [hd] at h; exact absurd h (by simp)
      · exact absurd hd (by simp)
    · exact ⟨rfl, rfl⟩

/-- C11 (as amended): when a CALL (at address `b`, command `c2`) is executed while the return
address of an earlier CALL (at address `a`, command `c1`) is still pending, the pending return
address is kept and the second one is dropped: the next RETURN (command `c3`, at any address
`c`) transfers control to `a + 0x20`, the command following the first CALL, and clears the
pending address.  (`a + 0x20` is taken in 32 bits and must not be the marker `0xFFFFFFFF`.) -/
theorem nested_call_keeps_first_return {σ : Type} (env : Vdp1Env σ) (c1 c2 c3 a b c : Nat)
    (h1 : (c1 &&& 0x3000) >>> 12 = 2) (h2 : (c2 &&& 0x3000) >>> 12 = 2)
    (h3 : (c3 &&& 0x3000) >>> 12 = 3) (ha : (a + 0x20) % 4294967296 ≠ 0xFFFFFFFF) :
    (nextAddr env c1 a 0xFFFFFFFF).2 = (a + 0x20) % 4294967296 ∧
    (nextAddr env c2 b (nextAddr env c1 a 0xFFFFFFFF).2).2 = (a + 0x20) % 4294967296 ∧
    nextAddr env c3 c (nextAddr env c2 b (nextAddr env c1 a 0xFFFFFFFF).2).2
      = ((a + 0x20) % 4294967296, 0xFFFFFFFF) := by
  rw [nextAddr_call env c1 a _ h1, nextAddr_call env c2 b _ h2, nextAddr_return env c3 c _ h3]
  simp [ha]

theorem nested_call_keeps_first_return_witness :
    ((0x6000 : Nat) &&& 0x3000) >>> 12 = 2 ∧ ((0x7000 : Nat) &&& 0x3000) >>> 12 = 3 ∧
    (0 + 0x20) % 4294967296 ≠ 0xFFFFFFFF ∧
    nextAddr nestedCallEnv 0x7000 0x200
        (nextAddr nestedCallEnv 0x6000 0x100 (nextAddr nestedCallEnv 0x6000 0 0xFFFFFFFF).2).2
      = ((0 + 0x20) % 4294967296, 0xFFFFFFFF) :=
  ⟨by decide, by decide, by decide,
   (nested_call_keeps_first_return nestedCallEnv 0x6000 0x6000 0x7000 0 0x100 0x200
      (by decide) (by decide) (by decide) (by decide)).2.2⟩

/-- C11 as stated fails: on the stream `nestedCallEnv` (CALL at `0` to `0x100`, CALL at `0x100`
to `0x200`, RETURN at `0x200`) the commands processed are exactly these three and the RETURN
leaves the processor at `0x20`, the command after the first CALL, not at `0x120`, the command
after the second CALL. -/
theorem nested_call_counterexample :
    (VIDSoftGLESDrawCommands nestedCallEnv { addr := 0, EDSR := 0, LOPR := 0, COPR := 0 }
      ()).iterations = [(0, 0x6000), (0x100, 0x6000), (0x200, 0x7000)] ∧
    (VIDSoftGLESDrawCommands nestedCallEnv { addr := 0, EDSR := 0, LOPR := 0, COPR := 0 }
      ()).regs.addr = 0x20 ∧
    (VIDSoftGLESDrawCommands nestedCallEnv { addr := 0, EDSR := 0, LOPR := 0, COPR := 0 }
      ()).regs.addr ≠ 0x100 + 0x20 := by
  decide

/-- C12: a command with jump mode RETURN, at address `b`: with a return address `r` pending
(`returnAddr` is not the marker `0xFFFFFFFF`) the address becomes `r` and the pending address
is cleared; with none pending the address advances by `0x20`, exactly as for a command with
jump mode NEXT; and a RETURN right after a single CALL from address `a` resumes at `a + 0x20`
(taken in 32 bits, and not equal to the marker). -/
theorem return_spec {σ : Type} (env : Vdp1Env σ) (cRet cNext cCall a b : Nat)
    (hr : (cRet &&& 0x3000) >>> 12 = 3) (hn : (cNext &&& 0x3000) >>> 12 = 0)
    (hc : (cCall &&& 0x3000) >>> 12 = 2) :
    (∀ r, r ≠ 0xFFFFFFFF → nextAddr env cRet b r = (r, 0xFFFFFFFF)) ∧
    nextAddr env cRet b 0xFFFFFFFF = ((b + 0x20) % 4294967296, 0xFFFFFFFF) ∧
    nextAddr env cRet b 0xFFFFFFFF = nextAddr env cNext b 0xFFFFFFFF ∧
    ((a + 0x20) % 4294967296 ≠ 0xFFFFFFFF →
      nextAddr env cRet (nextAddr env cCall a 0xFFFFFFFF).1 (nextAddr env cCall a 0xFFFFFFFF).2
        = ((a + 0x20) % 4294967296, 0xFFFFFFFF)) := by
  refine ⟨?_, ?_, ?_, ?_⟩
  · intro r hr0
    rw [nextAddr_return env cRet b r hr]
    simp [hr0]
  · rw [nextAddr_return env cRet b _ hr]
    simp
  · rw [nextAddr_return env cRet b _ hr, nextAddr_next env cNext b _ hn]
    simp
  · intro ha
    rw [nextAddr_call env cCall a _ hc, nextAddr_return env cRet _ _ hr]
    simp [ha]

theorem return_spec_witness :
    ((0x7000 : Nat) &&& 0x3000) >>> 12 = 3 ∧ ((0x4000 : Nat) &&& 0x3000) >>> 12 = 0 ∧
    ((0x6000 : Nat) &&& 0x3000) >>> 12 = 2 ∧
    nextAddr nestedCallEnv 0x7000 (nextAddr nestedCallEnv 0x6000 0 0xFFFFFFFF).1
        (nextAddr nestedCallEnv 0x6000 0 0xFFFFFFFF).2
      = ((0 + 0x20) % 4294967296, 0xFFFFFFFF) :=
  ⟨by decide, by decide, by decide,
   (return_spec nestedCallEnv 0x7000 0x4000 0x6000 0 0x100 (by decide) (by decide)
      (by decide)).2.2.2 (by decide)⟩

/-! ## Theorems: `asyncRenderer.c` -/

theorem sem_wait_pos {count : Nat} (h : count ≠ 0) : sem_wait count = some (count - 1) := by
  simp [sem_wait, h]

theorem sem_wait_eq_some {count l : Nat} (h : sem_wait count = some l) :
    count ≠ 0 ∧ l = count - 1 := by
  unfold sem_wait at h
  split at h
  · exact absurd h (by simp)
  · exact ⟨by assumption, (Option.some.inj h).symm⟩

theorem addToList_eq (stack : Nat) (clist : controledList) (h : clist.lock ≠ 0) :
    addToList stack clist =
      some { list := stack :: clist.list, lock := clist.lock, elem := clist.elem + 1 } := by
  unfold addToList
  rw [sem_wait_pos h]
  simp only [sem_post, Option.some.injEq, controledList.mk.injEq, true_and, and_true]
  omega

theorem removeFromList_eq (clist : controledList) (cur : Nat) (next : List Nat)
    (hl : clist.lock ≠ 0) (he : clist.elem ≠ 0) (hlist : clist.list = cur :: next) :
    removeFromList clist =
      some (cur, { list := next, lock := clist.lock, elem := clist.elem - 1 }) := by
  unfold removeFromList
  rw [sem_wait_pos he]
  simp only
  rw [sem_wait_pos hl]
  simp only [hlist, sem_post, Option.some.injEq, Prod.mk.injEq, controledList.mk.injEq,
    true_and, and_true]
  omega

/-- What a completed `addToList` has done. -/
theorem addToList_some {stack : Nat} {clist c : controledList}
    (h : addToList stack clist = some c) :
    clist.lock ≠ 0 ∧
    c = { list := stack :: clist.list, lock := clist.lock, elem := clist.elem + 1 } := by
  by_cases hl : clist.lock = 0
  · simp [addToList, sem_wait, hl] at h
  · rw [addToList_eq stack clist hl] at h
    exact ⟨hl, (Option.some.inj h).symm⟩

/-- What a completed `removeFromList` has done. -/
theorem removeFromList_some {clist c : controledList} {cur : Nat}
    (h : removeFromList clist = some (cur, c)) :
    clist.lock ≠ 0 ∧ clist.elem ≠ 0 ∧ clist.list = cur :: c.list ∧
    c = { list := c.list, lock := clist.lock, elem := clist.elem - 1 } := by
  by_cases he : clist.elem = 0
  · simp [removeFromList, sem_wait, he] at h
  · by_cases hl : clist.lock = 0
    · simp [removeFromList, sem_wait, he, hl] at h
    · cases hlist : clist.list with
      | nil => simp [removeFromList, sem_wait, he, hl, hlist] at h
      | cons x xs =>
        rw [removeFromList_eq clist x xs hl he hlist] at h
        simp only [Option.some.injEq, Prod.mk.injEq] at h
        obtain ⟨hx, hc⟩ := h
        subst hx hc
        exact ⟨hl, he, rfl, rfl⟩

/-- C13: in the sequential model, for every pool that is not empty (its list has a first node,
its availability count is not `0`, its lock is free), `removeFromList` (`getFrame`) returns the
first frame and `addToList` of that frame (`releaseRenderingStack`) then gives back exactly the
state before the pair: same availability count, same list length, same frames. -/
theorem acquire_release (clist : controledList) (cur : Nat) (next : List Nat)
    (hl : clist.lock ≠ 0) (he : clist.elem ≠ 0) (hlist : clist.list = cur :: next) :
    ∃ c1, getFrame clist = some (cur, c1) ∧
      releaseRenderingStack cur c1 = some clist ∧
      (∀ c2, releaseRenderingStack cur c1 = some c2 →
        c2.elem = clist.elem ∧ c2.list.length = clist.list.length ∧
        ∀ f, f ∈ c2.list ↔ f ∈ clist.list) := by
  have hrel : releaseRenderingStack cur
      { list := next, lock := clist.lock, elem := clist.elem - 1 } = some clist := by
    unfold releaseRenderingStack
    rw [addToList_eq cur { list := next, lock := clist.lock, elem := clist.elem - 1 } hl]
    cases clist with
    | mk list lock elem =>
      simp only at hlist he ⊢
      subst hlist
      simp only [Option.some.injEq, controledList.mk.injEq, true_and]
      omega
  refine ⟨_, removeFromList_eq clist cur next hl he hlist, hrel, ?_⟩
  intro c2 h2
  rw [hrel] at h2
  cases h2
  exact ⟨rfl, rfl, fun _ => Iff.rfl⟩

theorem acquire_release_witness :
    (3 : Nat) ≠ 0 ∧
    getFrame { list := [7, 8, 9], lock := 1, elem := 3 }
      = some (7, { list := [8, 9], lock := 1, elem := 2 }) ∧
    releaseRenderingStack 7 { list := [8, 9], lock := 1, elem := 2 }
      = some { list := [7, 8, 9], lock := 1, elem := 3 } := by
  obtain ⟨c1, h1, h2, _⟩ :=
    acquire_release { list := [7, 8, 9], lock := 1, elem := 3 } 7 [8, 9]
      (by decide) (by decide) rfl
  have hc : c1 = { list := [8, 9], lock := 1, elem := 2 } := by
    have : getFrame { list := [7, 8, 9], lock := 1, elem := 3 }
        = some (7, { list := [8, 9], lock := 1, elem := 2 }) := by decide
    rw [this] at h1
    exact ((Prod.mk.inj (Option.some.inj h1)).2).symm
  subst hc
  exact ⟨by decide, h1, h2⟩

/-- C14: the lists are last-in first-out.  With the lock free, `addToList(x)` followed by
`removeFromList` returns `x` and restores the state exactly; every completed `addToList` puts
its frame in front of the list as it was; every completed `removeFromList` returns the frame
in front and leaves the rest of the list as it was. -/
theorem list_lifo (clist : controledList) (x : Nat) (hl : clist.lock ≠ 0) :
    (∃ c1, addToList x clist = some c1 ∧ removeFromList c1 = some (x, clist)) ∧
    (∀ c y c1, addToList y c = some c1 → c1.list = y :: c.list) ∧
    (∀ c r c1, removeFromList c = some (r, c1) → c.list = r :: c1.list) := by
  refine ⟨⟨_, addToList_eq x clist hl, ?_⟩, ?_, ?_⟩
  · rw [removeFromList_eq { list := x :: clist.list, lock := clist.lock, elem := clist.elem + 1 }
      x clist.list hl (Nat.succ_ne_zero _) rfl]
    rfl
  · intro c y c1 h
    rw [(addToList_some h).2]
  · intro c r c1 h
    exact (removeFromList_some h).2.2.1

theorem list_lifo_witness :
    (1 : Nat) ≠ 0 ∧
    ∃ c1, addToList 5 { list := [7, 8], lock := 1, elem := 2 } = some c1 ∧
      removeFromList c1 = some (5, { list := [7, 8], lock := 1, elem := 2 }) :=
  ⟨by decide, (list_lifo { list := [7, 8], lock := 1, elem := 2 } 5 (by decide)).1⟩

/-- The count never exceeds the list length, and agrees with it when the lock is free. -/
theorem ListCall.run_inv {call : ListCall} {clist c : controledList}
    (hinv : clist.elem = clist.list.length ∧ clist.lock = 1) (h : call.run clist = some c) :
    c.elem = c.list.length ∧ c.lock = 1 := by
  cases call with
  | add stack =>
    obtain ⟨_, hc⟩ := addToList_some h
    subst hc
    simp [hinv.1, hinv.2]
  | remove =>
    simp only [ListCall.run, Option.map_eq_some'] at h
    obtain ⟨⟨cur, c1⟩, hrem, hc⟩ := h
    simp only at hc
    subst hc
    obtain ⟨_, he, hlist, hc⟩ := removeFromList_some hrem
    rw [hc]
    simp only
    refine ⟨?_, hinv.2⟩
    have := hinv.1
    rw [hlist] at this
    simp only [List.length_cons] at this
    omega

theorem ListCall.trace_inv {call : ListCall} {clist : controledList}
    (hinv : clist.elem = clist.list.length ∧ clist.lock = 1) :
    ∀ c ∈ call.trace clist, c.elem ≤ c.list.length := by
  obtain ⟨he, hl⟩ := hinv
  cases call with
  | add stack =>
    intro c hc
    simp only [ListCall.trace, addToListTrace, sem_wait, hl, sem_post] at hc
    simp only [Nat.succ_ne_zero, if_false, List.mem_cons, List.mem_singleton,
      List.not_mem_nil, or_false] at hc
    rcases hc with rfl | rfl | rfl | rfl <;> simp [he]
  | remove =>
    intro c hc
    simp only [ListCall.trace, removeFromListTrace, sem_wait] at hc
    split at hc
    · exact absurd hc (by simp)
    · rename_i e hwe
      split at hwe
      · exact absurd hwe (by simp)
      · have hee : e = clist.elem - 1 := (Option.some.inj hwe).symm
        subst hee
        simp only [hl, Nat.succ_ne_zero, if_false] at hc
        cases hlist : clist.list with
        | nil =>
          rw [hlist] at he
          simp only [hlist] at hc
          simp only [List.mem_cons, List.mem_singleton, List.not_mem_nil, or_false] at hc
          rcases hc with rfl | rfl <;> simp [he, hlist]
        | cons x xs =>
          rw [hlist] at he
          simp only [List.length_cons] at he
          simp only [hlist] at hc
          simp only [List.mem_cons, List.mem_singleton, List.not_mem_nil, or_false] at hc
          rcases hc with rfl | rfl | rfl | rfl <;> simp [he, hlist]

/-- C15: start from the state `createRenderingStacks` sets up (empty list, count `0`, lock
free) and run any sequence of `addToList` and `removeFromList` calls, one after the other.
After every completed sequence the count equals the list length.  At every statement on the
way the count is at most the list length: `addToList` raises the count only once the new node
is in the list (its four states are listed), and `removeFromList` takes a node out only after
it has lowered the count (its four states are listed). -/
theorem list_count_invariant (calls : List ListCall) :
    (∀ c, runCalls calls controledList.init = some c → c.elem = c.list.length) ∧
    (∀ c ∈ traceCalls calls controledList.init, c.elem ≤ c.list.length) ∧
    (∀ stack (clist : controledList), clist.lock ≠ 0 →
      (addToListTrace stack clist).map (fun c => (c.list, c.elem)) =
        [(clist.list, clist.elem), (stack :: clist.list, clist.elem),
         (stack :: clist.list, clist.elem), (stack :: clist.list, clist.elem + 1)]) ∧
    (∀ (clist : controledList) x xs, clist.lock ≠ 0 → clist.elem ≠ 0 → clist.list = x :: xs →
      (removeFromListTrace clist).map (fun c => (c.list, c.elem)) =
        [(x :: xs, clist.elem - 1), (x :: xs, clist.elem - 1),
         (xs, clist.elem - 1), (xs, clist.elem - 1)]) := by
  have key : ∀ (calls : List ListCall) (clist : controledList),
      (clist.elem = clist.list.length ∧ clist.lock = 1) →
      (∀ c, runCalls calls clist = some c → c.elem = c.list.length ∧ c.lock = 1) ∧
      (∀ c ∈ traceCalls calls clist, c.elem ≤ c.list.length) := by
    intro calls
    induction calls with
    | nil =>
      intro clist hinv
      refine ⟨?_, ?_⟩
      · intro c hc
        simp only [runCalls, Option.some.injEq] at hc
        subst hc
        exact hinv
      · intro c hc
        simp [traceCalls] at hc
    | cons call calls ih =>
      intro clist hinv
      refine ⟨?_, ?_⟩
      · intro c hc
        simp only [runCalls] at hc
        split at hc
        · exact absurd hc (by simp)
        · rename_i c1 hrun
          exact (ih c1 (ListCall.run_inv hinv hrun)).1 c hc
      · intro c hc
        simp only [traceCalls, List.mem_append] at hc
        rcases hc with hc | hc
        · exact ListCall.trace_inv hinv c hc
        · split at hc
          · exact absurd hc (by simp)
          · rename_i c1 hrun
            exact (ih c1 (ListCall.run_inv hinv hrun)).2 c hc
  have h0 := key calls controledList.init ⟨rfl, rfl⟩
  refine ⟨fun c hc => (h0.1 c hc).1, h0.2, ?_, ?_⟩
  · intro stack clist hl
    simp [addToListTrace, sem_wait, hl, sem_post]
  · intro clist x xs hl he hlist
    simp [removeFromListTrace, sem_wait, hl, he, hlist, sem_post]

/-- A run that exercises C15: two frames added, one removed, one added; all four calls
complete, in sixteen statements, and end with two frames and a count of `2`. -/
theorem list_count_example :
    runCalls [.add 1, .add 2, .remove, .add 3] controledList.init
      = some { list := [3, 1], lock := 1, elem := 2 } ∧
    (traceCalls [.add 1, .add 2, .remove, .add 3] controledList.init).length = 16 := by
  decide

theorem linkLast_eq (l : List RenderingOperation) (op : RenderingOperation) :
    linkLast l op = l ++ [op] := by
  induction l with
  | nil => rfl
  | cons a rest ih =>
    cases rest with
    | nil => rfl
    | cons b rest =>
      simp only [linkLast, List.cons_append, List.cons.injEq, true_and]
      simpa using ih

/-- C16: `addOperation(stack, op)` on a live frame whose operation list is `l` leaves that list
equal to `l` followed by `op` and every other frame as it was.  When `op` is not `VDP2END` it
returns `stack` and leaves `mRenderList` alone.  When `op` is `VDP2END` (and the lock of
`mRenderList` is free) it puts `stack` in front of `mRenderList`, raises its count by one and
returns `NULL`.  `addOperation(NULL, op)` returns `NULL` and changes nothing. -/
theorem addOperation_spec (s : RenderMem) (stack : Nat) (op : RenderingOperation)
    (l : List RenderingOperation) (hs : stack ≠ 0) (hl : s.operation stack = some l) :
    (op ≠ RenderingOperation.VDP2END →
      ∃ s1, addOperation stack op s = some (stack, s1) ∧
        s1.operation stack = some (l ++ [op]) ∧
        (∀ q, q ≠ stack → s1.operation q = s.operation q) ∧
        s1.mRenderList = s.mRenderList) ∧
    (op = RenderingOperation.VDP2END → s.mRenderList.lock ≠ 0 →
      ∃ s1, addOperation stack op s = some (0, s1) ∧
        s1.operation stack = some (l ++ [op]) ∧
        (∀ q, q ≠ stack → s1.operation q = s.operation q) ∧
        s1.mRenderList = { list := stack :: s.mRenderList.list, lock := s.mRenderList.lock,
                           elem := s.mRenderList.elem + 1 }) ∧
    (∀ (op1 : RenderingOperation) (s0 : RenderMem), addOperation 0 op1 s0 = some (0, s0)) := by
  refine ⟨?_, ?_, ?_⟩
  · intro hop
    refine ⟨{ s with operation := fun q =>
        if q = stack then some (linkLast l op) else s.operation q }, ?_, ?_, ?_, rfl⟩
    · simp only [addOperation, hs, if_false, hl, hop]
    · simp [linkLast_eq]
    · intro q hq; simp [hq]
  · intro hop hlock
    subst hop
    refine ⟨{ operation := fun q =>
          if q = stack then some (linkLast l RenderingOperation.VDP2END) else s.operation q
              mRenderList := { list := stack :: s.mRenderList.list, lock := s.mRenderList.lock,
                               elem := s.mRenderList.elem + 1 } }, ?_, ?_, ?_, rfl⟩
    · simp only [addOperation, hs, if_false, hl, if_true,
        addToList_eq stack s.mRenderList hlock]
    · simp [linkLast_eq]
    · intro q hq; simp [hq]
  · intro op1 s0
    simp [addOperation]

theorem addOperation_spec_witness :
    (4 : Nat) ≠ 0 ∧
    exampleRenderMem.operation 4
      = some [RenderingOperation.VDP2START, RenderingOperation.VDP1START] ∧
    ∃ s1, addOperation 4 RenderingOperation.VDP2END exampleRenderMem = some (0, s1) ∧
      s1.operation 4 = some [RenderingOperation.VDP2START, RenderingOperation.VDP1START,
        RenderingOperation.VDP2END] ∧
      s1.mRenderList = { list := [4], lock := 1, elem := 1 } := by
  refine ⟨by decide, rfl, ?_⟩
  obtain ⟨s1, h1, h2, _, h4⟩ :=
    (addOperation_spec exampleRenderMem 4 RenderingOperation.VDP2END
      [RenderingOperation.VDP2START, RenderingOperation.VDP1START] (by decide) rfl).2.1
      rfl (by decide)
  exact ⟨s1, h1, h2, h4⟩

/-- No call of `addToDisplayList` on an empty display list completes: after the search loop
`insertFrame` is still `NULL`, and `insertFrame->previous = curList` reads through it. -/
theorem addToDisplayList_empty (fuel new frame : Nat) (clist : controledFbo)
    (h : clist.frame = 0) : addToDisplayList fuel new frame clist = none := by
  unfold addToDisplayList
  simp only [h]
  split
  · rfl
  · split
    · rfl
    · cases fuel with
      | zero => simp [findInsertFrame]
      | succ fuel =>
        simp only [findInsertFrame, if_true]
        split
        · rfl
        · rfl

/-- C17: the display list does not deliver the queued frames in ascending id order.  On the
empty list `addToDisplayList` does not complete (it writes `insertFrame->previous` with
`insertFrame == NULL`).  On a list holding the frame with id `5`, inserting the frame with id
`3` does not complete either (the search runs off the end of the list), and inserting the frame
with id `7` completes without linking the new node into the chain that starts at
`clist->frame`: the next `removeFromDisplayList` returns the frame with id `5`, and the one
after it, although `elem` says a frame is left, reads through `NULL`. -/
theorem display_list_insert_fails :
    (addToDisplayList 8 20 1 emptyDisplay).isNone = true ∧
    (addToDisplayList 8 20 2 oneFrameDisplay).isNone = true ∧
    ((addToDisplayList 8 20 3 oneFrameDisplay).map (fun c => (c.frame, c.elem)))
      = some (10, 2) ∧
    (((addToDisplayList 8 20 3 oneFrameDisplay).bind removeFromDisplayList).map
      (fun r => (r.1, r.2.frame, r.2.elem))) = some (1, 0, 1) ∧
    (((addToDisplayList 8 20 3 oneFrameDisplay).bind removeFromDisplayList).bind
      (fun r => removeFromDisplayList r.2)).isNone = true := by
  decide

/-! ## Theorems: further parts of `vidsoftgles.c` -/

/-- The value `VIDSoftGLESVdp1DrawStartBody` gives `vdp1interlace` is never `0`. -/
theorem vdp1interlaceOf_ne_zero (FBCR : Int) :
    vdp1interlaceOf FBCR = 1 ∨ vdp1interlaceOf FBCR = 2 := by
  unfold vdp1interlaceOf
  split
  · right; rfl
  · left; rfl

/-- What `is_pre_clipped` does rule out: quads wholly to the left of `0`, wholly to the right of
`systemclipX2`, wholly above `0`, and, for any non-zero `vdp1interlace`, wholly below
`2 * systemclipY2`. -/
theorem is_pre_clipped_sides (vdp1interlace tl_x tl_y bl_x bl_y tr_x tr_y br_x br_y
    systemclipX2 systemclipY2 : Int) :
    (tl_x < 0 ∧ bl_x < 0 ∧ tr_x < 0 ∧ br_x < 0 →
      is_pre_clipped vdp1interlace tl_x tl_y bl_x bl_y tr_x tr_y br_x br_y
        systemclipX2 systemclipY2 = 1) ∧
    (tl_x > systemclipX2 ∧ bl_x > systemclipX2 ∧ tr_x > systemclipX2 ∧ br_x > systemclipX2 →
      is_pre_clipped vdp1interlace tl_x tl_y bl_x bl_y tr_x tr_y br_x br_y
        systemclipX2 systemclipY2 = 1) ∧
    (tl_y < 0 ∧ bl_y < 0 ∧ tr_y < 0 ∧ br_y < 0 →
      is_pre_clipped vdp1interlace tl_x tl_y bl_x bl_y tr_x tr_y br_x br_y
        systemclipX2 systemclipY2 = 1) ∧
    (vdp1interlace ≠ 0 →
      tl_y > systemclipY2 * 2 ∧ bl_y > systemclipY2 * 2 ∧ tr_y > systemclipY2 * 2 ∧
        br_y > systemclipY2 * 2 →
      is_pre_clipped vdp1interlace tl_x tl_y bl_x bl_y tr_x tr_y br_x br_y
        systemclipX2 systemclipY2 = 1) := by
  refine ⟨?_, ?_, ?_, ?_⟩
  · intro h
    simp only [is_pre_clipped, h, and_self, if_true]
  · intro h
    unfold is_pre_clipped
    simp only [h, and_self, if_true]
    split <;> rfl
  · intro h
    unfold is_pre_clipped
    simp only [h, and_self, if_true]
    split
    · rfl
    · split <;> rfl
  · intro hi h
    unfold is_pre_clipped
    simp only [hi, ne_eq, not_false_eq_true, if_true, h, and_self]
    split
    · rfl
    · split
      · rfl
      · split <;> rfl

/-- C20: in non-interlaced mode (`FBCR` bit 3 clear, so `vdp1interlace = 1`) with the system
clip bounds `319 x 223`, the quad with corners `(0, 300)`, `(0, 310)`, `(10, 300)`,
`(10, 310)` has all four `y` above `systemclipY2`, yet `is_pre_clipped` returns `0` and
`drawQuad` goes on to its drawing code: `if (vdp1interlace) y_val *= 2;` doubles the bound
for every value `vdp1interlace` takes. -/
theorem is_pre_clipped_below_missed :
    vdp1interlaceOf 0 = 1 ∧
    (300 : Int) > 223 ∧ (310 : Int) > 223 ∧
    is_pre_clipped 1 0 300 0 310 10 300 10 310 319 223 = 0 ∧
    drawQuad (fun n : Nat => n + 1) 1 0 300 0 310 10 300 10 310 319 223 0 = 1 := by
  decide

theorem mod_256_and (n : Nat) : n % 256 &&& 0xFF = 0 ↔ n % 256 = 0 := by
  have h := Nat.and_pow_two_sub_one_eq_mod (n % 256) 8
  have h2 : (2 : Nat) ^ 8 - 1 = 0xFF := by decide
  rw [h2] at h
  rw [h]
  omega

/-- C19: for a colour mode number that is not negative, `Vdp2FetchPixel` returns `0` or `1`,
and it returns `0` exactly when: the mode is 0 (4bpp) and the selected nibble of the fetched
byte is zero, or the mode is 1 (8bpp) and the fetched byte is zero, or the mode is 2 (16bpp
palette) and the fetched word is zero, or the mode is 3 (16bpp RGB) and bit 15 of the word is
clear, or the mode is 4 (32bpp) and bit 31 of the long is clear, each with
`transparencyenable` set; or the mode number is above 4.  With `transparencyenable` clear the
modes 0..4 return `1`. -/
theorem Vdp2FetchPixel_transparent (env : FetchEnv)
    (colornumber cellw transparencyenable coloroffset x y : Int) (color dot : Nat)
    (charaddr paladdr : Int) (hc : 0 ≤ colornumber) :
    ((Vdp2FetchPixel env colornumber cellw transparencyenable coloroffset x y color dot
        charaddr paladdr).1 = 0 ∨
     (Vdp2FetchPixel env colornumber cellw transparencyenable coloroffset x y color dot
        charaddr paladdr).1 = 1) ∧
    ((Vdp2FetchPixel env colornumber cellw transparencyenable coloroffset x y color dot
        charaddr paladdr).1 = 0 ↔
      (colornumber = 0 ∧ transparencyenable ≠ 0 ∧
        (if cAnd x 0x1 = 0
          then (env.T1ReadByte (cAnd (charaddr + Int.tdiv ((y * cellw) + x) 2) 0x7FFFF) % 256)
                 >>> 4
          else env.T1ReadByte (cAnd (charaddr + Int.tdiv ((y * cellw) + x) 2) 0x7FFFF) % 256)
          &&& 0xF = 0) ∨
      (colornumber = 1 ∧ transparencyenable ≠ 0 ∧
        env.T1ReadByte (cAnd (charaddr + (y * cellw) + x) 0x7FFFF) % 256 = 0) ∨
      (colornumber = 2 ∧ transparencyenable ≠ 0 ∧
        env.T1ReadWord (cAnd (charaddr + ((y * cellw) + x) * 2) 0x7FFFF) % 65536 = 0) ∨
      (colornumber = 3 ∧ transparencyenable ≠ 0 ∧
        (env.T1ReadWord (cAnd (charaddr + ((y * cellw) + x) * 2) 0x7FFFF) % 65536)
          &&& 0x8000 = 0) ∨
      (colornumber = 4 ∧ transparencyenable ≠ 0 ∧
        (env.T1ReadLong (cAnd (charaddr + ((y * cellw) + x) * 4) 0x7FFFF) % 4294967296)
          &&& 0x80000000 = 0) ∨
      4 < colornumber) ∧
    (transparencyenable = 0 → colornumber ≤ 4 →
      (Vdp2FetchPixel env colornumber cellw transparencyenable coloroffset x y color dot
        charaddr paladdr).1 = 1) := by
  have hcases : colornumber = 0 ∨ colornumber = 1 ∨ colornumber = 2 ∨ colornumber = 3 ∨
      colornumber = 4 ∨ 4 < colornumber := by omega
  rcases hcases with h | h | h | h | h | h
  · subst h
    simp only [Vdp2FetchPixel]
    by_cases ht : transparencyenable = 0
    · simp [ht]
    · by_cases hd : (if cAnd x 0x1 = 0
          then (env.T1ReadByte (cAnd (charaddr + Int.tdiv ((y * cellw) + x) 2) 0x7FFFF) % 256)
                 >>> 4
          else env.T1ReadByte (cAnd (charaddr + Int.tdiv ((y * cellw) + x) 2) 0x7FFFF) % 256)
          &&& 0xF = 0
      · simp [ht, hd]
      · simp [ht, hd]
  · subst h
    simp only [Vdp2FetchPixel]
    by_cases ht : transparencyenable = 0
    · simp [ht]
    · by_cases hd : env.T1ReadByte (cAnd (charaddr + (y * cellw) + x) 0x7FFFF) % 256 = 0
      · simp [ht, hd]
      · have hd2 := (mod_256_and _).not.mpr hd
        simp [ht, hd, hd2]
  · subst h
    simp only [Vdp2FetchPixel]
    by_cases ht : transparencyenable = 0
    · simp [ht]
    · by_cases hd : env.T1ReadWord (cAnd (charaddr + ((y * cellw) + x) * 2) 0x7FFFF) % 65536 = 0
      · simp [ht, hd]
      · simp [ht, hd]
  · subst h
    simp only [Vdp2FetchPixel]
    by_cases ht : transparencyenable = 0
    · simp [ht]
    · by_cases hd : (env.T1ReadWord (cAnd (charaddr + ((y * cellw) + x) * 2) 0x7FFFF) % 65536)
          &&& 0x8000 = 0
      · simp [ht, hd]
      · simp [ht, hd]
  · subst h
    simp only [Vdp2FetchPixel]
    by_cases ht : transparencyenable = 0
    · simp [ht]
    · by_cases hd : (env.T1ReadLong (cAnd (charaddr + ((y * cellw) + x) * 4) 0x7FFFF)
          % 4294967296) &&& 0x80000000 = 0
      · simp [ht, hd]
      · simp [ht, hd]
  · have hv : (Vdp2FetchPixel env colornumber cellw transparencyenable coloroffset x y color dot
        charaddr paladdr).1 = 0 := by
      unfold Vdp2FetchPixel
      split <;> first | omega | rfl
    rw [hv]
    refine ⟨Or.inl rfl, ?_, ?_⟩
    · simp [h]
    · intro _ h4; omega

theorem Vdp2FetchPixel_transparent_witness :
    (0 : Int) ≤ 3 ∧
    (Vdp2FetchPixel zeroFetchEnv 3 8 1 0 2 5 0 0 0 0).1 = 0 ∧
    (Vdp2FetchPixel zeroFetchEnv 3 8 0 0 2 5 0 0 0 0).1 = 1 := by
  refine ⟨by decide, ?_, ?_⟩
  · exact (Vdp2FetchPixel_transparent zeroFetchEnv 3 8 1 0 2 5 0 0 0 0 (by decide)).2.1.mpr
      (Or.inr (Or.inr (Or.inr (Or.inl ⟨rfl, by decide, by decide⟩))))
  · decide

theorem Vdp2PatternAddr_keeps (rw : Nat → Nat) (VRSIZE : Int) (info : vdp2draw_struct) :
    (Vdp2PatternAddr rw VRSIZE info).pipe0 = info.pipe0 ∧
    (Vdp2PatternAddr rw VRSIZE info).pipe1 = info.pipe1 ∧
    (Vdp2PatternAddr rw VRSIZE info).patternwh = info.patternwh := by
  unfold Vdp2PatternAddr
  simp only
  refine ⟨?_, ?_, ?_⟩ <;> (repeat' split) <;> rfl

/-- The cell-change branch of `Vdp2MapCalcXY` shifts the pipe: `pipe[0]` takes the old
`pipe[1]`, `pipe[1]` takes what has just been decoded; it records the cell in `oldcellcheck`. -/
theorem cellChange_pipe (rw : Nat → Nat) (VRSIZE : Int) (info : vdp2draw_struct) (x y : Int)
    (sinfo : screeninfo_struct) :
    (cellChange rw VRSIZE info x y sinfo).1.pipe0 = info.pipe1 ∧
    (cellChange rw VRSIZE info x y sinfo).1.pipe1
      = decoded (cellChange rw VRSIZE info x y sinfo).1 ∧
    (cellChange rw VRSIZE info x y sinfo).1.patternwh = info.patternwh ∧
    (cellChange rw VRSIZE info x y sinfo).2.1.oldcellcheck = cellCheck info.patternwh x y := by
  unfold cellChange
  simp only
  refine ⟨?_, rfl, ?_, rfl⟩
  · exact (Vdp2PatternAddr_keeps rw VRSIZE _).2.1
  · exact (Vdp2PatternAddr_keeps rw VRSIZE _).2.2

theorem Vdp2MapCalcXY_change (rw : Nat → Nat) (VRSIZE : Int) (info : vdp2draw_struct)
    (x y : Int) (sinfo : screeninfo_struct) (bad_cycle : Int)
    (h : cellCheck info.patternwh x y ≠ sinfo.oldcellcheck) :
    (Vdp2MapCalcXY rw VRSIZE info x y sinfo bad_cycle).info
      = (cellChange rw VRSIZE info x y sinfo).1 ∧
    (Vdp2MapCalcXY rw VRSIZE info x y sinfo bad_cycle).sinfo
      = (cellChange rw VRSIZE info x y sinfo).2.1 := by
  unfold Vdp2MapCalcXY
  simp only [h, ne_eq, not_false_eq_true, if_true, and_self]

theorem Vdp2MapCalcXY_same (rw : Nat → Nat) (VRSIZE : Int) (info : vdp2draw_struct)
    (x y : Int) (sinfo : screeninfo_struct) (bad_cycle : Int)
    (h : cellCheck info.patternwh x y = sinfo.oldcellcheck) :
    (Vdp2MapCalcXY rw VRSIZE info x y sinfo bad_cycle).info = info ∧
    (Vdp2MapCalcXY rw VRSIZE info x y sinfo bad_cycle).sinfo = sinfo := by
  unfold Vdp2MapCalcXY
  simp only [h, ne_eq, not_true_eq_false, if_false, and_self]

theorem Vdp2MapCalcXY_flip (rw : Nat → Nat) (VRSIZE : Int) (info : vdp2draw_struct)
    (x y : Int) (sinfo : screeninfo_struct) (bad_cycle : Int) :
    (Vdp2MapCalcXY rw VRSIZE info x y sinfo bad_cycle).flipfunction =
      if bad_cycle ≠ 0
      then (Vdp2MapCalcXY rw VRSIZE info x y sinfo bad_cycle).info.pipe0.flipfunction
      else (Vdp2MapCalcXY rw VRSIZE info x y sinfo bad_cycle).info.flipfunction := by
  rfl

/-- For cell coordinates that are not negative, with the horizontal one below `65536`, `check`
tells different cells apart. -/
theorem cellCheck_inj (patternwh x1 y1 x2 y2 : Int)
    (hx1 : 0 ≤ shr x1 (2 + patternwh) ∧ shr x1 (2 + patternwh) < 65536)
    (hy1 : 0 ≤ shr y1 (2 + patternwh))
    (hx2 : 0 ≤ shr x2 (2 + patternwh) ∧ shr x2 (2 + patternwh) < 65536)
    (hy2 : 0 ≤ shr y2 (2 + patternwh))
    (h : cellCheck patternwh x2 y2 = cellCheck patternwh x1 y1) :
    shr x2 (2 + patternwh) = shr x1 (2 + patternwh) ∧
    shr y2 (2 + patternwh) = shr y1 (2 + patternwh) := by
  unfold cellCheck at h
  generalize shr x1 (2 + patternwh) = a1 at *
  generalize shr y1 (2 + patternwh) = b1 at *
  generalize shr x2 (2 + patternwh) = a2 at *
  generalize shr y2 (2 + patternwh) = b2 at *
  obtain ⟨m1, rfl⟩ := Int.eq_ofNat_of_zero_le hx1.1
  obtain ⟨n1, rfl⟩ := Int.eq_ofNat_of_zero_le hy1
  obtain ⟨m2, rfl⟩ := Int.eq_ofNat_of_zero_le hx2.1
  obtain ⟨n2, rfl⟩ := Int.eq_ofNat_of_zero_le hy2
  have key : ∀ n m : Nat, m < 65536 →
      Int.lor (shl (n : Int) 16) (m : Int) = ((2 ^ 16 * n + m : Nat) : Int) := by
    intro n m hm
    have e1 : shl (n : Int) 16 = ((2 ^ 16 * n : Nat) : Int) := by
      unfold shl
      have : (16 : Int).toNat = 16 := rfl
      rw [this]
      push_cast
      ring
    rw [e1, Nat.mul_add_lt_is_or (by simpa using hm) n]
    rfl
  have hm1 : m1 < 65536 := by have := hx1.2; omega
  have hm2 : m2 < 65536 := by have := hx2.2; omega
  rw [key n2 m2 hm2, key n1 m1 hm1] at h
  have h3 : 2 ^ 16 * n2 + m2 = 2 ^ 16 * n1 + m1 := by exact_mod_cast h
  have h4 : (2 : Nat) ^ 16 = 65536 := by decide
  rw [h4] at h3
  constructor
  · have : m2 = m1 := by omega
    rw [this]
  · have : n2 = n1 := by omega
    rw [this]

/-- C18: let `r1` be the result of `Vdp2MapCalcXY` at a pixel `(x1, y1)` whose cell (cell N-1)
differs from the cell recorded in `sinfo`, and `r2` the result of the next call, at a pixel
`(x2, y2)` of a different cell (cell N); cell coordinates are not negative and the horizontal
one is below `65536`.  Each of the two calls shifts the pipe (`pipe[0]` takes the previous
`pipe[1]`, `pipe[1]` takes the attributes just decoded), so after the second call `pipe[0]`
holds exactly the attributes decoded for cell N-1.  With `bad_cycle` set, the flip
`Vdp2MapCalcXY` uses and the `charaddr`/`paladdr` `Vdp2DrawScroll` takes are those of cell N-1;
with `bad_cycle` clear they are those decoded for cell N.  Later pixels of cell N change
nothing of this. -/
theorem Vdp2MapCalcXY_pipeline (rw : Nat → Nat) (VRSIZE : Int) (info : vdp2draw_struct)
    (sinfo : screeninfo_struct) (x1 y1 x2 y2 bad_cycle : Int) (r1 r2 : MapCalc)
    (hr1 : r1 = Vdp2MapCalcXY rw VRSIZE info x1 y1 sinfo bad_cycle)
    (hr2 : r2 = Vdp2MapCalcXY rw VRSIZE r1.info x2 y2 r1.sinfo bad_cycle)
    (h1 : cellCheck info.patternwh x1 y1 ≠ sinfo.oldcellcheck)
    (hx1 : 0 ≤ shr x1 (2 + info.patternwh) ∧ shr x1 (2 + info.patternwh) < 65536)
    (hy1 : 0 ≤ shr y1 (2 + info.patternwh))
    (hx2 : 0 ≤ shr x2 (2 + info.patternwh) ∧ shr x2 (2 + info.patternwh) < 65536)
    (hy2 : 0 ≤ shr y2 (2 + info.patternwh))
    (hcell : ¬ (shr x2 (2 + info.patternwh) = shr x1 (2 + info.patternwh) ∧
                shr y2 (2 + info.patternwh) = shr y1 (2 + info.patternwh))) :
    (r1.info.pipe0 = info.pipe1 ∧ r1.info.pipe1 = decoded r1.info) ∧
    (r2.info.pipe0 = decoded r1.info ∧ r2.info.pipe1 = decoded r2.info) ∧
    r2.info = (cellChange rw VRSIZE r1.info x2 y2 r1.sinfo).1 ∧
    (bad_cycle ≠ 0 →
      r2.flipfunction = (decoded r1.info).flipfunction ∧
      scrollTileAttr r2.info bad_cycle
        = ((decoded r1.info).charaddr, (decoded r1.info).paladdr)) ∧
    (bad_cycle = 0 →
      r2.flipfunction = (decoded r2.info).flipfunction ∧
      scrollTileAttr r2.info bad_cycle
        = ((decoded r2.info).charaddr, (decoded r2.info).paladdr)) ∧
    (∀ x3 y3 : Int,
      shr x3 (2 + info.patternwh) = shr x2 (2 + info.patternwh) →
      shr y3 (2 + info.patternwh) = shr y2 (2 + info.patternwh) →
      (Vdp2MapCalcXY rw VRSIZE r2.info x3 y3 r2.sinfo bad_cycle).info = r2.info ∧
      (Vdp2MapCalcXY rw VRSIZE r2.info x3 y3 r2.sinfo bad_cycle).flipfunction
        = r2.flipfunction) := by
  obtain ⟨a1, a2, a3, a4⟩ := cellChange_pipe rw VRSIZE info x1 y1 sinfo
  obtain ⟨i1, s1⟩ := Vdp2MapCalcXY_change rw VRSIZE info x1 y1 sinfo bad_cycle h1
  rw [← hr1] at i1 s1
  have hp1 : r1.info.patternwh = info.patternwh := by rw [i1]; exact a3
  have hold1 : r1.sinfo.oldcellcheck = cellCheck info.patternwh x1 y1 := by rw [s1]; exact a4
  have h2 : cellCheck r1.info.patternwh x2 y2 ≠ r1.sinfo.oldcellcheck := by
    rw [hp1, hold1]
    intro heq
    exact hcell (cellCheck_inj info.patternwh x1 y1 x2 y2 hx1 hy1 hx2 hy2 heq)
  obtain ⟨b1, b2, b3, b4⟩ := cellChange_pipe rw VRSIZE r1.info x2 y2 r1.sinfo
  obtain ⟨i2, s2⟩ := Vdp2MapCalcXY_change rw VRSIZE r1.info x2 y2 r1.sinfo bad_cycle h2
  rw [← hr2] at i2 s2
  have hflip := Vdp2MapCalcXY_flip rw VRSIZE r1.info x2 y2 r1.sinfo bad_cycle
  rw [← hr2] at hflip
  have q1 : r1.info.pipe1 = decoded r1.info := by rw [i1]; exact a2
  have q2 : r2.info.pipe0 = decoded r1.info := by rw [i2, b1]; exact q1
  have q3 : r2.info.pipe1 = decoded r2.info := by rw [i2]; exact b2
  refine ⟨⟨by rw [i1]; exact a1, q1⟩, ⟨q2, q3⟩, i2, ?_, ?_, ?_⟩
  · intro hb
    refine ⟨?_, ?_⟩
    · rw [hflip, if_pos hb, q2]
    · simp only [scrollTileAttr, hb, if_false, q2]
  · intro hb
    refine ⟨?_, ?_⟩
    · rw [hflip, if_neg (by simp [hb])]
      rfl
    · simp only [scrollTileAttr, hb, if_true]
      rfl
  · intro x3 y3 hx3 hy3
    have hp2 : r2.info.patternwh = info.patternwh := by rw [i2, b3]; exact hp1
    have hold2 : r2.sinfo.oldcellcheck = cellCheck info.patternwh x2 y2 := by
      rw [s2, b4, hp1]
    have hsame : cellCheck r2.info.patternwh x3 y3 = r2.sinfo.oldcellcheck := by
      rw [hp2, hold2]
      unfold cellCheck
      rw [hx3, hy3]
    obtain ⟨c1, _⟩ := Vdp2MapCalcXY_same rw VRSIZE r2.info x3 y3 r2.sinfo bad_cycle hsame
    refine ⟨c1, ?_⟩
    rw [Vdp2MapCalcXY_flip, c1, hflip]

theorem Vdp2MapCalcXY_pipeline_witness :
    cellCheck exampleInfo.patternwh 3 0 ≠ exampleSinfo.oldcellcheck ∧
    ¬ (shr 8 (2 + exampleInfo.patternwh) = shr 3 (2 + exampleInfo.patternwh) ∧
       shr 0 (2 + exampleInfo.patternwh) = shr 0 (2 + exampleInfo.patternwh)) ∧
    (Vdp2MapCalcXY (fun a => a + 0x4321) 0x8000
        (Vdp2MapCalcXY (fun a => a + 0x4321) 0x8000 exampleInfo 3 0 exampleSinfo 1).info 8 0
        (Vdp2MapCalcXY (fun a => a + 0x4321) 0x8000 exampleInfo 3 0 exampleSinfo 1).sinfo
        1).info.pipe0
      = decoded (Vdp2MapCalcXY (fun a => a + 0x4321) 0x8000 exampleInfo 3 0 exampleSinfo 1).info :=
  ⟨by decide, by decide,
   (Vdp2MapCalcXY_pipeline (fun a => a + 0x4321) 0x8000 exampleInfo exampleSinfo 3 0 8 0 1
      _ _ rfl rfl (by decide) (by decide) (by decide) (by decide) (by decide)
      (by decide)).2.1.1⟩

/-- The example behind the witness of C18, evaluated: the pattern names of cell 0 and cell 1
decode to different character addresses, and with `bad_cycle` set the second call (cell 1)
gives `Vdp2DrawScroll` the character address of cell 0. -/
theorem Vdp2MapCalcXY_pipeline_example :
    (decoded (Vdp2MapCalcXY (fun a => a + 0x4321) 0x8000 exampleInfo 3 0 exampleSinfo
      1).info).charaddr = 0x4323 * 0x20 ∧
    (decoded (Vdp2MapCalcXY (fun a => a + 0x4321) 0x8000
        (Vdp2MapCalcXY (fun a => a + 0x4321) 0x8000 exampleInfo 3 0 exampleSinfo 1).info 8 0
        (Vdp2MapCalcXY (fun a => a + 0x4321) 0x8000 exampleInfo 3 0 exampleSinfo 1).sinfo
        1).info).charaddr = 0x4327 * 0x20 ∧
    (scrollTileAttr (Vdp2MapCalcXY (fun a => a + 0x4321) 0x8000
        (Vdp2MapCalcXY (fun a => a + 0x4321) 0x8000 exampleInfo 3 0 exampleSinfo 1).info 8 0
        (Vdp2MapCalcXY (fun a => a + 0x4321) 0x8000 exampleInfo 3 0 exampleSinfo 1).sinfo
        1).info 1).1 = 0x4323 * 0x20 := by
  decide

/-! ## Theorems: colour offset -/

/-- The AND with a mask of `b` ones shifted left by `a` places keeps the bits `a .. a + b - 1`. -/
theorem and_shifted_mask (x a b : Nat) :
    x &&& (2 ^ a * (2 ^ b - 1)) = 2 ^ a * ((x / 2 ^ a) % 2 ^ b) := by
  apply Nat.eq_of_testBit_eq
  intro i
  rw [← Nat.shiftRight_eq_div_pow]
  simp only [Nat.testBit_and, Nat.testBit_mul_pow_two, Nat.testBit_mod_two_pow,
    Nat.testBit_shiftRight, Nat.testBit_two_pow_sub_one]
  by_cases h : a ≤ i
  · have e : a + (i - a) = i := by omega
    simp [h, e, Bool.and_comm]
  · simp [h]


/-- An OR of a value below `2 ^ i` with a multiple of `2 ^ i` is their sum. -/
theorem or_mul_pow_two (i a b : Nat) (h : b < 2 ^ i) : b ||| 2 ^ i * a = 2 ^ i * a + b := by
  rw [Nat.or_comm, Nat.mul_add_lt_is_or h]

/-- The value of `COLOR_ADDb` is a byte. -/
theorem COLOR_ADDb_range (b1 : Nat) (b2 : Int) :
    0 ≤ COLOR_ADDb b1 b2 ∧ COLOR_ADDb b1 b2 ≤ 255 := by
  unfold COLOR_ADDb COLOR_ADDt
  split
  · omega
  · split <;> omega

/-- The value of `COLOR_ADDb` is the sum, saturated to `0 .. 255`. -/
theorem COLOR_ADDb_eq (b1 : Nat) (b2 : Int) :
    COLOR_ADDb b1 b2 = max 0 (min 255 ((b1 : Int) + b2)) := by
  unfold COLOR_ADDb COLOR_ADDt
  split
  · omega
  · split <;> omega

/-- The value of `COLOR_ADD` as a sum of its four bytes. -/
theorem COLOR_ADD_eq (l : Nat) (r g b : Int) (hl : l < 4294967296) :
    COLOR_ADD l r g b
      = (COLOR_ADDb (l % 256) r).toNat + 256 * (COLOR_ADDb (l / 256 % 256) g).toNat
        + 65536 * (COLOR_ADDb (l / 65536 % 256) b).toNat + 16777216 * (l / 16777216) := by
  have m0 : l &&& 0xFF = l % 256 := Nat.and_pow_two_sub_one_eq_mod l 8
  have m1 : (l >>> 8) &&& 0xFF = l / 256 % 256 := by
    rw [Nat.shiftRight_eq_div_pow]; exact Nat.and_pow_two_sub_one_eq_mod _ 8
  have m2 : (l >>> 16) &&& 0xFF = l / 65536 % 256 := by
    rw [Nat.shiftRight_eq_div_pow]; exact Nat.and_pow_two_sub_one_eq_mod _ 8
  have m3 : l &&& 0xFF000000 = 2 ^ 24 * (l / 16777216) := by
    have h := and_shifted_mask l 24 8
    have e : l / 2 ^ 24 % 2 ^ 8 = l / 16777216 := by
      norm_num
      omega
    rw [e] at h
    exact h
  unfold COLOR_ADD
  rw [m0, m1, m2, m3]
  have ha : (COLOR_ADDb (l % 256) r).toNat < 256 := by
    have := COLOR_ADDb_range (l % 256) r
    omega
  have hb : (COLOR_ADDb (l / 256 % 256) g).toNat < 256 := by
    have := COLOR_ADDb_range (l / 256 % 256) g
    omega
  have hc : (COLOR_ADDb (l / 65536 % 256) b).toNat < 256 := by
    have := COLOR_ADDb_range (l / 65536 % 256) b
    omega
  generalize (COLOR_ADDb (l % 256) r).toNat = A at ha ⊢
  generalize (COLOR_ADDb (l / 256 % 256) g).toNat = B at hb ⊢
  generalize (COLOR_ADDb (l / 65536 % 256) b).toNat = C at hc ⊢
  generalize l / 16777216 = H
  have p8 : (2 : Nat) ^ 8 = 256 := by norm_num
  have p16 : (2 : Nat) ^ 16 = 65536 := by norm_num
  have p24 : (2 : Nat) ^ 24 = 16777216 := by norm_num
  have e8 : B <<< 8 = 2 ^ 8 * B := by rw [Nat.shiftLeft_eq, Nat.mul_comm]
  have e16 : C <<< 16 = 2 ^ 16 * C := by rw [Nat.shiftLeft_eq, Nat.mul_comm]
  rw [e8, e16, or_mul_pow_two 8 B A (by omega),
    or_mul_pow_two 16 C (2 ^ 8 * B + A) (by omega),
    or_mul_pow_two 24 H (2 ^ 16 * C + (2 ^ 8 * B + A)) (by omega)]
  omega

/-- The offset `ReadVdp2ColorOffset` stores is the sign-extended 9-bit register value. -/
theorem colorOffsetOf_eq (reg : Nat) :
    colorOffsetOf reg
      = if reg &&& 0x100 ≠ 0 then ((reg % 256 : Nat) : Int) - 256 else ((reg % 256 : Nat) : Int) := by
  have m0 : reg &&& 0xFF = reg % 256 := Nat.and_pow_two_sub_one_eq_mod reg 8
  unfold colorOffsetOf
  simp only [m0]
  split
  · have h : reg % 256 ||| 2 ^ 8 * 16777215 = 2 ^ 8 * 16777215 + reg % 256 :=
      or_mul_pow_two 8 16777215 (reg % 256) (by omega)
    have e : (4294967040 : Nat) = 2 ^ 8 * 16777215 := by norm_num
    rw [e, h]
    push_cast
    omega
  · rfl

/-- The offsets `ReadVdp2ColorOffset` stores lie in `-256 .. 255`. -/
theorem colorOffsetOf_range (reg : Nat) :
    -256 ≤ colorOffsetOf reg ∧ colorOffsetOf reg ≤ 255 := by
  rw [colorOffsetOf_eq]
  split <;> omega

/-- With the enable bit of the layer clear `ReadVdp2ColorOffset` selects `DoNothing`. -/
theorem ReadVdp2ColorOffset_disabled (regs : Vdp2ColorOffsetRegs) (info : color_offset)
    (clofmask ccmask : Int) (h : cAnd regs.CLOFEN clofmask = 0) :
    (ReadVdp2ColorOffset regs info clofmask ccmask).PostPixelFetchCalc
      = PostPixelFetch.DoNothing := by
  unfold ReadVdp2ColorOffset
  rw [if_neg (by simp [h])]

/-- With the enable bit of the layer set `ReadVdp2ColorOffset` selects `DoColorOffset`, with
offsets in `-256 .. 255`. -/
theorem ReadVdp2ColorOffset_enabled (regs : Vdp2ColorOffsetRegs) (info : color_offset)
    (clofmask ccmask : Int) (h : cAnd regs.CLOFEN clofmask ≠ 0) :
    (ReadVdp2ColorOffset regs info clofmask ccmask).PostPixelFetchCalc
        = PostPixelFetch.DoColorOffset
      ∧ (-256 ≤ (ReadVdp2ColorOffset regs info clofmask ccmask).cor
        ∧ (ReadVdp2ColorOffset regs info clofmask ccmask).cor ≤ 255)
      ∧ (-256 ≤ (ReadVdp2ColorOffset regs info clofmask ccmask).cog
        ∧ (ReadVdp2ColorOffset regs info clofmask ccmask).cog ≤ 255)
      ∧ (-256 ≤ (ReadVdp2ColorOffset regs info clofmask ccmask).cob
        ∧ (ReadVdp2ColorOffset regs info clofmask ccmask).cob ≤ 255) := by
  unfold ReadVdp2ColorOffset
  rw [if_pos h]
  split
  · exact ⟨rfl, colorOffsetOf_range _, colorOffsetOf_range _, colorOffsetOf_range _⟩
  · exact ⟨rfl, colorOffsetOf_range _, colorOffsetOf_range _, colorOffsetOf_range _⟩

/-- The bytes of the value of `DoColorOffset`. -/
theorem DoColorOffset_bytes (pixel : Nat) (cor cog cob : Int) (hp : pixel < 4294967296) :
    ((DoColorOffset cor cog cob pixel % 256 : Nat) : Int)
        = max 0 (min 255 (((pixel % 256 : Nat) : Int) + cor))
      ∧ ((DoColorOffset cor cog cob pixel / 256 % 256 : Nat) : Int)
        = max 0 (min 255 (((pixel / 256 % 256 : Nat) : Int) + cog))
      ∧ ((DoColorOffset cor cog cob pixel / 65536 % 256 : Nat) : Int)
        = max 0 (min 255 (((pixel / 65536 % 256 : Nat) : Int) + cob))
      ∧ DoColorOffset cor cog cob pixel / 16777216 = pixel / 16777216 := by
  unfold DoColorOffset
  rw [COLOR_ADD_eq pixel cor cog cob hp]
  have ea := COLOR_ADDb_eq (pixel % 256) cor
  have eb := COLOR_ADDb_eq (pixel / 256 % 256) cog
  have ec := COLOR_ADDb_eq (pixel / 65536 % 256) cob
  have ra := COLOR_ADDb_range (pixel % 256) cor
  have rb := COLOR_ADDb_range (pixel / 256 % 256) cog
  have rc := COLOR_ADDb_range (pixel / 65536 % 256) cob
  rw [← ea, ← eb, ← ec]
  generalize COLOR_ADDb (pixel % 256) cor = A at ra ⊢
  generalize COLOR_ADDb (pixel / 256 % 256) cog = B at rb ⊢
  generalize COLOR_ADDb (pixel / 65536 % 256) cob = C at rc ⊢
  refine ⟨?_, ?_, ?_, ?_⟩ <;> omega

/-- With all three offsets zero `DoColorOffset` returns the pixel. -/
theorem DoColorOffset_zero (pixel : Nat) (hp : pixel < 4294967296) :
    DoColorOffset 0 0 0 pixel = pixel := by
  unfold DoColorOffset
  rw [COLOR_ADD_eq pixel 0 0 0 hp]
  have ea := COLOR_ADDb_eq (pixel % 256) 0
  have eb := COLOR_ADDb_eq (pixel / 256 % 256) 0
  have ec := COLOR_ADDb_eq (pixel / 65536 % 256) 0
  generalize COLOR_ADDb (pixel % 256) 0 = A at ea ⊢
  generalize COLOR_ADDb (pixel / 256 % 256) 0 = B at eb ⊢
  generalize COLOR_ADDb (pixel / 65536 % 256) 0 = C at ec ⊢
  omega

/-! ### Claim on the colour offset -/

/-- C30: for every 32-bit pixel and every offset triple in `-256 .. 255`, `DoColorOffset` adds
`cor`, `cog`, `cob` to the bytes 0, 1, 2 of the pixel, each sum saturated to `0 .. 255` on its
own, and leaves byte 3 as it is; with all three offsets zero it returns the pixel, and so does
the function `ReadVdp2ColorOffset` selects when the enable bit of the layer is clear. -/
theorem DoColorOffset_spec (pixel : Nat) (cor cog cob : Int) (hp : pixel < 4294967296)
    (hr : -256 ≤ cor ∧ cor ≤ 255) (hg : -256 ≤ cog ∧ cog ≤ 255)
    (hb : -256 ≤ cob ∧ cob ≤ 255) :
    (((DoColorOffset cor cog cob pixel % 256 : Nat) : Int)
        = max 0 (min 255 (((pixel % 256 : Nat) : Int) + cor))
      ∧ ((DoColorOffset cor cog cob pixel / 256 % 256 : Nat) : Int)
        = max 0 (min 255 (((pixel / 256 % 256 : Nat) : Int) + cog))
      ∧ ((DoColorOffset cor cog cob pixel / 65536 % 256 : Nat) : Int)
        = max 0 (min 255 (((pixel / 65536 % 256 : Nat) : Int) + cob))
      ∧ DoColorOffset cor cog cob pixel / 16777216 = pixel / 16777216)
    ∧ DoColorOffset 0 0 0 pixel = pixel
    ∧ ∀ (regs : Vdp2ColorOffsetRegs) (info : color_offset) (clofmask ccmask : Int),
        cAnd regs.CLOFEN clofmask = 0 →
        (ReadVdp2ColorOffset regs info clofmask ccmask).apply pixel = pixel := by
  refine ⟨DoColorOffset_bytes pixel cor cog cob hp, DoColorOffset_zero pixel hp, ?_⟩
  intro regs info clofmask ccmask h
  unfold color_offset.apply
  rw [ReadVdp2ColorOffset_disabled regs info clofmask ccmask h]
  rfl

theorem DoColorOffset_spec_witness :
    ((0x80F010C8 : Nat) < 4294967296 ∧ ((-256 : Int) ≤ 100 ∧ (100 : Int) ≤ 255)
      ∧ ((-256 : Int) ≤ -32 ∧ (-32 : Int) ≤ 255) ∧ ((-256 : Int) ≤ 255 ∧ (255 : Int) ≤ 255))
    ∧ DoColorOffset 100 (-32) 255 0x80F010C8 = 0x80FF00FF
    ∧ DoColorOffset 0 0 0 0x80F010C8 = 0x80F010C8 := by
  have h := DoColorOffset_spec 0x80F010C8 100 (-32) 255 (by decide)
    ⟨by decide, by decide⟩ ⟨by decide, by decide⟩ ⟨by decide, by decide⟩
  exact ⟨⟨by decide, ⟨by decide, by decide⟩, ⟨by decide, by decide⟩, ⟨by decide, by decide⟩⟩,
    by decide, h.2.1⟩

/-! ## Theorems: scaled sprites -/

/-- A value in the 16-bit signed range is passed as it is. -/
theorem s16_of_fits (v : Int) (h : -32768 ≤ v ∧ v ≤ 32767) : s16 v = v := by
  unfold s16
  omega

/-- The corners `VIDSoftGLESVdp1ScaledSpriteDraw` computes before they are converted to `s16`
are those of `scaledSpriteCorners`. -/
theorem VIDSoftGLESVdp1ScaledSpriteDraw_eq (localX localY : Int) (cmd : vdp1cmd_struct) :
    VIDSoftGLESVdp1ScaledSpriteDraw localX localY cmd
      = (let q := scaledSpriteCorners ((cmd.CMDCTRL >>> 8) &&& 0xF) (cmd.CMDXA + localX)
            (cmd.CMDYA + localY) cmd.CMDXB cmd.CMDYB (cmd.CMDXC + localX) (cmd.CMDYC + localY)
         { tl_x := s16 q.tl_x, tl_y := s16 q.tl_y, bl_x := s16 q.bl_x, bl_y := s16 q.bl_y
           tr_x := s16 q.tr_x, tr_y := s16 q.tr_y, br_x := s16 q.br_x, br_y := s16 q.br_y }) := by
  have hc : (cmd.CMDCTRL >>> 8) &&& 0xF < 16 := by
    have := Nat.and_pow_two_sub_one_eq_mod (cmd.CMDCTRL >>> 8) 4
    norm_num at this
    omega
  unfold VIDSoftGLESVdp1ScaledSpriteDraw scaledSpriteCorners rectangle
  generalize (cmd.CMDCTRL >>> 8) &&& 0xF = c at hc ⊢
  interval_cases c <;> simp +decide <;> and_intros <;> (congr 1; ring)

/-! ### Claim on scaled sprites -/

/-- C29 (as amended): with the anchor `(ax, ay) = (CMDXA + localX, CMDYA + localY)` and the
zoom-point code `c = (CMDCTRL >> 8) & 0xF`, the four corners `VIDSoftGLESVdp1ScaledSpriteDraw` hands to
`drawQuad` are those of `scaledSpriteCorners`: for `c` among `5, 6, 7, 9, 0xA, 0xB, 0xD, 0xE,
0xF` the rectangle `[x0, x0 + CMDXB] x [y0, y0 + CMDYB]` with `x0 = ax`, `ax - CMDXB/2`,
`ax - CMDXB` for `c & 3 = 1, 2, 3` and `y0 = ay`, `ay - CMDYB/2`, `ay - CMDYB` for
`(c >> 2) & 3 = 1, 2, 3` (truncating division), for every other code the rectangle from
`(ax, ay)` to `(CMDXC + localX, CMDYC + localY)`; provided these corners are 16-bit signed
values, as the parameters of `drawQuad` are. -/
theorem VIDSoftGLESVdp1ScaledSpriteDraw_spec (localX localY : Int) (cmd : vdp1cmd_struct)
    (hfit : (scaledSpriteCorners ((cmd.CMDCTRL >>> 8) &&& 0xF) (cmd.CMDXA + localX)
      (cmd.CMDYA + localY) cmd.CMDXB cmd.CMDYB (cmd.CMDXC + localX)
      (cmd.CMDYC + localY)).fits) :
    VIDSoftGLESVdp1ScaledSpriteDraw localX localY cmd
      = scaledSpriteCorners ((cmd.CMDCTRL >>> 8) &&& 0xF) (cmd.CMDXA + localX)
          (cmd.CMDYA + localY) cmd.CMDXB cmd.CMDYB (cmd.CMDXC + localX)
          (cmd.CMDYC + localY) := by
  rw [VIDSoftGLESVdp1ScaledSpriteDraw_eq]
  obtain ⟨h1, h2, h3, h4, h5, h6, h7, h8⟩ := hfit
  simp only [s16_of_fits _ h1, s16_of_fits _ h2, s16_of_fits _ h3, s16_of_fits _ h4,
    s16_of_fits _ h5, s16_of_fits _ h6, s16_of_fits _ h7, s16_of_fits _ h8]

theorem VIDSoftGLESVdp1ScaledSpriteDraw_spec_witness :
    (scaledSpriteCorners 0xA 100 50 (-41) 21 0 0).fits
    ∧ VIDSoftGLESVdp1ScaledSpriteDraw 0 0 exampleScaledCmd = rectangle 120 40 79 61 := by
  have h := VIDSoftGLESVdp1ScaledSpriteDraw_spec 0 0 exampleScaledCmd (by decide)
  refine ⟨by decide, ?_⟩
  rw [h]
  decide

/-- C29 as stated fails: for a corner outside the 16-bit signed range the value handed to
`drawQuad` is the corner converted to `s16`.  With the zoom point upper-left, `CMDXA = 32767`
and `localX = 1` the rectangle of the claim starts at `x = 32768`, the quad handed to
`drawQuad` at `x = -32768`. -/
theorem VIDSoftGLESVdp1ScaledSpriteDraw_spec_counterexample :
    (edgeScaledCmd.CMDCTRL >>> 8) &&& 0xF = 5
    ∧ scaledSpriteCorners ((edgeScaledCmd.CMDCTRL >>> 8) &&& 0xF) (edgeScaledCmd.CMDXA + 1)
        (edgeScaledCmd.CMDYA + 0) edgeScaledCmd.CMDXB edgeScaledCmd.CMDYB
        (edgeScaledCmd.CMDXC + 1) (edgeScaledCmd.CMDYC + 0)
      = rectangle 32768 0 32778 10
    ∧ VIDSoftGLESVdp1ScaledSpriteDraw 1 0 edgeScaledCmd
      = rectangle (-32768) 0 (-32758) 10 := by
  decide

/-! ## Theorems: the frame worker -/

/-- The value of `initRender_context` is `0` whatever `TitanGLInit` returns. -/
theorem initRender_context_ret (r : Int) (printed : List WorkerMessage) :
    (initRender_context r printed).1 = 0 := rfl

/-- A frame render thread runs the operations of the frame whatever `TitanGLInit` returns. -/
theorem frameRenderThread_runs (r : Int) (ops : List RenderingOperation) (w : WorkerState) :
    (frameRenderThread r ops w).returned = false
      ∧ (frameRenderThread r ops w).executed = w.executed ++ ops := by
  unfold frameRenderThread
  rw [if_neg (by simp [initRender_context_ret])]
  exact ⟨rfl, rfl⟩

/-! ### Claim on the failure of the graphics initialisation -/

/-- C23: `initRender_context` returns `0` also when `TitanGLInit` returns non-zero: it
only prints `Error TitanGLInit`.  For a `TitanGLInit` that returns `1` the frame render thread
therefore does not return, and it executes the operations of the frame (here `VDP2START`,
`VDP2END`). -/
theorem initRender_context_hides_failure :
    (initRender_context 1 []).1 = 0
      ∧ (initRender_context 1 []).2.1 = [WorkerMessage.ErrorTitanGLInit]
      ∧ (frameRenderThread 1 [RenderingOperation.VDP2START, RenderingOperation.VDP2END]
          { printed := [], executed := [], returned := false }).returned = false
      ∧ (frameRenderThread 1 [RenderingOperation.VDP2START, RenderingOperation.VDP2END]
          { printed := [], executed := [], returned := false }).executed
        = [RenderingOperation.VDP2START, RenderingOperation.VDP2END]
      ∧ ∀ (r : Int) (ops : List RenderingOperation) (w : WorkerState),
          (initRender_context r w.printed).1 = 0
            ∧ (frameRenderThread r ops w).returned = false
            ∧ (frameRenderThread r ops w).executed = w.executed ++ ops := by
  refine ⟨by decide, by decide, by decide, by decide, ?_⟩
  intro r ops w
  exact ⟨initRender_context_ret r w.printed, frameRenderThread_runs r ops w⟩

/-! ## Theorems: the layer threads -/

/-- What one call of `screenRenderThread` appends to the wake signals. -/
theorem screenRenderThread_woken (base : Nat) (pt : LayerDraw) (which ctx : Nat)
    (s : screen_render_thread_context) :
    (screenRenderThread base pt which ctx s).woken = s.woken ++ [base + which] := rfl

/-- The wake signals of `FrameVdp2DrawScreens`: five, one per slot, in the order of the slots. -/
theorem FrameVdp2DrawScreens_woken (base ctx : Nat) (s : screen_render_thread_context) :
    (FrameVdp2DrawScreens base ctx s).woken
      = s.woken ++ [base + 0, base + 1, base + 2, base + 3, base + 4] := by
  simp [FrameVdp2DrawScreens, screenRenderThread_woken]

/-- The slots after `FrameVdp2DrawScreens`. -/
theorem FrameVdp2DrawScreens_slots (base ctx : Nat) (s : screen_render_thread_context)
    (k : Nat) (hk : k < 5) :
    (FrameVdp2DrawScreens base ctx s).need_draw k = 1
      ∧ (FrameVdp2DrawScreens base ctx s).draw_finished k = 0
      ∧ (FrameVdp2DrawScreens base ctx s).ctx k = ctx
      ∧ (FrameVdp2DrawScreens base ctx s).draw k
        = [LayerDraw.Vdp2DrawNBG0, LayerDraw.Vdp2DrawNBG1, LayerDraw.Vdp2DrawNBG2,
            LayerDraw.Vdp2DrawNBG3, LayerDraw.Vdp2DrawRBG0].get? k := by
  interval_cases k <;> simp [FrameVdp2DrawScreens, screenRenderThread]

/-- Slots other than the five keep their content. -/
theorem FrameVdp2DrawScreens_others (base ctx : Nat) (s : screen_render_thread_context)
    (k : Nat) (hk : 5 ≤ k) :
    (FrameVdp2DrawScreens base ctx s).need_draw k = s.need_draw k
      ∧ (FrameVdp2DrawScreens base ctx s).draw k = s.draw k := by
  have h0 : k ≠ 0 := by omega
  have h1 : k ≠ 1 := by omega
  have h2 : k ≠ 2 := by omega
  have h3 : k ≠ 3 := by omega
  have h4 : k ≠ 4 := by omega
  simp [FrameVdp2DrawScreens, screenRenderThread, h0, h1, h2, h3, h4]

/-- The waiting loop is left only after a read that found the flag set. -/
theorem screenRenderWaitLoop_some (observe : Nat → Nat → Int) (which : Nat) :
    ∀ (fuel t t1 : Nat), screenRenderWaitLoop observe which fuel t = some t1 →
      t < t1 ∧ observe (t1 - 1) which ≠ 0 := by
  intro fuel
  induction fuel with
  | zero => intro t t1 h; simp [screenRenderWaitLoop] at h
  | succ n ih =>
    intro t t1 h
    simp only [screenRenderWaitLoop] at h
    split at h
    · rename_i hs
      have e : t1 = t + 1 := (Option.some.inj h).symm
      subst e
      exact ⟨by omega, by simpa using hs⟩
    · have := ih (t + 1) t1 h
      exact ⟨by omega, this.2⟩

/-- The waiting loop is left as soon as the flag is found set, given enough fuel. -/
theorem screenRenderWaitLoop_returns (observe : Nat → Nat → Int) (which : Nat) :
    ∀ (n t fuel : Nat), observe (t + n) which ≠ 0 → n < fuel →
      ∃ t1, screenRenderWaitLoop observe which fuel t = some t1 ∧ t1 ≤ t + n + 1 := by
  intro n
  induction n with
  | zero =>
    intro t fuel h hf
    obtain ⟨f, rfl⟩ : ∃ f, fuel = f + 1 := ⟨fuel - 1, by omega⟩
    refine ⟨t + 1, ?_, by omega⟩
    simp only [screenRenderWaitLoop]
    rw [if_pos (by simpa using h)]
  | succ n ih =>
    intro t fuel h hf
    obtain ⟨f, rfl⟩ : ∃ f, fuel = f + 1 := ⟨fuel - 1, by omega⟩
    simp only [screenRenderWaitLoop]
    split
    · exact ⟨t + 1, rfl, by omega⟩
    · have e : t + 1 + n = t + (n + 1) := by omega
      obtain ⟨t1, h1, h2⟩ := ih (t + 1) f (by rw [e]; exact h) (by omega)
      exact ⟨t1, h1, by omega⟩

/-- A call of `screenRenderWait` returns only after a read that found the flag of its slot
set. -/
theorem screenRenderWait_some (observe : Nat → Nat → Int) (which fuel : Nat)
    (st st1 : Nat × screen_render_thread_context)
    (h : screenRenderWait observe which fuel st = some st1) :
    st.1 < st1.1 ∧ observe (st1.1 - 1) which ≠ 0 := by
  unfold screenRenderWait at h
  split at h
  · simp at h
  · rename_i t ht
    have e := Option.some.inj h
    subst e
    exact screenRenderWaitLoop_some observe which fuel st.1 t ht

/-- The barrier of `FrameVdp2DrawEnd` is passed only after each of the five flags has been read
as set, in the order of the slots. -/
theorem FrameVdp2DrawEnd_some (observe : Nat → Nat → Int) (fuel : Nat)
    (st st1 : Nat × screen_render_thread_context)
    (h : FrameVdp2DrawEnd observe fuel st = some st1) :
    ∀ k, k < 5 → ∃ u, st.1 ≤ u ∧ u < st1.1 ∧ observe u k ≠ 0 := by
  unfold FrameVdp2DrawEnd at h
  simp only [Option.bind_eq_some] at h
  obtain ⟨a0, h0, a1, h1, a2, h2, a3, h3, h4⟩ := h
  have w0 := screenRenderWait_some observe 0 fuel st a0 h0
  have w1 := screenRenderWait_some observe 1 fuel a0 a1 h1
  have w2 := screenRenderWait_some observe 2 fuel a1 a2 h2
  have w3 := screenRenderWait_some observe 3 fuel a2 a3 h3
  have w4 := screenRenderWait_some observe 4 fuel a3 st1 h4
  intro k hk
  interval_cases k
  · exact ⟨a0.1 - 1, by omega, by omega, w0.2⟩
  · exact ⟨a1.1 - 1, by omega, by omega, w1.2⟩
  · exact ⟨a2.1 - 1, by omega, by omega, w2.2⟩
  · exact ⟨a3.1 - 1, by omega, by omega, w3.2⟩
  · exact ⟨st1.1 - 1, by omega, by omega, w4.2⟩

/-! ### Claim on the dispatch of the layers -/

/-- C24: `FrameVdp2DrawScreens` issues exactly five dispatches and wake signals, one for each of
the slots `0 .. 4` with the layer functions `Vdp2DrawNBG0`, `Vdp2DrawNBG1`, `Vdp2DrawNBG2`,
`Vdp2DrawNBG3`, `Vdp2DrawRBG0` in this order, and touches no other slot; and whenever the
barrier of `FrameVdp2DrawEnd` is passed, the frame thread has, for each of the five slots, read
the flag `draw_finished` of that slot as set during the wait. -/
theorem FrameVdp2DrawScreens_barrier (base ctx : Nat) (s : screen_render_thread_context)
    (observe : Nat → Nat → Int) (fuel : Nat) (st st1 : Nat × screen_render_thread_context)
    (h : FrameVdp2DrawEnd observe fuel st = some st1) :
    (FrameVdp2DrawScreens base ctx s).woken
        = s.woken ++ [base + 0, base + 1, base + 2, base + 3, base + 4]
      ∧ (∀ k, k < 5 →
          (FrameVdp2DrawScreens base ctx s).need_draw k = 1
            ∧ (FrameVdp2DrawScreens base ctx s).draw_finished k = 0
            ∧ (FrameVdp2DrawScreens base ctx s).ctx k = ctx
            ∧ (FrameVdp2DrawScreens base ctx s).draw k
              = [LayerDraw.Vdp2DrawNBG0, LayerDraw.Vdp2DrawNBG1, LayerDraw.Vdp2DrawNBG2,
                  LayerDraw.Vdp2DrawNBG3, LayerDraw.Vdp2DrawRBG0].get? k)
      ∧ (∀ k, 5 ≤ k →
          (FrameVdp2DrawScreens base ctx s).need_draw k = s.need_draw k
            ∧ (FrameVdp2DrawScreens base ctx s).draw k = s.draw k)
      ∧ ∀ k, k < 5 → ∃ u, st.1 ≤ u ∧ u < st1.1 ∧ observe u k ≠ 0 :=
  ⟨FrameVdp2DrawScreens_woken base ctx s, FrameVdp2DrawScreens_slots base ctx s,
    FrameVdp2DrawScreens_others base ctx s, FrameVdp2DrawEnd_some observe fuel st st1 h⟩

theorem FrameVdp2DrawScreens_barrier_witness :
    (FrameVdp2DrawEnd staggeredObserve 2
        (0, FrameVdp2DrawScreens 10 7 screen_render_thread_context.init)).map Prod.fst = some 9
    ∧ (FrameVdp2DrawScreens 10 7 screen_render_thread_context.init).woken
        = [10, 11, 12, 13, 14]
    ∧ ∀ k, k < 5 → ∃ u, 0 ≤ u ∧ u < 9 ∧ staggeredObserve u k ≠ 0 := by
  have e : (FrameVdp2DrawEnd staggeredObserve 2
        (0, FrameVdp2DrawScreens 10 7 screen_render_thread_context.init)).map Prod.fst
      = some 9 := by decide
  obtain ⟨st1, h1, h2⟩ := Option.map_eq_some'.mp e
  have h := FrameVdp2DrawScreens_barrier 10 7 screen_render_thread_context.init
    staggeredObserve 2 (0, FrameVdp2DrawScreens 10 7 screen_render_thread_context.init) st1 h1
  refine ⟨e, ?_, ?_⟩
  · have := h.1
    simpa [screen_render_thread_context.init] using this
  · intro k hk
    have := h.2.2.2 k hk
    rw [h2] at this
    exact this

/-! ## Theorems: `getpixel` -/

/-- The 128-colour fetch never yields `0xFF`. -/
theorem Vdp1ReadPattern128_le (base offset : Nat) (ram : Vdp1RamReads) :
    Vdp1ReadPattern128 base offset ram ≤ 0x7F := by
  unfold Vdp1ReadPattern128
  have h := Nat.and_pow_two_sub_one_eq_mod
    (ram.T1ReadByte (((base + offset) % 4294967296) &&& 0x7FFFF) % 256) 7
  norm_num at h
  rw [h]
  omega

/-- What `getpixel` does with the texel it fetched, for a textured command with end codes
enabled. -/
theorem getpixel_textured (ram : Vdp1RamReads) (linenumber currentlineindex : Int)
    (cmd : vdp1cmd_struct) (g : pixel_globals) (texel : Nat)
    (hshape : cmd.CMDCTRL &&& 0x7 ≠ 4 ∧ cmd.CMDCTRL &&& 0x7 ≠ 5 ∧ cmd.CMDCTRL &&& 0x7 ≠ 6)
    (hend : cmd.CMDPMOD &&& 0x80 = 0)
    (htexel : getpixelTexel ram ((cmd.CMDPMOD >>> 3) &&& 0x7)
      ((cmd.CMDSRCA <<< 3) % 4294967296) g.characterWidth
      (getpixelFlip ((cmd.CMDCTRL &&& 0x30) >>> 4) g linenumber currentlineindex).1
      (getpixelFlip ((cmd.CMDCTRL &&& 0x30) >>> 4) g linenumber currentlineindex).2
        = some texel) :
    (((cmd.CMDPMOD >>> 3) &&& 0x7 = 0 ∨ (cmd.CMDPMOD >>> 3) &&& 0x7 = 1) → texel = 0xF →
        getpixel ram linenumber currentlineindex cmd g = (1, { g with currentPixel := 0xF }))
    ∧ (((cmd.CMDPMOD >>> 3) &&& 0x7 = 3 ∨ (cmd.CMDPMOD >>> 3) &&& 0x7 = 4) → texel = 0xFF →
        getpixel ram linenumber currentlineindex cmd g = (1, { g with currentPixel := 0xFF }))
    ∧ (((cmd.CMDPMOD >>> 3) &&& 0x7 = 5 ∨ (cmd.CMDPMOD >>> 3) &&& 0x7 = 6) → texel = 0x7FFF →
        getpixel ram linenumber currentlineindex cmd g
          = (1, { g with currentPixel := 0x7FFF }))
    ∧ ((cmd.CMDPMOD >>> 3) &&& 0x7 = 2 → texel = 63 →
        getpixel ram linenumber currentlineindex cmd g
          = (0, { g with
                  currentPixel :=
                    if cmd.CMDPMOD &&& 0x40 ≠ 0 then
                      (((cmd.CMDCOLR % 65536) &&& 0xffc0 ||| 0 : Nat) : Int)
                    else 0
                  currentPixelIsVisible := 0x3f })) := by
  obtain ⟨s4, s5, s6⟩ := hshape
  refine ⟨?_, ?_, ?_, ?_⟩
  · intro hm ht
    subst ht
    rcases hm with hm | hm <;> rw [hm] at htexel <;>
      simp [getpixel, hm, htexel, s4, s5, s6, hend]
  · intro hm ht
    subst ht
    rcases hm with hm | hm <;> rw [hm] at htexel <;>
      simp [getpixel, hm, htexel, s4, s5, s6, hend]
  · intro hm ht
    subst ht
    rcases hm with hm | hm <;> rw [hm] at htexel <;>
      simp [getpixel, hm, htexel, s4, s5, s6, hend]
  · intro hm ht
    subst ht
    rw [hm] at htexel
    by_cases hs : cmd.CMDPMOD &&& 0x40 = 0 <;>
      simp [getpixel, hm, htexel, s4, s5, s6, hend, hs]

/-! ### Claim on end codes -/

/-- C27 (as amended): for a textured command (`CMDCTRL & 7` not 4, 5 or 6) with end codes enabled
(`CMDPMOD` bit 7 clear), `getpixel` returns `1` when the texel it fetches is the end code of the
colour mode in the modes 0 and 1 (`0xF`), 4 (`0xFF`), 5 and 6 (`0x7FFF`).  In the 64-colour
mode 2 the texel `63` does not end the fetch: `getpixel` returns `0` and leaves the transparent
pixel `0` (the first entry of the colour bank when `SPD` is set) in `currentPixel`. -/
theorem getpixel_endcode (ram : Vdp1RamReads) (linenumber currentlineindex : Int)
    (cmd : vdp1cmd_struct) (g : pixel_globals) (texel : Nat)
    (hshape : cmd.CMDCTRL &&& 0x7 ≠ 4 ∧ cmd.CMDCTRL &&& 0x7 ≠ 5 ∧ cmd.CMDCTRL &&& 0x7 ≠ 6)
    (hend : cmd.CMDPMOD &&& 0x80 = 0)
    (htexel : getpixelTexel ram ((cmd.CMDPMOD >>> 3) &&& 0x7)
      ((cmd.CMDSRCA <<< 3) % 4294967296) g.characterWidth
      (getpixelFlip ((cmd.CMDCTRL &&& 0x30) >>> 4) g linenumber currentlineindex).1
      (getpixelFlip ((cmd.CMDCTRL &&& 0x30) >>> 4) g linenumber currentlineindex).2
        = some texel) :
    (((cmd.CMDPMOD >>> 3) &&& 0x7 = 0 ∨ (cmd.CMDPMOD >>> 3) &&& 0x7 = 1) → texel = 0xF →
        (getpixel ram linenumber currentlineindex cmd g).1 = 1)
    ∧ ((cmd.CMDPMOD >>> 3) &&& 0x7 = 4 → texel = 0xFF →
        (getpixel ram linenumber currentlineindex cmd g).1 = 1)
    ∧ (((cmd.CMDPMOD >>> 3) &&& 0x7 = 5 ∨ (cmd.CMDPMOD >>> 3) &&& 0x7 = 6) → texel = 0x7FFF →
        (getpixel ram linenumber currentlineindex cmd g).1 = 1)
    ∧ ((cmd.CMDPMOD >>> 3) &&& 0x7 = 2 → texel = 63 →
        (getpixel ram linenumber currentlineindex cmd g).1 = 0
        ∧ (getpixel ram linenumber currentlineindex cmd g).2.currentPixel
          = if cmd.CMDPMOD &&& 0x40 ≠ 0 then
              (((cmd.CMDCOLR % 65536) &&& 0xffc0 ||| 0 : Nat) : Int)
            else 0) := by
  have h := getpixel_textured ram linenumber currentlineindex cmd g texel hshape hend htexel
  refine ⟨?_, ?_, ?_, ?_⟩
  · intro hm ht
    rw [h.1 hm ht]
  · intro hm ht
    rw [h.2.1 (Or.inr hm) ht]
  · intro hm ht
    rw [h.2.2.1 hm ht]
  · intro hm ht
    rw [h.2.2.2 hm ht]
    exact ⟨rfl, rfl⟩

theorem getpixel_endcode_witness :
    ((spriteCmd 0).CMDCTRL &&& 0x7 ≠ 4 ∧ (spriteCmd 0).CMDCTRL &&& 0x7 ≠ 5
      ∧ (spriteCmd 0).CMDCTRL &&& 0x7 ≠ 6)
    ∧ (spriteCmd 0).CMDPMOD &&& 0x80 = 0
    ∧ (getpixel (constRam 0xFF 0) 0 0 (spriteCmd 0) spriteGlobals).1 = 1 :=
  ⟨by decide, by decide,
    (getpixel_endcode (constRam 0xFF 0) 0 0 (spriteCmd 0) spriteGlobals 0xF (by decide)
      (by decide) (by decide)).1 (Or.inl (by decide)) rfl⟩

/-- C27 as stated fails: the end code `63` of the 64-colour mode does not make `getpixel`
return `1`.  For a
textured command in colour mode 2 with end codes enabled and a VDP1 RAM of bytes `0x3F`, the
texel is `63` and `getpixel` returns `0`. -/
theorem getpixel_endcode_counterexample :
    ((spriteCmd 0x10).CMDCTRL &&& 0x7 ≠ 4 ∧ (spriteCmd 0x10).CMDCTRL &&& 0x7 ≠ 5
      ∧ (spriteCmd 0x10).CMDCTRL &&& 0x7 ≠ 6)
    ∧ (spriteCmd 0x10).CMDPMOD &&& 0x80 = 0
    ∧ ((spriteCmd 0x10).CMDPMOD >>> 3) &&& 0x7 = 2
    ∧ getpixelTexel (constRam 0x3F 0) 2 0 8 0 0 = some 63
    ∧ getpixel (constRam 0x3F 0) 0 0 (spriteCmd 0x10) spriteGlobals
      = (0, { spriteGlobals with currentPixel := 0, currentPixelIsVisible := 0x3f }) := by
  decide

/-! ## Theorems: `putpixel` -/

/-- The blend of `alphablend16` at level `128`: the floor average of each 5-bit channel. -/
theorem alphablend16_half (d s : Nat) :
    alphablend16 d s 0x80
      = (s % 32 + d % 32) / 2 + 32 * ((s / 32 % 32 + d / 32 % 32) / 2)
        + 1024 * ((s / 1024 % 32 + d / 1024 % 32) / 2) := by
  have mr : ∀ v : Nat, v &&& 0x001f = v % 32 := fun v => Nat.and_pow_two_sub_one_eq_mod v 5
  have mg : ∀ v : Nat, v &&& 0x03e0 = 32 * (v / 32 % 32) := fun v => by
    have h := and_shifted_mask v 5 5
    norm_num at h
    exact h
  have mb : ∀ v : Nat, v &&& 0x7c00 = 1024 * (v / 1024 % 32) := fun v => by
    have h := and_shifted_mask v 10 5
    norm_num at h
    exact h
  unfold alphablend16 toU32
  simp only [mr, mg, mb, Nat.shiftRight_eq_div_pow]
  have hr : ((((s % 32 : Nat) : Int) * ((0x80 : Nat) : Int)
      + ((d % 32 : Nat) : Int) * (256 - ((0x80 : Nat) : Int))) % 4294967296).toNat
      = 128 * (s % 32 + d % 32) := by
    omega
  have hg : ((((32 * (s / 32 % 32) : Nat) : Int) * ((0x80 : Nat) : Int)
      + ((32 * (d / 32 % 32) : Nat) : Int) * (256 - ((0x80 : Nat) : Int))) % 4294967296).toNat
      = 4096 * (s / 32 % 32 + d / 32 % 32) := by
    omega
  have hb : ((((1024 * (s / 1024 % 32) : Nat) : Int) * ((0x80 : Nat) : Int)
      + ((1024 * (d / 1024 % 32) : Nat) : Int) * (256 - ((0x80 : Nat) : Int)))
        % 4294967296).toNat
      = 131072 * (s / 1024 % 32 + d / 1024 % 32) := by
    omega
  rw [hr, hg, hb]
  have er : 128 * (s % 32 + d % 32) / 2 ^ 8 % 32 = (s % 32 + d % 32) / 2 := by omega
  have eg : 32 * (4096 * (s / 32 % 32 + d / 32 % 32) / 2 ^ 8 / 32 % 32)
      = 2 ^ 5 * ((s / 32 % 32 + d / 32 % 32) / 2) := by omega
  have eb : 1024 * (131072 * (s / 1024 % 32 + d / 1024 % 32) / 2 ^ 8 / 1024 % 32)
      = 2 ^ 10 * ((s / 1024 % 32 + d / 1024 % 32) / 2) := by omega
  rw [er, eg, eb,
    or_mul_pow_two 5 ((s / 32 % 32 + d / 32 % 32) / 2) ((s % 32 + d % 32) / 2) (by omega),
    or_mul_pow_two 10 ((s / 1024 % 32 + d / 1024 % 32) / 2)
      (2 ^ 5 * ((s / 32 % 32 + d / 32 % 32) / 2) + (s % 32 + d % 32) / 2) (by omega)]
  omega

/-- The test of the most significant bit of a 16-bit word. -/
theorem msb_test (d : Nat) (hd : d < 65536) : d &&& 0x8000 ≠ 0 ↔ 0x8000 ≤ d := by
  have h := and_shifted_mask d 15 1
  norm_num at h
  rw [h]
  omega

/-- Setting the most significant bit of a 15-bit value. -/
theorem or_msb (v : Nat) (hv : v < 0x8000) : v ||| 0x8000 = 0x8000 + v := by
  have h := or_mul_pow_two 15 1 v (by norm_num; omega)
  norm_num at h
  rw [h]

/-- The blend at level `128` is a 15-bit value. -/
theorem alphablend16_half_lt (d s : Nat) : alphablend16 d s 0x80 < 0x8000 := by
  rw [alphablend16_half]
  omega

/-- What `putpixel` does to the frame buffer in the shadow and the half-transparent mode, for a
pixel that passes all its tests. -/
theorem putpixel_modes (vdp1interlace vdp1width : Int) (leftColumnColor : column_color)
    (x y : Int) (regs : Vdp1Clip) (cmd : vdp1cmd_struct) (g : pixel_globals) (fb : Int → Nat)
    (hdil : CheckDil vdp1interlace y regs = 0)
    (hidx : Int.tdiv y vdp1interlace * vdp1width + x < 0x20000)
    (hmesh : ¬ (cmd.CMDPMOD &&& 0x0100 ≠ 0 ∧ cXor x (Int.tdiv y vdp1interlace) &&& 1 ≠ 0))
    (hclip : IsClipped x y regs cmd = 0)
    (hvis : cmd.CMDPMOD &&& 0x40 ≠ 0 ∨ cAnd g.currentPixel g.currentPixelIsVisible ≠ 0)
    (hmsb : cmd.CMDPMOD &&& 0x8000 = 0) :
    (cmd.CMDPMOD &&& 0x7 = 1 →
      putpixel vdp1interlace vdp1width leftColumnColor x y regs cmd g fb
        = (g, if fb (Int.tdiv y vdp1interlace * vdp1width + x) &&& 0x8000 ≠ 0 then
                storePix fb (Int.tdiv y vdp1interlace * vdp1width + x)
                  (alphablend16 (fb (Int.tdiv y vdp1interlace * vdp1width + x)) 0 0x80
                    ||| 0x8000)
              else fb))
    ∧ (cmd.CMDPMOD &&& 0x7 = 3 →
      putpixel vdp1interlace vdp1width leftColumnColor x y regs cmd g fb
        = (g, if fb (Int.tdiv y vdp1interlace * vdp1width + x) &&& 0x8000 ≠ 0 then
                storePix fb (Int.tdiv y vdp1interlace * vdp1width + x)
                  (alphablend16 (fb (Int.tdiv y vdp1interlace * vdp1width + x))
                    (toU32 g.currentPixel) 0x80 ||| 0x8000)
              else
                storePix fb (Int.tdiv y vdp1interlace * vdp1width + x)
                  (toU32 g.currentPixel))) := by
  have h1 : ¬ (Int.tdiv y vdp1interlace * vdp1width + x ≥ 0x20000) := by omega
  have hv : (decide (cmd.CMDPMOD &&& 0x40 ≠ 0) = true
      ∨ cAnd g.currentPixel g.currentPixelIsVisible ≠ 0) := by
    rcases hvis with h | h
    · exact Or.inl (by simpa using h)
    · exact Or.inr h
  constructor
  · intro hm
    unfold putpixel
    simp only [hdil, hclip, hmsb, hm, ne_eq, not_true_eq_false, if_false, h1, hmesh, hv,
      if_true, false_and]
    split <;> rfl
  · intro hm
    unfold putpixel
    simp only [hdil, hclip, hmsb, hm, ne_eq, not_true_eq_false, if_false, h1, hmesh, hv,
      if_true, false_and]
    split <;> rfl

/-! ### Claim on the shadow and the half-transparent mode -/

/-- C28 (as amended): in `putpixel` (16-bit frame buffer), for a pixel that passes the
interlace, range, mesh and clip tests and is visible, with `CMDPMOD` bit 15 clear, and a destination word `d`:
in shadow mode (`CMDPMOD & 7 = 1`) the destination is written only if its bit 15 is set, and
then each of its three 5-bit channels is halved and bit 15 kept; otherwise the frame buffer is
left as it is.  In half-transparent mode (`CMDPMOD & 7 = 3`) the destination becomes, with bit
15 set, the floor average per channel of destination and source pixel if bit 15 of the
destination was set, and the source pixel (as a 16-bit word) otherwise. -/
theorem putpixel_shadow_half_transparent (vdp1interlace vdp1width : Int)
    (leftColumnColor : column_color) (x y : Int) (regs : Vdp1Clip) (cmd : vdp1cmd_struct)
    (g : pixel_globals) (fb : Int → Nat)
    (hdil : CheckDil vdp1interlace y regs = 0)
    (hidx : Int.tdiv y vdp1interlace * vdp1width + x < 0x20000)
    (hmesh : ¬ (cmd.CMDPMOD &&& 0x0100 ≠ 0 ∧ cXor x (Int.tdiv y vdp1interlace) &&& 1 ≠ 0))
    (hclip : IsClipped x y regs cmd = 0)
    (hvis : cmd.CMDPMOD &&& 0x40 ≠ 0 ∨ cAnd g.currentPixel g.currentPixelIsVisible ≠ 0)
    (hmsb : cmd.CMDPMOD &&& 0x8000 = 0)
    (hd : fb (Int.tdiv y vdp1interlace * vdp1width + x) < 65536) :
    (cmd.CMDPMOD &&& 0x7 = 1 →
      (putpixel vdp1interlace vdp1width leftColumnColor x y regs cmd g fb).2
        = if 0x8000 ≤ fb (Int.tdiv y vdp1interlace * vdp1width + x) then
            storePix fb (Int.tdiv y vdp1interlace * vdp1width + x)
              (0x8000 + fb (Int.tdiv y vdp1interlace * vdp1width + x) % 32 / 2
                + 32 * (fb (Int.tdiv y vdp1interlace * vdp1width + x) / 32 % 32 / 2)
                + 1024 * (fb (Int.tdiv y vdp1interlace * vdp1width + x) / 1024 % 32 / 2))
          else fb)
    ∧ (cmd.CMDPMOD &&& 0x7 = 3 →
      (putpixel vdp1interlace vdp1width leftColumnColor x y regs cmd g fb).2
        = if 0x8000 ≤ fb (Int.tdiv y vdp1interlace * vdp1width + x) then
            storePix fb (Int.tdiv y vdp1interlace * vdp1width + x)
              (0x8000
                + (toU32 g.currentPixel % 32
                    + fb (Int.tdiv y vdp1interlace * vdp1width + x) % 32) / 2
                + 32 * ((toU32 g.currentPixel / 32 % 32
                    + fb (Int.tdiv y vdp1interlace * vdp1width + x) / 32 % 32) / 2)
                + 1024 * ((toU32 g.currentPixel / 1024 % 32
                    + fb (Int.tdiv y vdp1interlace * vdp1width + x) / 1024 % 32) / 2))
          else
            storePix fb (Int.tdiv y vdp1interlace * vdp1width + x) (toU32 g.currentPixel)) := by
  have h := putpixel_modes vdp1interlace vdp1width leftColumnColor x y regs cmd g fb hdil hidx
    hmesh hclip hvis hmsb
  generalize Int.tdiv y vdp1interlace * vdp1width + x = idx at h hd ⊢
  have ht := msb_test (fb idx) hd
  constructor
  · intro hm
    rw [h.1 hm]
    by_cases hb : 0x8000 ≤ fb idx
    · rw [if_pos (ht.mpr hb), if_pos hb, or_msb _ (alphablend16_half_lt _ _),
        alphablend16_half]
      exact congrArg (storePix fb idx) (by omega)
    · rw [if_neg (fun hc => hb (ht.mp hc)), if_neg hb]
  · intro hm
    rw [h.2 hm]
    by_cases hb : 0x8000 ≤ fb idx
    · rw [if_pos (ht.mpr hb), if_pos hb, or_msb _ (alphablend16_half_lt _ _),
        alphablend16_half]
      exact congrArg (storePix fb idx) (by omega)
    · rw [if_neg (fun hc => hb (ht.mp hc)), if_neg hb]

theorem putpixel_shadow_half_transparent_witness :
    (CheckDil 1 0 exampleClipRegs = 0
      ∧ Int.tdiv 0 1 * 512 + 0 < (0x20000 : Int)
      ∧ IsClipped 0 0 exampleClipRegs (spriteCmd 3) = 0
      ∧ exampleFb (Int.tdiv 0 1 * 512 + 0) < 65536)
    ∧ (putpixel 1 512 exampleColumn 0 0 exampleClipRegs (spriteCmd 3) exampleDrawGlobals
        exampleFb).2 0 = 0xC210
    ∧ (putpixel 1 512 exampleColumn 1 0 exampleClipRegs (spriteCmd 3) exampleDrawGlobals
        exampleFb).2 1 = 0x0421 := by
  have h := (putpixel_shadow_half_transparent 1 512 exampleColumn 0 0 exampleClipRegs
    (spriteCmd 3) exampleDrawGlobals exampleFb (by decide) (by decide) (by decide) (by decide)
    (by decide) (by decide) (by decide)).2 (by decide)
  refine ⟨⟨by decide, by decide, by decide, by decide⟩, ?_, by decide⟩
  rw [h]
  decide

/-- C28 as stated fails: the pixel `(0, 256)` with the system clip `512 x 256`, no double
interlace and the width 512 passes the interlace, mesh and clip tests, is visible and has
`CMDPMOD` bit 15 clear, but its index `256 * 512` is not below `0x20000`, so `putpixel`
returns at its range test: the word there, whose bit 15 is set, is left as it is both in
half-transparent mode (the average with the source would be `0xC210`) and in shadow mode (the
halved word would be `0xBDEF`). -/
theorem putpixel_shadow_half_transparent_counterexample :
    CheckDil 1 256 wideClipRegs = 0
    ∧ IsClipped 0 256 wideClipRegs (spriteCmd 0x3) = 0
    ∧ ¬ ((spriteCmd 0x3).CMDPMOD &&& 0x0100 ≠ 0 ∧ cXor 0 (Int.tdiv 256 1) &&& 1 ≠ 0)
    ∧ cAnd exampleDrawGlobals.currentPixel exampleDrawGlobals.currentPixelIsVisible ≠ 0
    ∧ (spriteCmd 0x3).CMDPMOD &&& 0x8000 = 0
    ∧ (spriteCmd 0x3).CMDPMOD &&& 0x7 = 3
    ∧ fullFb 0x20000 &&& 0x8000 ≠ 0
    ∧ Int.tdiv 256 1 * 512 + 0 = 0x20000
    ∧ (putpixel 1 512 exampleColumn 0 256 wideClipRegs (spriteCmd 0x3) exampleDrawGlobals
        fullFb).2 0x20000 = 0xFFFF
    ∧ alphablend16 (fullFb 0x20000) (toU32 exampleDrawGlobals.currentPixel) 0x80 ||| 0x8000
        = 0xC210
    ∧ (putpixel 1 512 exampleColumn 0 256 wideClipRegs (spriteCmd 0x1) exampleDrawGlobals
        fullFb).2 0x20000 = 0xFFFF
    ∧ alphablend16 (fullFb 0x20000) 0 0x80 ||| 0x8000 = 0xBDEF := by
  decide

/-! ## Theorems: `iterateOverLine` -/

/-- A callback that never asks to stop makes the test of `iterateOverLine` fail. -/
theorem callLine_fst {σ : Type} (cb : Option (LineCallback σ))
    (hcb : ∀ f, cb = some f → ∀ x y i d, (f x y i d).1 = 0) (x y i : Int) (st : LineState σ) :
    (callLine cb x y i st).1 = false := by
  cases cb with
  | none => rfl
  | some f => simp [callLine, hcb f rfl x y i st.data]

/-- The calls after one test of the callback. -/
theorem callLine_calls {σ : Type} (cb : Option (LineCallback σ)) (x y i : Int)
    (st : LineState σ) :
    (callLine cb x y i st).2.calls = st.calls ++ called cb x y i := by
  cases cb with
  | none => simp [callLine, called]
  | some f => simp [callLine, called]

/-- The indices of the calls of one test. -/
theorem called_map {σ : Type} (cb : Option (LineCallback σ)) (x y i : Int) :
    (called cb x y i).map (fun c => c.2.2) = if cb.isSome then [i] else [] := by
  cases cb <;> rfl

/-- The absolute value of a natural number with a sign. -/
theorem abs_sign_mul (s : Int) (hs : s = 1 ∨ s = -1) (k : Nat) : |s * (k : Int)| = (k : Int) := by
  rcases hs with h | h <;> subst h <;> simp

/-- Appending the next index to a run of indices. -/
theorem idxFrom_succ (k : Nat) : ∀ i : Int, idxFrom i (k + 1) = idxFrom i k ++ [i + k] := by
  induction k with
  | zero => intro i; simp [idxFrom]
  | succ n ih =>
    intro i
    rw [idxFrom, ih (i + 1), idxFrom]
    simp only [List.cons_append, List.cons.injEq, true_and]
    congr 2
    push_cast
    ring

/-- The run of indices from `0` is the list of the first natural numbers. -/
theorem idxFrom_eq_range (k : Nat) : idxFrom 0 k = List.map (fun j : Nat => (j : Int)) (List.range k) := by
  induction k with
  | zero => rfl
  | succ n ih =>
    rw [idxFrom_succ, ih, List.range_succ, List.map_append]
    simp

/-- The length of a run of indices. -/
theorem idxFrom_length (k : Nat) : ∀ i : Int, (idxFrom i k).length = k := by
  induction k with
  | zero => intro i; rfl
  | succ n ih => intro i; simp [idxFrom, ih]

/-- The count of a loop with no step to go. -/
theorem walkCount_zero (greedy : Int) (r E D : Nat) (hr : r < D) :
    walkCount greedy 0 r E D = 0 := by
  unfold walkCount
  split
  · simp [Nat.div_eq_of_lt hr]
  · rfl

/-- The count of a loop whose first pass steps on the minor axis. -/
theorem walkCount_step (greedy : Int) (n r E D : Nat) (hD : 0 < D) (hge : D ≤ r + E) :
    walkCount greedy (n + 1) r E D
      = walkCount greedy n (r + E - D) E D + (if greedy ≠ 0 then 2 else 1) := by
  unfold walkCount
  split
  · have e : r + (n + 1) * E = (r + E - D + n * E) + D := by
      have : (n + 1) * E = n * E + E := by ring
      omega
    rw [e, Nat.add_div_right _ hD]
    omega
  · omega

/-- The count of a loop whose first pass does not step on the minor axis. -/
theorem walkCount_stay (greedy : Int) (n r E D : Nat) :
    walkCount greedy (n + 1) r E D = walkCount greedy n (r + E) E D + 1 := by
  unfold walkCount
  have e : r + (n + 1) * E = r + E + n * E := by ring
  rw [e]
  omega

/-- The loop on `x` of `iterateOverLine` with a callback that never stops it: with `n` steps to
go it ends by its condition after `walkCount` indices, each used by one call. -/
theorem iterateOverLineX_run {σ : Type} (cb : Option (LineCallback σ))
    (hcb : ∀ f, cb = some f → ∀ x y i d, (f x y i d).1 = 0)
    (greedy ax ay : Int) (D E : Nat) (x2 : Int)
    (hax : ax = 1 ∨ ax = -1) (hay : ay = 1 ∨ ay = -1) (hED : E ≤ D) :
    ∀ (n fuel : Nat) (x1 y1 : Int) (r : Nat) (i : Int) (st : LineState σ),
      x2 = x1 + ax * (n : Int) → r < D → n < fuel →
      ∃ st1 new,
        iterateOverLineX cb greedy ax ay (ay * (D : Int)) (ay * (E : Int)) x2 fuel x1 y1
            (ay * (r : Int)) i st
          = some (LoopEnd.left (i + (walkCount greedy n r E D : Nat)) st1)
        ∧ st1.calls = st.calls ++ new
        ∧ new.map (fun c => c.2.2)
          = (if cb.isSome then idxFrom i (walkCount greedy n r E D) else [])
        ∧ (0 < n → new.head? = (called cb x1 y1 i).head?) := by
  intro n
  induction n with
  | zero =>
    intro fuel x1 y1 r i st hx hr hf
    obtain ⟨f, rfl⟩ : ∃ f, fuel = f + 1 := ⟨fuel - 1, by omega⟩
    have e : x1 = x2 := by
      simp at hx
      exact hx.symm
    refine ⟨st, [], ?_, by simp, ?_, by simp⟩
    · simp only [iterateOverLineX, if_pos e, walkCount_zero greedy r E D hr]
      simp
    · rw [walkCount_zero greedy r E D hr]
      simp [idxFrom]
  | succ n ih =>
    intro fuel x1 y1 r i st hx hr hf
    obtain ⟨f, rfl⟩ : ∃ f, fuel = f + 1 := ⟨fuel - 1, by omega⟩
    have hne : x1 ≠ x2 := by
      rcases hax with h | h <;> subst h <;> push_cast at hx <;> omega
    have hx1 : x2 = (x1 + ax) + ax * (n : Int) := by
      rw [hx]
      push_cast
      ring
    have ea : ay * (r : Int) + ay * (E : Int) = ay * ((r + E : Nat) : Int) := by
      push_cast
      ring
    simp only [iterateOverLineX, if_neg hne, callLine_fst cb hcb, Bool.false_eq_true, if_false,
      ea, abs_sign_mul ay hay]
    by_cases hge : D ≤ r + E
    · have hge1 : ((r + E : Nat) : Int) ≥ (D : Int) := by exact_mod_cast hge
      have es : ay * ((r + E : Nat) : Int) - ay * (D : Int) = ay * ((r + E - D : Nat) : Int) := by
        rw [Nat.cast_sub hge]
        ring
      rw [if_pos hge1, es]
      by_cases hg : greedy ≠ 0
      · rw [if_pos hg]
        have hf1 : (if ax = ay then callLine cb (x1 + ax) (y1 + ay - ay) (i + 1)
              (callLine cb x1 y1 i st).2
            else callLine cb x1 (y1 + ay) (i + 1) (callLine cb x1 y1 i st).2).1 = false := by
          split <;> exact callLine_fst cb hcb _ _ _ _
        rw [hf1]
        simp only [Bool.false_eq_true, if_false]
        obtain ⟨st1, new, h1, h2, h3, h4⟩ := ih f (x1 + ax) (y1 + ay) (r + E - D) (i + 1 + 1)
          (if ax = ay then callLine cb (x1 + ax) (y1 + ay - ay) (i + 1)
              (callLine cb x1 y1 i st).2
            else callLine cb x1 (y1 + ay) (i + 1) (callLine cb x1 y1 i st).2).2
          hx1 (by omega) (by omega)
        have hc : ∃ xe ye, (if ax = ay then callLine cb (x1 + ax) (y1 + ay - ay) (i + 1)
              (callLine cb x1 y1 i st).2
            else callLine cb x1 (y1 + ay) (i + 1) (callLine cb x1 y1 i st).2).2.calls
            = st.calls ++ called cb x1 y1 i ++ called cb xe ye (i + 1) := by
          split
          · exact ⟨x1 + ax, y1 + ay - ay, by rw [callLine_calls, callLine_calls]⟩
          · exact ⟨x1, y1 + ay, by rw [callLine_calls, callLine_calls]⟩
        obtain ⟨xe, ye, hc⟩ := hc
        refine ⟨st1, called cb x1 y1 i ++ called cb xe ye (i + 1) ++ new, ?_, ?_, ?_, ?_⟩
        · rw [h1, walkCount_step greedy n r E D (by omega) hge, if_pos hg]
          congr 2
          push_cast
          ring
        · rw [h2, hc]
          simp [List.append_assoc]
        · rw [List.map_append, List.map_append, h3, called_map, called_map,
            walkCount_step greedy n r E D (by omega) hge, if_pos hg]
          cases cb <;> simp [idxFrom]
        · intro _
          cases cb with
          | none =>
            have : new = [] := by simpa using h3
            simp [called, this]
          | some g => simp [called]
      · rw [if_neg hg]
        obtain ⟨st1, new, h1, h2, h3, h4⟩ := ih f (x1 + ax) (y1 + ay) (r + E - D) (i + 1)
          (callLine cb x1 y1 i st).2 hx1 (by omega) (by omega)
        have hg0 : ¬ greedy ≠ 0 := hg
        refine ⟨st1, called cb x1 y1 i ++ new, ?_, ?_, ?_, ?_⟩
        · rw [h1, walkCount_step greedy n r E D (by omega) hge, if_neg hg0]
          congr 2
          push_cast
          ring
        · rw [h2, callLine_calls]
          simp [List.append_assoc]
        · rw [List.map_append, h3, called_map, walkCount_step greedy n r E D (by omega) hge, if_neg hg0]
          cases cb <;> simp [idxFrom]
        · intro _
          cases cb with
          | none =>
            have : new = [] := by simpa using h3
            simp [called, this]
          | some g => simp [called]
    · have hge1 : ¬ (((r + E : Nat) : Int) ≥ (D : Int)) := by
        intro h
        exact hge (by exact_mod_cast h)
      rw [if_neg hge1]
      obtain ⟨st1, new, h1, h2, h3, h4⟩ := ih f (x1 + ax) y1 (r + E) (i + 1)
        (callLine cb x1 y1 i st).2 hx1 (by omega) (by omega)
      rw [ea] at *
      refine ⟨st1, called cb x1 y1 i ++ new, ?_, ?_, ?_, ?_⟩
      · rw [h1, walkCount_stay greedy n r E D]
        congr 2
        push_cast
        ring
      · rw [h2, callLine_calls]
        simp [List.append_assoc]
      · rw [List.map_append, h3, called_map, walkCount_stay greedy n r E D]
        cases cb <;> simp [idxFrom]
      · intro _
        cases cb with
        | none =>
          have : new = [] := by simpa using h3
          simp [called, this]
        | some g => simp [called]

/-- The loop on `y` of `iterateOverLine` with a callback that never stops it: with `n` steps to
go it ends by its condition after `walkCount` indices, each used by one call. -/
theorem iterateOverLineY_run {σ : Type} (cb : Option (LineCallback σ))
    (hcb : ∀ f, cb = some f → ∀ x y i d, (f x y i d).1 = 0)
    (greedy ax ay : Int) (D E : Nat) (y2 : Int)
    (hax : ax = 1 ∨ ax = -1) (hay : ay = 1 ∨ ay = -1) (hED : E ≤ D) :
    ∀ (n fuel : Nat) (x1 y1 : Int) (r : Nat) (i : Int) (st : LineState σ),
      y2 = y1 + ay * (n : Int) → r < D → n < fuel →
      ∃ st1 new,
        iterateOverLineY cb greedy ax ay (ax * (E : Int)) (ax * (D : Int)) y2 fuel x1 y1
            (ax * (r : Int)) i st
          = some (LoopEnd.left (i + (walkCount greedy n r E D : Nat)) st1)
        ∧ st1.calls = st.calls ++ new
        ∧ new.map (fun c => c.2.2)
          = (if cb.isSome then idxFrom i (walkCount greedy n r E D) else [])
        ∧ (0 < n → new.head? = (called cb x1 y1 i).head?) := by
  intro n
  induction n with
  | zero =>
    intro fuel x1 y1 r i st hy hr hf
    obtain ⟨f, rfl⟩ : ∃ f, fuel = f + 1 := ⟨fuel - 1, by omega⟩
    have e : y1 = y2 := by
      simp at hy
      exact hy.symm
    refine ⟨st, [], ?_, by simp, ?_, by simp⟩
    · simp only [iterateOverLineY, if_pos e, walkCount_zero greedy r E D hr]
      simp
    · rw [walkCount_zero greedy r E D hr]
      simp [idxFrom]
  | succ n ih =>
    intro fuel x1 y1 r i st hy hr hf
    obtain ⟨f, rfl⟩ : ∃ f, fuel = f + 1 := ⟨fuel - 1, by omega⟩
    have hne : y1 ≠ y2 := by
      rcases hay with h | h <;> subst h <;> push_cast at hy <;> omega
    have hy1 : y2 = (y1 + ay) + ay * (n : Int) := by
      rw [hy]
      push_cast
      ring
    have ea : ax * (r : Int) + ax * (E : Int) = ax * ((r + E : Nat) : Int) := by
      push_cast
      ring
    simp only [iterateOverLineY, if_neg hne, callLine_fst cb hcb, Bool.false_eq_true, if_false,
      ea, abs_sign_mul ax hax]
    by_cases hge : D ≤ r + E
    · have hge1 : ((r + E : Nat) : Int) ≥ (D : Int) := by exact_mod_cast hge
      have es : ax * ((r + E : Nat) : Int) - ax * (D : Int) = ax * ((r + E - D : Nat) : Int) := by
        rw [Nat.cast_sub hge]
        ring
      rw [if_pos hge1, es]
      by_cases hg : greedy ≠ 0
      · rw [if_pos hg]
        have hf1 : (if ay = ax then callLine cb (x1 + ax) y1 (i + 1)
              (callLine cb x1 y1 i st).2
            else callLine cb (x1 + ax - ax) (y1 + ay) (i + 1) (callLine cb x1 y1 i st).2).1
            = false := by
          split <;> exact callLine_fst cb hcb _ _ _ _
        rw [hf1]
        simp only [Bool.false_eq_true, if_false]
        obtain ⟨st1, new, h1, h2, h3, h4⟩ := ih f (x1 + ax) (y1 + ay) (r + E - D) (i + 1 + 1)
          (if ay = ax then callLine cb (x1 + ax) y1 (i + 1)
              (callLine cb x1 y1 i st).2
            else callLine cb (x1 + ax - ax) (y1 + ay) (i + 1) (callLine cb x1 y1 i st).2).2
          hy1 (by omega) (by omega)
        have hc : ∃ xe ye, (if ay = ax then callLine cb (x1 + ax) y1 (i + 1)
              (callLine cb x1 y1 i st).2
            else callLine cb (x1 + ax - ax) (y1 + ay) (i + 1) (callLine cb x1 y1 i st).2).2.calls
            = st.calls ++ called cb x1 y1 i ++ called cb xe ye (i + 1) := by
          split
          · exact ⟨x1 + ax, y1, by rw [callLine_calls, callLine_calls]⟩
          · exact ⟨x1 + ax - ax, y1 + ay, by rw [callLine_calls, callLine_calls]⟩
        obtain ⟨xe, ye, hc⟩ := hc
        refine ⟨st1, called cb x1 y1 i ++ called cb xe ye (i + 1) ++ new, ?_, ?_, ?_, ?_⟩
        · rw [h1, walkCount_step greedy n r E D (by omega) hge, if_pos hg]
          congr 2
          push_cast
          ring
        · rw [h2, hc]
          simp [List.append_assoc]
        · rw [List.map_append, List.map_append, h3, called_map, called_map,
            walkCount_step greedy n r E D (by omega) hge, if_pos hg]
          cases cb <;> simp [idxFrom]
        · intro _
          cases cb with
          | none =>
            have : new = [] := by simpa using h3
            simp [called, this]
          | some g => simp [called]
      · rw [if_neg hg]
        obtain ⟨st1, new, h1, h2, h3, h4⟩ := ih f (x1 + ax) (y1 + ay) (r + E - D) (i + 1)
          (callLine cb x1 y1 i st).2 hy1 (by omega) (by omega)
        have hg0 : ¬ greedy ≠ 0 := hg
        refine ⟨st1, called cb x1 y1 i ++ new, ?_, ?_, ?_, ?_⟩
        · rw [h1, walkCount_step greedy n r E D (by omega) hge, if_neg hg0]
          congr 2
          push_cast
          ring
        · rw [h2, callLine_calls]
          simp [List.append_assoc]
        · rw [List.map_append, h3, called_map, walkCount_step greedy n r E D (by omega) hge,
            if_neg hg0]
          cases cb <;> simp [idxFrom]
        · intro _
          cases cb with
          | none =>
            have : new = [] := by simpa using h3
            simp [called, this]
          | some g => simp [called]
    · have hge1 : ¬ (((r + E : Nat) : Int) ≥ (D : Int)) := by
        intro h
        exact hge (by exact_mod_cast h)
      rw [if_neg hge1]
      obtain ⟨st1, new, h1, h2, h3, h4⟩ := ih f x1 (y1 + ay) (r + E) (i + 1)
        (callLine cb x1 y1 i st).2 hy1 (by omega) (by omega)
      rw [ea] at *
      refine ⟨st1, called cb x1 y1 i ++ new, ?_, ?_, ?_, ?_⟩
      · rw [h1, walkCount_stay greedy n r E D]
        congr 2
        push_cast
        ring
      · rw [h2, callLine_calls]
        simp [List.append_assoc]
      · rw [List.map_append, h3, called_map, walkCount_stay greedy n r E D]
        cases cb <;> simp [idxFrom]
      · intro _
        cases cb with
        | none =>
          have : new = [] := by simpa using h3
          simp [called, this]
        | some g => simp [called]

/-- The count of a whole loop: with the end point it is the length the specification states. -/
theorem walkCount_full (greedy : Int) (D E : Nat) (hD : 0 < D) :
    walkCount greedy D 0 E D + 1
      = (if greedy ≠ 0 then D + E + 1 else D + 1) := by
  unfold walkCount
  split
  · rw [Nat.zero_add, Nat.mul_div_cancel_left E hD]
  · rfl

/-- The calls of a whole walk: a loop whose calls are `new`, then the call for the end point. -/
theorem walk_calls {σ : Type} (cb : Option (LineCallback σ)) (x1 y1 x2 y2 : Int) (wc : Nat)
    (new : List (Int × Int × Int)) (hwc : 0 < wc)
    (h3 : new.map (fun c => c.2.2) = if cb.isSome then idxFrom 0 wc else [])
    (h4 : new.head? = (called cb x1 y1 0).head?) :
    (new ++ called cb x2 y2 (0 + (wc : Int))).map (fun c => c.2.2)
        = (if cb.isSome then idxFrom 0 (wc + 1) else [])
      ∧ (new ++ called cb x2 y2 (0 + (wc : Int))).head? = (called cb x1 y1 0).head?
      ∧ (new ++ called cb x2 y2 (0 + (wc : Int))).getLast?
        = (called cb x2 y2 (((wc + 1 : Nat) : Int) - 1)).getLast? := by
  have e : ((wc + 1 : Nat) : Int) - 1 = 0 + (wc : Int) := by
    push_cast
    ring
  rw [e]
  cases cb with
  | none =>
    have hn : new = [] := by simpa using h3
    subst hn
    simp [called]
  | some f =>
    refine ⟨?_, ?_, ?_⟩
    · rw [List.map_append, h3, idxFrom_succ]
      simp [called]
    · cases new with
      | nil =>
        obtain ⟨k, rfl⟩ : ∃ k, wc = k + 1 := ⟨wc - 1, by omega⟩
        simp [idxFrom] at h3
      | cons a l => simpa using h4
    · simp [called]

/-- The whole walk of `iterateOverLine` for end points at most 999 apart on each axis and a
callback that never stops it (or none): it returns `lineLength`, and the calls of the callback
carry the indices `0, 1, ...`, start with `(x1, y1)` and end with `(x2, y2)`. -/
theorem iterateOverLine_run {σ : Type} (cb : Option (LineCallback σ))
    (hcb : ∀ f, cb = some f → ∀ x y i d, (f x y i d).1 = 0)
    (fuel : Nat) (x1 y1 x2 y2 greedy : Int) (data : σ)
    (hdx : (x2 - x1).natAbs ≤ 999) (hdy : (y2 - y1).natAbs ≤ 999) (hfuel : 1000 ≤ fuel) :
    ∃ st, iterateOverLine fuel x1 y1 x2 y2 greedy data cb
        = some (((lineLength greedy (x2 - x1) (y2 - y1) : Nat) : Int), st)
      ∧ st.calls.map (fun c => c.2.2)
        = (if cb.isSome then idxFrom 0 (lineLength greedy (x2 - x1) (y2 - y1)) else [])
      ∧ st.calls.head? = (called cb x1 y1 0).head?
      ∧ st.calls.getLast?
        = (called cb x2 y2
            (((lineLength greedy (x2 - x1) (y2 - y1) : Nat) : Int) - 1)).getLast? := by
  have hD : |x2 - x1| = (((x2 - x1).natAbs : Nat) : Int) := Int.abs_eq_natAbs _
  have hE : |y2 - y1| = (((y2 - y1).natAbs : Nat) : Int) := Int.abs_eq_natAbs _
  have hax : (if x2 - x1 ≥ 0 then (1 : Int) else -1) = 1
      ∨ (if x2 - x1 ≥ 0 then (1 : Int) else -1) = -1 := by
    split
    · exact Or.inl rfl
    · exact Or.inr rfl
  have hay : (if y2 - y1 ≥ 0 then (1 : Int) else -1) = 1
      ∨ (if y2 - y1 ≥ 0 then (1 : Int) else -1) = -1 := by
    split
    · exact Or.inl rfl
    · exact Or.inr rfl
  have hxa : x2 - x1
      = (if x2 - x1 ≥ 0 then (1 : Int) else -1) * (((x2 - x1).natAbs : Nat) : Int) := by
    split <;> omega
  have hya : y2 - y1
      = (if y2 - y1 ≥ 0 then (1 : Int) else -1) * (((y2 - y1).natAbs : Nat) : Int) := by
    split <;> omega
  unfold lineLength
  generalize hax0 : (if x2 - x1 ≥ 0 then (1 : Int) else -1) = ax at hax hxa
  generalize hay0 : (if y2 - y1 ≥ 0 then (1 : Int) else -1) = ay at hay hya
  generalize hDn : (x2 - x1).natAbs = D at *
  generalize hEn : (y2 - y1).natAbs = E at *
  have hguard : ¬ ((D : Int) > 999 ∨ (E : Int) > 999) := by
    intro h
    rcases h with h | h <;> omega
  unfold iterateOverLine
  simp only [hD, hE, hax0, hay0, if_neg hguard]
  by_cases hmaj : E < D
  · have hm : (D : Int) > (E : Int) := by exact_mod_cast hmaj
    have hdxa : (if ax ≠ ay then -(x2 - x1) else x2 - x1) = ay * (D : Int) := by
      rw [hxa]
      rcases hax with h | h <;> rcases hay with k | k <;> subst h <;> subst k <;> simp
    obtain ⟨st1, new, h1, h2, h3, h4⟩ := iterateOverLineX_run cb hcb greedy ax ay D E x2 hax hay
      (by omega) D fuel x1 y1 0 0 { data := data, calls := [] } (by omega) (by omega) (by omega)
    rw [show ay * ((0 : Nat) : Int) = 0 by simp, ← hya] at h1
    rw [if_pos hm, hdxa, h1]
    have hwc := walkCount_full greedy D E (by omega)
    have hlen : (if greedy ≠ 0 then D + E + 1 else max D E + 1) = walkCount greedy D 0 E D + 1 := by
      rw [hwc, Nat.max_eq_left (by omega : E ≤ D)]
    rw [hlen]
    have hpos : 0 < walkCount greedy D 0 E D := by
      unfold walkCount
      omega
    have hw := walk_calls cb x1 y1 x2 y2 (walkCount greedy D 0 E D) new hpos h3 (h4 (by omega))
    refine ⟨(callLine cb x2 y2 (0 + ((walkCount greedy D 0 E D : Nat) : Int)) st1).2, ?_, ?_, ?_,
      ?_⟩
    · simp only [Option.some.injEq, Prod.mk.injEq, and_true]
      push_cast
      ring
    · rw [callLine_calls, h2]
      exact hw.1
    · rw [callLine_calls, h2]
      exact hw.2.1
    · rw [callLine_calls, h2]
      exact hw.2.2
  · have hm : ¬ ((D : Int) > (E : Int)) := by
      intro h
      exact hmaj (by exact_mod_cast h)
    have hdya : (if ax ≠ ay then -(y2 - y1) else y2 - y1) = ax * (E : Int) := by
      rw [hya]
      rcases hax with h | h <;> rcases hay with k | k <;> subst h <;> subst k <;> simp
    rw [if_neg hm, hdya]
    by_cases hz : E = 0
    · subst hz
      have hD0 : D = 0 := by omega
      subst hD0
      have ex : x2 = x1 := by
        simp at hxa
        omega
      have ey : y2 = y1 := by
        simp at hya
        omega
      subst ex
      subst ey
      obtain ⟨f, rfl⟩ : ∃ f, fuel = f + 1 := ⟨fuel - 1, by omega⟩
      simp only [iterateOverLineY, if_true]
      refine ⟨(callLine cb x2 y2 0 { data := data, calls := [] }).2, ?_, ?_, ?_, ?_⟩
      · split <;> simp
      · rw [callLine_calls]
        cases cb <;> simp [called, idxFrom]
      · rw [callLine_calls]
        simp
      · rw [callLine_calls]
        cases cb <;> simp [called]
    · obtain ⟨st1, new, h1, h2, h3, h4⟩ := iterateOverLineY_run cb hcb greedy ax ay E D y2 hax hay
        (by omega) E fuel x1 y1 0 0 { data := data, calls := [] } (by omega) (by omega)
        (by omega)
      rw [show ax * ((0 : Nat) : Int) = 0 by simp, ← hxa] at h1
      rw [h1]
      have hwc := walkCount_full greedy E D (by omega)
      have hlen : (if greedy ≠ 0 then D + E + 1 else max D E + 1)
          = walkCount greedy E 0 D E + 1 := by
        rw [hwc, Nat.max_eq_right (by omega : D ≤ E)]
        split <;> omega
      rw [hlen]
      have hpos : 0 < walkCount greedy E 0 D E := by
        unfold walkCount
        omega
      have hw := walk_calls cb x1 y1 x2 y2 (walkCount greedy E 0 D E) new hpos h3
        (h4 (by omega))
      refine ⟨(callLine cb x2 y2 (0 + ((walkCount greedy E 0 D E : Nat) : Int)) st1).2, ?_, ?_,
        ?_, ?_⟩
      · simp only [Option.some.injEq, Prod.mk.injEq, and_true]
        push_cast
        ring
      · rw [callLine_calls, h2]
        exact hw.1
      · rw [callLine_calls, h2]
        exact hw.2.1
      · rw [callLine_calls, h2]
        exact hw.2.2

/-! ### Claim on the line walk -/

/-- C25: for end points with `|dx| <= 999` and `|dy| <= 999` and a callback that never asks to
stop (or no callback), `iterateOverLine` returns, given fuel for 1000 passes; the value is
`max(|dx|, |dy|) + 1` in non-greedy mode and `|dx| + |dy| + 1` in greedy mode (`lineLength`);
with a callback that is the number of calls made, whose indices are `0, 1, 2, ...` in order,
the first call being for `(x1, y1)` and the last for `(x2, y2)`; without a callback no call
is made. -/
theorem iterateOverLine_spec {σ : Type} (cb : Option (LineCallback σ))
    (hcb : ∀ f, cb = some f → ∀ x y i d, (f x y i d).1 = 0)
    (fuel : Nat) (x1 y1 x2 y2 greedy : Int) (data : σ)
    (hdx : (x2 - x1).natAbs ≤ 999) (hdy : (y2 - y1).natAbs ≤ 999) (hfuel : 1000 ≤ fuel) :
    ∃ st, iterateOverLine fuel x1 y1 x2 y2 greedy data cb
        = some (((lineLength greedy (x2 - x1) (y2 - y1) : Nat) : Int), st)
      ∧ (cb.isSome →
          st.calls.length = lineLength greedy (x2 - x1) (y2 - y1)
          ∧ st.calls.map (fun c => c.2.2)
            = List.map (fun j : Nat => (j : Int))
                (List.range (lineLength greedy (x2 - x1) (y2 - y1)))
          ∧ st.calls.head? = some (x1, y1, 0)
          ∧ st.calls.getLast?
            = some (x2, y2, ((lineLength greedy (x2 - x1) (y2 - y1) : Nat) : Int) - 1))
      ∧ (cb = none → st.calls = []) := by
  obtain ⟨st, h1, h2, h3, h4⟩ :=
    iterateOverLine_run cb hcb fuel x1 y1 x2 y2 greedy data hdx hdy hfuel
  refine ⟨st, h1, ?_, ?_⟩
  · intro hs
    rw [if_pos hs] at h2
    obtain ⟨f, rfl⟩ := Option.isSome_iff_exists.mp hs
    refine ⟨?_, ?_, ?_, ?_⟩
    · have := congrArg List.length h2
      rw [List.length_map, idxFrom_length] at this
      exact this
    · rw [h2, idxFrom_eq_range]
    · rw [h3]
      rfl
    · rw [h4]
      rfl
  · intro hn
    subst hn
    simpa using h2

theorem iterateOverLine_spec_witness :
    ((2 - 0 : Int).natAbs ≤ 999 ∧ (1 - 0 : Int).natAbs ≤ 999)
    ∧ (iterateOverLine 1000 0 0 2 1 1 () (some idleCallback)).map
        (fun r => (r.1, r.2.calls))
      = some (4, [(0, 0, 0), (1, 0, 1), (2, 0, 2), (2, 1, 3)])
    ∧ (iterateOverLine 1000 0 0 2 1 0 () (some idleCallback)).map Prod.fst = some 3 := by
  obtain ⟨st, h, _⟩ := iterateOverLine_spec (some idleCallback)
    (fun f hf x y i d => by cases hf; rfl) 1000 0 0 2 1 0 () (by decide) (by decide) (by decide)
  refine ⟨⟨by decide, by decide⟩, by decide, ?_⟩
  rw [h]
  rfl

/-! ## Theorems: the spans of `drawQuad` -/

/-- The two walks of a span of `drawQuad` are greedy: for end points at most 999 apart on each
axis and a `DrawLineCallback` that never asks to stop, both return `|dx| + |dy| + 1`, and that
many pixels are passed to the callback. -/
theorem drawQuadSpan_run {σ : Type} (fuel : Nat) (cb : LineCallback σ)
    (hcb : ∀ x y i d, (cb x y i d).1 = 0) (xl yl xr yr : Int) (data : Int → σ)
    (hdx : (xr - xl).natAbs ≤ 999) (hdy : (yr - yl).natAbs ≤ 999) (hfuel : 1000 ≤ fuel) :
    ∃ st, drawQuadSpan fuel cb xl yl xr yr data
        = some ((((xr - xl).natAbs + (yr - yl).natAbs + 1 : Nat) : Int),
            (((xr - xl).natAbs + (yr - yl).natAbs + 1 : Nat) : Int), st)
      ∧ st.calls.length = (xr - xl).natAbs + (yr - yl).natAbs + 1 := by
  have hl : lineLength 1 (xr - xl) (yr - yl) = (xr - xl).natAbs + (yr - yl).natAbs + 1 := by
    unfold lineLength
    rw [if_pos (by decide)]
  obtain ⟨s0, h0, _⟩ := iterateOverLine_run (none : Option (LineCallback Unit))
    (fun f hf => by cases hf) fuel xl yl xr yr 1 () hdx hdy hfuel
  obtain ⟨s1, h1, h2, _⟩ := iterateOverLine_run (some cb)
    (fun f hf => by cases hf; exact hcb) fuel xl yl xr yr 1
    (data ((lineLength 1 (xr - xl) (yr - yl) : Nat) : Int)) hdx hdy hfuel
  refine ⟨s1, ?_, ?_⟩
  · unfold drawQuadSpan DrawLine
    rw [h0]
    simp only []
    rw [h1, hl]
  · have := congrArg List.length h2
    rw [List.length_map] at this
    rw [this]
    simp [idxFrom_length, hl]

/-! ### Claim on the spans of `drawQuad` -/

/-- C26 (as amended): in `drawQuad` the span between the left-edge sample `(xl, yl)` and the
right-edge sample `(xr, yr)` is walked in greedy mode, both when its length is computed and
when it is drawn: for samples at most 999 apart on each axis the length is
`|xr - xl| + |yr - yl| + 1`, and a `DrawLineCallback` that never asks to stop is called for
that many pixels. -/
theorem drawQuadSpan_greedy {σ : Type} (fuel : Nat) (cb : LineCallback σ)
    (hcb : ∀ x y i d, (cb x y i d).1 = 0) (xl yl xr yr : Int) (data : Int → σ)
    (hdx : (xr - xl).natAbs ≤ 999) (hdy : (yr - yl).natAbs ≤ 999) (hfuel : 1000 ≤ fuel) :
    ∃ st, drawQuadSpan fuel cb xl yl xr yr data
        = some ((((xr - xl).natAbs + (yr - yl).natAbs + 1 : Nat) : Int),
            (((xr - xl).natAbs + (yr - yl).natAbs + 1 : Nat) : Int), st)
      ∧ st.calls.length = (xr - xl).natAbs + (yr - yl).natAbs + 1 :=
  drawQuadSpan_run fuel cb hcb xl yl xr yr data hdx hdy hfuel

theorem drawQuadSpan_greedy_witness :
    ((2 - 0 : Int).natAbs ≤ 999 ∧ (1 - 0 : Int).natAbs ≤ 999)
    ∧ (drawQuadSpan 1000 idleCallback 0 0 2 1 (fun _ => ())).map
        (fun r => (r.1, r.2.1)) = some (4, 4) := by
  obtain ⟨st, h, _⟩ := drawQuadSpan_greedy 1000 idleCallback (fun _ _ _ _ => rfl) 0 0 2 1
    (fun _ => ()) (by decide) (by decide) (by decide)
  refine ⟨⟨by decide, by decide⟩, ?_⟩
  rw [h]
  rfl

/-- C26 as stated fails: the span from `(0, 0)` to `(2, 1)` does not have
`max(|2|, |1|) + 1 = 3` pixels: its length
is computed as `4`, and four pixels are drawn, `(2, 0)` in addition to the three of the
non-greedy walk. -/
theorem drawQuadSpan_counterexample :
    (drawQuadSpan 1000 idleCallback 0 0 2 1 (fun _ => ())).map
        (fun r => (r.1, r.2.1, r.2.2.calls))
      = some (4, 4, [(0, 0, 0), (1, 0, 1), (2, 0, 2), (2, 1, 3)])
    ∧ (max (2 - 0 : Int).natAbs (1 - 0 : Int).natAbs + 1 = 3) := by
  decide

/-! ## Theorems: the zoom of NBG0 -/

/-- The rounding to `float` keeps an integer below `2 ^ 24` in magnitude. -/
theorem f32_int (n : Int) (h : n.natAbs < 16777216) : f32 (n : ℚ) = (n : ℚ) := by
  unfold f32
  by_cases h0 : n = 0
  · subst h0
    simp
  · have hq : (n : ℚ) ≠ 0 := by exact_mod_cast h0
    rw [if_neg hq]
    have habs : |(n : ℚ)| = ((n.natAbs : Nat) : ℚ) := by
      rw [Nat.cast_natAbs, Int.cast_abs]
    have hk : Nat.log 2 n.natAbs < 24 :=
      Nat.log_lt_of_lt_pow (by simpa using h0) (by norm_num; exact h)
    simp only [habs, Int.log_natCast]
    obtain ⟨j, hj⟩ : ∃ j : Nat, ((Nat.log 2 n.natAbs : Nat) : Int) - 23 = -(j : Int) :=
      ⟨23 - Nat.log 2 n.natAbs, by omega⟩
    rw [hj, zpow_neg, zpow_natCast, div_inv_eq_mul]
    have hm : (n : ℚ) * 2 ^ j = ((n * 2 ^ j : Int) : ℚ) := by push_cast; ring
    rw [hm, Int.floor_intCast]
    simp

/-- The conversion to `int` of an integer value. -/
theorem cTrunc_int (n : Int) : cTrunc (n : ℚ) = n := by
  unfold cTrunc
  split <;> simp

/-- The zoom register value `0x20000` gives the coordinate increment `2.0`. -/
theorem Vdp2DrawNBG0_coordincx_two : Vdp2DrawNBG0_coordincx 0x20000 = 2 := by
  unfold Vdp2DrawNBG0_coordincx
  have e : (0x20000 &&& 0x7FF00 : Nat) = 131072 := by decide
  rw [e]
  have h1 := f32_int 131072 (by decide)
  have h2 := f32_int 65536 (by decide)
  have h3 := f32_int 2 (by decide)
  push_cast at h1 h2 h3
  rw [Nat.cast_ofNat, h1, h2]
  norm_num
  exact h3

/-- The source column for the coordinate increment `2.0`, mosaic factor 1 and no line scroll. -/
theorem Vdp2DrawScroll_x_two (info_x : Int) (xmask : Int) (i : Nat)
    (hx : 0 ≤ info_x ∧ info_x ≤ 0x7FF) (hi : i < 1024) :
    Vdp2DrawScroll_x info_x 2 1 xmask 0 i = ((cAnd (info_x + 2 * (i : Int)) xmask : Nat) : Int) := by
  unfold Vdp2DrawScroll_x mosaic_table
  have h1 := f32_int info_x (by omega)
  have h2 := f32_int (i : Int) (by omega)
  have h3 := f32_int ((i : Int) * 2) (by omega)
  have h4 := f32_int (info_x + (i : Int) * 2) (by omega)
  push_cast at h1 h2 h3 h4
  simp only [Nat.sub_self, Nat.zero_add, Nat.div_one, Nat.mul_one, Int.cast_natCast, ne_eq,
    not_true_eq_false, if_false, h1, h2, h3, h4]
  have e : (info_x : ℚ) + (i : ℚ) * 2 = ((info_x + 2 * (i : Int) : Int) : ℚ) := by
    push_cast
    ring
  rw [e, cTrunc_int]

/-- The AND of a 32-bit value that is not negative with a mask of `k` ones. -/
theorem cAnd_mask (v : Int) (k : Nat) (hv : 0 ≤ v ∧ v < 4294967296) (hk : k ≤ 31) :
    cAnd v (2 ^ k - 1) = v.toNat % 2 ^ k := by
  have hK : (2 : Nat) ^ k ≤ 2 ^ 31 := Nat.pow_le_pow_right (by norm_num) hk
  have hK1 : 1 ≤ (2 : Nat) ^ k := Nat.one_le_two_pow
  have e : ((2 : Int) ^ k - 1) = (((2 ^ k - 1 : Nat)) : Int) := by
    rw [Nat.cast_sub hK1]
    push_cast
    rfl
  unfold cAnd
  rw [e]
  have e1 : (v % 4294967296).toNat = v.toNat := by omega
  have e2 : ((((2 ^ k - 1 : Nat)) : Int) % 4294967296).toNat = 2 ^ k - 1 := by
    norm_num at hK
    omega
  rw [e1, e2, Nat.and_pow_two_sub_one_eq_mod]

/-! ### Claim on the zoom of NBG0 -/

/-- C22: for NBG0 in tile mode with the zoom register `ZMXN0 = 0x20000` (coordinate increment
`2.0`), mosaic factor 1 and no line scroll, the source column `Vdp2DrawScroll` computes for the
output column `i` is `(scrollx + 2 * i) & xmask`, with `scrollx = SCXIN0 & 0x7FF`; for a mask
`xmask = 2 ^ k - 1` the source columns of two consecutive output columns differ by 2 modulo
`2 ^ k`. -/
theorem Vdp2DrawScroll_zoom_two (SCXIN0 : Nat) (xmask : Int) (i : Nat) (hi : i + 1 < 1024) :
    Vdp2DrawScroll_x (Vdp2DrawNBG0_x SCXIN0) (Vdp2DrawNBG0_coordincx 0x20000) 1 xmask 0 i
        = ((cAnd (((SCXIN0 &&& 0x7FF : Nat) : Int) + 2 * (i : Int)) xmask : Nat) : Int)
    ∧ ∀ k : Nat, k ≤ 31 → xmask = 2 ^ k - 1 →
        Vdp2DrawScroll_x (Vdp2DrawNBG0_x SCXIN0) (Vdp2DrawNBG0_coordincx 0x20000) 1 xmask 0
            (i + 1)
          = (Vdp2DrawScroll_x (Vdp2DrawNBG0_x SCXIN0) (Vdp2DrawNBG0_coordincx 0x20000) 1
              xmask 0 i + 2) % 2 ^ k := by
  have hs : SCXIN0 &&& 0x7FF = SCXIN0 % 2048 := Nat.and_pow_two_sub_one_eq_mod SCXIN0 11
  have hx : 0 ≤ Vdp2DrawNBG0_x SCXIN0 ∧ Vdp2DrawNBG0_x SCXIN0 ≤ 0x7FF := by
    unfold Vdp2DrawNBG0_x
    rw [hs]
    omega
  rw [Vdp2DrawNBG0_coordincx_two, Vdp2DrawScroll_x_two _ _ _ hx (by omega),
    Vdp2DrawScroll_x_two _ _ _ hx (by omega)]
  refine ⟨rfl, ?_⟩
  intro k hk hm
  subst hm
  rw [cAnd_mask _ k (by omega) hk, cAnd_mask _ k (by omega) hk]
  have hK1 : 1 ≤ (2 : Nat) ^ k := Nat.one_le_two_pow
  have e : ((2 : Int) ^ k) = (((2 ^ k : Nat)) : Int) := by push_cast; rfl
  rw [e]
  generalize (2 : Nat) ^ k = K at hK1 ⊢
  have ev : (Vdp2DrawNBG0_x SCXIN0 + 2 * (((i + 1 : Nat)) : Int)).toNat
      = (Vdp2DrawNBG0_x SCXIN0 + 2 * (i : Int)).toNat + 2 := by omega
  rw [ev, ← Nat.mod_add_mod]
  push_cast
  rfl

theorem Vdp2DrawScroll_zoom_two_witness :
    ((300 : Nat) + 1 < 1024)
    ∧ Vdp2DrawScroll_x (Vdp2DrawNBG0_x 5) (Vdp2DrawNBG0_coordincx 0x20000) 1 511 0 300 = 93 := by
  have h := (Vdp2DrawScroll_zoom_two 5 511 300 (by decide)).1
  refine ⟨by decide, ?_⟩
  rw [h]
  decide

/-! ## Theorems: `getPatternLocked` -/

/-- An 8 x 1 sprite in the 4bpp bank mode whose first texel is the end code: the loop leaves
the row at once, and seven of the eight uploaded elements are what the array held before. -/
theorem getPatternLocked_endcode (pix : Nat → Nat) :
    getPatternLocked endcodeEnv (spriteCmd 0) 0 pix
      = some (PatternResult.uploaded 8 1
          [0xF, pix 1, pix 2, pix 3, pix 4, pix 5, pix 6, pix 7]) := by
  rfl

/-- An 8 x 1 sprite in the 128-colour mode 3, for which the `switch` has no case: all eight
uploaded elements are what the array held before. -/
theorem getPatternLocked_mode3 (pix : Nat → Nat) :
    getPatternLocked endcodeEnv (spriteCmd 0x18) 0 pix
      = some (PatternResult.uploaded 8 1
          [pix 0, pix 1, pix 2, pix 3, pix 4, pix 5, pix 6, pix 7]) := by
  rfl

/-! ### Claim on the determinism of the pattern decoding -/

/-- C21: the pixel buffer `getPatternLocked` uploads is not a function of the command
and the memory content only.  For the 8 x 1 sprite `spriteCmd 0` (4bpp bank mode, end codes
enabled) over a VDP1 RAM of bytes `0xFF` and an empty cache, the first texel is the end code
`0xF`, the row is left by `break`, and the elements 1 to 7 of the uploaded buffer are whatever
the uninitialised array `pix` held; two runs that find different stack content upload different
buffers.  For the 128-colour mode (`spriteCmd 0x18`) no element is written at all. -/
theorem getPatternLocked_uploads_stack :
    (∀ pix : Nat → Nat,
      getPatternLocked endcodeEnv (spriteCmd 0) 0 pix
        = some (PatternResult.uploaded 8 1
            [0xF, pix 1, pix 2, pix 3, pix 4, pix 5, pix 6, pix 7]))
    ∧ getPatternLocked endcodeEnv (spriteCmd 0) 0 (fun _ => 0)
      ≠ getPatternLocked endcodeEnv (spriteCmd 0) 0 (fun _ => 0xFFFFFFFF)
    ∧ (∀ pix : Nat → Nat,
      getPatternLocked endcodeEnv (spriteCmd 0x18) 0 pix
        = some (PatternResult.uploaded 8 1
            [pix 0, pix 1, pix 2, pix 3, pix 4, pix 5, pix 6, pix 7])) := by
  refine ⟨getPatternLocked_endcode, ?_, getPatternLocked_mode3⟩
  rw [getPatternLocked_endcode, getPatternLocked_endcode]
  decide

/-! ## Theorems: a layer without windows -/

/-! ### Claim on a layer without windows -/

/-- C38: when none of the three window-enable bits of `wctl` is set (`(wctl & 0x2a) == 0`),
`TestBothWindow` returns `0` for every pixel and every clip geometry if the logic bit `0x80`
is set, and `1` if it is clear; so `Vdp2DrawScroll` skips every pixel of a layer with no window
enabled and the bit set, and none if the bit is clear. -/
theorem TestBothWindow_no_window (vdp2width vdp2height wctl : Int)
    (clip : Nat → clipping_struct) (x y : Int) (h : cAnd wctl 0x2a = 0) :
    (cAnd wctl 0x80 ≠ 0 →
      TestBothWindow vdp2width vdp2height wctl clip x y = 0
      ∧ Vdp2DrawScroll_skip vdp2width vdp2height wctl clip x y = true)
    ∧ (cAnd wctl 0x80 = 0 →
      TestBothWindow vdp2width vdp2height wctl clip x y = 1
      ∧ Vdp2DrawScroll_skip vdp2width vdp2height wctl clip x y = false) := by
  have hb := (wctl_bits wctl).2.2.2.2
  have e : TestBothWindow vdp2width vdp2height wctl clip x y
      = if cAnd wctl 0x80 = 0x80 then 0 else 1 := by
    rw [TestBothWindow_eq vdp2width vdp2height wctl clip x y _ _ _ rfl rfl rfl, if_pos h]
  constructor
  · intro h80
    have e0 : TestBothWindow vdp2width vdp2height wctl clip x y = 0 := by
      rw [e, if_pos (hb.mpr h80)]
    exact ⟨e0, by simp [Vdp2DrawScroll_skip, e0]⟩
  · intro h80
    have e1 : TestBothWindow vdp2width vdp2height wctl clip x y = 1 := by
      rw [e, if_neg (fun hc => hb.mp hc h80)]
    exact ⟨e1, by simp [Vdp2DrawScroll_skip, e1]⟩

theorem TestBothWindow_no_window_witness :
    cAnd 0x80 0x2a = 0
    ∧ TestBothWindow 320 224 0x80 exampleClip 5 5 = 0
    ∧ Vdp2DrawScroll_skip 320 224 0x80 exampleClip 5 5 = true
    ∧ TestBothWindow 320 224 0 exampleClip 5 5 = 1 :=
  ⟨by decide,
   ((TestBothWindow_no_window 320 224 0x80 exampleClip 5 5 (by decide)).1 (by decide)).1,
   ((TestBothWindow_no_window 320 224 0x80 exampleClip 5 5 (by decide)).1 (by decide)).2,
   by decide⟩

/-! ## Theorems: soundness of the pre-clip -/

/-! ### Claim on the soundness of the pre-clip -/

/-- C39: if `is_pre_clipped` returns non-zero for a quad, then every point `(x, y)` of the
bounding box of its four corners is rejected by `IsSystemClipped`, and `drawQuad` leaves the
state as it is; for every value of `vdp1interlace` and of the clip registers (in particular
for `systemclipX2 >= 0` and `systemclipY2 >= 0`). -/
theorem is_pre_clipped_sound {σ : Type} (rest : σ → σ) (w : σ)
    (vdp1interlace tl_x tl_y bl_x bl_y tr_x tr_y br_x br_y : Int)
    (regs : Vdp1Clip) (x y : Int)
    (h : is_pre_clipped vdp1interlace tl_x tl_y bl_x bl_y tr_x tr_y br_x br_y
      regs.systemclipX2 regs.systemclipY2 ≠ 0)
    (hx1 : min (min tl_x bl_x) (min tr_x br_x) ≤ x)
    (hx2 : x ≤ max (max tl_x bl_x) (max tr_x br_x))
    (hy1 : min (min tl_y bl_y) (min tr_y br_y) ≤ y)
    (hy2 : y ≤ max (max tl_y bl_y) (max tr_y br_y)) :
    IsSystemClipped x y regs = 1
    ∧ drawQuad rest vdp1interlace tl_x tl_y bl_x bl_y tr_x tr_y br_x br_y
        regs.systemclipX2 regs.systemclipY2 w = w := by
  refine ⟨?_, by simp only [drawQuad, if_pos h]⟩
  simp only [min_le_iff] at hx1 hy1
  simp only [le_max_iff] at hx2 hy2
  unfold IsSystemClipped
  rw [if_neg]
  rintro ⟨i1, i2, i3, i4⟩
  have hnl : ¬ (tl_x < 0 ∧ bl_x < 0 ∧ tr_x < 0 ∧ br_x < 0) := by
    rintro ⟨a, b, c, d⟩
    rcases hx2 with (e | e) | (e | e) <;> omega
  have hnr : ¬ (tl_x > regs.systemclipX2 ∧ bl_x > regs.systemclipX2
      ∧ tr_x > regs.systemclipX2 ∧ br_x > regs.systemclipX2) := by
    rintro ⟨a, b, c, d⟩
    rcases hx1 with (e | e) | (e | e) <;> omega
  have hna : ¬ (tl_y < 0 ∧ bl_y < 0 ∧ tr_y < 0 ∧ br_y < 0) := by
    rintro ⟨a, b, c, d⟩
    rcases hy2 with (e | e) | (e | e) <;> omega
  have hnb : ∀ v : Int, v = regs.systemclipY2 * 2 ∨ v = regs.systemclipY2 →
      ¬ (tl_y > v ∧ bl_y > v ∧ tr_y > v ∧ br_y > v) := by
    rintro v hv ⟨a, b, c, d⟩
    rcases hy1 with (e | e) | (e | e) <;> omega
  apply h
  unfold is_pre_clipped
  simp only [if_neg hnl, if_neg hnr, if_neg hna]
  exact if_neg (hnb _ (by split <;> simp))

theorem is_pre_clipped_sound_witness :
    is_pre_clipped 1 (-20) 0 (-20) 10 (-5) 0 (-5) 10 319 223 ≠ 0
    ∧ IsSystemClipped (-7) 4 exampleClipRegs = 1 :=
  ⟨by decide,
   (is_pre_clipped_sound id () 1 (-20) 0 (-20) 10 (-5) 0 (-5) 10 exampleClipRegs (-7) 4
      (by decide) (by decide) (by decide) (by decide) (by decide)).1⟩

/-! ## Theorems: the abort of the command loop -/

/-- The entry of the table for the factor `m = i + 1`, in the naturals. -/
theorem mosaic_table_eq (i j : Nat) :
    mosaic_table i j = ((j / (i + 1) * (i + 1) : Nat) : Int) := rfl

/-- The entry is the start of the block of `m` coordinates that holds `j`. -/
theorem mosaic_block (m j : Nat) (hm : 0 < m) :
    j / m * m ≤ j ∧ j < j / m * m + m := by
  have h1 := Nat.div_add_mod j m
  have h2 := Nat.mod_lt j hm
  have h3 : m * (j / m) = j / m * m := Nat.mul_comm _ _
  omega

/-- A multiple of `m` that does not exceed `j` does not exceed the start of the block of
`j`. -/
theorem mosaic_largest (m j c : Nat) (hm : 0 < m) (h : c * m ≤ j) : c * m ≤ j / m * m :=
  Nat.mul_le_mul_right m ((Nat.le_div_iff_mul_le hm).mpr h)

/-! ### Claim on the mosaic table -/

/-- C31: for every mosaic factor `m` in 1..16 and every coordinate `j` in 0..1023 the entry
`mosaic_table[m-1][j]` is a multiple of `m`, lies in `j - m + 1 .. j`, and no multiple of `m`
up to `j` is larger; two coordinates of one block of `m` (same quotient by `m`) have the same
entry; the entry of an entry is the entry itself (the mapping is idempotent); the entries do
not decrease with `j`; and for `m = 1` the entry is `j`.  The source column `Vdp2DrawScroll` computes from the entry is therefore the same for
all output columns of one block. -/
theorem mosaic_table_spec (m j : Nat) (hm1 : 1 ≤ m) (hm16 : m ≤ 16) (hj : j < 1024) :
    (∃ q : Nat, mosaic_table (m - 1) j = (q : Int) * (m : Int))
    ∧ mosaic_table (m - 1) j ≤ (j : Int)
    ∧ (j : Int) < mosaic_table (m - 1) j + (m : Int)
    ∧ (∀ k : Int, k ≤ (j : Int) → (∃ c : Int, k = c * (m : Int)) →
        k ≤ mosaic_table (m - 1) j)
    ∧ (∀ j2 : Nat, j2 < 1024 → j2 / m = j / m →
        mosaic_table (m - 1) j2 = mosaic_table (m - 1) j)
    ∧ (∃ e : Nat, e < 1024 ∧ mosaic_table (m - 1) j = (e : Int)
        ∧ mosaic_table (m - 1) e = mosaic_table (m - 1) j)
    ∧ (∀ j2 : Nat, j2 < 1024 → j ≤ j2 → mosaic_table (m - 1) j ≤ mosaic_table (m - 1) j2)
    ∧ (m = 1 → mosaic_table (m - 1) j = (j : Int))
    ∧ (∀ (info_x : Int) (coordincx : ℚ) (xmask linescrollx : Int) (j2 : Nat),
        j2 < 1024 → j2 / m = j / m →
        Vdp2DrawScroll_x info_x coordincx m xmask linescrollx j2
          = Vdp2DrawScroll_x info_x coordincx m xmask linescrollx j) := by
  have hm : 0 < m := hm1
  have em : m - 1 + 1 = m := Nat.sub_add_cancel hm1
  have et : ∀ n : Nat, mosaic_table (m - 1) n = ((n / m * m : Nat) : Int) := by
    intro n
    rw [mosaic_table_eq, em]
  obtain ⟨hb1, hb2⟩ := mosaic_block m j hm
  refine ⟨⟨j / m, ?_⟩, ?_, ?_, ?_, ?_, ⟨j / m * m, ?_, ?_, ?_⟩, ?_, ?_, ?_⟩
  · rw [et]
    push_cast
    rfl
  · rw [et]
    exact_mod_cast hb1
  · rw [et]
    exact_mod_cast hb2
  · rintro k hk ⟨c, rfl⟩
    rw [et]
    by_cases hc : c ≤ 0
    · have h0 : c * (m : Int) ≤ 0 :=
        mul_nonpos_of_nonpos_of_nonneg hc (by exact_mod_cast hm.le)
      have h1 : (0 : Int) ≤ ((j / m * m : Nat) : Int) := Int.natCast_nonneg _
      omega
    · obtain ⟨n, rfl⟩ : ∃ n : Nat, c = (n : Int) := ⟨c.toNat, by omega⟩
      have hn : n * m ≤ j := by exact_mod_cast hk
      exact_mod_cast mosaic_largest m j n hm hn
  · intro j2 _ hq
    rw [et, et, hq]
  · omega
  · rw [et]
  · rw [et, et, Nat.mul_div_cancel _ hm]
  · intro j2 _ hle
    rw [et, et]
    exact_mod_cast Nat.mul_le_mul_right m (Nat.div_le_div_right hle)
  · intro h1
    subst h1
    rw [et]
    simp
  · intro info_x coordincx xmask linescrollx j2 _ hq
    unfold Vdp2DrawScroll_x
    rw [et, et, hq]

theorem mosaic_table_spec_witness :
    mosaic_table 3 10 = 8 ∧ mosaic_table 3 8 = 8 ∧ mosaic_table 3 11 = 8
    ∧ mosaic_table 3 12 = 12 ∧ mosaic_table 0 10 = 10 := by
  have h := mosaic_table_spec 4 10 (by decide) (by decide) (by decide)
  exact ⟨by decide, by decide, h.2.2.2.2.1 11 (by decide) (by decide), by decide, by decide⟩

/-! ## Theorems: `VIDSoftGLESVdp2SetResolution` -/

/-- The widths, the high-resolution flag and the interlace flag that
`VIDSoftGLESVdp2SetResolution` stores do not depend on the earlier values. -/
theorem VIDSoftGLESVdp2SetResolution_width (TVMD : Nat) (s t : Resolution) :
    (VIDSoftGLESVdp2SetResolution TVMD s).vdp2width
      = (VIDSoftGLESVdp2SetResolution TVMD t).vdp2width
    ∧ (VIDSoftGLESVdp2SetResolution TVMD s).rbg0width
      = (VIDSoftGLESVdp2SetResolution TVMD t).rbg0width
    ∧ (VIDSoftGLESVdp2SetResolution TVMD s).vdp2_x_hires
      = (VIDSoftGLESVdp2SetResolution TVMD t).vdp2_x_hires
    ∧ (VIDSoftGLESVdp2SetResolution TVMD s).vdp2_interlace
      = (VIDSoftGLESVdp2SetResolution TVMD t).vdp2_interlace := by
  have h7 : TVMD &&& 0x7 < 8 := Nat.lt_of_le_of_lt Nat.and_le_right (by decide)
  have h4 : (TVMD >>> 4) &&& 0x3 < 4 := Nat.lt_of_le_of_lt Nat.and_le_right (by decide)
  have h6 : (TVMD >>> 6) &&& 0x3 < 4 := Nat.lt_of_le_of_lt Nat.and_le_right (by decide)
  unfold VIDSoftGLESVdp2SetResolution
  generalize TVMD &&& 0x7 = a at h7
  generalize (TVMD >>> 4) &&& 0x3 = b at h4
  generalize (TVMD >>> 6) &&& 0x3 = c at h6
  interval_cases a <;> interval_cases b <;> interval_cases c <;> exact ⟨rfl, rfl, rfl, rfl⟩

/-- With a vertical resolution code other than `3` the whole state that
`VIDSoftGLESVdp2SetResolution` leaves does not depend on the earlier values. -/
theorem VIDSoftGLESVdp2SetResolution_const (TVMD : Nat) (s t : Resolution)
    (hv : (TVMD >>> 4) &&& 0x3 ≠ 3) :
    VIDSoftGLESVdp2SetResolution TVMD s = VIDSoftGLESVdp2SetResolution TVMD t := by
  have h7 : TVMD &&& 0x7 < 8 := Nat.lt_of_le_of_lt Nat.and_le_right (by decide)
  have h4 : (TVMD >>> 4) &&& 0x3 < 4 := Nat.lt_of_le_of_lt Nat.and_le_right (by decide)
  have h6 : (TVMD >>> 6) &&& 0x3 < 4 := Nat.lt_of_le_of_lt Nat.and_le_right (by decide)
  unfold VIDSoftGLESVdp2SetResolution
  generalize TVMD &&& 0x7 = a at h7
  generalize (TVMD >>> 4) &&& 0x3 = b at h4 hv
  generalize (TVMD >>> 6) &&& 0x3 = c at h6
  interval_cases a <;> interval_cases b <;> interval_cases c <;>
    first | rfl | exact absurd rfl hv

/-! ### Claim on the resolution state -/

/-- C36 (as amended): for every `TVMD` (in particular every 16-bit one) whose vertical resolution code
`(TVMD >> 4) & 3` is `0`, `1` or `2`, the state `VIDSoftGLESVdp2SetResolution` leaves
(`vdp2width`, `vdp2height`, `rbg0width`, `rbg0height`, `vdp2_x_hires`, `vdp2_interlace`) is
the same for all earlier values, so a second call with the same `TVMD` changes nothing; for
every `TVMD`, `vdp2width`, `rbg0width`, `vdp2_x_hires` and `vdp2_interlace` are functions of
`TVMD` alone. -/
theorem VIDSoftGLESVdp2SetResolution_spec (TVMD : Nat) (s t : Resolution) :
    ((TVMD >>> 4) &&& 0x3 ≠ 3 →
      VIDSoftGLESVdp2SetResolution TVMD s = VIDSoftGLESVdp2SetResolution TVMD t
      ∧ VIDSoftGLESVdp2SetResolution TVMD (VIDSoftGLESVdp2SetResolution TVMD s)
          = VIDSoftGLESVdp2SetResolution TVMD s)
    ∧ (VIDSoftGLESVdp2SetResolution TVMD s).vdp2width
        = (VIDSoftGLESVdp2SetResolution TVMD t).vdp2width
    ∧ (VIDSoftGLESVdp2SetResolution TVMD s).rbg0width
        = (VIDSoftGLESVdp2SetResolution TVMD t).rbg0width
    ∧ (VIDSoftGLESVdp2SetResolution TVMD s).vdp2_x_hires
        = (VIDSoftGLESVdp2SetResolution TVMD t).vdp2_x_hires
    ∧ (VIDSoftGLESVdp2SetResolution TVMD s).vdp2_interlace
        = (VIDSoftGLESVdp2SetResolution TVMD t).vdp2_interlace :=
  ⟨fun hv => ⟨VIDSoftGLESVdp2SetResolution_const TVMD s t hv,
      VIDSoftGLESVdp2SetResolution_const TVMD _ s hv⟩,
    VIDSoftGLESVdp2SetResolution_width TVMD s t⟩

theorem VIDSoftGLESVdp2SetResolution_spec_witness :
    (0xC3 : Nat) < 65536 ∧ (0xC3 >>> 4) &&& 0x3 ≠ 3
    ∧ VIDSoftGLESVdp2SetResolution 0xC3
        (VIDSoftGLESVdp2SetResolution 0xC3 Resolution.init)
      = VIDSoftGLESVdp2SetResolution 0xC3 Resolution.init
    ∧ VIDSoftGLESVdp2SetResolution 0xC3 Resolution.init
      = { vdp2width := 704, vdp2height := 448, rbg0width := 352, rbg0height := 224,
          vdp2_x_hires := 1, vdp2_interlace := 1 } :=
  ⟨by decide, by decide,
   ((VIDSoftGLESVdp2SetResolution_spec 0xC3 Resolution.init Resolution.init).1
      (by decide)).2,
   by decide⟩

/-- C36 as stated fails: with the vertical resolution code `3` (`TVMD = 0xF0`, double-density
interlace) the `default: break;` keeps the earlier `vdp2height` and `vdp2height *= 2` doubles
it, so the state depends on the earlier values and a second call with the same `TVMD` gives
another state than the first: from the height 224 the first call gives 448, the second 896.
With `TVMD = 0x30` the earlier height is kept as it is. -/
theorem VIDSoftGLESVdp2SetResolution_counterexample :
    (0xF0 : Nat) < 65536
    ∧ (VIDSoftGLESVdp2SetResolution 0xF0 Resolution.init).vdp2height = 448
    ∧ (VIDSoftGLESVdp2SetResolution 0xF0
        (VIDSoftGLESVdp2SetResolution 0xF0 Resolution.init)).vdp2height = 896
    ∧ VIDSoftGLESVdp2SetResolution 0xF0 (VIDSoftGLESVdp2SetResolution 0xF0 Resolution.init)
        ≠ VIDSoftGLESVdp2SetResolution 0xF0 Resolution.init
    ∧ (VIDSoftGLESVdp2SetResolution 0x30 Resolution.init).vdp2height = 224
    ∧ (VIDSoftGLESVdp2SetResolution 0x30
        { Resolution.init with vdp2height := 240 }).vdp2height = 240 := by
  decide

/-! ## Theorems: the special priority of a pixel -/

/-- An AND of an `int` with a non-negative constant, on the bit pattern of the `int`. -/
theorem cAnd_nat (a : Int) (k : Nat) (hk : k < 4294967296) :
    cAnd a (k : Int) = toU32 a &&& k := by
  unfold cAnd toU32
  have hkk : ((k : Int) % 4294967296).toNat = k := by omega
  rw [hkk]

/-- The test of one bit by an AND with a power of two. -/
theorem and_two_pow_ne_zero (m j : Nat) : m &&& 2 ^ j ≠ 0 ↔ m.testBit j = true := by
  rw [Nat.and_two_pow]
  cases m.testBit j <;> simp

/-- The four low bits of an `int`. -/
theorem cAnd_15 (a : Int) : cAnd a 0xf = toU32 a % 16 := by
  have h := cAnd_nat a 15 (by decide)
  have e : toU32 a &&& 15 = toU32 a % 16 := Nat.and_pow_two_sub_one_eq_mod (toU32 a) 4
  rw [← e, ← h]
  rfl

/-- The function `PixelIsSpecialPriority` tests the bit `(dot & 0xF) >> 1` of `specialcode`. -/
theorem PixelIsSpecialPriority_eq (specialcode dot : Int) :
    PixelIsSpecialPriority specialcode dot
      = if (toU32 specialcode).testBit (cAnd dot 0xF >>> 1) = true then 1 else 0 := by
  have hd : cAnd dot 0xf < 16 := by
    rw [cAnd_15]
    exact Nat.mod_lt _ (by decide)
  have b0 : cAnd specialcode 0x01 ≠ 0 ↔ (toU32 specialcode).testBit 0 = true := by
    rw [← and_two_pow_ne_zero]
    exact_mod_cast (congrArg (· ≠ 0) (cAnd_nat specialcode 0x01 (by decide))).to_iff
  have b1 : cAnd specialcode 0x02 ≠ 0 ↔ (toU32 specialcode).testBit 1 = true := by
    rw [← and_two_pow_ne_zero]
    exact_mod_cast (congrArg (· ≠ 0) (cAnd_nat specialcode 0x02 (by decide))).to_iff
  have b2 : cAnd specialcode 0x04 ≠ 0 ↔ (toU32 specialcode).testBit 2 = true := by
    rw [← and_two_pow_ne_zero]
    exact_mod_cast (congrArg (· ≠ 0) (cAnd_nat specialcode 0x04 (by decide))).to_iff
  have b3 : cAnd specialcode 0x08 ≠ 0 ↔ (toU32 specialcode).testBit 3 = true := by
    rw [← and_two_pow_ne_zero]
    exact_mod_cast (congrArg (· ≠ 0) (cAnd_nat specialcode 0x08 (by decide))).to_iff
  have b4 : cAnd specialcode 0x10 ≠ 0 ↔ (toU32 specialcode).testBit 4 = true := by
    rw [← and_two_pow_ne_zero]
    exact_mod_cast (congrArg (· ≠ 0) (cAnd_nat specialcode 0x10 (by decide))).to_iff
  have b5 : cAnd specialcode 0x20 ≠ 0 ↔ (toU32 specialcode).testBit 5 = true := by
    rw [← and_two_pow_ne_zero]
    exact_mod_cast (congrArg (· ≠ 0) (cAnd_nat specialcode 0x20 (by decide))).to_iff
  have b6 : cAnd specialcode 0x40 ≠ 0 ↔ (toU32 specialcode).testBit 6 = true := by
    rw [← and_two_pow_ne_zero]
    exact_mod_cast (congrArg (· ≠ 0) (cAnd_nat specialcode 0x40 (by decide))).to_iff
  have b7 : cAnd specialcode 0x80 ≠ 0 ↔ (toU32 specialcode).testBit 7 = true := by
    rw [← and_two_pow_ne_zero]
    exact_mod_cast (congrArg (· ≠ 0) (cAnd_nat specialcode 0x80 (by decide))).to_iff
  unfold PixelIsSpecialPriority
  simp only [b0, b1, b2, b3, b4, b5, b6, b7]
  generalize cAnd dot 0xf = d at hd
  interval_cases d <;> simp +decide

/-- The bit pattern of a `u32` value converted to `int`. -/
theorem toU32_natCast (d : Nat) (hd : d < 4294967296) : toU32 (d : Int) = d := by
  unfold toU32
  omega

/-- The mask `1 << n` of `GetAlpha`. -/
theorem shl_one (n : Nat) : shl 1 (n : Int) = ((2 ^ n : Nat) : Int) := by
  unfold shl
  simp

/-- The test of `GetAlpha` in special colour calculation mode 2 is the test of
`PixelIsSpecialPriority`. -/
theorem GetAlpha_test (specialcode : Int) (d : Nat) (hd : d < 4294967296) :
    cAnd specialcode (shl 1 (((d &&& 0xF) >>> 1 : Nat) : Int)) ≠ 0
      ↔ PixelIsSpecialPriority specialcode (d : Int) = 1 := by
  have e15 : cAnd (d : Int) 0xF = d &&& 0xF := by
    have h := cAnd_nat (d : Int) 0xF (by decide)
    rw [toU32_natCast d hd] at h
    exact_mod_cast h
  have hn : (d &&& 0xF) >>> 1 < 8 := by
    have h1 : d &&& 0xF < 16 := Nat.lt_of_le_of_lt Nat.and_le_right (by decide)
    rw [Nat.shiftRight_eq_div_pow]
    omega
  have hp : 2 ^ ((d &&& 0xF) >>> 1) < 4294967296 :=
    Nat.lt_of_lt_of_le (Nat.pow_lt_pow_right (by decide) hn) (by decide)
  rw [PixelIsSpecialPriority_eq, e15, shl_one, cAnd_nat specialcode _ hp, and_two_pow_ne_zero]
  cases (toU32 specialcode).testBit ((d &&& 0xF) >>> 1) <;> simp

/-- The priority after `priority = info->priority & 0xE` and an optional `priority |= 1`. -/
theorem priority_bits (m : Nat) :
    cAnd ((m &&& 0xE : Nat) : Int) 0xE = m &&& 0xE
    ∧ cAnd ((m &&& 0xE : Nat) : Int) 1 = 0
    ∧ cAnd ((cOr ((m &&& 0xE : Nat) : Int) 1 : Nat) : Int) 0xE = m &&& 0xE
    ∧ cAnd ((cOr ((m &&& 0xE : Nat) : Int) 1 : Nat) : Int) 1 = 1
    ∧ m &&& 0xE < 16 ∧ cOr ((m &&& 0xE : Nat) : Int) 1 < 16 := by
  have h : m &&& 0xE < 15 := Nat.lt_of_le_of_lt Nat.and_le_right (by decide)
  have he : (m &&& 0xE) &&& 1 = 0 := by
    rw [Nat.and_assoc]
    exact Nat.and_zero m
  generalize m &&& 0xE = q at h he
  interval_cases q <;> first | decide | exact absurd he (by decide)

/-! ### Claim on the special priority of a pixel -/

/-- C32: for every `specialcode` and `dot`, `PixelIsSpecialPriority(specialcode, dot)` is `1`
if bit `(dot & 0xF) >> 1` of `specialcode` is set and `0` otherwise; for a `u32` dot `d` that
is the test `specialcode & (1 << ((dot & 0xF) >> 1))` of `GetAlpha`, which in special colour
calculation mode 2 (with the special colour function bit set) returns `info->alpha` exactly
when `PixelIsSpecialPriority` returns `1`, and `0xFF` otherwise.  In special priority mode 2
`Vdp2DrawScroll` keeps bits 1..3 of `info->priority`, clears all others and sets bit 0 exactly
when bit 0 of `info->specialfunction` is set and `PixelIsSpecialPriority` returns `1`; in the
other modes it takes `info->priority` as it is. -/
theorem PixelIsSpecialPriority_spec (specialcode dot : Int) (d : Nat) :
    (PixelIsSpecialPriority specialcode dot = 1
      ↔ (toU32 specialcode).testBit (cAnd dot 0xF >>> 1) = true)
    ∧ (PixelIsSpecialPriority specialcode dot = 0
      ↔ (toU32 specialcode).testBit (cAnd dot 0xF >>> 1) = false)
    ∧ (d < 4294967296 →
        (cAnd specialcode (shl 1 (((d &&& 0xF) >>> 1 : Nat) : Int)) ≠ 0
          ↔ PixelIsSpecialPriority specialcode (d : Int) = 1)
        ∧ (∀ (specialcolorfunction alpha : Int) (color : Nat),
            cAnd specialcolorfunction 1 ≠ 0 →
            GetAlpha 2 specialcolorfunction specialcode alpha color d
              = if PixelIsSpecialPriority specialcode (d : Int) = 1 then toU32 alpha % 256
                else 0xFF))
    ∧ (∀ priority specialfunction : Int,
        cAnd (Vdp2DrawScroll_priority priority 2 specialfunction specialcode d) 0xE
          = cAnd priority 0xE
        ∧ cAnd (Vdp2DrawScroll_priority priority 2 specialfunction specialcode d) 1
          = (if cAnd specialfunction 1 ≠ 0 ∧ PixelIsSpecialPriority specialcode (d : Int) = 1
             then 1 else 0)
        ∧ 0 ≤ Vdp2DrawScroll_priority priority 2 specialfunction specialcode d
        ∧ Vdp2DrawScroll_priority priority 2 specialfunction specialcode d < 16)
    ∧ (∀ priority specialprimode specialfunction : Int, specialprimode ≠ 2 →
        Vdp2DrawScroll_priority priority specialprimode specialfunction specialcode d
          = priority) := by
  refine ⟨?_, ?_, ?_, ?_, ?_⟩
  · rw [PixelIsSpecialPriority_eq]
    cases (toU32 specialcode).testBit (cAnd dot 0xF >>> 1) <;> simp
  · rw [PixelIsSpecialPriority_eq]
    cases (toU32 specialcode).testBit (cAnd dot 0xF >>> 1) <;> simp
  · intro hd
    refine ⟨GetAlpha_test specialcode d hd, ?_⟩
    intro scf alpha color hf
    have ht := GetAlpha_test specialcode d hd
    unfold GetAlpha
    rw [if_neg (fun hc => hf hc.2), if_pos rfl]
    by_cases hp : PixelIsSpecialPriority specialcode (d : Int) = 1
    · rw [if_pos hp, if_neg (ht.mpr hp)]
    · rw [if_neg hp, if_pos (by
        by_contra hc
        exact hp (ht.mp hc))]
  · intro priority specialfunction
    have e : cAnd priority 0xE = toU32 priority &&& 0xE := by
      exact_mod_cast cAnd_nat priority 0xE (by decide)
    obtain ⟨p1, p2, p3, p4, p5, p6⟩ := priority_bits (toU32 priority)
    have hv : PixelIsSpecialPriority specialcode (d : Int) = 1
        ∨ PixelIsSpecialPriority specialcode (d : Int) = 0 := by
      rw [PixelIsSpecialPriority_eq]
      cases (toU32 specialcode).testBit (cAnd (d : Int) 0xF >>> 1) <;> simp
    unfold Vdp2DrawScroll_priority
    rw [if_pos rfl, e]
    simp only
    by_cases hf : cAnd specialfunction 1 ≠ 0
    · rw [if_pos hf]
      rcases hv with hv | hv
      · rw [hv]
        simp only [ne_eq, one_ne_zero, not_false_eq_true, if_true, hf, and_self]
        exact ⟨p3, p4, Int.natCast_nonneg _, by exact_mod_cast p6⟩
      · rw [hv]
        simp only [ne_eq, not_true_eq_false, if_false, zero_ne_one, and_false]
        exact ⟨p1, p2, Int.natCast_nonneg _, by exact_mod_cast p5⟩
    · rw [if_neg hf]
      simp only [hf, false_and, if_false]
      exact ⟨p1, p2, Int.natCast_nonneg _, by exact_mod_cast p5⟩
  · intro priority specialprimode specialfunction hs
    unfold Vdp2DrawScroll_priority
    rw [if_neg hs]

theorem PixelIsSpecialPriority_spec_witness :
    PixelIsSpecialPriority 0x04 5 = 1 ∧ PixelIsSpecialPriority 0x04 6 = 0
    ∧ GetAlpha 2 1 0x04 0x1F 0 5 = 0x1F
    ∧ Vdp2DrawScroll_priority 6 2 1 0x04 5 = 7
    ∧ Vdp2DrawScroll_priority 7 2 1 0x04 6 = 6 := by
  have h := PixelIsSpecialPriority_spec 0x04 5 5
  refine ⟨h.1.mpr (by decide), by decide, ?_, by decide, by decide⟩
  rw [(h.2.2.1 (by decide)).2 1 0x1F 0 (by decide)]
  decide

/-! ## Theorems: the pixel inside a tile -/

/-- The test `v & 8`. -/
theorem cAnd_8 (a : Int) : cAnd a 8 = 8 * (toU32 a / 8 % 2) := by
  have h := cAnd_nat a 8 (by decide)
  have e := and_shifted_mask (toU32 a) 3 1
  norm_num at e
  rw [← e]
  exact_mod_cast h

/-- The mask `v & (8 - 1)`. -/
theorem cAnd_7 (a : Int) : cAnd a (8 - 1) = toU32 a % 8 := by
  have h := cAnd_nat a 7 (by decide)
  have e : toU32 a &&& 7 = toU32 a % 8 := Nat.and_pow_two_sub_one_eq_mod (toU32 a) 3
  rw [← e]
  exact_mod_cast h

/-- The mask `v & (16 - 1)`. -/
theorem cAnd_16 (a : Int) : cAnd a (16 - 1) = toU32 a % 16 := by
  have h := cAnd_nat a 15 (by decide)
  have e : toU32 a &&& 15 = toU32 a % 16 := Nat.and_pow_two_sub_one_eq_mod (toU32 a) 4
  rw [← e]
  exact_mod_cast h

/-- The bit pattern of a small value. -/
theorem toU32_small (n : Nat) : toU32 ((n % 16 : Nat) : Int) = n % 16 := by
  unfold toU32
  omega

/-- The bit pattern of a coordinate mirrored in `0..15`. -/
theorem toU32_mirror (a : Int) : toU32 (15 - a % 16) = 15 - toU32 a % 16 := by
  unfold toU32
  omega

/-- The residues of a coordinate in terms of its bit pattern. -/
theorem emod_toU32 (a : Int) :
    a % 16 = ((toU32 a % 16 : Nat) : Int) ∧ a % 8 = ((toU32 a % 8 : Nat) : Int) := by
  unfold toU32
  omega

/-- The in-character coordinates of a 16x16 pattern without flip. -/
theorem tilePixel_16 (x y : Int) :
    tilePixel 2 0 x y
      = (((toU32 x % 8 : Nat) : Int),
         ((toU32 y % 16 + 8 * (toU32 y % 16 / 8) + 8 * (toU32 x / 8 % 2) : Nat) : Int)) := by
  unfold tilePixel
  simp only [cAnd_8, cAnd_7, cAnd_16, toU32_small]
  rw [if_neg (by decide), if_neg (by simp)]
  split_ifs <;> simp only [Prod.mk.injEq, true_and] <;> omega

/-- The in-character coordinates of a 16x16 pattern: a flip is the mirroring of the input in
`0..15` on the flipped axes. -/
theorem tilePixel_16_flip (f x y : Int) :
    tilePixel 2 f x y
      = tilePixel 2 0 (if cAnd f 0x1 ≠ 0 then 15 - x % 16 else x)
          (if cAnd f 0x2 ≠ 0 then 15 - y % 16 else y) := by
  by_cases hf : f = 0
  · subst hf
    have e1 : cAnd 0 0x1 = 0 := by decide
    have e2 : cAnd 0 0x2 = 0 := by decide
    simp only [e1, e2, ne_eq, not_true_eq_false, if_false]
  · rw [tilePixel_16]
    unfold tilePixel
    rw [if_neg (by decide), if_pos hf]
    simp only [cAnd_8, cAnd_7, cAnd_16, toU32_small]
    by_cases h1 : cAnd f 0x1 ≠ 0 <;> by_cases h2 : cAnd f 0x2 ≠ 0
    · rw [if_pos h1, if_pos h2, if_pos h1, if_pos h2, toU32_mirror, toU32_mirror]
      split_ifs <;> refine Prod.ext ?_ ?_ <;> simp only <;> omega
    · rw [if_pos h1, if_neg h2, if_neg h2, if_pos h1, toU32_mirror]
      split_ifs <;> refine Prod.ext ?_ ?_ <;> simp only <;> omega
    · rw [if_neg h1, if_pos h2, if_pos h2, if_neg h1, toU32_mirror]
      split_ifs <;> refine Prod.ext ?_ ?_ <;> simp only <;> omega
    · rw [if_neg h1, if_neg h2, if_neg h2, if_neg h1]
      split_ifs <;> refine Prod.ext ?_ ?_ <;> simp only <;> omega

/-- The in-character coordinates of an 8x8 pattern. -/
theorem tilePixel_8 (f x y : Int) :
    tilePixel 1 f x y
      = (if cAnd f 0x1 ≠ 0 then 7 - x % 8 else x % 8,
         if cAnd f 0x2 ≠ 0 then 7 - y % 8 else y % 8) := by
  have e3 : cAnd f 0x3 = toU32 f % 4 := by
    have h := cAnd_nat f 3 (by decide)
    have e : toU32 f &&& 3 = toU32 f % 4 := Nat.and_pow_two_sub_one_eq_mod (toU32 f) 2
    rw [← e]
    exact_mod_cast h
  have e1 : cAnd f 0x1 = toU32 f % 2 := by
    have h := cAnd_nat f 1 (by decide)
    have e : toU32 f &&& 1 = toU32 f % 2 := Nat.and_pow_two_sub_one_eq_mod (toU32 f) 1
    rw [← e]
    exact_mod_cast h
  have e2 : cAnd f 0x2 = 2 * (toU32 f / 2 % 2) := by
    have h := cAnd_nat f 2 (by decide)
    have e := and_shifted_mask (toU32 f) 1 1
    norm_num at e
    rw [← e]
    exact_mod_cast h
  obtain ⟨_, hx⟩ := emod_toU32 x
  obtain ⟨_, hy⟩ := emod_toU32 y
  unfold tilePixel
  rw [if_pos rfl, e1, e2, e3, hx, hy]
  simp only [cAnd_7]
  have hc : toU32 f % 4 < 4 := Nat.mod_lt _ (by decide)
  have h1 : toU32 f % 2 = toU32 f % 4 % 2 := by omega
  have h2 : toU32 f / 2 % 2 = toU32 f % 4 / 2 := by omega
  rw [h1, h2]
  generalize toU32 f % 4 = c at hc
  interval_cases c <;> simp +decide

/-! ### Claim on the pixel inside a tile -/

/-- C40: in the in-character computation at the end of `Vdp2MapCalcXY`, for 16x16 patterns
(`patternwh = 2`) and every flip code `f` (in particular 1, 2, 3) the pair produced for
`(x, y)` is the pair produced with no flip for the input mirrored as `15 - (x mod 16)` if bit 0
of `f` is set and as `15 - (y mod 16)` if bit 1 is set, and it lies in `0..7` x `0..31`; for
8x8 patterns (`patternwh = 1`) the pair is `(x mod 8, y mod 8)`, mirrored as `7 - v` on the
flipped axes, and lies in `0..7` x `0..7`. -/
theorem tilePixel_spec (f x y : Int) :
    tilePixel 2 f x y
      = tilePixel 2 0 (if cAnd f 0x1 ≠ 0 then 15 - x % 16 else x)
          (if cAnd f 0x2 ≠ 0 then 15 - y % 16 else y)
    ∧ tilePixel 2 1 x y = tilePixel 2 0 (15 - x % 16) y
    ∧ tilePixel 2 2 x y = tilePixel 2 0 x (15 - y % 16)
    ∧ tilePixel 2 3 x y = tilePixel 2 0 (15 - x % 16) (15 - y % 16)
    ∧ (0 ≤ (tilePixel 2 f x y).1 ∧ (tilePixel 2 f x y).1 ≤ 7
        ∧ 0 ≤ (tilePixel 2 f x y).2 ∧ (tilePixel 2 f x y).2 ≤ 31)
    ∧ tilePixel 1 f x y
        = (if cAnd f 0x1 ≠ 0 then 7 - x % 8 else x % 8,
           if cAnd f 0x2 ≠ 0 then 7 - y % 8 else y % 8)
    ∧ (0 ≤ (tilePixel 1 f x y).1 ∧ (tilePixel 1 f x y).1 ≤ 7
        ∧ 0 ≤ (tilePixel 1 f x y).2 ∧ (tilePixel 1 f x y).2 ≤ 7) := by
  refine ⟨tilePixel_16_flip f x y, ?_, ?_, ?_, ?_, tilePixel_8 f x y, ?_⟩
  · have h := tilePixel_16_flip 1 x y
    have e1 : cAnd 1 0x1 ≠ 0 := by decide
    have e2 : ¬ cAnd 1 0x2 ≠ 0 := by decide
    rw [if_pos e1, if_neg e2] at h
    exact h
  · have h := tilePixel_16_flip 2 x y
    have e1 : ¬ cAnd 2 0x1 ≠ 0 := by decide
    have e2 : cAnd 2 0x2 ≠ 0 := by decide
    rw [if_neg e1, if_pos e2] at h
    exact h
  · have h := tilePixel_16_flip 3 x y
    have e1 : cAnd 3 0x1 ≠ 0 := by decide
    have e2 : cAnd 3 0x2 ≠ 0 := by decide
    rw [if_pos e1, if_pos e2] at h
    exact h
  · rw [tilePixel_16_flip f x y, tilePixel_16]
    simp only
    omega
  · rw [tilePixel_8]
    simp only
    split_ifs <;> omega

theorem tilePixel_spec_witness :
    tilePixel 2 3 3 12 = tilePixel 2 0 (15 - 3 % 16) (15 - 12 % 16)
    ∧ tilePixel 2 3 3 12 = (4, 11) ∧ tilePixel 2 0 12 3 = (4, 11)
    ∧ tilePixel 1 1 3 12 = (4, 4) :=
  ⟨(tilePixel_spec 3 3 12).2.2.2.1, by decide, by decide, by decide⟩

/-! ## Theorems: the range of the frame buffer writes -/

/-- The geometry `VIDSoftGLESVdp1DrawStartBody` sets: `vdp1interlace` is 1 or 2, `vdp1width` is
512 or 1024, and the pixel size is 2 for the 16-bit frame buffer (width 512). -/
theorem VIDSoftGLESVdp1DrawStartBody_cases (FBCR TVMR : Nat) :
    ((VIDSoftGLESVdp1DrawStartBody FBCR TVMR).vdp1interlace = 1
      ∨ (VIDSoftGLESVdp1DrawStartBody FBCR TVMR).vdp1interlace = 2)
    ∧ ((VIDSoftGLESVdp1DrawStartBody FBCR TVMR).vdp1width = 512
      ∨ (VIDSoftGLESVdp1DrawStartBody FBCR TVMR).vdp1width = 1024)
    ∧ ((VIDSoftGLESVdp1DrawStartBody FBCR TVMR).vdp1pixelsize = 2 →
        (VIDSoftGLESVdp1DrawStartBody FBCR TVMR).vdp1width = 512) := by
  unfold VIDSoftGLESVdp1DrawStartBody
  simp only
  split_ifs <;> simp

/-- A pixel that `IsClipped` lets pass is inside the system clip rectangle. -/
theorem IsClipped_pass {x y : Int} {regs : Vdp1Clip} {cmd : vdp1cmd_struct}
    (h : IsClipped x y regs cmd = 0) : IsSystemClipped x y regs = 0 := by
  unfold IsClipped at h
  by_cases hu : cmd.CMDPMOD &&& 0x0400 ≠ 0
  · rw [if_pos hu] at h
    simp only at h
    by_contra hc
    rw [if_pos (Or.inr hc)] at h
    exact absurd h (by decide)
  · rw [if_neg hu] at h
    exact h

/-- A pixel inside the system clip rectangle has non-negative coordinates. -/
theorem IsSystemClipped_pass {x y : Int} {regs : Vdp1Clip}
    (h : IsSystemClipped x y regs = 0) :
    0 ≤ x ∧ x ≤ regs.systemclipX2 ∧ 0 ≤ y ∧ y ≤ regs.systemclipY2 := by
  unfold IsSystemClipped at h
  split at h
  · rename_i hc
    exact hc
  · exact absurd h (by decide)

/-- The index of a pixel with non-negative coordinates is not negative. -/
theorem pixel_index_nonneg (vdp1interlace vdp1width x y : Int) (hi : 0 ≤ vdp1interlace)
    (hw : 0 ≤ vdp1width) (hx : 0 ≤ x) (hy : 0 ≤ y) :
    0 ≤ Int.tdiv y vdp1interlace * vdp1width + x :=
  add_nonneg (mul_nonneg (Int.tdiv_nonneg hy hi) hw) hx

/-- What `putpixel` does to the frame buffer: nothing, or one store to the element
`(y / vdp1interlace) * vdp1width + x`, which is below `0x20000`, of a pixel that passes
`IsClipped`. -/
theorem putpixel_store (vdp1interlace vdp1width : Int) (leftColumnColor : column_color)
    (x y : Int) (regs : Vdp1Clip) (cmd : vdp1cmd_struct) (g : pixel_globals)
    (fb : Int → Nat) :
    (putpixel vdp1interlace vdp1width leftColumnColor x y regs cmd g fb).2 = fb
    ∨ (IsClipped x y regs cmd = 0
        ∧ Int.tdiv y vdp1interlace * vdp1width + x < 0x20000
        ∧ ∃ v, (putpixel vdp1interlace vdp1width leftColumnColor x y regs cmd g fb).2
            = storePix fb (Int.tdiv y vdp1interlace * vdp1width + x) v) := by
  unfold putpixel
  simp only
  by_cases h1 : CheckDil vdp1interlace y regs ≠ 0
  · rw [if_pos h1]
    exact Or.inl rfl
  · rw [if_neg h1]
    by_cases h2 : Int.tdiv y vdp1interlace * vdp1width + x ≥ 0x20000
    · rw [if_pos h2]
      exact Or.inl rfl
    · rw [if_neg h2]
      split
      · exact Or.inl rfl
      · by_cases h3 : IsClipped x y regs cmd ≠ 0
        · rw [if_pos h3]
          exact Or.inl rfl
        · rw [if_neg h3]
          have h3 : IsClipped x y regs cmd = 0 := by
            by_contra hc
            exact h3 hc
          have h2 : Int.tdiv y vdp1interlace * vdp1width + x < 0x20000 := by omega
          split
          all_goals try split
          all_goals try split
          all_goals try split
          all_goals try split
          all_goals first
            | exact Or.inl rfl
            | exact Or.inr ⟨h3, h2, _, rfl⟩

/-- What `putpixel8` does to the frame buffer: nothing, or one store to the byte
`(y / vdp1interlace) * vdp1width + x`, which is below `0x40000`, of a pixel that passes
`IsClipped`. -/
theorem putpixel8_store (vdp1interlace vdp1width : Int) (x y : Int) (regs : Vdp1Clip)
    (cmd : vdp1cmd_struct) (g : pixel_globals) (fb : Int → Nat) :
    (putpixel8 vdp1interlace vdp1width x y regs cmd g fb).2 = fb
    ∨ (IsClipped x y regs cmd = 0
        ∧ Int.tdiv y vdp1interlace * vdp1width + x < 0x40000
        ∧ ∃ v, (putpixel8 vdp1interlace vdp1width x y regs cmd g fb).2
            = storeByte fb (Int.tdiv y vdp1interlace * vdp1width + x) v) := by
  unfold putpixel8
  simp only
  by_cases h2 : Int.tdiv y vdp1interlace * vdp1width + x ≥ 0x40000
  · rw [if_pos h2]
    exact Or.inl rfl
  · rw [if_neg h2]
    by_cases h1 : CheckDil vdp1interlace y regs ≠ 0
    · rw [if_pos h1]
      exact Or.inl rfl
    · rw [if_neg h1]
      split
      · exact Or.inl rfl
      · by_cases h3 : IsClipped x y regs cmd ≠ 0
        · rw [if_pos h3]
          exact Or.inl rfl
        · rw [if_neg h3]
          have h3 : IsClipped x y regs cmd = 0 := by
            by_contra hc
            exact h3 hc
          have h2 : Int.tdiv y vdp1interlace * vdp1width + x < 0x40000 := by omega
          split
          all_goals try split
          all_goals first
            | exact Or.inl rfl
            | exact Or.inr ⟨h3, h2, _, rfl⟩

/-- For a pixel inside the system clip rectangle of 16-bit clip registers, and the geometry of
`VIDSoftGLESVdp1DrawStartBody`, the index `(y / vdp1interlace) * vdp1width + x` is computed
without overflow of an `int`. -/
theorem pixel_index_exact (vdp1interlace vdp1width x y : Int) (regs : Vdp1Clip)
    (hi : vdp1interlace = 1 ∨ vdp1interlace = 2) (hw : vdp1width = 512 ∨ vdp1width = 1024)
    (hs : IsSystemClipped x y regs = 0) (hX : regs.systemclipX2 ≤ 65535)
    (hY : regs.systemclipY2 ≤ 65535) :
    0 ≤ Int.tdiv y vdp1interlace * vdp1width + x
    ∧ Int.tdiv y vdp1interlace * vdp1width + x < 2147483648 := by
  obtain ⟨hx, hx2, hy, hy2⟩ := IsSystemClipped_pass hs
  have hi0 : 0 ≤ vdp1interlace := by omega
  rw [Int.tdiv_eq_ediv hy hi0]
  rcases hi with rfl | rfl <;> rcases hw with rfl | rfl <;> omega

/-! ### Claim on the range of the frame buffer writes -/

/-- C34: with the geometry `VIDSoftGLESVdp1DrawStartBody` sets, for every `x` and `y`
(negative ones included), every command and every content of the clip registers: `putpixel`
leaves every 16-bit element outside the indices `0 .. 0x20000 - 1` (the bytes `0 .. 0x40000 - 1`
of the back frame buffer) as it is, and `putpixel8` every byte outside `0 .. 0x40000 - 1`; if
either changes the frame buffer at all, the pixel passes the system clip (so `x >= 0` and
`y >= 0`), the computed index is in that range, and only the element at that index has
changed.  This covers every store of the two functions, the one that sets the most
significant bit included.  With 16-bit clip registers the index of a pixel that passes the
system clip is computed without overflow of an `int`. -/
theorem putpixel_in_range (TVMR : Nat) (leftColumnColor : column_color) (x y : Int)
    (regs : Vdp1Clip) (cmd : vdp1cmd_struct) (g : pixel_globals) (fb : Int → Nat) :
    (∀ k : Int, k < 0 ∨ 0x20000 ≤ k →
      (putpixel (VIDSoftGLESVdp1DrawStartBody regs.FBCR TVMR).vdp1interlace
        (VIDSoftGLESVdp1DrawStartBody regs.FBCR TVMR).vdp1width leftColumnColor x y regs cmd g
        fb).2 k = fb k)
    ∧ ((putpixel (VIDSoftGLESVdp1DrawStartBody regs.FBCR TVMR).vdp1interlace
        (VIDSoftGLESVdp1DrawStartBody regs.FBCR TVMR).vdp1width leftColumnColor x y regs cmd g
        fb).2 ≠ fb →
      IsSystemClipped x y regs = 0 ∧ 0 ≤ x ∧ 0 ≤ y
      ∧ 0 ≤ Int.tdiv y (VIDSoftGLESVdp1DrawStartBody regs.FBCR TVMR).vdp1interlace
            * (VIDSoftGLESVdp1DrawStartBody regs.FBCR TVMR).vdp1width + x
      ∧ Int.tdiv y (VIDSoftGLESVdp1DrawStartBody regs.FBCR TVMR).vdp1interlace
            * (VIDSoftGLESVdp1DrawStartBody regs.FBCR TVMR).vdp1width + x < 0x20000
      ∧ ∀ k : Int,
          k ≠ Int.tdiv y (VIDSoftGLESVdp1DrawStartBody regs.FBCR TVMR).vdp1interlace
                * (VIDSoftGLESVdp1DrawStartBody regs.FBCR TVMR).vdp1width + x →
          (putpixel (VIDSoftGLESVdp1DrawStartBody regs.FBCR TVMR).vdp1interlace
            (VIDSoftGLESVdp1DrawStartBody regs.FBCR TVMR).vdp1width leftColumnColor x y regs
            cmd g fb).2 k = fb k)
    ∧ (∀ k : Int, k < 0 ∨ 0x40000 ≤ k →
      (putpixel8 (VIDSoftGLESVdp1DrawStartBody regs.FBCR TVMR).vdp1interlace
        (VIDSoftGLESVdp1DrawStartBody regs.FBCR TVMR).vdp1width x y regs cmd g fb).2 k = fb k)
    ∧ ((putpixel8 (VIDSoftGLESVdp1DrawStartBody regs.FBCR TVMR).vdp1interlace
        (VIDSoftGLESVdp1DrawStartBody regs.FBCR TVMR).vdp1width x y regs cmd g fb).2 ≠ fb →
      IsSystemClipped x y regs = 0 ∧ 0 ≤ x ∧ 0 ≤ y
      ∧ 0 ≤ Int.tdiv y (VIDSoftGLESVdp1DrawStartBody regs.FBCR TVMR).vdp1interlace
            * (VIDSoftGLESVdp1DrawStartBody regs.FBCR TVMR).vdp1width + x
      ∧ Int.tdiv y (VIDSoftGLESVdp1DrawStartBody regs.FBCR TVMR).vdp1interlace
            * (VIDSoftGLESVdp1DrawStartBody regs.FBCR TVMR).vdp1width + x < 0x40000
      ∧ ∀ k : Int,
          k ≠ Int.tdiv y (VIDSoftGLESVdp1DrawStartBody regs.FBCR TVMR).vdp1interlace
                * (VIDSoftGLESVdp1DrawStartBody regs.FBCR TVMR).vdp1width + x →
          (putpixel8 (VIDSoftGLESVdp1DrawStartBody regs.FBCR TVMR).vdp1interlace
            (VIDSoftGLESVdp1DrawStartBody regs.FBCR TVMR).vdp1width x y regs cmd g fb).2 k
            = fb k)
    ∧ (IsSystemClipped x y regs = 0 → regs.systemclipX2 ≤ 65535 →
        regs.systemclipY2 ≤ 65535 →
        0 ≤ Int.tdiv y (VIDSoftGLESVdp1DrawStartBody regs.FBCR TVMR).vdp1interlace
              * (VIDSoftGLESVdp1DrawStartBody regs.FBCR TVMR).vdp1width + x
        ∧ Int.tdiv y (VIDSoftGLESVdp1DrawStartBody regs.FBCR TVMR).vdp1interlace
              * (VIDSoftGLESVdp1DrawStartBody regs.FBCR TVMR).vdp1width + x
            < 2147483648) := by
  obtain ⟨hi, hw, _⟩ := VIDSoftGLESVdp1DrawStartBody_cases regs.FBCR TVMR
  generalize (VIDSoftGLESVdp1DrawStartBody regs.FBCR TVMR).vdp1interlace = i at hi
  generalize (VIDSoftGLESVdp1DrawStartBody regs.FBCR TVMR).vdp1width = w at hw
  have hi0 : 0 ≤ i := by omega
  have hw0 : 0 ≤ w := by omega
  have hpos : IsClipped x y regs cmd = 0 →
      IsSystemClipped x y regs = 0 ∧ 0 ≤ x ∧ 0 ≤ y ∧ 0 ≤ Int.tdiv y i * w + x := by
    intro hc
    have hs := IsClipped_pass hc
    obtain ⟨hx, _, hy, _⟩ := IsSystemClipped_pass hs
    exact ⟨hs, hx, hy, pixel_index_nonneg i w x y hi0 hw0 hx hy⟩
  refine ⟨?_, ?_, ?_, ?_, fun hs hX hY => pixel_index_exact i w x y regs hi hw hs hX hY⟩
  · intro k hk
    rcases putpixel_store i w leftColumnColor x y regs cmd g fb with h | ⟨hc, hlt, v, hv⟩
    · rw [h]
    · obtain ⟨_, _, _, h0⟩ := hpos hc
      rw [hv]
      unfold storePix
      rw [if_neg (by omega)]
  · intro hne
    rcases putpixel_store i w leftColumnColor x y regs cmd g fb with h | ⟨hc, hlt, v, hv⟩
    · exact absurd h hne
    · obtain ⟨hs, hx, hy, h0⟩ := hpos hc
      refine ⟨hs, hx, hy, h0, hlt, ?_⟩
      intro k hk
      rw [hv]
      unfold storePix
      rw [if_neg hk]
  · intro k hk
    rcases putpixel8_store i w x y regs cmd g fb with h | ⟨hc, hlt, v, hv⟩
    · rw [h]
    · obtain ⟨_, _, _, h0⟩ := hpos hc
      rw [hv]
      unfold storeByte
      rw [if_neg (by omega)]
  · intro hne
    rcases putpixel8_store i w x y regs cmd g fb with h | ⟨hc, hlt, v, hv⟩
    · exact absurd h hne
    · obtain ⟨hs, hx, hy, h0⟩ := hpos hc
      refine ⟨hs, hx, hy, h0, hlt, ?_⟩
      intro k hk
      rw [hv]
      unfold storeByte
      rw [if_neg hk]

theorem putpixel_in_range_witness :
    (putpixel (VIDSoftGLESVdp1DrawStartBody exampleClipRegs.FBCR 0).vdp1interlace
        (VIDSoftGLESVdp1DrawStartBody exampleClipRegs.FBCR 0).vdp1width exampleColumn (-1) 1
        exampleClipRegs (spriteCmd 0x40) exampleDrawGlobals exampleFb).2 511 = exampleFb 511
    ∧ (putpixel (VIDSoftGLESVdp1DrawStartBody exampleClipRegs.FBCR 0).vdp1interlace
        (VIDSoftGLESVdp1DrawStartBody exampleClipRegs.FBCR 0).vdp1width exampleColumn 3 1
        exampleClipRegs (spriteCmd 0x40) exampleDrawGlobals exampleFb).2 515 = 0x0421
    ∧ (putpixel (VIDSoftGLESVdp1DrawStartBody exampleClipRegs.FBCR 0).vdp1interlace
        (VIDSoftGLESVdp1DrawStartBody exampleClipRegs.FBCR 0).vdp1width exampleColumn 3 1
        exampleClipRegs (spriteCmd 0x40) exampleDrawGlobals exampleFb).2 (-1)
        = exampleFb (-1)
    ∧ (putpixel8 (VIDSoftGLESVdp1DrawStartBody exampleClipRegs.FBCR 1).vdp1interlace
        (VIDSoftGLESVdp1DrawStartBody exampleClipRegs.FBCR 1).vdp1width 3 1
        exampleClipRegs (spriteCmd 0x40) exampleDrawGlobals exampleFb).2 1027 = 0x21 :=
  ⟨by decide, by decide,
   (putpixel_in_range 0 exampleColumn 3 1 exampleClipRegs (spriteCmd 0x40) exampleDrawGlobals
      exampleFb).1 (-1) (Or.inl (by decide)),
   by decide⟩

/-! ## Theorems: the indices of a non-greedy walk -/

/-- One test of the callback with an index in `0..999` keeps a state within the bounds. -/
theorem callLine_within {σ : Type} (cb : Option (LineCallback σ)) (Inv : σ → Prop)
    (hInv : ∀ f, cb = some f → ∀ x y k d, 0 ≤ k → k ≤ 999 → Inv d → Inv (f x y k d).2)
    (x y i : Int) (st : LineState σ) (h0 : 0 ≤ i) (h1 : i ≤ 999) (hst : st.within Inv) :
    (callLine cb x y i st).2.within Inv := by
  cases cb with
  | none => exact hst
  | some f =>
    refine ⟨hInv f rfl x y i st.data h0 h1 hst.1, ?_⟩
    intro c hc
    simp only [callLine, List.mem_append, List.mem_singleton] at hc
    rcases hc with hc | hc
    · exact hst.2 c hc
    · subst hc
      exact ⟨h0, h1⟩

/-- The loop on `x` of a non-greedy `iterateOverLine`, for any callback: with `n` steps to go
it ends within `n + 1` units of fuel, either by a `return` of the callback's request or by its
condition at the index `i + n`; every call it makes has an index in `i .. i + n - 1`. -/
theorem iterateOverLineX_within {σ : Type} (cb : Option (LineCallback σ)) (Inv : σ → Prop)
    (hInv : ∀ f, cb = some f → ∀ x y k d, 0 ≤ k → k ≤ 999 → Inv d → Inv (f x y k d).2)
    (ax ay dx dy x2 : Int) (hax : ax = 1 ∨ ax = -1) :
    ∀ (n fuel : Nat) (x1 y1 a i : Int) (st : LineState σ),
      x2 = x1 + ax * (n : Int) → n < fuel → 0 ≤ i → i + (n : Int) ≤ 1000 → st.within Inv →
      (∃ v st1, iterateOverLineX cb 0 ax ay dx dy x2 fuel x1 y1 a i st
            = some (LoopEnd.returned v st1)
          ∧ st1.within Inv ∧ i < v ∧ v ≤ i + (n : Int))
      ∨ (∃ st1, iterateOverLineX cb 0 ax ay dx dy x2 fuel x1 y1 a i st
            = some (LoopEnd.left (i + (n : Int)) st1)
          ∧ st1.within Inv) := by
  intro n
  induction n with
  | zero =>
    intro fuel x1 y1 a i st hx hf _ _ hst
    obtain ⟨f, rfl⟩ : ∃ f, fuel = f + 1 := ⟨fuel - 1, by omega⟩
    have e : x1 = x2 := by
      simp at hx
      exact hx.symm
    right
    refine ⟨st, ?_, hst⟩
    simp only [iterateOverLineX, if_pos e]
    simp
  | succ n ih =>
    intro fuel x1 y1 a i st hx hf h0 h1 hst
    obtain ⟨f, rfl⟩ : ∃ f, fuel = f + 1 := ⟨fuel - 1, by omega⟩
    have hne : x1 ≠ x2 := by
      rcases hax with h | h <;> subst h <;> push_cast at hx <;> omega
    have hx1 : x2 = (x1 + ax) + ax * (n : Int) := by
      rw [hx]
      push_cast
      ring
    have hc := callLine_within cb Inv hInv x1 y1 i st h0 (by push_cast at h1; omega) hst
    have hg : ¬ ((0 : Int) ≠ 0) := fun h => h rfl
    simp only [iterateOverLineX, if_neg hne, hg, if_false]
    by_cases hr : (callLine cb x1 y1 i st).1 = true
    · left
      rw [if_pos hr]
      exact ⟨i + 1, _, rfl, hc, by omega, by push_cast; omega⟩
    · rw [if_neg hr]
      have step : ∀ y a : Int,
          (∃ v st1, iterateOverLineX cb 0 ax ay dx dy x2 f (x1 + ax) y a (i + 1)
                (callLine cb x1 y1 i st).2 = some (LoopEnd.returned v st1)
              ∧ st1.within Inv ∧ i < v ∧ v ≤ i + ((n + 1 : Nat) : Int))
          ∨ (∃ st1, iterateOverLineX cb 0 ax ay dx dy x2 f (x1 + ax) y a (i + 1)
                (callLine cb x1 y1 i st).2
                = some (LoopEnd.left (i + ((n + 1 : Nat) : Int)) st1)
              ∧ st1.within Inv) := by
        intro y a
        rcases ih f (x1 + ax) y a (i + 1) (callLine cb x1 y1 i st).2 hx1 (by omega)
          (by omega) (by push_cast at h1; omega) hc with ⟨v, st1, e, hw, hv1, hv2⟩ | ⟨st1, e, hw⟩
        · left
          exact ⟨v, st1, e, hw, by omega, by push_cast; omega⟩
        · right
          refine ⟨st1, ?_, hw⟩
          rw [e]
          congr 2
          push_cast
          ring
      split
      · exact step _ _
      · exact step _ _

/-- The loop on `y` of a non-greedy `iterateOverLine`, for any callback: with `n` steps to go
it ends within `n + 1` units of fuel, either by a `return` of the callback's request or by its
condition at the index `i + n`; every call it makes has an index in `i .. i + n - 1`. -/
theorem iterateOverLineY_within {σ : Type} (cb : Option (LineCallback σ)) (Inv : σ → Prop)
    (hInv : ∀ f, cb = some f → ∀ x y k d, 0 ≤ k → k ≤ 999 → Inv d → Inv (f x y k d).2)
    (ax ay dx dy y2 : Int) (hay : ay = 1 ∨ ay = -1) :
    ∀ (n fuel : Nat) (x1 y1 a i : Int) (st : LineState σ),
      y2 = y1 + ay * (n : Int) → n < fuel → 0 ≤ i → i + (n : Int) ≤ 1000 → st.within Inv →
      (∃ v st1, iterateOverLineY cb 0 ax ay dx dy y2 fuel x1 y1 a i st
            = some (LoopEnd.returned v st1)
          ∧ st1.within Inv ∧ i < v ∧ v ≤ i + (n : Int))
      ∨ (∃ st1, iterateOverLineY cb 0 ax ay dx dy y2 fuel x1 y1 a i st
            = some (LoopEnd.left (i + (n : Int)) st1)
          ∧ st1.within Inv) := by
  intro n
  induction n with
  | zero =>
    intro fuel x1 y1 a i st hy hf _ _ hst
    obtain ⟨f, rfl⟩ : ∃ f, fuel = f + 1 := ⟨fuel - 1, by omega⟩
    have e : y1 = y2 := by
      simp at hy
      exact hy.symm
    right
    refine ⟨st, ?_, hst⟩
    simp only [iterateOverLineY, if_pos e]
    simp
  | succ n ih =>
    intro fuel x1 y1 a i st hy hf h0 h1 hst
    obtain ⟨f, rfl⟩ : ∃ f, fuel = f + 1 := ⟨fuel - 1, by omega⟩
    have hne : y1 ≠ y2 := by
      rcases hay with h | h <;> subst h <;> push_cast at hy <;> omega
    have hy1 : y2 = (y1 + ay) + ay * (n : Int) := by
      rw [hy]
      push_cast
      ring
    have hc := callLine_within cb Inv hInv x1 y1 i st h0 (by push_cast at h1; omega) hst
    have hg : ¬ ((0 : Int) ≠ 0) := fun h => h rfl
    simp only [iterateOverLineY, if_neg hne, hg, if_false]
    by_cases hr : (callLine cb x1 y1 i st).1 = true
    · left
      rw [if_pos hr]
      exact ⟨i + 1, _, rfl, hc, by omega, by push_cast; omega⟩
    · rw [if_neg hr]
      have step : ∀ x a : Int,
          (∃ v st1, iterateOverLineY cb 0 ax ay dx dy y2 f x (y1 + ay) a (i + 1)
                (callLine cb x1 y1 i st).2 = some (LoopEnd.returned v st1)
              ∧ st1.within Inv ∧ i < v ∧ v ≤ i + ((n + 1 : Nat) : Int))
          ∨ (∃ st1, iterateOverLineY cb 0 ax ay dx dy y2 f x (y1 + ay) a (i + 1)
                (callLine cb x1 y1 i st).2
                = some (LoopEnd.left (i + ((n + 1 : Nat) : Int)) st1)
              ∧ st1.within Inv) := by
        intro x a
        rcases ih f x (y1 + ay) a (i + 1) (callLine cb x1 y1 i st).2 hy1 (by omega)
          (by omega) (by push_cast at h1; omega) hc with ⟨v, st1, e, hw, hv1, hv2⟩ | ⟨st1, e, hw⟩
        · left
          exact ⟨v, st1, e, hw, by omega, by push_cast; omega⟩
        · right
          refine ⟨st1, ?_, hw⟩
          rw [e]
          congr 2
          push_cast
          ring
      split
      · exact step _ _
      · exact step _ _

/-- A non-greedy `iterateOverLine`, for any callback and any end points: given fuel for 1000
passes it returns; for end points more than 999 apart on an axis the value is `INT_MAX`, no call
is made and the data is as before; otherwise the value is in `1..1000`; in both cases every
call has an index in `0..999`, and a property of the data that calls with such an index keep
holds afterwards. -/
theorem iterateOverLine_within {σ : Type} (cb : Option (LineCallback σ)) (Inv : σ → Prop)
    (hInv : ∀ f, cb = some f → ∀ x y k d, 0 ≤ k → k ≤ 999 → Inv d → Inv (f x y k d).2)
    (fuel : Nat) (x1 y1 x2 y2 : Int) (data : σ) (hfuel : 1000 ≤ fuel) (hd : Inv data) :
    ∃ r, iterateOverLine fuel x1 y1 x2 y2 0 data cb = some r
      ∧ r.2.within Inv
      ∧ (|x2 - x1| > 999 ∨ |y2 - y1| > 999 →
          r.1 = INT_MAX ∧ r.2.calls = [] ∧ r.2.data = data)
      ∧ (¬ (|x2 - x1| > 999 ∨ |y2 - y1| > 999) → 1 ≤ r.1 ∧ r.1 ≤ 1000) := by
  have hst : LineState.within Inv ({ data := data, calls := [] } : LineState σ) :=
    ⟨hd, fun c hc => by simp at hc⟩
  unfold iterateOverLine
  simp only
  by_cases hbig : |x2 - x1| > 999 ∨ |y2 - y1| > 999
  · rw [if_pos hbig]
    exact ⟨_, rfl, hst, fun _ => ⟨rfl, rfl, rfl⟩, fun h => absurd hbig h⟩
  · rw [if_neg hbig]
    have hdx : (x2 - x1).natAbs ≤ 999 := by
      have : ¬ |x2 - x1| > 999 := fun h => hbig (Or.inl h)
      rw [Int.abs_eq_natAbs] at this
      omega
    have hdy : (y2 - y1).natAbs ≤ 999 := by
      have : ¬ |y2 - y1| > 999 := fun h => hbig (Or.inr h)
      rw [Int.abs_eq_natAbs] at this
      omega
    have hax : (if x2 - x1 ≥ 0 then (1 : Int) else -1) = 1
        ∨ (if x2 - x1 ≥ 0 then (1 : Int) else -1) = -1 := by
      split
      · exact Or.inl rfl
      · exact Or.inr rfl
    have hay : (if y2 - y1 ≥ 0 then (1 : Int) else -1) = 1
        ∨ (if y2 - y1 ≥ 0 then (1 : Int) else -1) = -1 := by
      split
      · exact Or.inl rfl
      · exact Or.inr rfl
    have ex : x2 = x1 + (if x2 - x1 ≥ 0 then (1 : Int) else -1)
        * (((x2 - x1).natAbs : Nat) : Int) := by
      split <;> omega
    have ey : y2 = y1 + (if y2 - y1 ≥ 0 then (1 : Int) else -1)
        * (((y2 - y1).natAbs : Nat) : Int) := by
      split <;> omega
    by_cases hmaj : |x2 - x1| > |y2 - y1|
    · rw [if_pos hmaj]
      rcases iterateOverLineX_within cb Inv hInv _ _ _ _ x2 hax (x2 - x1).natAbs fuel x1 y1 0 0
          { data := data, calls := [] } ex (by omega) (le_refl 0) (by omega) hst with
        ⟨v, st1, e, hw, hv1, hv2⟩ | ⟨st1, e, hw⟩
      · rw [e]
        exact ⟨_, rfl, hw, fun h => absurd h hbig, fun _ => ⟨by simp only; omega,
          by simp only; omega⟩⟩
      · rw [e]
        refine ⟨_, rfl, ?_, fun h => absurd h hbig, fun _ => ⟨by simp only; omega,
          by simp only; omega⟩⟩
        exact callLine_within cb Inv hInv x2 y2 _ st1 (by omega) (by omega) hw
    · rw [if_neg hmaj]
      rcases iterateOverLineY_within cb Inv hInv _ _ _ _ y2 hay (y2 - y1).natAbs fuel x1 y1 0 0
          { data := data, calls := [] } ey (by omega) (le_refl 0) (by omega) hst with
        ⟨v, st1, e, hw, hv1, hv2⟩ | ⟨st1, e, hw⟩
      · rw [e]
        exact ⟨_, rfl, hw, fun h => absurd h hbig, fun _ => ⟨by simp only; omega,
          by simp only; omega⟩⟩
      · rw [e]
        refine ⟨_, rfl, ?_, fun h => absurd h hbig, fun _ => ⟨by simp only; omega,
          by simp only; omega⟩⟩
        exact callLine_within cb Inv hInv x2 y2 _ st1 (by omega) (by omega) hw

/-- A store of `storeLineCoords` with an index in `0..999` stays inside the arrays. -/
theorem storeLineCoords_inside (x y k : Int) (d : Option LineArrays) (h0 : 0 ≤ k)
    (h1 : k ≤ 999) (hd : d.isSome = true) : (storeLineCoords x y k d).2.isSome = true := by
  cases d with
  | none => exact absurd hd (by simp)
  | some arrays =>
    have hk : 0 ≤ k ∧ k < 1000 := ⟨h0, by omega⟩
    simp only [storeLineCoords, if_pos hk, Option.isSome_some]

/-! ### Claim on the indices of a non-greedy walk -/

/-- C33: for all end points and any callback (also one that stops the walk), a non-greedy
`iterateOverLine` returns, given fuel for 1000 passes: either `INT_MAX` without a call of the
callback and with the data untouched (when `|dx| > 999` or `|dy| > 999`), or a value in
`1..1000` after calls whose indices all lie in `0..999`.  Hence the two edge walks of
`drawQuad` return with every store of `storeLineCoords` inside the 1000-entry arrays `xleft`,
`yleft`, `xright`, `yright`, for all corners.  The `int`s are mathematical integers: the end
points the callers pass are 16-bit values or sums of two, far from the ends of the `int`
range. -/
theorem iterateOverLine_index_bound {σ : Type} (cb : Option (LineCallback σ)) (fuel : Nat)
    (x1 y1 x2 y2 : Int) (data : σ) (hfuel : 1000 ≤ fuel) :
    (∃ r, iterateOverLine fuel x1 y1 x2 y2 0 data cb = some r
      ∧ (∀ c ∈ r.2.calls, 0 ≤ c.2.2 ∧ c.2.2 ≤ 999)
      ∧ (|x2 - x1| > 999 ∨ |y2 - y1| > 999 →
          r.1 = INT_MAX ∧ r.2.calls = [] ∧ r.2.data = data)
      ∧ (¬ (|x2 - x1| > 999 ∨ |y2 - y1| > 999) → 1 ≤ r.1 ∧ r.1 ≤ 1000))
    ∧ (∀ (tl_x tl_y bl_x bl_y tr_x tr_y br_x br_y : Int) (left right : LineArrays),
        ∃ totalleft totalright l r,
          drawQuadEdges fuel tl_x tl_y bl_x bl_y tr_x tr_y br_x br_y left right
            = some ((totalleft, some l), (totalright, some r))) := by
  constructor
  · obtain ⟨r, hr, hw, hbig, hsmall⟩ := iterateOverLine_within cb (fun _ => True)
      (fun _ _ _ _ _ _ _ _ _ => trivial) fuel x1 y1 x2 y2 data hfuel trivial
    exact ⟨r, hr, hw.2, hbig, hsmall⟩
  · intro tl_x tl_y bl_x bl_y tr_x tr_y br_x br_y left right
    have hInv : ∀ f, some storeLineCoords = some f → ∀ (x y k : Int) (d : Option LineArrays),
        0 ≤ k → k ≤ 999 → d.isSome = true → (f x y k d).2.isSome = true := by
      intro f hf x y k d h0 h1 hd
      cases hf
      exact storeLineCoords_inside x y k d h0 h1 hd
    obtain ⟨l, hl, hlw, _, _⟩ := iterateOverLine_within (some storeLineCoords)
      (fun d => d.isSome = true) hInv fuel tl_x tl_y bl_x bl_y (some left) hfuel rfl
    obtain ⟨r, hr, hrw, _, _⟩ := iterateOverLine_within (some storeLineCoords)
      (fun d => d.isSome = true) hInv fuel tr_x tr_y br_x br_y (some right) hfuel rfl
    obtain ⟨la, hla⟩ := Option.isSome_iff_exists.mp hlw.1
    obtain ⟨ra, hra⟩ := Option.isSome_iff_exists.mp hrw.1
    refine ⟨l.1, r.1, la, ra, ?_⟩
    unfold drawQuadEdges
    rw [hl, hr]
    simp only [hla, hra]

theorem iterateOverLine_index_bound_witness :
    (∃ r, iterateOverLine 1000 0 0 2 1 0 () (some idleCallback) = some r
        ∧ ∀ c ∈ r.2.calls, 0 ≤ c.2.2 ∧ c.2.2 ≤ 999)
    ∧ (iterateOverLine 1000 0 0 2 1 0 () (some idleCallback)).map
        (fun r => (r.1, r.2.calls)) = some (3, [(0, 0, 0), (1, 0, 1), (2, 1, 2)])
    ∧ (iterateOverLine 1000 0 0 1000 0 0 () (some idleCallback)).map
        (fun r => (r.1, r.2.calls)) = some (INT_MAX, [])
    ∧ (drawQuadEdges 1000 0 0 0 3 5 0 5 3 zeroArrays zeroArrays).map
        (fun r => (r.1.1, r.1.2.isSome, r.2.1, r.2.2.isSome)) = some (4, true, 4, true) := by
  obtain ⟨r, hr, hc, _⟩ := (iterateOverLine_index_bound (some idleCallback) 1000 0 0 2 1 ()
    (by decide)).1
  exact ⟨⟨r, hr, hc⟩, by decide, by decide, by decide⟩

/-! ## Theorems: the invariant of the pattern cache -/

theorem CacheInv_init : CacheInv Mem.init := by
  intro i _ h
  exact absurd rfl h

/-- A call that leaves the table as it is and every occupant live with its `managed` and its
key keeps the invariant. -/
theorem CacheInv_of_keep {s s1 : Mem} (hinv : CacheInv s)
    (hc : s1.patternCache = s.patternCache)
    (hh : ∀ q o, s.heap q = some o → o.managed = 1 →
      ∃ o1, s1.heap q = some o1 ∧ o1.managed = 1 ∧ o1.param0 = o.param0
        ∧ o1.param1 = o.param1) :
    CacheInv s1 := by
  intro i hi h0
  rw [hc] at h0 ⊢
  obtain ⟨o, ho, hm, hk⟩ := hinv i hi h0
  obtain ⟨o1, ho1, hm1, hp0, hp1⟩ := hh _ o ho hm
  exact ⟨o1, ho1, hm1, by rw [hp0, hp1]; exact hk⟩

theorem createCachePattern_inv {new : Nat} {blk : Pattern} {p0 p1 p2 w h : Int} {tw th : Nat}
    {mesh : Int} {s s1 : Mem} {r : Nat} (hinv : CacheInv s) (hfresh : s.heap new = none)
    (hc : createCachePattern new blk p0 p1 p2 w h tw th mesh s = some (s1, r)) :
    CacheInv s1 := by
  unfold createCachePattern at hc
  split at hc
  · exact absurd hc (by simp)
  · cases hc
    refine CacheInv_of_keep hinv rfl ?_
    intro q o ho hm
    have hq : q ≠ new := by
      intro e
      rw [e, hfresh] at ho
      exact absurd ho (by simp)
    exact ⟨o, by simp [Mem.store, hq, ho], hm, rfl, rfl⟩

theorem popCachePattern_inv {k0 k1 k2 w h : Int} {s s1 : Mem} {r : Nat} (hinv : CacheInv s)
    (hpop : popCachePattern k0 k1 k2 w h s = some (s1, r)) : CacheInv s1 := by
  unfold popCachePattern at hpop
  simp only at hpop
  split at hpop
  · split at hpop
    · cases hpop
      exact hinv
    · split at hpop
      · exact absurd hpop (by simp)
      · rename_i o ho
        split at hpop
        · cases hpop
          refine CacheInv_of_keep hinv rfl ?_
          intro q o2 ho2 hm2
          by_cases hq : q = s.patternCache (getHash k0 k1)
          · subst hq
            obtain ⟨_, hh⟩ := deref_eq_some ho
            have e : o2 = o := by
              rw [hh] at ho2
              exact (Option.some.inj ho2).symm
            rw [e] at hm2
            rw [e]
            exact ⟨{ o with inUse := o.inUse + 1 }, by simp [Mem.store], hm2, rfl, rfl⟩
          · exact ⟨o2, by simp [Mem.store, hq, ho2], hm2, rfl, rfl⟩
        · cases hpop
          exact hinv
  · exact absurd hpop (by simp)

theorem pushCachePattern_inv {pat : Nat} {s s1 : Mem} (hinv : CacheInv s)
    (hpush : pushCachePattern pat s = some s1) : CacheInv s1 := by
  by_cases hp0 : pat = 0
  · simp only [pushCachePattern, hp0, if_true, Option.some.injEq] at hpush
    subst hpush
    exact hinv
  · cases hd : s.deref pat with
    | none => simp [pushCachePattern, hp0, hd] at hpush
    | some o =>
      obtain ⟨s2, hs2, hc, hq, hnone, _, hkeep⟩ := pushCachePattern_effect s pat o hd
      rw [hpush] at hs2
      cases hs2
      obtain ⟨_, hh⟩ := deref_eq_some hd
      refine CacheInv_of_keep hinv hc ?_
      intro q o2 ho2 hm2
      by_cases hqp : q = pat
      · subst hqp
        have e : o2 = o := by
          rw [hh] at ho2
          exact (Option.some.inj ho2).symm
        rw [e] at hm2
        rw [e]
        have hcond : ¬ (o.managed = 0 ∧ o.inUse - 1 = 0) := by
          intro hc2
          rw [hm2] at hc2
          exact absurd hc2.1 (by decide)
        exact ⟨{ o with inUse := o.inUse - 1 }, (hkeep hcond).1, hm2, rfl, rfl⟩
      · exact ⟨o2, by rw [hq q hqp]; exact ho2, hm2, rfl, rfl⟩

theorem addCachePattern_inv {pat : Nat} {s s1 : Mem} (hinv : CacheInv s)
    (hadd : addCachePattern pat s = some s1) : CacheInv s1 := by
  obtain ⟨o, ho, hb, hcase⟩ := addCachePattern_cases hadd
  obtain ⟨hp0, hoh⟩ := deref_eq_some ho
  rcases hcase with ⟨rfl, _⟩ | ⟨s2, o1, hdel, _, ho1, rfl⟩
  · exact hinv
  · obtain ⟨_, ho1h⟩ := deref_eq_some ho1
    -- the object of `pat` and every object but the occupant of the slot are as before
    have hother : ∀ q, q ≠ s.patternCache (getHash o.param0 o.param1) →
        s2.heap q = s.heap q := by
      intro q hq
      rcases deleteCachePattern_cases hdel with rfl | ⟨_, _, _, _, _, _, hrest⟩
      · rfl
      · exact hrest q hq
    have hcache : s2.patternCache = s.patternCache := by
      rcases deleteCachePattern_cases hdel with rfl | ⟨_, _, _, _, hc, _, _⟩
      · rfl
      · exact hc
    have hsame : o1 = o := by
      rcases deleteCachePattern_cases hdel with rfl | ⟨_, _, _, _, _, hgone, hrest⟩
      · rw [hoh] at ho1h
        exact (Option.some.inj ho1h).symm
      · have hne : pat ≠ s.patternCache (getHash o.param0 o.param1) := by
          intro e
          rw [← e, ho1h] at hgone
          exact absurd hgone (by simp)
        rw [hrest pat hne, hoh] at ho1h
        exact (Option.some.inj ho1h).symm
    subst hsame
    intro i hi h0
    by_cases hih : i = getHash o1.param0 o1.param1
    · subst hih
      refine ⟨{ o1 with managed := 1 }, ?_, rfl, rfl⟩
      simp [Mem.setSlot, Mem.store]
    · have hslot : ((s2.store pat { o1 with managed := 1 }).setSlot
          (getHash o1.param0 o1.param1) pat).patternCache i = s.patternCache i := by
        simp [Mem.setSlot, Mem.store, hih, hcache]
      rw [hslot] at h0 ⊢
      obtain ⟨c, hc, hm, hk⟩ := hinv i hi h0
      have hnc : s.patternCache i ≠ s.patternCache (getHash o1.param0 o1.param1) := by
        intro e
        obtain ⟨c2, hc2, _, hk2⟩ := hinv (getHash o1.param0 o1.param1) hb (by rw [← e]; exact h0)
        rw [← e, hc] at hc2
        cases hc2
        exact hih (hk.symm.trans hk2)
      have hnp : s.patternCache i ≠ pat := by
        intro e
        rw [e, hoh] at hc
        cases hc
        exact hih hk.symm
      refine ⟨c, ?_, hm, hk⟩
      simp only [Mem.setSlot, Mem.store, hnp, if_false]
      rw [hother _ hnc]
      exact hc

/-- Every call but `deleteCachePattern` keeps the invariant of the table. -/
theorem runOp_inv {op : CacheOp} {s s1 : Mem} (hinv : CacheInv s)
    (hnd : op.isDelete = false) (h : runOp op s = some s1) : CacheInv s1 := by
  cases op with
  | create new blk p0 p1 p2 w hh tw th mesh =>
    simp only [runOp] at h
    split at h
    · exact absurd h (by simp)
    · rename_i hfresh
      obtain ⟨⟨s2, r⟩, hc, rfl⟩ := Option.map_eq_some'.mp h
      have hnone : s.heap new = none := by
        cases hn : s.heap new with
        | none => rfl
        | some v => exact absurd (by rw [hn]; rfl) hfresh
      exact createCachePattern_inv hinv hnone hc
  | add pat => exact addCachePattern_inv hinv h
  | pop p0 p1 p2 w hh =>
    simp only [runOp] at h
    obtain ⟨⟨s2, r⟩, hc, rfl⟩ := Option.map_eq_some'.mp h
    exact popCachePattern_inv hinv hc
  | push pat => exact pushCachePattern_inv hinv h
  | delete pat => exact absurd hnd (by simp [CacheOp.isDelete])

/-- The invariant holds after every call of a sequence without `deleteCachePattern`, up to the
first call without defined behaviour. -/
theorem runOps_inv (ops : List CacheOp) :
    ∀ s : Mem, CacheInv s → (∀ op ∈ ops, op.isDelete = false) →
      ∀ t ∈ runOps ops s, CacheInv t := by
  induction ops with
  | nil =>
    intro s _ _ t ht
    simp [runOps] at ht
  | cons op ops ih =>
    intro s hinv hnd t ht
    simp only [runOps] at ht
    cases h : runOp op s with
    | none =>
      rw [h] at ht
      simp at ht
    | some s1 =>
      rw [h] at ht
      have hinv1 := runOp_inv hinv (hnd op (List.mem_cons_self op ops)) h
      simp only [List.mem_cons] at ht
      rcases ht with rfl | ht
      · exact hinv1
      · exact ih s1 hinv1 (fun o ho => hnd o (List.mem_cons_of_mem op ho)) t ht

/-- The call `addCachePattern(pat)` on a slot whose occupant has a negative `inUse`:
`deleteCachePattern` leaves the occupant and `pat` takes the slot. -/
theorem addCachePattern_stale {pat : Nat} {s : Mem} {o c : Pattern}
    (hp : s.deref pat = some o) (hb : getHash o.param0 o.param1 < PATTERN_CACHE_LEN)
    (hc : s.deref (s.patternCache (getHash o.param0 o.param1)) = some c)
    (hz : c.inUse < 0) :
    addCachePattern pat s =
      some ((s.store pat { o with managed := 1 }).setSlot (getHash o.param0 o.param1) pat) := by
  obtain ⟨hc0, _⟩ := deref_eq_some hc
  unfold addCachePattern
  rw [hp]
  simp only
  have hnpos : ¬ c.inUse > 0 := by omega
  rw [if_pos hb, if_pos hc0]
  simp only [hc, if_neg hnpos, deleteCachePattern_keep hc (by omega : c.inUse ≠ 0), hp]

/-- An admissible call on a table that satisfies the invariant has defined behaviour. -/
theorem runOp_defined {op : CacheOp} {s : Mem} (hinv : CacheInv s)
    (hadm : op.admissible s = true) : ∃ s1, runOp op s = some s1 := by
  cases op with
  | create new blk p0 p1 p2 w hh tw th mesh =>
    simp only [CacheOp.admissible, Bool.and_eq_true, decide_eq_true_eq] at hadm
    obtain ⟨hn, hf⟩ := hadm
    have hf2 : ¬ ((s.heap new).isSome = true) := by
      cases hs : s.heap new with
      | none => simp
      | some v => rw [hs] at hf; simp at hf
    simp only [runOp, if_neg hf2, createCachePattern, if_neg hn, Option.map_some']
    exact ⟨_, rfl⟩
  | add pat =>
    simp only [CacheOp.admissible] at hadm
    cases hd : s.deref pat with
    | none =>
      rw [hd] at hadm
      exact absurd hadm (by simp)
    | some o =>
      rw [hd] at hadm
      simp only [Bool.and_eq_true, decide_eq_true_eq, Bool.not_eq_true', Bool.and_eq_false_iff,
        decide_eq_false_iff_not] at hadm
      obtain ⟨hb, hself⟩ := hadm
      simp only [runOp]
      by_cases h0 : s.patternCache (getHash o.param0 o.param1) = 0
      · exact ⟨_, addCachePattern_empty hd hb h0⟩
      · obtain ⟨c, hc, _, _⟩ := hinv _ hb h0
        have hcd : s.deref (s.patternCache (getHash o.param0 o.param1)) = some c := by
          rw [deref_of_heap h0]
          exact hc
        rcases lt_trichotomy c.inUse 0 with hlt | heq | hgt
        · exact ⟨_, addCachePattern_stale hd hb hcd hlt⟩
        · have hne : s.patternCache (getHash o.param0 o.param1) ≠ pat := by
            intro e
            rcases hself with h | h
            · exact h e
            · rw [e, hd] at hcd
              cases hcd
              exact h heq
          exact ⟨_, addCachePattern_evict hd hb hcd heq hne⟩
        · exact ⟨_, addCachePattern_busy hd hb hcd hgt⟩
  | pop p0 p1 p2 w hh =>
    simp only [CacheOp.admissible, decide_eq_true_eq] at hadm
    simp only [runOp, popCachePattern, if_pos hadm]
    by_cases h0 : s.patternCache (getHash p0 p1) = 0
    · rw [if_pos h0]
      exact ⟨_, rfl⟩
    · obtain ⟨c, hc, _, _⟩ := hinv _ hadm h0
      have hcd : s.deref (s.patternCache (getHash p0 p1)) = some c := by
        rw [deref_of_heap h0]
        exact hc
      rw [if_neg h0, hcd]
      simp only
      split <;> exact ⟨_, rfl⟩
  | push pat =>
    simp only [CacheOp.admissible, Bool.or_eq_true, decide_eq_true_eq] at hadm
    rcases hadm with h0 | hl
    · exact ⟨s, by simp [runOp, pushCachePattern, h0]⟩
    · obtain ⟨o, ho⟩ := Option.isSome_iff_exists.mp hl
      obtain ⟨s1, hs1, _⟩ := pushCachePattern_effect s pat o ho
      exact ⟨s1, hs1⟩
  | delete pat => exact absurd hadm (by simp [CacheOp.admissible])

/-- An admissible call is not a call of `deleteCachePattern`. -/
theorem admissible_not_delete {op : CacheOp} {s : Mem} (hadm : op.admissible s = true) :
    op.isDelete = false := by
  cases op <;> first | rfl | exact absurd hadm (by simp [CacheOp.admissible])

/-- A sequence of admissible calls from a table that satisfies the invariant: every call has
defined behaviour and the invariant holds after each of them. -/
theorem runOps_admissible (ops : List CacheOp) :
    ∀ s : Mem, CacheInv s → callsAdmissible ops s = true →
      (runOps ops s).length = ops.length ∧ ∀ t ∈ runOps ops s, CacheInv t := by
  induction ops with
  | nil =>
    intro s _ _
    exact ⟨rfl, fun t ht => by simp [runOps] at ht⟩
  | cons op ops ih =>
    intro s hinv hadm
    simp only [callsAdmissible, Bool.and_eq_true] at hadm
    obtain ⟨hop, hrest⟩ := hadm
    obtain ⟨s1, hs1⟩ := runOp_defined hinv hop
    rw [hs1] at hrest
    have hinv1 := runOp_inv hinv (admissible_not_delete hop) hs1
    obtain ⟨hlen, hall⟩ := ih s1 hinv1 hrest
    simp only [runOps, hs1, List.length_cons, hlen, List.mem_cons, true_and]
    rintro t (rfl | ht)
    · exact hinv1
    · exact hall t ht

/-! ### Claim on the invariant of the pattern cache -/

/-- C35 (as amended): starting from an empty table, after every call of a sequence of
`createCachePattern`, `addCachePattern`, `popCachePattern` and `pushCachePattern` calls, up to
the first call without defined behaviour, every occupied slot `i` of the table points to a live
Pattern (one that has not been freed) with `managed = 1` whose key hashes to `i`.  If every
call is admissible (`malloc` returns a fresh block; pointers passed are live Patterns; keys hash
below `0xFFFF`, the length of the table; `addCachePattern` is not given the idle occupant of
its own slot), then every call of the sequence has defined behaviour. -/
theorem runOps_cache_invariant (ops : List CacheOp) :
    ((∀ op ∈ ops, op.isDelete = false) → ∀ s ∈ runOps ops Mem.init, CacheInv s)
    ∧ (callsAdmissible ops Mem.init = true →
        (runOps ops Mem.init).length = ops.length
        ∧ ∀ s ∈ runOps ops Mem.init, CacheInv s) :=
  ⟨fun hnd => runOps_inv ops Mem.init CacheInv_init hnd,
   fun hadm => runOps_admissible ops Mem.init CacheInv_init hadm⟩

theorem runOps_cache_invariant_witness :
    callsAdmissible exampleCalls Mem.init = true
    ∧ (runOps exampleCalls Mem.init).length = 5
    ∧ (∀ s ∈ runOps exampleCalls Mem.init, CacheInv s)
    ∧ (runOps exampleCalls Mem.init).map
        (fun s => (s.patternCache (getHash 1 2), (s.heap 1).map (fun o => (o.managed, o.inUse))))
      = [(0, some (0, 1)), (1, some (1, 1)), (1, some (1, 2)), (1, some (1, 1)),
         (1, some (1, 0))] :=
  ⟨by decide,
   ((runOps_cache_invariant exampleCalls).2 (by decide)).1,
   ((runOps_cache_invariant exampleCalls).2 (by decide)).2,
   by decide⟩

/-- C35 as stated fails: in the sequence create, add, push, add on one Pattern `p` (released
once, acquired once) the fourth call finds `p` itself in the slot with `inUse = 0`, frees it
through `deleteCachePattern` and goes on to write `p->managed` and to store `p` in the slot:
the call has no defined behaviour, and after the `free` the slot points to the freed
Pattern. -/
theorem runOps_cache_invariant_counterexample :
    (∀ op ∈ readdCalls, op.isDelete = false)
    ∧ (runOps readdCalls Mem.init).length = 3
    ∧ (runOps readdCalls Mem.init).map
        (fun s => (s.patternCache (getHash 1 2), (s.heap 1).map (fun o => (o.managed, o.inUse))))
      = [(0, some (0, 1)), (1, some (1, 1)), (1, some (1, 0))]
    ∧ ((runOps readdCalls Mem.init).getLast?.bind (deleteCachePattern 1)).map
        (fun s => (s.patternCache (getHash 1 2), s.heap 1, s.freed.map Prod.fst))
      = some (1, none, [1])
    ∧ ((runOps readdCalls Mem.init).getLast?.bind (addCachePattern 1)).isNone = true := by
  decide

end Yabause
